import Mathlib

/-!
# jodatime: pattern lexer, formatter, parser and calendar arithmetic

A shallow embedding of `jodatime.go` and `format.go`.

Conventions of the embedding.

* A Go `string` / `[]byte` is the list of its bytes, written `Str := List Char`
  (one `Char` per byte; every character the code inspects is ASCII).
* Go `int` values are `Int`; `uint64` values are `Nat` (the callers keep them
  below `2 ^ 64`, and the one place where the source can wrap, `absWeekday` and
  `locabs`, carries an explicit `% 2 ^ 64`).
* Go `/` and `%` on signed integers truncate toward zero: `Int.tdiv`, `Int.tmod`.
* A run-time panic (slice or index out of range) and an exhausted loop budget are
  made explicit in `Outcome`.
-/

namespace Jodatime

/-! ## Calendar arithmetic (`jodatime.go`) -/

def secondsPerMinute : Nat := 60
def secondsPerHour : Nat := 60 * 60
def secondsPerDay : Nat := 24 * secondsPerHour
def secondsPerWeek : Nat := 7 * secondsPerDay
def daysPer400Years : Nat := 365 * 400 + 97
def daysPer100Years : Nat := 365 * 100 + 24
def daysPer4Years : Nat := 365 * 4 + 1

/-- The unsigned zero year for internal calculations (`absoluteZeroYear`). -/
def absoluteZeroYear : Int := -292277022399

/-- The year of the zero Time (`internalYear`). -/
def internalYear : Int := 1

/-- Constant `absoluteToInternal = (absoluteZeroYear - internalYear) * 365.2425 * secondsPerDay`,
an exact constant expression in Go; `365.2425 = 3652425 / 10000`. -/
def absoluteToInternal : Int :=
  (absoluteZeroYear - internalYear) * 3652425 / 10000 * secondsPerDay

def internalToAbsolute : Int := -absoluteToInternal

def unixToInternal : Int :=
  (1969 * 365 + 1969 / 4 - 1969 / 100 + 1969 / 400) * secondsPerDay

/-- Go `time.Monday`; `time.Sunday` is 0. -/
def Monday : Nat := 1

/-- Go `time.February`. -/
def February : Int := 2

/-- Go `absWeekday`: the weekday (Sunday = 0) of an absolute time; the sum is a
`uint64` sum and wraps. -/
def absWeekday (abs : Nat) : Nat :=
  let sec := ((abs + Monday * secondsPerDay) % 2 ^ 64) % secondsPerWeek
  sec / secondsPerDay

/-- Go `absClock`: hour, minute and second of an absolute time. -/
def absClock (abs : Nat) : Int × Int × Int :=
  let sec : Int := ((abs % secondsPerDay : Nat) : Int)
  let hour := sec.tdiv secondsPerHour
  let sec := sec - hour * secondsPerHour
  let min := sec.tdiv secondsPerMinute
  let sec := sec - min * secondsPerMinute
  (hour, min, sec)

/-- Go `isLeap`. -/
def isLeap (year : Int) : Bool :=
  year.tmod 4 == 0 && (year.tmod 100 != 0 || year.tmod 400 == 0)

/-- Go `daysBefore[m]` counts the number of days in a non-leap year before month `m`
begins; there is an entry for `m = 12`. -/
def daysBefore : List Int :=
  [0,
   31,
   31 + 28,
   31 + 28 + 31,
   31 + 28 + 31 + 30,
   31 + 28 + 31 + 30 + 31,
   31 + 28 + 31 + 30 + 31 + 30,
   31 + 28 + 31 + 30 + 31 + 30 + 31,
   31 + 28 + 31 + 30 + 31 + 30 + 31 + 31,
   31 + 28 + 31 + 30 + 31 + 30 + 31 + 31 + 30,
   31 + 28 + 31 + 30 + 31 + 30 + 31 + 31 + 30 + 31,
   31 + 28 + 31 + 30 + 31 + 30 + 31 + 31 + 30 + 31 + 30,
   31 + 28 + 31 + 30 + 31 + 30 + 31 + 31 + 30 + 31 + 30 + 31]

/-- Indexing `daysBefore[i]` with a Go `int`.  Every caller passes an index in
`0..12`; outside that range (where Go would panic) the value is 0. -/
def daysBeforeAt (i : Int) : Int := daysBefore.getD i.toNat 0

/-- First half of the body of `absDate` (the cycle arithmetic on the day count
`d = abs / secondsPerDay`): the number of whole years since `absoluteZeroYear`
and the zero-based day within the year. -/
def yearDay (d : Nat) : Nat × Nat :=
  -- Account for 400 year cycles.
  let n := d / daysPer400Years
  let y := 400 * n
  let d := d - daysPer400Years * n
  -- Cut off 100-year cycles.
  -- The last cycle has one extra leap year, so on the last day
  -- of that year, day / daysPer100Years will be 4 instead of 3.
  let n := d / daysPer100Years
  let n := n - (n >>> 2)
  let y := y + 100 * n
  let d := d - daysPer100Years * n
  -- Cut off 4-year cycles.
  let n := d / daysPer4Years
  let y := y + 4 * n
  let d := d - daysPer4Years * n
  -- Cut off years within a 4-year cycle.
  let n := d / 365
  let n := n - (n >>> 2)
  let y := y + n
  let d := d - 365 * n
  (y, d)

/-- Second half of the body of `absDate` (taken when `full` is set): month and
day of the month from the leap flag `isLeap year` and the day of the year. -/
def monthDay (leap : Bool) (yday : Int) : Int × Int :=
  let day := yday
  if leap && day == 31 + 29 - 1 then
    -- Leap day.
    (February, 29)
  else
    -- After leap day; pretend it wasn't there.
    let day := if leap && day > 31 + 29 - 1 then day - 1 else day
    -- Estimate month on assumption that every month has 31 days.
    -- The estimate may be too low by at most one month, so adjust.
    let month := day.tdiv 31
    let endDay := daysBeforeAt (month + 1)
    let (month, begin) :=
      if day ≥ endDay then (month + 1, endDay) else (month, daysBeforeAt month)
    -- because January is 1
    (month + 1, day - begin + 1)

/-- Go `absDate`: year, month, day and zero-based day of the year of an absolute
time.  With `full = false` only year and yday are computed (month and day stay 0). -/
def absDate (abs : Nat) (full : Bool) : Int × Int × Int × Int :=
  -- Split into time and day.
  let yd := yearDay (abs / secondsPerDay)
  let year : Int := (yd.1 : Int) + absoluteZeroYear
  let yday : Int := (yd.2 : Int)
  if !full then (year, 0, 0, yday)
  else
    let md := monthDay (isLeap year) yday
    (year, md.1, md.2, yday)

/-- Go `daysIn`: the number of days of month `m` (1..12) in `year`. -/
def daysIn (m : Int) (year : Int) : Int :=
  if m == February && isLeap year then 29
  else daysBeforeAt m - daysBeforeAt (m - 1)

/-- A Go string or byte slice: the list of its bytes. -/
abbrev Str := List Char

/-- What the code reads from a `time.Time`: `t.Unix()`, `t.Nanosecond()`, whether
`t.Location()` is `time.UTC`, and the zone abbreviation and offset (seconds east
of UTC) that `t.Zone()` reports. -/
structure Instant where
  unix : Int
  nanosecond : Nat
  isUTC : Bool
  zoneName : Str
  zoneOffset : Int
  deriving DecidableEq, Repr

/-- Go `locabs`: zone name, zone offset and the zone-adjusted absolute seconds of an
instant.  The additions are `int64` additions converted to `uint64`, so the
result is taken modulo `2 ^ 64`. -/
def locabs (t : Instant) : Str × Int × Nat :=
  let sec := t.unix
  let sec := if !t.isUTC then sec + t.zoneOffset else sec
  (t.zoneName, t.zoneOffset, ((sec + (unixToInternal + internalToAbsolute)) % 2 ^ 64).toNat)

/-- The instant of the tests: `time.Unix(0, 1233810057012345600)` in the zone
America/Los_Angeles (PST, 8 hours west of UTC). -/
def testInstant : Instant :=
  { unix := 1233810057, nanosecond := 12345600, isUTC := false,
    zoneName := "PST".toList, zoneOffset := -28800 }

/-! ## Pattern lexer (`format.go`) -/

/-- Result of running a piece of the program: a value, a Go run-time panic
(slice or index out of range), or an exhausted loop budget of the embedding. -/
inductive Outcome (α : Type) where
  | ok (a : α)
  | panic
  | outOfFuel
  deriving DecidableEq, Repr

/-- Apply a function to the value of an outcome. -/
def Outcome.map {α β : Type} (f : α → β) : Outcome α → Outcome β
  | .ok a => .ok (f a)
  | .panic => .panic
  | .outOfFuel => .outOfFuel

def stdNeedDate : Nat := 1 <<< 8
def stdNeedClock : Nat := 2 <<< 8
def stdArgShift : Nat := 16
def stdMask : Nat := 1 <<< stdArgShift - 1

def stdLongMonth : Nat := 1 + stdNeedDate
def stdMonth : Nat := 2 + stdNeedDate
def stdNumMonth : Nat := 3 + stdNeedDate
def stdZeroMonth : Nat := 4 + stdNeedDate
def stdLongWeekDay : Nat := 5 + stdNeedDate
def stdWeekDay : Nat := 6 + stdNeedDate
def stdDay : Nat := 7 + stdNeedDate
def stdUnderDay : Nat := 8 + stdNeedDate
def stdZeroDay : Nat := 9 + stdNeedDate
def stdHour : Nat := 10 + stdNeedClock
def stdHour12 : Nat := 11 + stdNeedClock
def stdZeroHour12 : Nat := 12 + stdNeedClock
def stdMinute : Nat := 13 + stdNeedClock
def stdZeroMinute : Nat := 14 + stdNeedClock
def stdSecond : Nat := 15 + stdNeedClock
def stdZeroSecond : Nat := 16 + stdNeedClock
def stdLongYear : Nat := 17 + stdNeedDate
def stdYear : Nat := 18 + stdNeedDate
def stdPM : Nat := 19 + stdNeedClock
def stdpm : Nat := 20 + stdNeedClock
def stdTZ : Nat := 21
def stdISO8601TZ : Nat := 22
def stdISO8601SecondsTZ : Nat := 23
def stdISO8601ShortTZ : Nat := 24
def stdISO8601ColonTZ : Nat := 25
def stdISO8601ColonSecondsTZ : Nat := 26
def stdNumTZ : Nat := 27
def stdNumSecondsTz : Nat := 28
def stdNumShortTZ : Nat := 29
def stdNumColonTZ : Nat := 30
def stdNumColonSecondsTZ : Nat := 31
/-- Fractional second, trailing zeros included (`".0", ".00", ...`). -/
def stdFracSecond0 : Nat := 32
/-- Fractional second, trailing zeros omitted (`".9", ".99", ...`). -/
def stdFracSecond9 : Nat := 33

/-- The single quote, the text delimiter of the pattern language. -/
def quote : Char := Char.ofNat 39

/-- The characters that have a `case` of their own in the scanning `switch` of
`nextStdChunk`, the single quote apart. -/
def isStdLetter (r : Char) : Bool :=
  r == 'h' || r == 'H' || r == 'm' || r == 's' || r == 'd' || r == 'E' || r == 'M' ||
  r == 'Y' || r == 'y' || r == 'x' || r == 'S' || r == 'a' || r == 'Z'

/-- The inner `switch j` of the letter cases of `nextStdChunk`: the std value
returned for a run of `j` characters `r`, or `none` where the switch returns
nothing (a run of more than four `M`) and the scan goes on after the run. -/
def stdOfRun (r : Char) (j : Nat) : Option Nat :=
  if r = 'h' then some (if j = 1 then stdHour12 else stdZeroHour12)
  else if r = 'H' then some stdHour
  else if r = 'm' then some (if j = 1 then stdMinute else stdZeroMinute)
  else if r = 's' then some (if j = 1 then stdSecond else stdZeroSecond)
  else if r = 'd' then some (if j = 1 then stdDay else stdZeroDay)
  else if r = 'E' then some (if j = 1 ∨ j = 2 ∨ j = 3 then stdWeekDay else stdLongWeekDay)
  else if r = 'M' then
    (if j = 1 then some stdNumMonth
     else if j = 2 then some stdZeroMonth
     else if j = 3 then some stdMonth
     else if j = 4 then some stdLongMonth
     else none)
  else if r = 'Y' ∨ r = 'y' ∨ r = 'x' then some (if j = 2 then stdYear else stdLongYear)
  else if r = 'S' then
    some (if j = 1 ∨ j = 2 ∨ j = 3 then stdFracSecond0 ||| (j <<< stdArgShift)
          else stdFracSecond9 ||| (j <<< stdArgShift))
  else if r = 'a' then some stdPM
  else if r = 'Z' then
    some (if j = 1 then stdNumTZ else if j = 2 then stdNumColonTZ else stdTZ)
  else none

/-- The scanning loop of `nextStdChunk`.  The loop state `(layout, i)` is kept as
the pair `pre = layout[0:i]`, `rest = layout[i:]`; `fuel` bounds the number of
iterations.

* a letter `r` at `layout[i]`: `j` counts the run of `r` starting at `i`, and the
  result is `(layout[0:i], std, layout[i+j:])`; for more than four `M` the scan
  resumes at `i + j`;
* a quote followed by a quote: one of the two is removed and the scan resumes
  after the other;
* a quote otherwise: the bytes up to the next quote are collected in `tmp`, and
  `layout[0:i] + tmp + layout[i+j+1:]` replaces the layout; the slice
  `layout[i+j+1:]` is out of range, a panic, when there is no closing quote;
* any other byte is skipped. -/
def nextStdChunkLoop : Nat → Str → Str → Outcome (Str × Nat × Str)
  | 0, _, _ => .outOfFuel
  | _ + 1, pre, [] => .ok (pre, 0, [])
  | fuel + 1, pre, r :: tl =>
    if isStdLetter r then
      let j := 1 + (tl.takeWhile (fun c => c == r)).length
      match stdOfRun r j with
      | some std => .ok (pre, std, tl.drop (j - 1))
      | none => nextStdChunkLoop fuel (pre ++ (r :: tl).take j) (tl.drop (j - 1))
    else if r = quote then
      match tl with
      | c :: tl2 =>
        if c = r then
          -- real quote
          nextStdChunkLoop fuel (pre ++ [c]) tl2
        else
          let tmp := tl.takeWhile (fun c => c != r)
          match tl.drop tmp.length with
          | [] => .panic
          | _ :: after => nextStdChunkLoop fuel (pre ++ tmp) after
      | [] => .panic
    else nextStdChunkLoop fuel (pre ++ [r]) tl

/-- Go `nextStdChunk` finds the first occurrence of a std string in layout and returns
the text before, the std string, and the text after. -/
def nextStdChunk (layout : Str) : Outcome (Str × Nat × Str) :=
  nextStdChunkLoop (layout.length + 1) [] layout

def longDayNames : List Str :=
  ["Sunday".toList, "Monday".toList, "Tuesday".toList, "Wednesday".toList,
   "Thursday".toList, "Friday".toList, "Saturday".toList]

def shortDayNames : List Str :=
  ["Sun".toList, "Mon".toList, "Tue".toList, "Wed".toList, "Thu".toList, "Fri".toList,
   "Sat".toList]

def shortMonthNames : List Str :=
  ["Jan".toList, "Feb".toList, "Mar".toList, "Apr".toList, "May".toList, "Jun".toList,
   "Jul".toList, "Aug".toList, "Sep".toList, "Oct".toList, "Nov".toList, "Dec".toList]

def longMonthNames : List Str :=
  ["January".toList, "February".toList, "March".toList, "April".toList, "May".toList,
   "June".toList, "July".toList, "August".toList, "September".toList, "October".toList,
   "November".toList, "December".toList]

/-! ## Formatter (`format.go`) -/

/-- The byte `'0' + d`. -/
def digitByte (d : Nat) : Char := Char.ofNat (48 + d)

/-- The digit loop of `appendInt`: the decimal digits of `u` are written in front
of `acc` (the filled part `buf[i:]` of the 20-byte buffer).  The budget is the
size of the buffer; a `uint` has at most 20 digits. -/
def appendIntDigits : Nat → Nat → Str → Str
  | 0, _, acc => acc
  | fuel + 1, u, acc =>
    if u ≥ 10 then appendIntDigits fuel (u / 10) (digitByte (u % 10) :: acc)
    else digitByte u :: acc

/-- Go `appendInt` appends the decimal form of `x` to `b`; if the decimal form
(excluding sign) is shorter than `width`, the result is padded with leading 0's.
`uint(x)` and `uint(-x)` are taken modulo `2 ^ 64`. -/
def appendInt (b : Str) (x : Int) (width : Nat) : Str :=
  let u : Nat := if x < 0 then ((-x) % 2 ^ 64).toNat else (x % 2 ^ 64).toNat
  let b := if x < 0 then b ++ ['-'] else b
  let digits := appendIntDigits 20 u []
  b ++ List.replicate (width - digits.length) '0' ++ digits

/-- The first loop of `formatNano`: the low decimal digits of `u`, one per
remaining buffer position, written right to left. -/
def nanoDigits : Nat → Nat → Str → Str
  | 0, _, acc => acc
  | k + 1, u, acc => nanoDigits k (u / 10) (digitByte (u % 10) :: acc)

/-- The trimming loop of `formatNano`: `for n > 0 && buf[n-1] == '0' { n-- }`. -/
def trimZeros (buf : Str) : Nat → Nat
  | 0 => 0
  | n + 1 => if buf.getD n ' ' = '0' then trimZeros buf n else n + 1

/-- Go `formatNano` appends a fractional second, as nanoseconds, to `b` and returns
the result: the nine low decimal digits of `nanosec`, cut to the first `n` (at
most nine) and, with `trim` set, cut of their trailing zeros. -/
def formatNano (b : Str) (nanosec : Nat) (n : Nat) (trim : Bool) : Str :=
  let buf : Str := nanoDigits 9 (nanosec % 2 ^ 64) []
  let n := if n > 9 then 9 else n
  if trim then
    let n := trimZeros buf n
    if n = 0 then b else b ++ buf.take n
  else b ++ buf.take n

/-- Go `time.Month.String`: the English name of a month in 1..12. -/
def monthString (m : Int) : Str :=
  if 1 ≤ m ∧ m ≤ 12 then longMonthNames.getD (m - 1).toNat []
  else "%!Month(".toList ++ appendInt [] m 0 ++ [')']

/-- Go `time.Weekday.String`: the English name of a weekday in 0..6. -/
def weekdayString (d : Nat) : Str :=
  if d < 7 then longDayNames.getD d []
  else "%!Weekday(".toList ++ appendInt [] d 0 ++ [')']

/-- The date and clock fields that `AppendFormat` computes on first need;
`year = -1` and `hour = -1` mean "not computed yet". -/
structure FormatFields where
  year : Int := -1
  month : Int := 0
  day : Int := 0
  hour : Int := -1
  min : Int := 0
  sec : Int := 0
  deriving DecidableEq, Repr

/-- The numeric zone cases of the `switch` of `AppendFormat`. -/
def appendZone (b : Str) (std : Nat) (offset : Int) : Str :=
  -- Ugly special case. We cheat and take the "Z" variants
  -- to mean "the time zone as formatted for ISO 8601".
  if offset = 0 ∧ (std = stdISO8601TZ ∨ std = stdISO8601ColonTZ ∨ std = stdISO8601SecondsTZ ∨
      std = stdISO8601ShortTZ ∨ std = stdISO8601ColonSecondsTZ) then b ++ ['Z']
  else
    let zone := offset.tdiv 60 -- convert to minutes
    let absoffset := offset
    let b := if zone < 0 then b ++ ['-'] else b ++ ['+']
    let absoffset := if zone < 0 then -absoffset else absoffset
    let zone := if zone < 0 then -zone else zone
    let b := appendInt b (zone.tdiv 60) 2
    let b := if std = stdISO8601ColonTZ ∨ std = stdNumColonTZ ∨ std = stdISO8601ColonSecondsTZ ∨
        std = stdNumColonSecondsTZ then b ++ [':'] else b
    let b := if std ≠ stdNumShortTZ ∧ std ≠ stdISO8601ShortTZ then appendInt b (zone.tmod 60) 2
      else b
    -- append seconds if appropriate
    if std = stdISO8601SecondsTZ ∨ std = stdNumSecondsTz ∨ std = stdNumColonSecondsTZ ∨
        std = stdISO8601ColonSecondsTZ then
      let b := if std = stdNumColonSecondsTZ ∨ std = stdISO8601ColonSecondsTZ then b ++ [':']
        else b
      appendInt b (absoffset.tmod 60) 2
    else b

/-- The `switch std & stdMask` of `AppendFormat`: the text of one directive. -/
def appendStd (name : Str) (offset : Int) (abs : Nat) (nanosecond : Nat) (f : FormatFields)
    (b : Str) (std : Nat) : Str :=
  let s := std &&& stdMask
  if s = stdYear then
    let y := if f.year < 0 then -f.year else f.year
    appendInt b (y.tmod 100) 2
  else if s = stdLongYear then appendInt b f.year 4
  else if s = stdMonth then b ++ (monthString f.month).take 3
  else if s = stdLongMonth then b ++ monthString f.month
  else if s = stdNumMonth then appendInt b f.month 0
  else if s = stdZeroMonth then appendInt b f.month 2
  else if s = stdWeekDay then b ++ (weekdayString (absWeekday abs)).take 3
  else if s = stdLongWeekDay then b ++ weekdayString (absWeekday abs)
  else if s = stdDay then appendInt b f.day 0
  else if s = stdUnderDay then
    appendInt (if f.day < 10 then b ++ [' '] else b) f.day 0
  else if s = stdZeroDay then appendInt b f.day 2
  else if s = stdHour then appendInt b f.hour 2
  else if s = stdHour12 then
    -- Noon is 12PM, midnight is 12AM.
    let hr := f.hour.tmod 12
    appendInt b (if hr = 0 then 12 else hr) 0
  else if s = stdZeroHour12 then
    let hr := f.hour.tmod 12
    appendInt b (if hr = 0 then 12 else hr) 2
  else if s = stdMinute then appendInt b f.min 0
  else if s = stdZeroMinute then appendInt b f.min 2
  else if s = stdSecond then appendInt b f.sec 0
  else if s = stdZeroSecond then appendInt b f.sec 2
  else if s = stdPM then (if f.hour ≥ 12 then b ++ "PM".toList else b ++ "AM".toList)
  else if s = stdpm then (if f.hour ≥ 12 then b ++ "pm".toList else b ++ "am".toList)
  else if s = stdISO8601TZ ∨ s = stdISO8601ColonTZ ∨ s = stdISO8601SecondsTZ ∨
      s = stdISO8601ShortTZ ∨ s = stdISO8601ColonSecondsTZ ∨ s = stdNumTZ ∨ s = stdNumColonTZ ∨
      s = stdNumSecondsTz ∨ s = stdNumShortTZ ∨ s = stdNumColonSecondsTZ then
    appendZone b std offset
  else if s = stdTZ then
    if name ≠ [] then b ++ name
    else
      -- No time zone known for this time, but we must print one.
      let zone := offset.tdiv 60
      let b := if zone < 0 then b ++ ['-'] else b ++ ['+']
      let zone := if zone < 0 then -zone else zone
      let b := appendInt b (zone.tdiv 60) 2
      appendInt b (zone.tmod 60) 2
  else if s = stdFracSecond0 ∨ s = stdFracSecond9 then
    formatNano b nanosecond (std >>> stdArgShift) (std &&& stdMask == stdFracSecond9)
  else b

/-- The two lazy computations at the head of the loop body of `AppendFormat`:
year, month and day are computed when the directive needs the date and the year
is not yet known (`year < 0`), hour, minute and second when it needs the clock
and the hour is not yet known (`hour < 0`). -/
def computeFields (abs : Nat) (f : FormatFields) (std : Nat) : FormatFields :=
  -- Compute year, month, day if needed.
  let f :=
    if f.year < 0 ∧ std &&& stdNeedDate ≠ 0 then
      let r := absDate abs true
      { f with year := r.1, month := r.2.1, day := r.2.2.1 }
    else f
  -- Compute hour, minute, second if needed.
  if f.hour < 0 ∧ std &&& stdNeedClock ≠ 0 then
    let c := absClock abs
    { f with hour := c.1, min := c.2.1, sec := c.2.2 }
  else f

/-- The loop of `AppendFormat`: each iteration generates one std value. -/
def appendFormatLoop (name : Str) (offset : Int) (abs : Nat) (nanosecond : Nat) :
    Nat → FormatFields → Str → Str → Outcome Str
  | 0, _, _, _ => .outOfFuel
  | fuel + 1, f, b, layout =>
    if layout = [] then .ok b
    else
      match nextStdChunk layout with
      | .panic => .panic
      | .outOfFuel => .outOfFuel
      | .ok (pre, std, suffix) =>
        let b := b ++ pre
        if std = 0 then .ok b
        else
          let f := computeFields abs f std
          appendFormatLoop name offset abs nanosecond fuel f
            (appendStd name offset abs nanosecond f b std) suffix

/-- Go `AppendFormat` is like `Format` but appends the textual representation to `b`
and returns the extended buffer. -/
def AppendFormat (t : Instant) (b : Str) (layout : Str) : Outcome Str :=
  let l := locabs t
  appendFormatLoop l.1 l.2.1 l.2.2 t.nanosecond (layout.length + 1) {} b layout

/-- Go `Format` returns a textual representation of the time value formatted
according to layout. -/
def Format (t : Instant) (layout : Str) : Outcome Str :=
  AppendFormat t [] layout

/-- Layout constants of `format.go`. -/
def RubyDate : Str := "EEE MMM dd HH:mm:ss Z YYYY".toList
def RFC822 : Str := "dd MMM YY HH:mm ZZZ".toList
def RFC822Z : Str := "dd MMM YY HH:mm Z".toList
def RFC850 : Str := "EEEE, dd-MMM-YY HH:mm:ss ZZZ".toList
def RFC1123 : Str := "EEE, dd MMM YYYY HH:mm:ss ZZZ".toList
def RFC1123Z : Str := "EEE, dd MMM YYYY HH:mm:ss Z".toList
def RFC3339 : Str := "YYYY-MM-ddTHH:mm:ssZZ".toList
def RFC3339Nano : Str := "YYYY-MM-ddTHH:mm:ss.SSSSSSSSSZZ".toList
def Kitchen : Str := "h:mma".toList

/-! ## Parser (`format.go`) -/

/-- The byte `s[i]`; every use is guarded by a length check, as in the source. -/
def byteAt (s : Str) (i : Nat) : Char := s.getD i (Char.ofNat 0)

/-- Whether a byte is a decimal digit, `'0' <= c && c <= '9'`. -/
def isDigitByte (c : Char) : Bool := decide (48 ≤ c.toNat ∧ c.toNat ≤ 57)

/-- The value `c - '0'` of a digit byte. -/
def digitVal (c : Char) : Int := ((c.toNat - 48 : Nat) : Int)

/-- Function `isDigit` reports whether `s[i]` is in range and is a decimal digit. -/
def isDigit (s : Str) (i : Nat) : Bool :=
  if s.length ≤ i then false else isDigitByte (byteAt s i)

/-- Function `getnum` parses `s[0:1]` or `s[0:2]` (`fixed` forces the latter) as a
decimal integer and returns the integer, the remainder of the string and whether
it failed (`errBad`). -/
def getnum (s : Str) (fixed : Bool) : Int × Str × Bool :=
  if !isDigit s 0 then (0, s, true)
  else if !isDigit s 1 then
    if fixed then (0, s, true)
    else (digitVal (byteAt s 0), s.drop 1, false)
  else (digitVal (byteAt s 0) * 10 + digitVal (byteAt s 1), s.drop 2, false)

/-- Function `cutspace` removes the leading spaces. -/
def cutspace (s : Str) : Str := s.dropWhile (fun c => c == ' ')

/-- The loop of `skip`, with the value and the rest of the literal as state; the
result is the remaining value and whether the literal failed to match. -/
def skipLoop : Nat → Str → Str → Outcome (Str × Bool)
  | 0, _, _ => .outOfFuel
  | _ + 1, value, [] => .ok (value, false)
  | fuel + 1, value, p :: ps =>
    if p = ' ' then
      if value.length > 0 ∧ byteAt value 0 ≠ ' ' then .ok (value, true)
      else skipLoop fuel (cutspace value) (cutspace (p :: ps))
    else if value.length = 0 ∨ byteAt value 0 ≠ p then .ok (value, true)
    else skipLoop fuel (value.drop 1) ps

/-- Function `skip` removes the given literal from `value`, treating runs of space
characters as equivalent. -/
def skip (value pre : Str) : Outcome (Str × Bool) := skipLoop (pre.length + 1) value pre

/-- The byte `c | ('a' - 'A')`. -/
def lowerByte (c : Char) : Char := Char.ofNat (c.toNat ||| 32)

/-- Function `match` reports whether `s1` and `s2` match ignoring case; the two are
assumed to have the same length (a shorter `s2` does not occur). -/
def matchFold : Str → Str → Bool
  | [], _ => true
  | _ :: _, [] => false
  | c1 :: r1, c2 :: r2 =>
    if c1 ≠ c2 then
      -- Switch to lower-case; 'a'-'A' is known to be a single bit.
      let c1 := lowerByte c1
      let c2 := lowerByte c2
      if c1 ≠ c2 ∨ c1.toNat < 97 ∨ c1.toNat > 122 then false
      else matchFold r1 r2
    else matchFold r1 r2

/-- The loop of `lookup` over the table, `i` being the index of its head. -/
def lookupFrom : List Str → Nat → Str → Int × Str × Bool
  | [], _, val => (-1, val, true)
  | v :: tab, i, val =>
    if val.length ≥ v.length ∧ matchFold (val.take v.length) v = true then
      ((i : Int), val.drop v.length, false)
    else lookupFrom tab (i + 1) val

/-- Function `lookup`: the index of the first table entry that `val` starts with,
ignoring case, the remainder of `val`, and whether none matched. -/
def lookup (tab : List Str) (val : Str) : Int × Str × Bool := lookupFrom tab 0 val

/-- The loop of `leadingInt`, `x` being the value accumulated so far.  The sum
`x*10 + c - '0'` is an `int64` sum: it is negative exactly when it passes `2^63`. -/
def leadingIntLoop : Int → Str → Int × Str × Bool
  | x, [] => (x, [], false)
  | x, c :: rest =>
    if ¬ isDigitByte c then (x, c :: rest, false)
    else if x > (2 ^ 63 - 1) / 10 then (0, [], true)
    else if x * 10 + digitVal c ≥ 2 ^ 63 then (0, [], true)
    else leadingIntLoop (x * 10 + digitVal c) rest

/-- Function `leadingInt` consumes the leading `[0-9]*` from `s`: the value, the
remainder and whether it overflowed. -/
def leadingInt (s : Str) : Int × Str × Bool := leadingIntLoop 0 s

/-- Function `atoi`: an optionally signed decimal number filling the whole string,
and whether the string is not one. -/
def atoi (s : Str) : Int × Bool :=
  let neg := decide (s ≠ [] ∧ byteAt s 0 = '-')
  let s := if s ≠ [] ∧ (byteAt s 0 = '-' ∨ byteAt s 0 = '+') then s.drop 1 else s
  let r := leadingInt s
  if r.2.2 ∨ r.2.1 ≠ [] then (0, true)
  else (if neg then -r.1 else r.1, false)

/-- Function `parseNanoseconds`: the nanoseconds written by the first `nbytes` of
`value`, the range error string and whether the digits failed to parse. -/
def parseNanoseconds (value : Str) (nbytes : Nat) : Int × Str × Bool :=
  let r := atoi (value.take nbytes)
  if r.2 then (r.1, [], true)
  else if r.1 < 0 ∨ 1000000000 ≤ r.1 then (r.1, "fractional second".toList, false)
  else
    -- We need nanoseconds, which means scaling by the number
    -- of missing digits in the format, maximum length 9.
    (r.1 * 10 ^ (9 - nbytes), [], false)

/-- Function `parseSignedOffset` parses a signed timezone offset (e.g. "+03" or
"-04") and returns the length of the found offset string or 0 otherwise. -/
def parseSignedOffset (value : Str) : Nat :=
  let sign := byteAt value 0
  if sign ≠ '-' ∧ sign ≠ '+' then 0
  else
    let r := leadingInt (value.drop 1)
    if r.2.2 then 0
    else
      let x := if sign = '-' then -r.1 else r.1
      if x = 0 ∨ x < -14 ∨ 12 < x then 0
      else value.length - r.2.1.length

/-- Function `parseGMT` parses a GMT time zone; the input is known to start "GMT". -/
def parseGMT (value : Str) : Nat :=
  let value := value.drop 3
  if value.length = 0 then 3
  else 3 + parseSignedOffset value

/-- Function `parseTimeZone` parses a time zone string and returns its length and
whether one was found. -/
def parseTimeZone (value : Str) : Nat × Bool :=
  if value.length < 3 then (0, false)
  -- Special case 1: ChST and MeST are the only zones with a lower-case letter.
  else if value.length ≥ 4 ∧ (value.take 4 = "ChST".toList ∨ value.take 4 = "MeST".toList) then
    (4, true)
  -- Special case 2: GMT may have an hour offset; treat it specially.
  else if value.take 3 = "GMT".toList then (parseGMT value, true)
  -- Special Case 3: Some time zones are not named, but have +/-00 format
  else if byteAt value 0 = '+' ∨ byteAt value 0 = '-' then (parseSignedOffset value, true)
  else
    -- How many upper-case letters are there? Need at least three, at most five.
    let nUpper := ((value.take 6).takeWhile
      (fun c => decide (65 ≤ c.toNat ∧ c.toNat ≤ 90))).length
    if nUpper = 5 then
      -- Must end in T to match.
      if byteAt value 4 = 'T' then (5, true) else (0, false)
    else if nUpper = 4 then
      -- Must end in T, except one special case.
      if byteAt value 3 = 'T' ∨ value.take 4 = "WITA".toList then (4, true) else (0, false)
    else if nUpper = 3 then (3, true)
    else (0, false)

/-- The zone id map `shortIDs`: short id, canonical zone name and offset. -/
def shortIDTable : List (String × String × Int) :=
  [("EST", "", -18000), ("HST", "", -36000), ("MST", "", -25200),
   ("ACT", "Australia/Darwin", 0), ("AET", "Australia/Sydney", 0),
   ("AGT", "America/Argentina/Buenos_Aires", 0), ("ART", "Africa/Cairo", 0),
   ("AST", "America/Anchorage", 0), ("BET", "America/Sao_Paulo", 0),
   ("BST", "Asia/Dhaka", 0), ("CAT", "Africa/Harare", 0), ("CNT", "America/St_Johns", 0),
   ("CST", "America/Chicago", 0), ("CTT", "Asia/Shanghai", 0),
   ("EAT", "Africa/Addis_Ababa", 0), ("ECT", "Europe/Paris", 0),
   ("IET", "America/Indiana/Indianapolis", 0), ("IST", "Asia/Kolkata", 0),
   ("JST", "Asia/Tokyo", 0), ("MIT", "Pacific/Apia", 0), ("NET", "Asia/Yerevan", 0),
   ("NST", "Pacific/Auckland", 0), ("PLT", "Asia/Karachi", 0), ("PNT", "America/Phoenix", 0),
   ("PRT", "America/Puerto_Rico", 0), ("PST", "America/Los_Angeles", 0),
   ("SST", "Pacific/Guadalcanal", 0), ("VST", "Asia/Ho_Chi_Minh", 0),
   -- extra zones
   ("PDT", "", -25200)]

/-- Lookup `shortIDs[id]`: the zone name and offset recorded for a short id. -/
def shortIDs (id : Str) : Option (Str × Int) :=
  (shortIDTable.find? (fun e => decide (e.1.toList = id))).map
    (fun e => (e.2.1.toList, e.2.2))

/-- A `*time.Location` as the parser handles it: `time.UTC`, `time.Local`, a zone
made by `time.FixedZone(name, offset)`, or a zone of the host's zone database. -/
inductive Location where
  | UTC
  | Local
  | fixed (name : Str) (offset : Int)
  | named (id : Str)
  deriving DecidableEq, Repr

/-- The host's time library as the parser uses it: `time.LoadLocation`, and the
zone offset that `time.Date(...).Zone()` reports for civil fields in a location. -/
structure Host where
  loadLocation : Str → Option Location
  zoneOffset : Location → Int → Int → Int → Int → Int → Int → Int → Int

/-- A host whose zone database knows no zone and whose local zone is UTC. -/
def bareHost : Host :=
  { loadLocation := fun _ => none, zoneOffset := fun _ _ _ _ _ _ _ _ => 0 }

/-- The value `time.Date(year, month, day, hour, min, sec, nsec, loc)`, moved by
`add` seconds (`t.Add`, 0 when the result is not moved), that `parse` returns. -/
structure ParsedTime where
  year : Int
  month : Int
  day : Int
  hour : Int
  min : Int
  sec : Int
  nsec : Int
  loc : Location
  add : Int := 0
  deriving DecidableEq, Repr

/-- A `time.ParseError`. -/
structure ParseError where
  layout : Str
  value : Str
  layoutElem : Str
  valueElem : Str
  message : Str
  deriving DecidableEq, Repr

/-- What `parse` returns: a time or an error. -/
inductive Parsed where
  | time (t : ParsedTime)
  | error (e : ParseError)
  deriving DecidableEq, Repr

/-- The variables of `parse`: the value still to consume and the time being
constructed. -/
structure ParseState where
  value : Str
  rangeErrString : Str := []
  amSet : Bool := false
  pmSet : Bool := false
  year : Int := 0
  month : Int := 1
  day : Int := 1
  hour : Int := 0
  min : Int := 0
  sec : Int := 0
  nsec : Int := 0
  z : Option Location := none
  zoneOffset : Int := -1
  zoneName : Str := []
  deriving DecidableEq, Repr

/-- The numeric zone case of the `switch` of `parse`; the result is the new state
and whether `err` is set. -/
def parseNumTZ (std : Nat) (st : ParseState) : ParseState × Bool :=
  let value := st.value
  if (std = stdISO8601TZ ∨ std = stdISO8601ShortTZ ∨ std = stdISO8601ColonTZ) ∧
      value.length ≥ 1 ∧ byteAt value 0 = 'Z' then
    ({ st with value := value.drop 1, z := some Location.UTC }, false)
  else
    -- convert to short tz format
    let std := if std = stdNumTZ ∧ value.length = 3 then stdNumShortTZ else std
    let fields : Option (Str × Str × Str × Str × Str) :=
      if std = stdISO8601ColonTZ ∨ std = stdNumColonTZ then
        if value.length < 6 then none
        else if byteAt value 3 ≠ ':' then none
        else some (value.take 1, (value.drop 1).take 2, (value.drop 4).take 2, "00".toList,
          value.drop 6)
      else if std = stdNumShortTZ ∨ std = stdISO8601ShortTZ then
        if value.length < 3 then none
        else some (value.take 1, (value.drop 1).take 2, "00".toList, "00".toList, value.drop 3)
      else if std = stdISO8601ColonSecondsTZ ∨ std = stdNumColonSecondsTZ then
        if value.length < 9 then none
        else if byteAt value 3 ≠ ':' ∨ byteAt value 6 ≠ ':' then none
        else some (value.take 1, (value.drop 1).take 2, (value.drop 4).take 2,
          (value.drop 7).take 2, value.drop 9)
      else if std = stdISO8601SecondsTZ ∨ std = stdNumSecondsTz then
        if value.length < 7 then none
        else some (value.take 1, (value.drop 1).take 2, (value.drop 3).take 2,
          (value.drop 5).take 2, value.drop 7)
      else
        if value.length < 5 then none
        else some (value.take 1, (value.drop 1).take 2, (value.drop 3).take 2, "00".toList,
          value.drop 5)
    match fields with
    | none => (st, true)
    | some (sign, hour, min, seconds, value) =>
      let hr := atoi hour
      let mm := if hr.2 then ((0 : Int), true) else atoi min
      let ss := if mm.2 then ((0 : Int), true) else atoi seconds
      let zoneOffset := (hr.1 * 60 + mm.1) * 60 + ss.1 -- offset is in seconds
      if byteAt sign 0 = '+' then ({ st with value := value, zoneOffset := zoneOffset }, ss.2)
      else if byteAt sign 0 = '-' then
        ({ st with value := value, zoneOffset := -zoneOffset }, ss.2)
      else ({ st with value := value, zoneOffset := zoneOffset }, true)

/-- The seconds case of the `switch` of `parse`, with its special case for a
fractional second in the input that the layout does not announce; `layout` is the
layout after the seconds directive. -/
def parseSecond (layout : Str) (std : Nat) (st : ParseState) : Outcome (ParseState × Bool) :=
  let r := getnum st.value (std = stdZeroSecond)
  let st := { st with sec := r.1, value := r.2.1 }
  let err := r.2.2
  let st := if st.sec < 0 ∨ 60 ≤ st.sec then { st with rangeErrString := "second".toList } else st
  let value := st.value
  -- Special case: do we have a fractional second but no
  -- fractional second in the format?
  if value.length ≥ 2 ∧ byteAt value 0 = '.' ∧ isDigit value 1 = true then
    match nextStdChunk layout with
    | .panic => .panic
    | .outOfFuel => .outOfFuel
    | .ok (_, std, _) =>
      let std := std &&& stdMask
      if std = stdFracSecond0 ∨ std = stdFracSecond9 then
        -- Fractional second in the layout; proceed normally
        .ok (st, err)
      else
        -- No fractional second in the layout but we have one in the input.
        let n := 1 + ((value.drop 1).takeWhile isDigitByte).length
        let p := parseNanoseconds (value.drop 1) (n - 1) -- remove first dot
        .ok ({ st with nsec := p.1, rangeErrString := p.2.1, value := value.drop n }, p.2.2)
  else .ok (st, err)

/-- The `switch std & stdMask` of `parse`: one directive consumes its part of the
value and updates the time being constructed; the result is the new state and
whether `err` is set.  `layout` is the layout after the directive. -/
def parseStd (layout : Str) (std : Nat) (st : ParseState) : Outcome (ParseState × Bool) :=
  let s := std &&& stdMask
  let value := st.value
  if s = stdYear then
    if value.length < 2 then .ok (st, true)
    else
      let r := atoi (value.take 2)
      -- Unix time starts Dec 31 1969 in some time zones
      let year := if r.1 ≥ 69 then r.1 + 1900 else r.1 + 2000
      .ok ({ st with value := value.drop 2, year := year }, r.2)
  else if s = stdLongYear then
    if value.length < 4 ∨ isDigit value 0 = false then .ok (st, true)
    else
      let r := atoi (value.take 4)
      .ok ({ st with value := value.drop 4, year := r.1 }, r.2)
  else if s = stdMonth then
    let r := lookup shortMonthNames value
    .ok ({ st with month := r.1 + 1, value := r.2.1 }, r.2.2)
  else if s = stdLongMonth then
    let r := lookup longMonthNames value
    .ok ({ st with month := r.1 + 1, value := r.2.1 }, r.2.2)
  else if s = stdNumMonth ∨ s = stdZeroMonth then
    let r := getnum value (std = stdZeroMonth)
    let st := { st with month := r.1, value := r.2.1 }
    .ok (if st.month ≤ 0 ∨ 12 < st.month then { st with rangeErrString := "month".toList }
         else st, r.2.2)
  else if s = stdWeekDay then
    -- Ignore weekday except for error checking.
    let r := lookup shortDayNames value
    .ok ({ st with value := r.2.1 }, r.2.2)
  else if s = stdLongWeekDay then
    let r := lookup longDayNames value
    .ok ({ st with value := r.2.1 }, r.2.2)
  else if s = stdDay ∨ s = stdUnderDay ∨ s = stdZeroDay then
    let value :=
      if std = stdUnderDay ∧ value.length > 0 ∧ byteAt value 0 = ' ' then value.drop 1
      else value
    let r := getnum value (std = stdZeroDay)
    let st := { st with day := r.1, value := r.2.1 }
    -- Note that we allow any one- or two-digit day here.
    .ok (if st.day < 0 then { st with rangeErrString := "day".toList } else st, r.2.2)
  else if s = stdHour then
    let r := getnum value false
    let st := { st with hour := r.1, value := r.2.1 }
    .ok (if st.hour < 0 ∨ 24 ≤ st.hour then { st with rangeErrString := "hour".toList }
         else st, r.2.2)
  else if s = stdHour12 ∨ s = stdZeroHour12 then
    let r := getnum value (std = stdZeroHour12)
    let st := { st with hour := r.1, value := r.2.1 }
    .ok (if st.hour < 0 ∨ 12 < st.hour then { st with rangeErrString := "hour".toList }
         else st, r.2.2)
  else if s = stdMinute ∨ s = stdZeroMinute then
    let r := getnum value (std = stdZeroMinute)
    let st := { st with min := r.1, value := r.2.1 }
    .ok (if st.min < 0 ∨ 60 ≤ st.min then { st with rangeErrString := "minute".toList }
         else st, r.2.2)
  else if s = stdSecond ∨ s = stdZeroSecond then parseSecond layout std st
  else if s = stdPM then
    if value.length < 2 then .ok (st, true)
    else
      let p := value.take 2
      let st := { st with value := value.drop 2 }
      if p = "PM".toList then .ok ({ st with pmSet := true }, false)
      else if p = "AM".toList then .ok ({ st with amSet := true }, false)
      else .ok (st, true)
  else if s = stdpm then
    if value.length < 2 then .ok (st, true)
    else
      let p := value.take 2
      let st := { st with value := value.drop 2 }
      if p = "pm".toList then .ok ({ st with pmSet := true }, false)
      else if p = "am".toList then .ok ({ st with amSet := true }, false)
      else .ok (st, true)
  else if s = stdISO8601TZ ∨ s = stdISO8601ColonTZ ∨ s = stdISO8601SecondsTZ ∨
      s = stdISO8601ShortTZ ∨ s = stdISO8601ColonSecondsTZ ∨ s = stdNumTZ ∨ s = stdNumShortTZ ∨
      s = stdNumColonTZ ∨ s = stdNumSecondsTz ∨ s = stdNumColonSecondsTZ then
    .ok (parseNumTZ std st)
  else if s = stdTZ then
    -- Does it look like a time zone?
    if value.length ≥ 3 ∧ value.take 3 = "UTC".toList then
      .ok ({ st with z := some Location.UTC, value := value.drop 3 }, false)
    else
      let r := parseTimeZone value
      if r.2 = false then .ok (st, true)
      else .ok ({ st with zoneName := value.take r.1, value := value.drop r.1 }, false)
  else if s = stdFracSecond0 then
    -- stdFracSecond0 requires the exact number of digits as specified in
    -- the layout.
    let ndigit := std >>> stdArgShift
    if value.length < ndigit then .ok (st, true)
    else
      let p := parseNanoseconds value ndigit
      .ok ({ st with nsec := p.1, rangeErrString := p.2.1, value := value.drop ndigit }, p.2.2)
  else if s = stdFracSecond9 then
    if value.length < 1 ∨ isDigitByte (byteAt value 0) = false then
      -- Fractional second omitted.
      .ok (st, false)
    else
      -- Take any number of digits, even more than asked for,
      -- because it is what the stdSecond case would do.
      let i := ((value.take 9).takeWhile isDigitByte).length
      let p := parseNanoseconds value i
      .ok ({ st with nsec := p.1, rangeErrString := p.2.1, value := value.drop i }, p.2.2)
  else .ok (st, false)

/-- The end of `parse`, after the loop: the 12-hour normalisation, the validation of
the day of the month, and the choice of the zone. -/
def parseFinish (host : Host) (alayout avalue : Str) (defaultLocation loc : Location)
    (st : ParseState) : Parsed :=
  let hour :=
    if st.pmSet = true ∧ st.hour < 12 then st.hour + 12
    else if st.amSet = true ∧ st.hour = 12 then 0
    else st.hour
  let date (z : Location) : ParsedTime :=
    { year := st.year, month := st.month, day := st.day, hour := hour, min := st.min,
      sec := st.sec, nsec := st.nsec, loc := z }
  -- Validate the day of the month.
  if st.day < 1 ∨ st.day > daysIn st.month st.year then
    .error ⟨alayout, avalue, [], st.value, ": day out of range".toList⟩
  else
    match st.z with
    | some z => .time (date z)
    | none =>
      if st.zoneOffset ≠ -1 then
        -- Create fake zone to record offset.
        .time (date (Location.fixed st.zoneName st.zoneOffset))
      else if st.zoneName ≠ [] then
        -- Look for local zone with the given offset.
        -- If that zone was in effect at the given time, use it.
        let zone := shortIDs st.zoneName
        let zoneName :=
          match zone with
          | some (name, _) => if name ≠ [] then name else st.zoneName
          | none => st.zoneName
        let offset : Int :=
          match zone with
          | some (name, _) =>
            if name ≠ [] then 0
            else host.zoneOffset loc st.year st.month st.day hour st.min st.sec st.nsec
          | none => 0
        let shifted : Option Int :=
          match zone with
          | some (name, zoneOffset) =>
            if name = [] ∧ offset ≠ zoneOffset then some (offset - zoneOffset) else none
          | none => none
        match shifted with
        | some d => .time { date loc with add := d }
        | none =>
          match host.loadLocation zoneName with
          | some z => .time (date z)
          | none =>
            -- Otherwise, create fake zone with unknown offset.
            let offset :=
              if zoneName.length > 3 ∧ zoneName.take 3 = "GMT".toList then
                (atoi (zoneName.drop 3)).1 * 3600 -- Guaranteed OK by parseGMT.
              else offset
            .time (date (Location.fixed zoneName offset))
      else
        -- Otherwise, fall back to default.
        .time (date defaultLocation)

/-- The loop of `parse`: each iteration processes one std value. -/
def parseLoop (host : Host) (alayout avalue : Str) (defaultLocation loc : Location) :
    Nat → Str → ParseState → Outcome Parsed
  | 0, _, _ => .outOfFuel
  | fuel + 1, layout, st =>
    match nextStdChunk layout with
    | .panic => .panic
    | .outOfFuel => .outOfFuel
    | .ok (pre, std, suffix) =>
      let stdstr := (layout.drop pre.length).take (layout.length - suffix.length - pre.length)
      match skip st.value pre with
      | .panic => .panic
      | .outOfFuel => .outOfFuel
      | .ok (value, err) =>
        if err then .ok (.error ⟨alayout, avalue, pre, value, []⟩)
        else if std = 0 then
          if value.length ≠ 0 then
            .ok (.error ⟨alayout, avalue, [], value, ": extra text: ".toList ++ value⟩)
          else .ok (parseFinish host alayout avalue defaultLocation loc { st with value := value })
        else
          match parseStd suffix std { st with value := value } with
          | .panic => .panic
          | .outOfFuel => .outOfFuel
          | .ok (st, err) =>
            if st.rangeErrString ≠ [] then
              .ok (.error ⟨alayout, avalue, stdstr, st.value,
                ": ".toList ++ st.rangeErrString ++ " out of range".toList⟩)
            else if err then .ok (.error ⟨alayout, avalue, stdstr, st.value, []⟩)
            else parseLoop host alayout avalue defaultLocation loc fuel suffix st

/-- Function `parse`. -/
def parse (host : Host) (layout value : Str) (defaultLocation loc : Location) :
    Outcome Parsed :=
  parseLoop host layout value defaultLocation loc (layout.length + 1) layout { value := value }

/-- Function `Parse` parses a time string with a joda format; in the absence of
time zone information it interprets the time as UTC. -/
def Parse (host : Host) (layout value : Str) : Outcome Parsed :=
  parse host layout value Location.UTC Location.Local

/-- Function `ParseInLocation` is like `Parse` but interprets the time as in the
given location and matches zone abbreviations against it. -/
def ParseInLocation (host : Host) (layout value : Str) (loc : Location) : Outcome Parsed :=
  parse host layout value loc loc

/-- How one iteration of the loop of `parse` ends: the loop goes on with the rest of
the layout and the updated variables, the loop is left by its `break`, or `parse`
returns an error from inside the loop. -/
inductive Iteration where
  | next (layout : Str) (st : ParseState)
  | done (st : ParseState)
  | fail (e : ParseError)
  deriving DecidableEq, Repr

/-- One iteration of the loop of `parse`. -/
def parseIteration (alayout avalue layout : Str) (st : ParseState) : Outcome Iteration :=
  match nextStdChunk layout with
  | .panic => .panic
  | .outOfFuel => .outOfFuel
  | .ok (pre, std, suffix) =>
    let stdstr := (layout.drop pre.length).take (layout.length - suffix.length - pre.length)
    match skip st.value pre with
    | .panic => .panic
    | .outOfFuel => .outOfFuel
    | .ok (value, err) =>
      if err then .ok (.fail ⟨alayout, avalue, pre, value, []⟩)
      else if std = 0 then
        if value.length ≠ 0 then
          .ok (.fail ⟨alayout, avalue, [], value, ": extra text: ".toList ++ value⟩)
        else .ok (.done { st with value := value })
      else
        match parseStd suffix std { st with value := value } with
        | .panic => .panic
        | .outOfFuel => .outOfFuel
        | .ok (st, err) =>
          if st.rangeErrString ≠ [] then
            .ok (.fail ⟨alayout, avalue, stdstr, st.value,
              ": ".toList ++ st.rangeErrString ++ " out of range".toList⟩)
          else if err then .ok (.fail ⟨alayout, avalue, stdstr, st.value, []⟩)
          else .ok (.next suffix st)

/-- The loop of `parse` up to its `break`: the variables of `parse` when the loop is
left, or the error that `parse` returns from inside the loop. -/
def parseDirectives (alayout avalue : Str) :
    Nat → Str → ParseState → Outcome (Except ParseError ParseState)
  | 0, _, _ => .outOfFuel
  | fuel + 1, layout, st =>
    match parseIteration alayout avalue layout st with
    | .panic => .panic
    | .outOfFuel => .outOfFuel
    | .ok (.fail e) => .ok (.error e)
    | .ok (.done st) => .ok (.ok st)
    | .ok (.next layout st) => parseDirectives alayout avalue fuel layout st

/-! ### Calendar reference definitions

The proleptic Gregorian calendar as the specification words it: the 4/100/400
leap rule, fixed month lengths, and day counts obtained by summing them. -/

/-- The Gregorian leap rule: divisible by 4 and not by 100, or divisible by 400. -/
def gregorianLeap (y : Int) : Bool := decide ((4 ∣ y ∧ ¬ 100 ∣ y) ∨ 400 ∣ y)

/-- Length of month `m` (1..12) in a common (`leap = false`) or leap year. -/
def monthLengthIn (leap : Bool) (m : Int) : Int :=
  match m with
  | 1 => 31
  | 2 => if leap then 29 else 28
  | 3 => 31
  | 4 => 30
  | 5 => 31
  | 6 => 30
  | 7 => 31
  | 8 => 31
  | 9 => 30
  | 10 => 31
  | 11 => 30
  | 12 => 31
  | _ => 0

/-- Days of the year that precede month `m`: the sum of the lengths of months `1..m-1`. -/
def daysBeforeMonthIn (leap : Bool) (m : Int) : Int :=
  ((List.range (m.toNat - 1)).map (fun i => monthLengthIn leap ((i : Int) + 1))).sum

/-- Number of days of the Gregorian year `y`. -/
def yearLength (y : Int) : Nat := if gregorianLeap y then 366 else 365

/-- Days in the `k` years `absoluteZeroYear, ..., absoluteZeroYear + k - 1`. -/
def daysBeforeYear : Nat → Nat
  | 0 => 0
  | k + 1 => daysBeforeYear k + yearLength (absoluteZeroYear + (k : Int))

/-- Number of days from 1 January of `absoluteZeroYear` to the date `y`-`m`-`d`. -/
def dayNumber (y m d : Int) : Int :=
  (daysBeforeYear (y - absoluteZeroYear).toNat : Int)
    + daysBeforeMonthIn (gregorianLeap y) m + (d - 1)

/-- The calendar successor of a date, with month lengths taken from `daysIn`. -/
def nextDate (y m d : Int) : Int × Int × Int :=
  if d < daysIn m y then (y, m, d + 1)
  else if m < 12 then (y, m + 1, 1)
  else (y + 1, 1, 1)

/-- The year, month and day components of an `absDate` result. -/
def dateOf (r : Int × Int × Int × Int) : Int × Int × Int := (r.1, r.2.1, r.2.2.1)

/-! ### Lexer reference definitions -/

/-- The trigger characters of the pattern language, as the specification lists
them: `h H m s d E M Y y x S a Z` and the single quote. -/
def triggerChars : List Char :=
  ['h', 'H', 'm', 's', 'd', 'E', 'M', 'Y', 'y', 'x', 'S', 'a', 'Z', quote]

/-- The directive table of the specification: the directive fixed by a trigger
character and the length of its run (`S`, whose directive carries an argument, is
treated apart). -/
def directiveTable (c : Char) (n : Nat) : Option Nat :=
  match c with
  | 'h' => if n = 1 then some stdHour12 else if n ≥ 2 then some stdZeroHour12 else none
  | 'H' => some stdHour
  | 'm' => if n = 1 then some stdMinute else if n ≥ 2 then some stdZeroMinute else none
  | 's' => if n = 1 then some stdSecond else if n ≥ 2 then some stdZeroSecond else none
  | 'd' => if n = 1 then some stdDay else if n ≥ 2 then some stdZeroDay else none
  | 'E' => if 1 ≤ n ∧ n ≤ 3 then some stdWeekDay else if n ≥ 4 then some stdLongWeekDay else none
  | 'M' =>
    if n = 1 then some stdNumMonth
    else if n = 2 then some stdZeroMonth
    else if n = 3 then some stdMonth
    else if n = 4 then some stdLongMonth
    else none
  | 'Y' => if n = 2 then some stdYear else some stdLongYear
  | 'y' => if n = 2 then some stdYear else some stdLongYear
  | 'x' => if n = 2 then some stdYear else some stdLongYear
  | 'a' => some stdPM
  | 'Z' =>
    if n = 1 then some stdNumTZ
    else if n = 2 then some stdNumColonTZ
    else if n ≥ 3 then some stdTZ
    else none
  | _ => none

/-- Whether `AppendFormat` renders a fractional-second directive trimmed of its
trailing zeros: the `trim` argument it passes to `formatNano`. -/
def fracTrimmed (std : Nat) : Bool := std &&& stdMask == stdFracSecond9

/-- The digit count carried by a fractional-second directive. -/
def fracCount (std : Nat) : Nat := std >>> stdArgShift

/-! ### Formatter reference definitions -/

/-- The decimal numeral of a natural number, most significant digit first. -/
def decimal (u : Nat) : Str :=
  if u = 0 then ['0'] else (Nat.digits 10 u).reverse.map digitByte

/-- The decimal form of `x` padded with leading zeros to at least `w` digits, a
minus sign in front when `x` is negative. -/
def zeroPadded (w : Nat) (x : Int) : Str :=
  (if x < 0 then ['-'] else []) ++
    List.replicate (w - (decimal x.natAbs).length) '0' ++ decimal x.natAbs

/-- The numeric-only layout `YYYY-MM-dd HH:mm:ss`. -/
def numericLayout : Str := "YYYY-MM-dd HH:mm:ss".toList

/-- The rendering of the six numeric fields that the specification prescribes for
the layout `YYYY-MM-dd HH:mm:ss`: the year zero-padded to at least four digits and
the other fields to two, with the separators of the layout. -/
def numericText (year month day hour min sec : Int) : Str :=
  zeroPadded 4 year ++ ['-'] ++ zeroPadded 2 month ++ ['-'] ++ zeroPadded 2 day ++ [' '] ++
    zeroPadded 2 hour ++ [':'] ++ zeroPadded 2 min ++ [':'] ++ zeroPadded 2 sec

/-- Two decimal digits of a value in `0..99`. -/
def twoDigits (v : Int) : Str := [digitByte (v.toNat / 10), digitByte (v.toNat % 10)]

/-- Four decimal digits of a value in `0..9999`. -/
def fourDigits (v : Int) : Str :=
  [digitByte (v.toNat / 1000), digitByte (v.toNat / 100 % 10), digitByte (v.toNat / 10 % 10),
   digitByte (v.toNat % 10)]

/-! ### Parser reference definitions -/

/-- The matching of a pattern literal against the input, in the words of the
specification with the treatment of spaces that `skip` has: a non-space character
of the literal matches the same character of the input, one for one; a run of
spaces of the literal matches a non-empty run of spaces of the input, taken whole,
or the end of the input.  The flag tells that a run of spaces of the literal has
begun; the result is the input that remains, or `none` when the literal does not
match. -/
def literalMatchFrom : Bool → Str → Str → Option Str
  | _, [], v => some v
  | inRun, c :: cs, v =>
    if c = ' ' then
      if inRun then literalMatchFrom true cs v
      else
        match v with
        | [] => literalMatchFrom true cs []
        | x :: v1 =>
          if x = ' ' then literalMatchFrom true cs (v1.dropWhile (fun y => y == ' '))
          else none
    else
      match v with
      | [] => none
      | x :: v1 => if x = c then literalMatchFrom false cs v1 else none

/-- The match of a whole pattern literal against the input. -/
def literalMatch (pre value : Str) : Option Str := literalMatchFrom false pre value

/-- Whether the iteration of the loop of `parse` that starts with `layout` and the
variables `st` meets an AM/PM directive at an input that begins with the marker:
`PM` (`pm` for the lower-case directive) when `pm` is true, `AM` (`am`) otherwise. -/
def readsMarker (pm : Bool) (layout : Str) (st : ParseState) : Bool :=
  match nextStdChunk layout with
  | .ok (pre, std, _) =>
    match skip st.value pre with
    | .ok (value, false) =>
      (std &&& stdMask == stdPM && value.take 2 == (if pm then "PM" else "AM").toList) ||
      (std &&& stdMask == stdpm && value.take 2 == (if pm then "pm" else "am").toList)
    | _ => false
  | _ => false

/-- Whether a marker is read in the course of the loop of `parse`: some iteration
that the loop runs through and goes on from, starting with `layout` and `st`, reads
the marker. -/
def markerRead (pm : Bool) (alayout avalue : Str) : Nat → Str → ParseState → Bool
  | 0, _, _ => false
  | fuel + 1, layout, st =>
    match parseIteration alayout avalue layout st with
    | .ok (.next layout2 st2) =>
      readsMarker pm layout st || markerRead pm alayout avalue fuel layout2 st2
    | _ => false

/-! ### Auxiliary definitions for the proofs about `absDate` -/

/-- Leap rule on the year index: year `absoluteZeroYear + k` is leap. -/
def leapIdx (k : Nat) : Prop := (k + 1) % 4 = 0 ∧ ((k + 1) % 100 ≠ 0 ∨ (k + 1) % 400 = 0)

instance (k : Nat) : Decidable (leapIdx k) := by unfold leapIdx; infer_instance

/-! ## Theorems -/

/-! ### Calendar arithmetic -/

theorem tmod_eq_zero_iff (y m : Int) : y.tmod m = 0 ↔ y % m = 0 := by
  constructor
  · intro h
    exact Int.emod_eq_zero_of_dvd (Int.dvd_of_tmod_eq_zero h)
  · intro h
    exact Int.tmod_eq_zero_of_dvd (Int.dvd_of_emod_eq_zero h)

theorem isLeap_iff (y : Int) :
    isLeap y = true ↔ (y % 4 = 0 ∧ (y % 100 ≠ 0 ∨ y % 400 = 0)) := by
  simp [isLeap, tmod_eq_zero_iff]

theorem gregorianLeap_iff (y : Int) :
    gregorianLeap y = true ↔ (y % 4 = 0 ∧ (y % 100 ≠ 0 ∨ y % 400 = 0)) := by
  simp only [gregorianLeap, decide_eq_true_eq, Int.dvd_iff_emod_eq_zero]
  omega

theorem isLeap_eq_gregorianLeap (y : Int) : isLeap y = gregorianLeap y := by
  rw [Bool.eq_iff_iff, isLeap_iff, gregorianLeap_iff]

theorem isLeap_idx (k : Nat) : isLeap ((k : Int) + absoluteZeroYear) = true ↔ leapIdx k := by
  rw [isLeap_iff]
  unfold leapIdx absoluteZeroYear
  omega

theorem yearDay_split_aux (d : Nat) :
    let n1 := d / 146097
    let d1 := d - 146097 * n1
    let n2 := d1 / 36524
    let n2 := n2 - (n2 / 4)
    let d2 := d1 - 36524 * n2
    let n3 := d2 / 1461
    let d3 := d2 - 1461 * n3
    let n4 := d3 / 365
    let n4 := n4 - (n4 / 4)
    let d4 := d3 - 365 * n4
    let k := 400 * n1 + 100 * n2 + 4 * n3 + n4
    365 * k + k / 4 - k / 100 + k / 400 + d4 = d ∧ k / 100 ≤ k / 4 ∧
      d4 < 365 + (if leapIdx k then 1 else 0) := by
  intro n1 d1 n2 n2' d2 n3 d3 n4 n4' d4 k
  have h1 : d1 < 146097 := by omega
  have h2 : n2' ≤ 3 := by omega
  have h2' : d2 < 36524 + (if n2' = 3 then 1 else 0) := by split <;> omega
  have h3 : n3 ≤ 24 := by split at h2' <;> omega
  have h3' : d3 < 1461 := by omega
  have h3'' : n2' < 3 → n3 = 24 → d3 < 1460 := by split at h2' <;> omega
  have h4 : n4' ≤ 3 := by omega
  have h4' : d4 < 365 + (if n4' = 3 then 1 else 0) := by split <;> omega
  have h4'' : d3 < 1460 → n4' = 3 → d4 < 365 := by omega
  have hd : d = 146097 * n1 + 36524 * n2' + 1461 * n3 + 365 * n4' + d4 := by omega
  have hk4 : k / 4 = 100 * n1 + 25 * n2' + n3 := by omega
  have hk100 : k / 100 = 4 * n1 + n2' := by omega
  have hk400 : k / 400 = n1 := by omega
  have hl : leapIdx k ↔ (n4' = 3 ∧ (¬ (n3 = 24) ∨ n2' = 3)) := by
    unfold leapIdx
    omega
  refine ⟨by omega, by omega, ?_⟩
  by_cases hL : leapIdx k
  · rw [if_pos hL]
    split at h4' <;> omega
  · rw [if_neg hL]
    rw [hl] at hL
    split at h4' <;> split at h2' <;> omega

theorem yearDay_split (d : Nat) :
    365 * (yearDay d).1 + (yearDay d).1 / 4 - (yearDay d).1 / 100 + (yearDay d).1 / 400
        + (yearDay d).2 = d ∧
      (yearDay d).1 / 100 ≤ (yearDay d).1 / 4 ∧
      (yearDay d).2 < 365 + (if leapIdx (yearDay d).1 then 1 else 0) := by
  have h := yearDay_split_aux d
  have e : ∀ n : Nat, n >>> 2 = n / 4 := fun n => by
    rw [Nat.shiftRight_eq_div_pow]
  simp only [yearDay, daysPer400Years, daysPer100Years, daysPer4Years, e]
  exact h

theorem absDate_eq (abs : Nat) :
    absDate abs true =
      (((yearDay (abs / secondsPerDay)).1 : Int) + absoluteZeroYear,
       (monthDay (isLeap (((yearDay (abs / secondsPerDay)).1 : Int) + absoluteZeroYear))
          ((yearDay (abs / secondsPerDay)).2 : Int)).1,
       (monthDay (isLeap (((yearDay (abs / secondsPerDay)).1 : Int) + absoluteZeroYear))
          ((yearDay (abs / secondsPerDay)).2 : Int)).2,
       ((yearDay (abs / secondsPerDay)).2 : Int)) := rfl

theorem yearLength_idx (k : Nat) :
    yearLength (absoluteZeroYear + (k : Int)) = 365 + (if leapIdx k then 1 else 0) := by
  have := isLeap_idx k
  rw [isLeap_eq_gregorianLeap, add_comm] at this
  unfold yearLength
  by_cases h : leapIdx k
  · rw [if_pos h, if_pos (this.mpr h)]
  · rw [if_neg h]
    have h' : ¬ gregorianLeap (absoluteZeroYear + (k : Int)) = true := fun c => h (this.mp c)
    rw [if_neg h']

theorem daysBeforeYear_step (k : Nat) :
    daysBeforeYear (k + 1) = daysBeforeYear k + 365 + (if leapIdx k then 1 else 0) := by
  rw [daysBeforeYear, yearLength_idx, Nat.add_assoc]

theorem daysBeforeYear_closed (k : Nat) :
    daysBeforeYear k + k / 100 = 365 * k + k / 4 + k / 400 ∧ k / 100 ≤ k / 4 := by
  induction k with
  | zero => simp [daysBeforeYear]
  | succ k ih =>
    rw [daysBeforeYear_step]
    unfold leapIdx
    split <;> omega

theorem daysBeforeYear_mono (k j : Nat) : daysBeforeYear k ≤ daysBeforeYear (k + j) := by
  induction j with
  | zero => simp
  | succ j ih =>
    have := daysBeforeYear_step (k + j)
    rw [← Nat.add_assoc]
    omega

/-- The day count determines the year index and day of the year. -/
theorem yearDay_unique (d k yd : Nat)
    (h1 : daysBeforeYear k + yd = d) (h2 : yd < 365 + (if leapIdx k then 1 else 0)) :
    yearDay d = (k, yd) := by
  obtain ⟨a1, a2, a3⟩ := yearDay_split d
  have c1 := daysBeforeYear_closed (yearDay d).1
  have s1 := daysBeforeYear_step (yearDay d).1
  have s2 := daysBeforeYear_step k
  have hk : (yearDay d).1 = k := by
    rcases Nat.lt_trichotomy (yearDay d).1 k with h | h | h
    · obtain ⟨j, hj⟩ : ∃ j, k = (yearDay d).1 + 1 + j := ⟨k - ((yearDay d).1 + 1), by omega⟩
      have := daysBeforeYear_mono ((yearDay d).1 + 1) j
      rw [← hj] at this
      omega
    · exact h
    · obtain ⟨j, hj⟩ : ∃ j, (yearDay d).1 = k + 1 + j := ⟨(yearDay d).1 - (k + 1), by omega⟩
      have := daysBeforeYear_mono (k + 1) j
      rw [← hj] at this
      omega
  have hy : (yearDay d).2 = yd := by
    rw [hk] at c1 a1
    have c2 := daysBeforeYear_closed k
    omega
  exact Prod.ext hk hy

theorem yearDay_spec (d : Nat) :
    daysBeforeYear (yearDay d).1 + (yearDay d).2 = d ∧
      (yearDay d).2 < 365 + (if leapIdx (yearDay d).1 then 1 else 0) := by
  obtain ⟨a1, a2, a3⟩ := yearDay_split d
  have c1 := daysBeforeYear_closed (yearDay d).1
  exact ⟨by omega, a3⟩
set_option maxRecDepth 100000 in
theorem monthDay_table : ∀ leap : Bool, ∀ yd : Nat, yd < 366 →
    yd < 365 + (if leap then 1 else 0) →
      1 ≤ (monthDay leap yd).1 ∧ (monthDay leap yd).1 ≤ 12 ∧ 1 ≤ (monthDay leap yd).2 ∧
      (monthDay leap yd).2 ≤ monthLengthIn leap (monthDay leap yd).1 ∧
      daysBeforeMonthIn leap (monthDay leap yd).1 + (monthDay leap yd).2 - 1 = (yd : Int) := by
  decide

set_option maxRecDepth 100000 in
theorem monthDay_succ_table : ∀ leap : Bool, ∀ yd : Nat, yd < 366 →
    (yd + 1 < 365 + (if leap then 1 else 0) →
      monthDay leap ((yd + 1 : Nat) : Int) =
        (if (monthDay leap yd).2 < monthLengthIn leap (monthDay leap yd).1
          then ((monthDay leap yd).1, (monthDay leap yd).2 + 1)
          else ((monthDay leap yd).1 + 1, 1)) ∧
      ((monthDay leap yd).2 < monthLengthIn leap (monthDay leap yd).1 ∨
        (monthDay leap yd).1 < 12)) ∧
    (yd + 1 = 365 + (if leap then 1 else 0) → monthDay leap yd = (12, 31)) := by
  decide

theorem monthDay_zero (leap : Bool) : monthDay leap 0 = (1, 1) := by
  cases leap <;> decide

theorem daysIn_eq_monthLengthIn : ∀ leap : Bool, ∀ m : Nat, m < 13 → 1 ≤ m →
    (if ((m : Int) == February && leap) = true then 29
      else daysBeforeAt (m : Int) - daysBeforeAt ((m : Int) - 1)) = monthLengthIn leap m := by
  decide

theorem daysIn_monthLength (m y : Int) (h1 : 1 ≤ m) (h2 : m ≤ 12) :
    daysIn m y = monthLengthIn (isLeap y) m := by
  obtain ⟨n, rfl⟩ : ∃ n : Nat, m = (n : Int) := ⟨m.toNat, by omega⟩
  exact daysIn_eq_monthLengthIn (isLeap y) n (by omega) (by omega)

theorem absDate_fields (abs : Nat) :
    absoluteZeroYear ≤ (absDate abs true).1 ∧
    dayNumber (absDate abs true).1 (absDate abs true).2.1 (absDate abs true).2.2.1
      = ((abs / 86400 : Nat) : Int) ∧
    1 ≤ (absDate abs true).2.1 ∧ (absDate abs true).2.1 ≤ 12 ∧
    1 ≤ (absDate abs true).2.2.1 ∧
    (absDate abs true).2.2.1 ≤ daysIn (absDate abs true).2.1 (absDate abs true).1 ∧
    0 ≤ (absDate abs true).2.2.2 ∧
    (absDate abs true).2.2.2 < 365 + (if isLeap (absDate abs true).1 then 1 else 0) ∧
    (absDate abs true).2.2.2 =
      daysBeforeMonthIn (gregorianLeap (absDate abs true).1) (absDate abs true).2.1
        + (absDate abs true).2.2.1 - 1 := by
  rw [absDate_eq]
  have hs : secondsPerDay = 86400 := rfl
  rw [hs]
  generalize hk : (yearDay (abs / 86400)).1 = k
  generalize hyd : (yearDay (abs / 86400)).2 = yd
  obtain ⟨s1, s2⟩ := yearDay_spec (abs / 86400)
  rw [hk, hyd] at s1 s2
  have hL : (if leapIdx k then 1 else 0) = (if isLeap ((k : Int) + absoluteZeroYear) = true then 1 else 0) := by
    by_cases h : leapIdx k
    · rw [if_pos h, if_pos ((isLeap_idx k).mpr h)]
    · rw [if_neg h, if_neg (fun c => h ((isLeap_idx k).mp c))]
  rw [hL] at s2
  have hyd366 : yd < 366 := by split at s2 <;> omega
  have ht := monthDay_table (isLeap ((k : Int) + absoluteZeroYear)) yd hyd366 s2
  obtain ⟨t1, t2, t3, t4, t5⟩ := ht
  simp only []
  refine ⟨by omega, ?_, t1, t2, t3, ?_, by omega, ?_, ?_⟩
  · unfold dayNumber
    rw [← isLeap_eq_gregorianLeap]
    have : ((k : Int) + absoluteZeroYear - absoluteZeroYear).toNat = k := by omega
    rw [this]
    omega
  · rw [daysIn_monthLength _ _ t1 t2]
    exact t4
  · split at s2 <;> simp_all
  · rw [← isLeap_eq_gregorianLeap]
    omega
theorem absDate_next (abs : Nat) :
    dateOf (absDate (abs + 86400) true) =
      nextDate (absDate abs true).1 (absDate abs true).2.1 (absDate abs true).2.2.1 := by
  have hdiv : (abs + 86400) / 86400 = abs / 86400 + 1 := by omega
  have hs : secondsPerDay = 86400 := rfl
  obtain ⟨f1, f2, f3, f4, f5, f6, f7, f8, f9⟩ := absDate_fields abs
  rw [absDate_eq] at f1 f2 f3 f4 f5 f6 f7 f8 f9 ⊢
  rw [absDate_eq]
  rw [hs] at f1 f2 f3 f4 f5 f6 f7 f8 f9 ⊢
  rw [hdiv]
  obtain ⟨s1, s2⟩ := yearDay_spec (abs / 86400)
  generalize hk : (yearDay (abs / 86400)).1 = k at *
  generalize hyd : (yearDay (abs / 86400)).2 = yd at *
  have hL : (if leapIdx k then 1 else 0) =
      (if isLeap ((k : Int) + absoluteZeroYear) = true then 1 else 0) := by
    by_cases h : leapIdx k
    · rw [if_pos h, if_pos ((isLeap_idx k).mpr h)]
    · rw [if_neg h, if_neg (fun c => h ((isLeap_idx k).mp c))]
  have hyd366 : yd < 366 := by split at s2 <;> omega
  obtain ⟨u1, u2⟩ := monthDay_succ_table (isLeap ((k : Int) + absoluteZeroYear)) yd hyd366
  simp only [] at f3 f4 f5 f6
  by_cases hlast : yd + 1 < 365 + (if leapIdx k then 1 else 0)
  · -- the next day lies in the same year
    have hy : yearDay (abs / 86400 + 1) = (k, yd + 1) :=
      yearDay_unique _ _ _ (by omega) hlast
    rw [hL] at hlast
    obtain ⟨v1, v2⟩ := u1 hlast
    rw [hy]
    simp only [dateOf, nextDate]
    rw [daysIn_monthLength _ _ f3 f4, v1]
    by_cases hd : (monthDay (isLeap ((k : Int) + absoluteZeroYear)) (yd : Int)).2
        < monthLengthIn (isLeap ((k : Int) + absoluteZeroYear))
            (monthDay (isLeap ((k : Int) + absoluteZeroYear)) (yd : Int)).1
    · rw [if_pos hd, if_pos hd]
    · rw [if_neg hd, if_neg hd]
      have hm : (monthDay (isLeap ((k : Int) + absoluteZeroYear)) (yd : Int)).1 < 12 := by
        rcases v2 with v2 | v2
        · exact absurd v2 hd
        · exact v2
      rw [if_pos hm]
  · -- the next day is 1 January of the next year
    have hend : yd + 1 = 365 + (if leapIdx k then 1 else 0) := by omega
    have hstep := daysBeforeYear_step k
    have hy : yearDay (abs / 86400 + 1) = (k + 1, 0) :=
      yearDay_unique _ _ _ (by omega) (by split <;> omega)
    rw [hL] at hend
    have v := u2 hend
    rw [hy]
    simp only [dateOf, nextDate]
    rw [daysIn_monthLength _ _ f3 f4, v]
    have z := monthDay_zero (isLeap (((k + 1 : Nat) : Int) + absoluteZeroYear))
    simp only [Nat.cast_zero, Nat.cast_ofNat] at z ⊢
    rw [z]
    have e31 : ∀ b, monthLengthIn b 12 = 31 := by decide
    rw [e31]
    simp only [lt_self_iff_false, if_false]
    refine Prod.ext ?_ rfl
    simp only [Nat.cast_add, Nat.cast_one]
    omega
/-- C3: `absDate` is exact.  For every absolute second count `abs` (a `uint64`),
`absDate abs true` is the proleptic Gregorian date lying `abs / 86400` days after
1 January of year -292277022399: the number of days from that epoch to the returned
date, counted with the 4/100/400 leap rule, is `abs / 86400`; the month is in 1..12,
the day in `1..daysIn month year`, and the day of the year is zero-based, below the
length of the year, and agrees with the month and day. -/
theorem absDate_exact (abs : Nat) (_h : abs < 2 ^ 64) :
    absoluteZeroYear = -292277022399 ∧
    absoluteZeroYear ≤ (absDate abs true).1 ∧
    dayNumber (absDate abs true).1 (absDate abs true).2.1 (absDate abs true).2.2.1
      = ((abs / 86400 : Nat) : Int) ∧
    1 ≤ (absDate abs true).2.1 ∧ (absDate abs true).2.1 ≤ 12 ∧
    1 ≤ (absDate abs true).2.2.1 ∧
    (absDate abs true).2.2.1 ≤ daysIn (absDate abs true).2.1 (absDate abs true).1 ∧
    0 ≤ (absDate abs true).2.2.2 ∧
    (absDate abs true).2.2.2 < 365 + (if isLeap (absDate abs true).1 then 1 else 0) ∧
    (absDate abs true).2.2.2 =
      daysBeforeMonthIn (gregorianLeap (absDate abs true).1) (absDate abs true).2.1
        + (absDate abs true).2.2.1 - 1 :=
  ⟨rfl, absDate_fields abs⟩

/-- Witness for C3 at the absolute time of the test instant (2009-02-04, day 34 of the year). -/
theorem absDate_exact_witness :
    (9223372029949102857 : Nat) < 2 ^ 64 ∧
    absDate 9223372029949102857 true = (2009, 2, 4, 34) ∧
    dayNumber (absDate 9223372029949102857 true).1 (absDate 9223372029949102857 true).2.1
        (absDate 9223372029949102857 true).2.2.1
      = ((9223372029949102857 / 86400 : Nat) : Int) :=
  ⟨by decide, by decide, (absDate_exact 9223372029949102857 (by decide)).2.2.1⟩

/-- C4: `absDate` never skips or duplicates a day.  For every `abs` with
`abs + 86400 < 2 ^ 64` the date of `abs + 86400` is the calendar successor of the
date of `abs`; in particular, in a leap year 28 February is followed by 29 February
and then by 1 March. -/
theorem absDate_successor (abs : Nat) (_h : abs + 86400 < 2 ^ 64) :
    dateOf (absDate (abs + 86400) true) =
        nextDate (absDate abs true).1 (absDate abs true).2.1 (absDate abs true).2.2.1 ∧
    (∀ y : Int, isLeap y = true → dateOf (absDate abs true) = (y, 2, 28) →
      dateOf (absDate (abs + 86400) true) = (y, 2, 29) ∧
      (abs + 86400 + 86400 < 2 ^ 64 →
        dateOf (absDate (abs + 86400 + 86400) true) = (y, 3, 1))) := by
  refine ⟨absDate_next abs, ?_⟩
  intro y hy hd
  have h1 := absDate_next abs
  have h2 := absDate_next (abs + 86400)
  simp only [dateOf, Prod.mk.injEq] at hd
  obtain ⟨e1, e2, e3⟩ := hd
  have d29 : daysIn 2 y = 29 := by simp [daysIn, February, hy]
  have n1 : dateOf (absDate (abs + 86400) true) = (y, 2, 29) := by
    rw [h1, e1, e2, e3]
    simp [nextDate, d29]
  refine ⟨n1, fun _ => ?_⟩
  simp only [dateOf, Prod.mk.injEq] at n1
  obtain ⟨g1, g2, g3⟩ := n1
  rw [h2, g1, g2, g3]
  simp [nextDate, d29]

/-- Witness for C4: 28 February 2008 (a leap year) is followed by 29 February and 1 March. -/
theorem absDate_successor_witness :
    (9223372029919478400 : Nat) + 86400 < 2 ^ 64 ∧
    dateOf (absDate 9223372029919478400 true) = (2008, 2, 28) ∧
    dateOf (absDate (9223372029919478400 + 86400) true) = (2008, 2, 29) ∧
    dateOf (absDate (9223372029919478400 + 86400 + 86400) true) = (2008, 3, 1) :=
  have h := (absDate_successor 9223372029919478400 (by decide)).2 2008 (by decide) (by decide)
  ⟨by decide, by decide, h.1, h.2 (by decide)⟩

/-- C5: `daysIn` and `isLeap` follow the Gregorian rule for every year, including
zero and negative years.  February has 29 days exactly when the year is divisible by
4 and not by 100, or divisible by 400, and 28 days otherwise; every other month has
its fixed length whatever the year. -/
theorem daysIn_gregorian (y : Int) :
    (isLeap y = true ↔ ((4 ∣ y ∧ ¬ 100 ∣ y) ∨ 400 ∣ y)) ∧
    (daysIn February y = 29 ↔ ((4 ∣ y ∧ ¬ 100 ∣ y) ∨ 400 ∣ y)) ∧
    (¬ ((4 ∣ y ∧ ¬ 100 ∣ y) ∨ 400 ∣ y) → daysIn February y = 28) ∧
    (∀ m : Int, m ∈ [1, 3, 5, 7, 8, 10, 12] → daysIn m y = 31) ∧
    (∀ m : Int, m ∈ [4, 6, 9, 11] → daysIn m y = 30) ∧
    daysIn February 2000 = 29 ∧ daysIn February 1900 = 28 ∧ daysIn February 2004 = 29 := by
  have hl : isLeap y = true ↔ ((4 ∣ y ∧ ¬ 100 ∣ y) ∨ 400 ∣ y) := by
    rw [isLeap_eq_gregorianLeap]
    simp [gregorianLeap]
  have hm : ∀ m : Int, 1 ≤ m → m ≤ 12 → daysIn m y = monthLengthIn (isLeap y) m :=
    fun m h1 h2 => daysIn_monthLength m y h1 h2
  refine ⟨hl, ?_, ?_, ?_, ?_, by decide, by decide, by decide⟩
  · rw [← hl, hm February (by decide) (by decide)]
    cases isLeap y <;> decide
  · rw [← hl, hm February (by decide) (by decide)]
    cases isLeap y <;> decide
  · intro m hmem
    simp only [List.mem_cons, List.mem_singleton, List.not_mem_nil, or_false] at hmem
    rcases hmem with h | h | h | h | h | h | h <;> subst h <;>
      rw [hm _ (by decide) (by decide)] <;> cases isLeap y <;> decide
  · intro m hmem
    simp only [List.mem_cons, List.mem_singleton, List.not_mem_nil, or_false] at hmem
    rcases hmem with h | h | h | h <;> subst h <;>
      rw [hm _ (by decide) (by decide)] <;> cases isLeap y <;> decide

/-- C6: `absWeekday` agrees with the date.  For every `abs < 2 ^ 64 - 86400`,
`absWeekday abs = (1 + abs / 86400) mod 7` with Sunday = 0; so absolute second 0
falls on a Monday and the weekday advances by exactly one (mod 7) every 86400
seconds. -/
theorem absWeekday_eq (abs : Nat) (h : abs < 2 ^ 64 - 86400) :
    absWeekday abs = (1 + abs / 86400) % 7 ∧
    absWeekday 0 = Monday ∧
    (abs + 86400 < 2 ^ 64 - 86400 → absWeekday (abs + 86400) = (absWeekday abs + 1) % 7) := by
  have key : ∀ a : Nat, a < 2 ^ 64 - 86400 → absWeekday a = (1 + a / 86400) % 7 := by
    intro a ha
    simp only [absWeekday, Monday, secondsPerWeek, secondsPerDay, secondsPerHour]
    norm_num at ha ⊢
    omega
  refine ⟨key abs h, by decide, fun h2 => ?_⟩
  rw [key abs h, key _ h2]
  omega

/-- Witness for C6: the absolute time of the test instant (local date 2009-02-04)
falls on a Wednesday (3). -/
theorem absWeekday_eq_witness :
    (locabs testInstant).2.2 = 9223372029949102857 ∧
    (9223372029949102857 : Nat) < 2 ^ 64 - 86400 ∧
    absWeekday 9223372029949102857 = 3 ∧
    absWeekday 9223372029949102857 = (1 + 9223372029949102857 / 86400) % 7 :=
  ⟨by decide, by decide, by decide, (absWeekday_eq 9223372029949102857 (by decide)).1⟩

/-! ### Pattern lexer -/

/-- Prepend `w` to the literal prefix of a chunk. -/
theorem drop_length_takeWhile {α : Type} (p : α → Bool) (l : List α) :
    l.drop (l.takeWhile p).length = l.dropWhile p := by
  induction l with
  | nil => rfl
  | cons a l ih =>
    simp only [List.takeWhile_cons, List.dropWhile_cons]
    split
    · simpa using ih
    · rfl

theorem length_dropWhile_le {α : Type} (p : α → Bool) (l : List α) :
    (l.dropWhile p).length ≤ l.length := by
  induction l with
  | nil => simp
  | cons a l ih =>
    simp only [List.dropWhile_cons]
    split
    · simp only [List.length_cons]; omega
    · simp

/-- The scan does not depend on the part of the layout already passed: it only
prepends it to the literal prefix. -/
theorem nextStdChunkLoop_pre (fuel : Nat) (pre rest : Str) :
    nextStdChunkLoop fuel pre rest =
      (nextStdChunkLoop fuel [] rest).map (fun c => (pre ++ c.1, c.2.1, c.2.2)) := by
  induction fuel generalizing pre rest with
  | zero => rfl
  | succ fuel ih =>
    cases rest with
    | nil => simp [nextStdChunkLoop, Outcome.map]
    | cons r tl =>
      simp only [nextStdChunkLoop]
      split
      · split
        · simp [Outcome.map]
        · rw [ih (pre ++ _), ih ([] ++ _)]
          cases nextStdChunkLoop fuel [] _ <;> simp [Outcome.map]
      · split
        · cases tl with
          | nil => simp [Outcome.map]
          | cons c tl2 =>
            simp only []
            split
            · rw [ih (pre ++ _), ih ([] ++ _)]
              cases nextStdChunkLoop fuel [] _ <;> simp [Outcome.map]
            · split
              · simp [Outcome.map]
              · rw [ih (pre ++ _), ih ([] ++ _)]
                cases nextStdChunkLoop fuel [] _ <;> simp [Outcome.map]
        · rw [ih (pre ++ _), ih ([] ++ _)]
          cases nextStdChunkLoop fuel [] _ <;> simp [Outcome.map]

/-- Any budget above the length of the text still to scan gives the same result. -/
theorem nextStdChunkLoop_fuel (f1 f2 : Nat) (pre rest : Str)
    (h1 : rest.length < f1) (h2 : rest.length < f2) :
    nextStdChunkLoop f1 pre rest = nextStdChunkLoop f2 pre rest := by
  induction f1 generalizing f2 pre rest with
  | zero => omega
  | succ f1 ih =>
    cases f2 with
    | zero => omega
    | succ f2 =>
      cases rest with
      | nil => simp [nextStdChunkLoop]
      | cons r tl =>
        simp only [List.length_cons] at h1 h2
        have hd : ∀ k, (tl.drop k).length ≤ tl.length := fun k => by
          rw [List.length_drop]; omega
        simp only [nextStdChunkLoop]
        split
        · split
          · rfl
          · exact ih _ _ _ (by have := hd (1 + (tl.takeWhile (fun c => c == r)).length - 1); omega)
              (by have := hd (1 + (tl.takeWhile (fun c => c == r)).length - 1); omega)
        · split
          · cases tl with
            | nil => rfl
            | cons c tl2 =>
              simp only [List.length_cons] at h1 h2
              simp only []
              split
              · exact ih _ _ _ (by omega) (by omega)
              · split
                · rfl
                · rename_i after heq
                  have := hd ((List.takeWhile (fun c => c != r) (c :: tl2)).length)
                  rw [heq] at this
                  simp only [List.length_cons] at this
                  exact ih _ _ _ (by omega) (by omega)
          · exact ih _ _ _ (by omega) (by omega)

theorem takeWhile_run (c : Char) (n : Nat) (r : Str) (hr : r.head? ≠ some c) :
    (List.replicate n c ++ r).takeWhile (fun x => x == c) = List.replicate n c := by
  induction n with
  | zero =>
    cases r with
    | nil => rfl
    | cons a r =>
      have : a ≠ c := fun h => hr (by simp [h])
      simp [List.takeWhile_cons, this]
  | succ n ih => simp [List.replicate_succ, List.takeWhile_cons, ih]

/-- Scanning a text without trigger characters only moves it to the prefix. -/
theorem nextStdChunkLoop_literal (p : Str) (hp : ∀ x ∈ p, x ∉ triggerChars)
    (fuel : Nat) (pre rest : Str) :
    nextStdChunkLoop (p.length + fuel) pre (p ++ rest) = nextStdChunkLoop fuel (pre ++ p) rest := by
  induction p generalizing pre with
  | nil => simp
  | cons a p ih =>
    have ha : a ∉ triggerChars := hp a (List.mem_cons_self _ _)
    have hl : isStdLetter a = false := by
      simp only [triggerChars, List.mem_cons, List.mem_singleton, not_or, List.not_mem_nil,
        or_false] at ha
      simp [isStdLetter, ha]
    have hq : a ≠ quote := by
      simp only [triggerChars, List.mem_cons, List.mem_singleton, not_or] at ha
      exact ha.2.2.2.2.2.2.2.2.2.2.2.2.2.1
    have e : (a :: p).length + fuel = (p.length + fuel) + 1 := by simp; omega
    rw [e, List.cons_append]
    simp only [nextStdChunkLoop, hl, hq, Bool.false_eq_true, if_false]
    rw [ih (fun x hx => hp x (List.mem_cons_of_mem _ hx))]
    simp

/-- A run of a letter met by the scan: the chunk returned, or the resumed scan. -/
theorem nextStdChunkLoop_run (c : Char) (hc : isStdLetter c = true) (n : Nat) (r : Str)
    (hr : r.head? ≠ some c) (fuel : Nat) (pre : Str) :
    nextStdChunkLoop (fuel + 1) pre (List.replicate (n + 1) c ++ r) =
      match stdOfRun c (n + 1) with
      | some std => .ok (pre, std, r)
      | none => nextStdChunkLoop fuel (pre ++ List.replicate (n + 1) c) r := by
  rw [List.replicate_succ, List.cons_append]
  simp only [nextStdChunkLoop, hc, if_true]
  rw [takeWhile_run c n r hr]
  simp only [List.length_replicate, Nat.add_sub_cancel_left]
  have hd : List.drop n (List.replicate n c ++ r) = r := by
    rw [List.drop_append_eq_append_drop]
    simp
  have ht : List.take (1 + n) (c :: (List.replicate n c ++ r)) = List.replicate (n + 1) c := by
    rw [Nat.add_comm, List.take_succ_cons, List.take_append_eq_append_take, List.replicate_succ]
    simp
  rw [hd, ht, Nat.add_comm 1 n]
  simp only [List.replicate_succ]

theorem directiveTable_stdOfRun (c : Char) (n : Nat) (std : Nat) (hn : 1 ≤ n)
    (h : directiveTable c n = some std) : isStdLetter c = true ∧ stdOfRun c n = some std := by
  unfold directiveTable at h
  split at h <;> first
    | (refine ⟨by decide, ?_⟩
       simp only [stdOfRun] at h ⊢
       simp only [Char.reduceEq, if_true, if_false, or_self, or_false, or_true, false_or,
         true_or] at h ⊢
       repeat' split at h
       all_goals first
         | omega
         | (simp only [Option.some.injEq, reduceCtorEq] at h
            subst h
            first
              | rfl
              | (split_ifs <;> first | rfl | omega))
         | (simp only [Option.some.injEq, reduceCtorEq] at h))
    | simp at h
/-- C7: the directive table of the lexer.  For every pattern `p ++ c^n ++ r` where
`p` contains no trigger character, `n ≥ 1` and `r` does not begin with `c`,
`nextStdChunk` returns the prefix `p`, the suffix `r` and the directive that the
table fixes for the character `c` and the run length `n`. -/
theorem nextStdChunk_table (p r : Str) (c : Char) (n std : Nat)
    (hp : ∀ x ∈ p, x ∉ triggerChars) (hn : 1 ≤ n) (hr : r.head? ≠ some c)
    (ht : directiveTable c n = some std) :
    nextStdChunk (p ++ List.replicate n c ++ r) = .ok (p, std, r) := by
  obtain ⟨hc, hs⟩ := directiveTable_stdOfRun c n std hn ht
  obtain ⟨m, rfl⟩ : ∃ m, n = m + 1 := ⟨n - 1, by omega⟩
  unfold nextStdChunk
  have e : (p ++ List.replicate (m + 1) c ++ r).length + 1
      = p.length + ((m + r.length + 1) + 1) := by
    simp only [List.length_append, List.length_replicate]; omega
  rw [e, List.append_assoc, nextStdChunkLoop_literal p hp,
    nextStdChunkLoop_run c hc m r hr, hs]
  simp

/-- Witness for C7: the date part of the layout RFC1123, `", dd MMM YYYY"`, after the
weekday: the literal `", "` and then the zero-padded day for the run `dd`. -/
theorem nextStdChunk_table_witness :
    nextStdChunk (", ".toList ++ List.replicate 2 'd' ++ " MMM YYYY".toList)
      = .ok (", ".toList, stdZeroDay, " MMM YYYY".toList) :=
  nextStdChunk_table ", ".toList " MMM YYYY".toList 'd' 2 stdZeroDay (by decide) (by decide)
    (by decide) (by decide)

theorem fracStd_bits (base j : Nat) (hb : base < 2 ^ 16) :
    (base ||| (j <<< stdArgShift)) &&& stdMask = base ∧
      (base ||| (j <<< stdArgShift)) >>> stdArgShift = j := by
  have e1 : base ||| (j <<< stdArgShift) = 2 ^ 16 * j + base := by
    rw [Nat.mul_add_lt_is_or hb, Nat.lor_comm, Nat.shiftLeft_eq, Nat.mul_comm]
    rfl
  have e2 : stdMask = 2 ^ 16 - 1 := by decide
  rw [e1, e2, Nat.and_pow_two_sub_one_eq_mod]
  refine ⟨?_, ?_⟩
  · rw [Nat.mul_add_mod]
    exact Nat.mod_eq_of_lt hb
  · show (2 ^ 16 * j + base) >>> 16 = j
    rw [Nat.shiftRight_eq_div_pow]
    omega

theorem appendStd_frac (name : Str) (offset : Int) (abs nanosecond : Nat) (f : FormatFields)
    (b : Str) (std : Nat)
    (h : std &&& stdMask = stdFracSecond0 ∨ std &&& stdMask = stdFracSecond9) :
    appendStd name offset abs nanosecond f b std
      = formatNano b nanosecond (std >>> stdArgShift) (std &&& stdMask == stdFracSecond9) := by
  unfold appendStd
  rcases h with h | h
  · simp only [h]
    simp [stdFracSecond0, stdFracSecond9, stdYear, stdLongYear, stdMonth, stdLongMonth,
      stdNumMonth, stdZeroMonth, stdWeekDay, stdLongWeekDay, stdDay, stdUnderDay, stdZeroDay,
      stdHour, stdHour12, stdZeroHour12, stdMinute, stdZeroMinute, stdSecond, stdZeroSecond,
      stdPM, stdpm, stdISO8601TZ, stdISO8601ColonTZ, stdISO8601SecondsTZ, stdISO8601ShortTZ,
      stdISO8601ColonSecondsTZ, stdNumTZ, stdNumColonTZ, stdNumSecondsTz, stdNumShortTZ,
      stdNumColonSecondsTZ, stdTZ, stdNeedDate, stdNeedClock]
  · simp only [h]
    simp [stdFracSecond0, stdFracSecond9, stdYear, stdLongYear, stdMonth, stdLongMonth,
      stdNumMonth, stdZeroMonth, stdWeekDay, stdLongWeekDay, stdDay, stdUnderDay, stdZeroDay,
      stdHour, stdHour12, stdZeroHour12, stdMinute, stdZeroMinute, stdSecond, stdZeroSecond,
      stdPM, stdpm, stdISO8601TZ, stdISO8601ColonTZ, stdISO8601SecondsTZ, stdISO8601ShortTZ,
      stdISO8601ColonSecondsTZ, stdNumTZ, stdNumColonTZ, stdNumSecondsTz, stdNumShortTZ,
      stdNumColonSecondsTZ, stdTZ, stdNeedDate, stdNeedClock]

/-- C8 (as amended): for a run of `n` characters `S` the lexer emits a
fractional-second directive carrying the count `n`; for `1 ≤ n ≤ 3` it is the
fixed-width directive (`stdFracSecond0`, trailing zeros kept), for `n ≥ 4` the
trimmed one (`stdFracSecond9`, trailing zeros dropped), and `AppendFormat` renders
it by `formatNano` with that count and that trimming flag. -/
theorem nextStdChunk_fracSecond (p r : Str) (n : Nat)
    (hp : ∀ x ∈ p, x ∉ triggerChars) (hn : 1 ≤ n) (hr : r.head? ≠ some 'S') :
    ∃ std, nextStdChunk (p ++ List.replicate n 'S' ++ r) = .ok (p, std, r) ∧
      fracCount std = n ∧
      (n ≤ 3 → std &&& stdMask = stdFracSecond0 ∧ fracTrimmed std = false) ∧
      (4 ≤ n → std &&& stdMask = stdFracSecond9 ∧ fracTrimmed std = true) ∧
      ∀ (name : Str) (offset : Int) (abs nanosecond : Nat) (f : FormatFields) (b : Str),
        appendStd name offset abs nanosecond f b std
          = formatNano b nanosecond n (decide (4 ≤ n)) := by
  obtain ⟨m, rfl⟩ : ∃ m, n = m + 1 := ⟨n - 1, by omega⟩
  have hchunk : ∀ std, stdOfRun 'S' (m + 1) = some std →
      nextStdChunk (p ++ List.replicate (m + 1) 'S' ++ r) = .ok (p, std, r) := by
    intro std hs
    unfold nextStdChunk
    have e : (p ++ List.replicate (m + 1) 'S' ++ r).length + 1
        = p.length + ((m + r.length + 1) + 1) := by
      simp only [List.length_append, List.length_replicate]; omega
    rw [e, List.append_assoc, nextStdChunkLoop_literal p hp,
      nextStdChunkLoop_run 'S' (by decide) m r hr, hs]
    simp
  by_cases h3 : m + 1 ≤ 3
  · obtain ⟨b1, b2⟩ := fracStd_bits stdFracSecond0 (m + 1) (by decide)
    refine ⟨stdFracSecond0 ||| ((m + 1) <<< stdArgShift), hchunk _ ?_, b2, ?_, ?_, ?_⟩
    · simp only [stdOfRun, Char.reduceEq, if_true, if_false, or_self]
      rw [if_pos (by omega)]
    · intro _
      exact ⟨b1, by simp only [fracTrimmed, b1]; decide⟩
    · intro h4; omega
    · intro name offset abs nanosecond f b
      have hd : decide (4 ≤ m + 1) = false := by simp; omega
      rw [appendStd_frac _ _ _ _ _ _ _ (Or.inl b1), b1, b2, hd]
      rfl
  · obtain ⟨b1, b2⟩ := fracStd_bits stdFracSecond9 (m + 1) (by decide)
    refine ⟨stdFracSecond9 ||| ((m + 1) <<< stdArgShift), hchunk _ ?_, b2, ?_, ?_, ?_⟩
    · simp only [stdOfRun, Char.reduceEq, if_true, if_false, or_self]
      rw [if_neg (by omega)]
    · intro h; omega
    · intro _
      exact ⟨b1, by simp only [fracTrimmed, b1]; decide⟩
    · intro name offset abs nanosecond f b
      have hd : decide (4 ≤ m + 1) = true := by simp; omega
      rw [appendStd_frac _ _ _ _ _ _ _ (Or.inr b1), b1, b2, hd]
      rfl

/-- Counterexample to C8 as stated: a single `S` yields the fixed-width directive,
not the trimmed one (nanosecond 0 renders as "0", where a trimmed field would be
empty), and `SSSS` yields the trimmed directive, not the fixed-width one
(500000000 ns renders as "5", not "5000"). -/
theorem fracSecond_selection_counterexample :
    (∃ std, nextStdChunk "S".toList = .ok ([], std, []) ∧ fracCount std = 1 ∧
      fracTrimmed std = false) ∧
    (∃ std, nextStdChunk "SSSS".toList = .ok ([], std, []) ∧ fracCount std = 4 ∧
      fracTrimmed std = true) ∧
    Format (Instant.mk 1233810057 0 false "PST".toList (-28800)) "S".toList = .ok "0".toList ∧
    Format (Instant.mk 1233810057 500000000 false "PST".toList (-28800)) "SSSS".toList = .ok "5".toList ∧
    ¬ (∀ n : Nat, 1 ≤ n → ∀ std, nextStdChunk (List.replicate n 'S') = .ok ([], std, []) →
        (fracTrimmed std = true ↔ n ≤ 3)) := by
  refine ⟨⟨stdFracSecond0 ||| (1 <<< stdArgShift), by decide, by decide, by decide⟩,
    ⟨stdFracSecond9 ||| (4 <<< stdArgShift), by decide, by decide, by decide⟩,
    by decide, by decide, ?_⟩
  intro h
  have := (h 1 (by decide) _ (by decide : nextStdChunk (List.replicate 1 'S')
    = .ok ([], stdFracSecond0 ||| (1 <<< stdArgShift), []))).mpr (by decide)
  revert this
  decide

/-- Witness for the amended C8: the fraction of the layout RFC3339Nano, nine `S`
after the literal ".", is the trimmed directive carrying the count 9. -/
theorem nextStdChunk_fracSecond_witness :
    ∃ std, nextStdChunk (".".toList ++ List.replicate 9 'S' ++ "ZZ".toList)
        = .ok (".".toList, std, "ZZ".toList) ∧
      fracCount std = 9 ∧ std &&& stdMask = stdFracSecond9 ∧ fracTrimmed std = true :=
  match nextStdChunk_fracSecond ".".toList "ZZ".toList 9 (by decide) (by decide) (by decide) with
  | ⟨std, h1, h2, _, h4, _⟩ => ⟨std, h1, h2, (h4 (by decide)).1, (h4 (by decide)).2⟩

/-! ### Formatter -/

theorem appendInt_append (b0 b : Str) (x : Int) (w : Nat) :
    appendInt (b0 ++ b) x w = b0 ++ appendInt b x w := by
  unfold appendInt
  simp only []
  split <;> simp [List.append_assoc]

theorem formatNano_append (b0 b : Str) (ns n : Nat) (trim : Bool) :
    formatNano (b0 ++ b) ns n trim = b0 ++ formatNano b ns n trim := by
  unfold formatNano
  simp only []
  split
  · split <;> split <;> simp [List.append_assoc]
  · simp [List.append_assoc]

theorem appendZone_append (b0 b : Str) (std : Nat) (offset : Int) :
    appendZone (b0 ++ b) std offset = b0 ++ appendZone b std offset := by
  unfold appendZone
  simp only []
  split_ifs <;> simp only [appendInt_append, List.append_assoc]

theorem appendInt_ite (c : Prop) [Decidable c] (x y : Str) (v : Int) (w : Nat) :
    appendInt (if c then x else y) v w = if c then appendInt x v w else appendInt y v w :=
  apply_ite (fun l : Str => appendInt l v w) c x y

theorem appendStd_append (name : Str) (offset : Int) (abs ns : Nat) (f : FormatFields)
    (b0 b : Str) (std : Nat) :
    appendStd name offset abs ns f (b0 ++ b) std
      = b0 ++ appendStd name offset abs ns f b std := by
  unfold appendStd
  simp only [apply_ite (fun l : Str => b0 ++ l), appendInt_ite, appendInt_append,
    formatNano_append, appendZone_append, List.append_assoc]
/-- A chunk that carries a directive leaves a suffix shorter than the text scanned. -/
theorem nextStdChunkLoop_suffix (fuel : Nat) (pre rest p suf : Str) (std : Nat)
    (h : nextStdChunkLoop fuel pre rest = .ok (p, std, suf)) (hs : std ≠ 0) :
    suf.length < rest.length := by
  induction fuel generalizing pre rest with
  | zero => simp [nextStdChunkLoop] at h
  | succ fuel ih =>
    cases rest with
    | nil =>
      simp only [nextStdChunkLoop, Outcome.ok.injEq, Prod.mk.injEq] at h
      exact absurd h.2.1.symm hs
    | cons r tl =>
      have hd : ∀ k, (tl.drop k).length ≤ tl.length := fun k => by
        rw [List.length_drop]; omega
      simp only [nextStdChunkLoop] at h
      simp only [List.length_cons]
      split at h
      · split at h
        · simp only [Outcome.ok.injEq, Prod.mk.injEq] at h
          rw [← h.2.2]
          have := hd (1 + (tl.takeWhile (fun c => c == r)).length - 1)
          omega
        · have := ih _ _ h
          have := hd (1 + (tl.takeWhile (fun c => c == r)).length - 1)
          omega
      · split at h
        · cases tl with
          | nil => simp at h
          | cons c tl2 =>
            simp only [] at h
            simp only [List.length_cons]
            split at h
            · have := ih _ _ h
              omega
            · split at h
              · simp at h
              · rename_i after heq
                have h1 := hd ((List.takeWhile (fun c => c != r) (c :: tl2)).length)
                rw [heq] at h1
                simp only [List.length_cons] at h1
                have := ih _ _ h
                omega
        · have := ih _ _ h
          omega

theorem nextStdChunk_suffix (layout p suf : Str) (std : Nat)
    (h : nextStdChunk layout = .ok (p, std, suf)) (hs : std ≠ 0) :
    suf.length < layout.length :=
  nextStdChunkLoop_suffix _ _ _ _ _ _ h hs

/-- The formatting loop only appends to its buffer. -/
theorem appendFormatLoop_append (name : Str) (offset : Int) (abs ns : Nat) (fuel : Nat)
    (f : FormatFields) (b0 b layout : Str) :
    appendFormatLoop name offset abs ns fuel f (b0 ++ b) layout =
      (appendFormatLoop name offset abs ns fuel f b layout).map (fun s => b0 ++ s) := by
  induction fuel generalizing f b layout with
  | zero => rfl
  | succ fuel ih =>
    simp only [appendFormatLoop]
    split
    · rfl
    · cases nextStdChunk layout with
      | panic => rfl
      | outOfFuel => rfl
      | ok c =>
        obtain ⟨pre, std, suffix⟩ := c
        simp only []
        split
        · simp [Outcome.map]
        · rw [List.append_assoc, appendStd_append, ih]

/-- Any budget above the length of the layout gives the same formatting result. -/
theorem appendFormatLoop_fuel (name : Str) (offset : Int) (abs ns : Nat) (f1 f2 : Nat)
    (f : FormatFields) (b layout : Str) (h1 : layout.length < f1) (h2 : layout.length < f2) :
    appendFormatLoop name offset abs ns f1 f b layout =
      appendFormatLoop name offset abs ns f2 f b layout := by
  induction f1 generalizing f2 f b layout with
  | zero => omega
  | succ f1 ih =>
    cases f2 with
    | zero => omega
    | succ f2 =>
      simp only [appendFormatLoop]
      split
      · rfl
      · cases hc : nextStdChunk layout with
        | panic => rfl
        | outOfFuel => rfl
        | ok c =>
          obtain ⟨pre, std, suffix⟩ := c
          simp only []
          split
          · rfl
          · rename_i hstd
            have := nextStdChunk_suffix _ _ _ _ hc hstd
            exact ih _ _ _ _ (by omega) (by omega)
theorem appendIntDigits_eq (fuel u : Nat) (acc : Str) (h : u < 10 ^ fuel) (hf : 0 < fuel) :
    appendIntDigits fuel u acc = decimal u ++ acc := by
  induction fuel generalizing u acc with
  | zero => omega
  | succ fuel ih =>
    rw [appendIntDigits]
    by_cases h10 : u ≥ 10
    · rw [if_pos h10]
      have hq : u / 10 < 10 ^ fuel := by
        rw [Nat.div_lt_iff_lt_mul (by decide)]
        rw [Nat.pow_succ] at h
        exact h
      have hf' : 0 < fuel := by
        rcases Nat.eq_zero_or_pos fuel with e | e
        · subst e; simp at h; omega
        · exact e
      rw [ih (u / 10) _ hq hf']
      have hu : u ≠ 0 := by omega
      have hq0 : u / 10 ≠ 0 := by omega
      simp only [decimal, hu, hq0, if_false]
      rw [Nat.digits_def' (by decide : 1 < 10) (by omega : 0 < u)]
      simp
    · rw [if_neg h10]
      have hlt : u < 10 := by omega
      simp only [decimal]
      split
      · rename_i h0; subst h0; rfl
      · rename_i h0
        rw [Nat.digits_of_lt 10 u h0 hlt]
        rfl

theorem appendInt_eq (b : Str) (x : Int) (w : Nat) (hx : x.natAbs < 2 ^ 64) :
    appendInt b x w = b ++ zeroPadded w x := by
  have hd : ∀ u : Nat, u < 2 ^ 64 → appendIntDigits 20 u [] = decimal u := by
    intro u hu
    rw [appendIntDigits_eq 20 u [] (by omega) (by decide), List.append_nil]
  unfold appendInt zeroPadded
  simp only []
  by_cases hneg : x < 0
  · have e : ((-x) % 2 ^ 64).toNat = x.natAbs := by omega
    simp only [hneg, if_true, e]
    rw [hd _ hx]
    simp [List.append_assoc]
  · have e : (x % 2 ^ 64).toNat = x.natAbs := by omega
    simp only [hneg, if_false, e]
    rw [hd _ hx]
    simp [List.append_assoc]
theorem absClock_bounds (abs : Nat) :
    0 ≤ (absClock abs).1 ∧ (absClock abs).1 < 24 ∧
    0 ≤ (absClock abs).2.1 ∧ (absClock abs).2.1 < 60 ∧
    0 ≤ (absClock abs).2.2 ∧ (absClock abs).2.2 < 60 := by
  simp only [absClock, secondsPerDay, secondsPerHour, secondsPerMinute]
  norm_num
  have h0 : 0 ≤ (abs : Int) % 86400 := by omega
  have h1 : (abs : Int) % 86400 < 86400 := by omega
  generalize (abs : Int) % 86400 = s at h0 h1 ⊢
  rw [Int.tdiv_eq_ediv h0 (by decide)]
  have h2 : 0 ≤ s - s / 3600 * 3600 := by omega
  rw [Int.tdiv_eq_ediv h2 (by decide)]
  omega

theorem digitByte_zero : digitByte 0 = '0' := rfl

theorem appendIntDigits_ge (fuel u : Nat) (acc : Str) (h : u ≥ 10) :
    appendIntDigits (fuel + 1) u acc = appendIntDigits fuel (u / 10) (digitByte (u % 10) :: acc) := by
  show (if u ≥ 10 then _ else _) = _
  rw [if_pos h]

theorem appendIntDigits_lt (fuel u : Nat) (acc : Str) (h : ¬ u ≥ 10) :
    appendIntDigits (fuel + 1) u acc = digitByte u :: acc := by
  show (if u ≥ 10 then _ else _) = _
  rw [if_neg h]

theorem appendInt_nat (b : Str) (n w : Nat) (hn : n < 2 ^ 64) :
    appendInt b (n : Int) w =
      b ++ List.replicate (w - (appendIntDigits 20 n []).length) '0' ++ appendIntDigits 20 n [] := by
  have e : (((n : Int)) % 2 ^ 64).toNat = n := by omega
  have hneg : ¬ ((n : Int) < 0) := by omega
  unfold appendInt
  simp only [hneg, if_false, e]

theorem appendInt_two (b : Str) (v : Int) (h0 : 0 ≤ v) (h1 : v < 100) :
    appendInt b v 2 = b ++ [digitByte (v.toNat / 10), digitByte (v.toNat % 10)] := by
  obtain ⟨n, rfl⟩ : ∃ n : Nat, v = (n : Int) := ⟨v.toNat, by omega⟩
  have hn : n < 100 := by omega
  rw [appendInt_nat b n 2 (by omega), Int.toNat_ofNat]
  by_cases h10 : n ≥ 10
  · have h2 : ¬ (n / 10 ≥ 10) := by omega
    rw [appendIntDigits_ge _ _ _ h10, appendIntDigits_lt _ _ _ h2]
    simp
  · have h2 : n / 10 = 0 := by omega
    have h3 : n % 10 = n := by omega
    rw [appendIntDigits_lt _ _ _ h10, h2, h3]
    simp [digitByte_zero]

theorem appendInt_four (b : Str) (v : Int) (h0 : 0 ≤ v) (h1 : v < 10000) :
    appendInt b v 4 = b ++ [digitByte (v.toNat / 1000), digitByte (v.toNat / 100 % 10),
      digitByte (v.toNat / 10 % 10), digitByte (v.toNat % 10)] := by
  obtain ⟨n, rfl⟩ : ∃ n : Nat, v = (n : Int) := ⟨v.toNat, by omega⟩
  have hn : n < 10000 := by omega
  rw [appendInt_nat b n 4 (by omega), Int.toNat_ofNat]
  by_cases h10 : n ≥ 10
  · rw [appendIntDigits_ge _ _ _ h10]
    by_cases h100 : n / 10 ≥ 10
    · rw [appendIntDigits_ge _ _ _ h100]
      by_cases h1000 : n / 10 / 10 ≥ 10
      · have h4 : ¬ (n / 10 / 10 / 10 ≥ 10) := by omega
        have e1 : n / 10 / 10 / 10 = n / 1000 := by omega
        have e2 : n / 10 / 10 % 10 = n / 100 % 10 := by omega
        rw [appendIntDigits_ge _ _ _ h1000, appendIntDigits_lt _ _ _ h4, e1, e2]
        simp
      · have e1 : n / 1000 = 0 := by omega
        have e2 : n / 10 / 10 = n / 100 % 10 := by omega
        rw [appendIntDigits_lt _ _ _ h1000, e1, e2]
        simp [digitByte_zero]
    · have e1 : n / 1000 = 0 := by omega
      have e2 : n / 100 % 10 = 0 := by omega
      have e3 : n / 10 % 10 = n / 10 := by omega
      rw [appendIntDigits_lt _ _ _ h100, e1, e2, e3]
      simp [digitByte_zero]
  · have e1 : n / 1000 = 0 := by omega
    have e2 : n / 100 % 10 = 0 := by omega
    have e3 : n / 10 % 10 = 0 := by omega
    have e4 : n % 10 = n := by omega
    rw [appendIntDigits_lt _ _ _ h10, e1, e2, e3, e4]
    simp [digitByte_zero]
theorem appendFormatLoop_step (name : Str) (offset : Int) (abs ns fuel : Nat)
    (f : FormatFields) (b layout pre suffix : Str) (std : Nat) (hl : layout ≠ [])
    (hc : nextStdChunk layout = .ok (pre, std, suffix)) (hs : std ≠ 0) :
    appendFormatLoop name offset abs ns (fuel + 1) f b layout =
      appendFormatLoop name offset abs ns fuel (computeFields abs f std)
        (appendStd name offset abs ns (computeFields abs f std) (b ++ pre) std) suffix := by
  rw [appendFormatLoop, if_neg hl, hc]
  simp only [hs, if_false]

/-- The year that `absDate` returns fits a Go `int`. -/
theorem absDate_year_bound (abs : Nat) (h : abs < 2 ^ 64) :
    ((absDate abs true).1).natAbs < 2 ^ 63 := by
  rw [absDate_eq]
  obtain ⟨a1, a2, a3⟩ := yearDay_split (abs / secondsPerDay)
  have hs : secondsPerDay = 86400 := rfl
  rw [hs] at a1 a2 a3 ⊢
  generalize (yearDay (abs / 86400)).1 = k at a1 a2 a3 ⊢
  generalize (yearDay (abs / 86400)).2 = yd at a1 a2 a3 ⊢
  simp only [absoluteZeroYear]
  omega

theorem locabs_lt (t : Instant) : (locabs t).2.2 < 2 ^ 64 := by
  simp only [locabs]
  omega

theorem computeFields_date (abs : Nat) (f : FormatFields) (std : Nat)
    (hd : std &&& stdNeedDate ≠ 0) (hc : std &&& stdNeedClock = 0)
    (hf : f.year = -1 ∨ (f.year = (absDate abs true).1 ∧ f.month = (absDate abs true).2.1 ∧
      f.day = (absDate abs true).2.2.1)) :
    computeFields abs f std =
      { f with year := (absDate abs true).1, month := (absDate abs true).2.1,
               day := (absDate abs true).2.2.1 } := by
  unfold computeFields
  simp only [hd, hc, ne_eq, not_true_eq_false, not_false_eq_true, and_true, and_false, if_false]
  split
  · rfl
  · rcases hf with h | ⟨h1, h2, h3⟩
    · rename_i hn
      rw [h] at hn
      exact absurd (by decide) hn
    · cases f
      simp only at h1 h2 h3
      subst h1 h2 h3
      rfl

theorem computeFields_clock (abs : Nat) (f : FormatFields) (std : Nat)
    (hd : std &&& stdNeedDate = 0) (hc : std &&& stdNeedClock ≠ 0)
    (hf : f.hour = -1 ∨ (f.hour = (absClock abs).1 ∧ f.min = (absClock abs).2.1 ∧
      f.sec = (absClock abs).2.2)) :
    computeFields abs f std =
      { f with hour := (absClock abs).1, min := (absClock abs).2.1,
               sec := (absClock abs).2.2 } := by
  unfold computeFields
  simp only [hd, hc, ne_eq, not_true_eq_false, not_false_eq_true, and_true, and_false, if_false]
  split
  · rfl
  · rcases hf with h | ⟨h1, h2, h3⟩
    · rename_i hn
      rw [h] at hn
      exact absurd (by decide) hn
    · cases f
      simp only at h1 h2 h3
      subst h1 h2 h3
      rfl

/-- The text that `Format` produces for the layout `YYYY-MM-dd HH:mm:ss`, in terms
of `appendInt`. -/
theorem Format_numeric_appendInt (t : Instant) :
    Format t numericLayout = .ok
      (appendInt (appendInt (appendInt (appendInt (appendInt (appendInt []
        (absDate (locabs t).2.2 true).1 4 ++ ['-'])
        (absDate (locabs t).2.2 true).2.1 2 ++ ['-'])
        (absDate (locabs t).2.2 true).2.2.1 2 ++ [' '])
        (absClock (locabs t).2.2).1 2 ++ [':'])
        (absClock (locabs t).2.2).2.1 2 ++ [':'])
        (absClock (locabs t).2.2).2.2 2) := by
  unfold Format AppendFormat
  simp only []
  generalize (locabs t).1 = name
  generalize (locabs t).2.1 = offset
  generalize (locabs t).2.2 = abs
  have s1 : ∀ (f : FormatFields) (b : Str),
      appendStd name offset abs t.nanosecond f b stdLongYear = appendInt b f.year 4 := by
    intro f b
    unfold appendStd
    simp only [show stdLongYear &&& stdMask = stdLongYear from by decide]
    simp [stdFracSecond0, stdFracSecond9, stdYear, stdLongYear, stdMonth,
      stdLongMonth, stdNumMonth, stdZeroMonth, stdWeekDay, stdLongWeekDay, stdDay, stdUnderDay,
      stdZeroDay, stdHour, stdHour12, stdZeroHour12, stdMinute, stdZeroMinute, stdSecond,
      stdZeroSecond, stdPM, stdpm, stdISO8601TZ, stdISO8601ColonTZ, stdISO8601SecondsTZ,
      stdISO8601ShortTZ, stdISO8601ColonSecondsTZ, stdNumTZ, stdNumColonTZ, stdNumSecondsTz,
      stdNumShortTZ, stdNumColonSecondsTZ, stdTZ, stdNeedDate, stdNeedClock]
  have s2 : ∀ (f : FormatFields) (b : Str),
      appendStd name offset abs t.nanosecond f b stdZeroMonth = appendInt b f.month 2 := by
    intro f b
    unfold appendStd
    simp only [show stdZeroMonth &&& stdMask = stdZeroMonth from by decide]
    simp [stdFracSecond0, stdFracSecond9, stdYear, stdLongYear, stdMonth,
      stdLongMonth, stdNumMonth, stdZeroMonth, stdWeekDay, stdLongWeekDay, stdDay, stdUnderDay,
      stdZeroDay, stdHour, stdHour12, stdZeroHour12, stdMinute, stdZeroMinute, stdSecond,
      stdZeroSecond, stdPM, stdpm, stdISO8601TZ, stdISO8601ColonTZ, stdISO8601SecondsTZ,
      stdISO8601ShortTZ, stdISO8601ColonSecondsTZ, stdNumTZ, stdNumColonTZ, stdNumSecondsTz,
      stdNumShortTZ, stdNumColonSecondsTZ, stdTZ, stdNeedDate, stdNeedClock]
  have s3 : ∀ (f : FormatFields) (b : Str),
      appendStd name offset abs t.nanosecond f b stdZeroDay = appendInt b f.day 2 := by
    intro f b
    unfold appendStd
    simp only [show stdZeroDay &&& stdMask = stdZeroDay from by decide]
    simp [stdFracSecond0, stdFracSecond9, stdYear, stdLongYear, stdMonth,
      stdLongMonth, stdNumMonth, stdZeroMonth, stdWeekDay, stdLongWeekDay, stdDay, stdUnderDay,
      stdZeroDay, stdHour, stdHour12, stdZeroHour12, stdMinute, stdZeroMinute, stdSecond,
      stdZeroSecond, stdPM, stdpm, stdISO8601TZ, stdISO8601ColonTZ, stdISO8601SecondsTZ,
      stdISO8601ShortTZ, stdISO8601ColonSecondsTZ, stdNumTZ, stdNumColonTZ, stdNumSecondsTz,
      stdNumShortTZ, stdNumColonSecondsTZ, stdTZ, stdNeedDate, stdNeedClock]
  have s4 : ∀ (f : FormatFields) (b : Str),
      appendStd name offset abs t.nanosecond f b stdHour = appendInt b f.hour 2 := by
    intro f b
    unfold appendStd
    simp only [show stdHour &&& stdMask = stdHour from by decide]
    simp [stdFracSecond0, stdFracSecond9, stdYear, stdLongYear, stdMonth,
      stdLongMonth, stdNumMonth, stdZeroMonth, stdWeekDay, stdLongWeekDay, stdDay, stdUnderDay,
      stdZeroDay, stdHour, stdHour12, stdZeroHour12, stdMinute, stdZeroMinute, stdSecond,
      stdZeroSecond, stdPM, stdpm, stdISO8601TZ, stdISO8601ColonTZ, stdISO8601SecondsTZ,
      stdISO8601ShortTZ, stdISO8601ColonSecondsTZ, stdNumTZ, stdNumColonTZ, stdNumSecondsTz,
      stdNumShortTZ, stdNumColonSecondsTZ, stdTZ, stdNeedDate, stdNeedClock]
  have s5 : ∀ (f : FormatFields) (b : Str),
      appendStd name offset abs t.nanosecond f b stdZeroMinute = appendInt b f.min 2 := by
    intro f b
    unfold appendStd
    simp only [show stdZeroMinute &&& stdMask = stdZeroMinute from by decide]
    simp [stdFracSecond0, stdFracSecond9, stdYear, stdLongYear, stdMonth,
      stdLongMonth, stdNumMonth, stdZeroMonth, stdWeekDay, stdLongWeekDay, stdDay, stdUnderDay,
      stdZeroDay, stdHour, stdHour12, stdZeroHour12, stdMinute, stdZeroMinute, stdSecond,
      stdZeroSecond, stdPM, stdpm, stdISO8601TZ, stdISO8601ColonTZ, stdISO8601SecondsTZ,
      stdISO8601ShortTZ, stdISO8601ColonSecondsTZ, stdNumTZ, stdNumColonTZ, stdNumSecondsTz,
      stdNumShortTZ, stdNumColonSecondsTZ, stdTZ, stdNeedDate, stdNeedClock]
  have s6 : ∀ (f : FormatFields) (b : Str),
      appendStd name offset abs t.nanosecond f b stdZeroSecond = appendInt b f.sec 2 := by
    intro f b
    unfold appendStd
    simp only [show stdZeroSecond &&& stdMask = stdZeroSecond from by decide]
    simp [stdFracSecond0, stdFracSecond9, stdYear, stdLongYear, stdMonth,
      stdLongMonth, stdNumMonth, stdZeroMonth, stdWeekDay, stdLongWeekDay, stdDay, stdUnderDay,
      stdZeroDay, stdHour, stdHour12, stdZeroHour12, stdMinute, stdZeroMinute, stdSecond,
      stdZeroSecond, stdPM, stdpm, stdISO8601TZ, stdISO8601ColonTZ, stdISO8601SecondsTZ,
      stdISO8601ShortTZ, stdISO8601ColonSecondsTZ, stdNumTZ, stdNumColonTZ, stdNumSecondsTz,
      stdNumShortTZ, stdNumColonSecondsTZ, stdTZ, stdNeedDate, stdNeedClock]
  have e : numericLayout.length + 1 = 19 + 1 := by decide
  rw [e]
  rw [appendFormatLoop_step _ _ _ _ _ _ _ numericLayout [] "-MM-dd HH:mm:ss".toList stdLongYear
    (by decide) (by decide) (by decide)]
  rw [computeFields_date abs {} stdLongYear (by decide) (by decide) (Or.inl rfl), s1]
  rw [appendFormatLoop_step _ _ _ _ _ _ _ "-MM-dd HH:mm:ss".toList "-".toList
    "-dd HH:mm:ss".toList stdZeroMonth (by decide) (by decide) (by decide)]
  rw [computeFields_date abs _ stdZeroMonth (by decide) (by decide) (Or.inr ⟨rfl, rfl, rfl⟩), s2]
  rw [appendFormatLoop_step _ _ _ _ _ _ _ "-dd HH:mm:ss".toList "-".toList
    " HH:mm:ss".toList stdZeroDay (by decide) (by decide) (by decide)]
  rw [computeFields_date abs _ stdZeroDay (by decide) (by decide) (Or.inr ⟨rfl, rfl, rfl⟩), s3]
  rw [appendFormatLoop_step _ _ _ _ _ _ _ " HH:mm:ss".toList " ".toList
    ":mm:ss".toList stdHour (by decide) (by decide) (by decide)]
  rw [computeFields_clock abs _ stdHour (by decide) (by decide) (Or.inl rfl), s4]
  rw [appendFormatLoop_step _ _ _ _ _ _ _ ":mm:ss".toList ":".toList
    ":ss".toList stdZeroMinute (by decide) (by decide) (by decide)]
  rw [computeFields_clock abs _ stdZeroMinute (by decide) (by decide) (Or.inr ⟨rfl, rfl, rfl⟩), s5]
  rw [appendFormatLoop_step _ _ _ _ _ _ _ ":ss".toList ":".toList
    [] stdZeroSecond (by decide) (by decide) (by decide)]
  rw [computeFields_clock abs _ stdZeroSecond (by decide) (by decide) (Or.inr ⟨rfl, rfl, rfl⟩), s6]
  rfl

theorem zeroPadded_two (v : Int) (h0 : 0 ≤ v) (h1 : v < 100) : zeroPadded 2 v = twoDigits v := by
  have h := appendInt_eq [] v 2 (by omega)
  rw [appendInt_two [] v h0 h1] at h
  simpa [twoDigits] using h.symm

theorem zeroPadded_four (v : Int) (h0 : 0 ≤ v) (h1 : v < 10000) :
    zeroPadded 4 v = fourDigits v := by
  have h := appendInt_eq [] v 4 (by omega)
  rw [appendInt_four [] v h0 h1] at h
  simpa [fourDigits] using h.symm

theorem zeroPadded_length (w : Nat) (x : Int) : w ≤ (zeroPadded w x).length := by
  simp only [zeroPadded, List.length_append, List.length_replicate]
  omega

/-- The civil fields of an instant are in range. -/
theorem civil_bounds (abs : Nat) :
    1 ≤ (absDate abs true).2.1 ∧ (absDate abs true).2.1 ≤ 12 ∧
    1 ≤ (absDate abs true).2.2.1 ∧ (absDate abs true).2.2.1 ≤ 31 ∧
    (absDate abs true).2.2.1 ≤ daysIn (absDate abs true).2.1 (absDate abs true).1 := by
  obtain ⟨_, _, f3, f4, f5, f6, _⟩ := absDate_fields abs
  refine ⟨f3, f4, f5, ?_, f6⟩
  rw [daysIn_monthLength _ _ f3 f4] at f6
  have : ∀ (l : Bool) (m : Int), monthLengthIn l m ≤ 31 := by
    intro l m
    unfold monthLengthIn
    split <;> first | decide | (cases l <;> decide)
  exact le_trans f6 (this _ _)

/-- C2: numeric field rendering.  For every instant, `Format t "YYYY-MM-dd HH:mm:ss"`
is the year zero-padded to at least 4 digits, `-`, the month as 2 digits, `-`, the day
as 2 digits, a space, the hour as 2 digits, `:`, the minute as 2 digits, `:`, the
second as 2 digits, where the fields are `absDate` and `absClock` of the
zone-adjusted absolute seconds; for a year in 0..9999 the result has exactly 19
characters. -/
theorem Format_numeric (t : Instant) :
    Format t numericLayout = .ok
      (numericText (absDate (locabs t).2.2 true).1 (absDate (locabs t).2.2 true).2.1
        (absDate (locabs t).2.2 true).2.2.1 (absClock (locabs t).2.2).1
        (absClock (locabs t).2.2).2.1 (absClock (locabs t).2.2).2.2) ∧
    4 ≤ (zeroPadded 4 (absDate (locabs t).2.2 true).1).length ∧
    (zeroPadded 2 (absDate (locabs t).2.2 true).2.1).length = 2 ∧
    (zeroPadded 2 (absDate (locabs t).2.2 true).2.2.1).length = 2 ∧
    (zeroPadded 2 (absClock (locabs t).2.2).1).length = 2 ∧
    (zeroPadded 2 (absClock (locabs t).2.2).2.1).length = 2 ∧
    (zeroPadded 2 (absClock (locabs t).2.2).2.2).length = 2 ∧
    (0 ≤ (absDate (locabs t).2.2 true).1 ∧ (absDate (locabs t).2.2 true).1 ≤ 9999 →
      ∀ out, Format t numericLayout = .ok out → out.length = 19) := by
  have hF := Format_numeric_appendInt t
  have hy := absDate_year_bound (locabs t).2.2 (locabs_lt t)
  obtain ⟨c1, c2, c3, c4, c5, c6⟩ := absClock_bounds (locabs t).2.2
  obtain ⟨d1, d2, d3, d4, _⟩ := civil_bounds (locabs t).2.2
  generalize (absDate (locabs t).2.2 true).1 = Y at *
  generalize (absDate (locabs t).2.2 true).2.1 = M at *
  generalize (absDate (locabs t).2.2 true).2.2.1 = D at *
  generalize (absClock (locabs t).2.2).1 = h at *
  generalize (absClock (locabs t).2.2).2.1 = mi at *
  generalize (absClock (locabs t).2.2).2.2 = s at *
  have hText : Format t numericLayout = .ok (numericText Y M D h mi s) := by
    rw [hF, appendInt_eq _ Y 4 (by omega), appendInt_eq _ M 2 (by omega),
      appendInt_eq _ D 2 (by omega), appendInt_eq _ h 2 (by omega),
      appendInt_eq _ mi 2 (by omega), appendInt_eq _ s 2 (by omega)]
    simp [numericText, List.append_assoc]
  have l2 : ∀ v : Int, 0 ≤ v → v < 100 → (zeroPadded 2 v).length = 2 := by
    intro v h0 h1
    rw [zeroPadded_two v h0 h1]
    rfl
  refine ⟨hText, zeroPadded_length 4 Y, l2 M (by omega) (by omega), l2 D (by omega) (by omega),
    l2 h c1 (by omega), l2 mi c3 (by omega), l2 s c5 (by omega), ?_⟩
  intro hr out hout
  rw [hText] at hout
  injection hout with hout
  rw [← hout]
  simp only [numericText, List.length_append, List.length_singleton,
    l2 M (by omega) (by omega), l2 D (by omega) (by omega), l2 h c1 (by omega),
    l2 mi c3 (by omega), l2 s c5 (by omega), zeroPadded_four Y hr.1 (by omega)]
  rfl

set_option maxRecDepth 100000 in
/-- Witness for C2: the test instant (Unix 1233810057 at offset -28800) gives
"2009-02-04 21:00:57", of 19 characters. -/
theorem Format_numeric_witness :
    Format testInstant numericLayout = .ok "2009-02-04 21:00:57".toList ∧
    ("2009-02-04 21:00:57".toList).length = 19 :=
  ⟨by decide, (Format_numeric testInstant).2.2.2.2.2.2.2 (by decide) _ (by decide)⟩

/-- The text that `Format` produces for `YYYY-MM-dd HH:mm:ss` when the civil year is
in 0..9999, digit by digit. -/
theorem Format_numeric_digits (t : Instant)
    (h0 : 0 ≤ (absDate (locabs t).2.2 true).1) (h1 : (absDate (locabs t).2.2 true).1 ≤ 9999) :
    Format t numericLayout = .ok
      (fourDigits (absDate (locabs t).2.2 true).1 ++ '-' ::
        (twoDigits (absDate (locabs t).2.2 true).2.1 ++ '-' ::
          (twoDigits (absDate (locabs t).2.2 true).2.2.1 ++ ' ' ::
            (twoDigits (absClock (locabs t).2.2).1 ++ ':' ::
              (twoDigits (absClock (locabs t).2.2).2.1 ++ ':' ::
                twoDigits (absClock (locabs t).2.2).2.2))))) := by
  have hF := Format_numeric_appendInt t
  obtain ⟨c1, c2, c3, c4, c5, c6⟩ := absClock_bounds (locabs t).2.2
  obtain ⟨d1, d2, d3, d4, _⟩ := civil_bounds (locabs t).2.2
  generalize (absDate (locabs t).2.2 true).1 = Y at *
  generalize (absDate (locabs t).2.2 true).2.1 = M at *
  generalize (absDate (locabs t).2.2 true).2.2.1 = D at *
  generalize (absClock (locabs t).2.2).1 = h at *
  generalize (absClock (locabs t).2.2).2.1 = mi at *
  generalize (absClock (locabs t).2.2).2.2 = s at *
  rw [hF, appendInt_four _ Y h0 (by omega), appendInt_two _ M (by omega) (by omega),
    appendInt_two _ D (by omega) (by omega), appendInt_two _ h c1 (by omega),
    appendInt_two _ mi c3 (by omega), appendInt_two _ s c5 (by omega)]
  simp [fourDigits, twoDigits, List.append_assoc]

/-- If the first chunk of `l` is the first chunk of `p` with `w` in front of its
literal prefix, then formatting `l` gives `w` followed by the formatting of `p`. -/
theorem Format_shift (t : Instant) (l p w : Str) (hl : l ≠ []) (hlen : p.length ≤ l.length)
    (h : nextStdChunk l = (nextStdChunk p).map (fun c => (w ++ c.1, c.2.1, c.2.2))) :
    Format t l = (Format t p).map (fun s => w ++ s) := by
  unfold Format AppendFormat
  simp only []
  generalize (locabs t).1 = name
  generalize (locabs t).2.1 = offset
  generalize (locabs t).2.2 = abs
  rw [appendFormatLoop, if_neg hl, h]
  cases p with
  | nil =>
    simp [nextStdChunk, nextStdChunkLoop, Outcome.map, appendFormatLoop]
  | cons a p =>
    rw [appendFormatLoop, if_neg (List.cons_ne_nil a p)]
    cases hc : nextStdChunk (a :: p) with
    | panic => rfl
    | outOfFuel => rfl
    | ok c =>
      obtain ⟨pre, std, suffix⟩ := c
      simp only [Outcome.map]
      split
      · simp [Outcome.map]
      · rename_i hstd
        have hsuf := nextStdChunk_suffix _ _ _ _ hc hstd
        rw [List.nil_append, List.nil_append, appendStd_append, appendFormatLoop_append,
          appendFormatLoop_fuel _ _ _ _ l.length (a :: p).length _ _ _ (by omega) (by omega)]
        generalize appendFormatLoop name offset abs t.nanosecond (a :: p).length _ _ suffix = res
        cases res <;> rfl

/-- The scan of a quoted text followed by a pattern. -/
theorem nextStdChunk_quoted (w p : Str) (hw : w ≠ []) (hq : quote ∉ w) :
    nextStdChunk (quote :: (w ++ quote :: p)) =
      (nextStdChunk p).map (fun c => (w ++ c.1, c.2.1, c.2.2)) := by
  obtain ⟨a, w', rfl⟩ : ∃ a w', w = a :: w' := by
    cases w with
    | nil => exact absurd rfl hw
    | cons a w' => exact ⟨a, w', rfl⟩
  have ha : a ≠ quote := fun e => hq (by simp [e])
  have htw : ∀ (v : Str), quote ∉ v →
      (v ++ quote :: p).takeWhile (fun c => c != quote) = v := by
    intro v hv
    induction v with
    | nil => simp [List.takeWhile_cons]
    | cons x v ih =>
      have hx : x ≠ quote := fun e => hv (by simp [e])
      have hv' : quote ∉ v := fun e => hv (List.mem_cons_of_mem _ e)
      simp [List.takeWhile_cons, hx, ih hv']
  have hdrop : ((a :: w') ++ quote :: p).drop (a :: w').length = quote :: p := by
    rw [List.drop_append_eq_append_drop]
    simp
  unfold nextStdChunk
  have hnl : isStdLetter quote = false := by decide
  simp only [List.length_cons, nextStdChunkLoop, hnl, Bool.false_eq_true, if_false, if_true,
    List.cons_append, ha]
  have e1 : (a :: (w' ++ quote :: p)) = (a :: w') ++ quote :: p := rfl
  rw [e1, htw (a :: w') hq, hdrop]
  simp only [List.nil_append]
  rw [nextStdChunkLoop_pre, nextStdChunkLoop_fuel _ (p.length + 1) [] p
    (by simp only [List.length_cons, List.length_append]; omega) (by omega)]
  rfl

/-- The scan of an escaped quote followed by a pattern. -/
theorem nextStdChunk_escaped (p : Str) :
    nextStdChunk (quote :: quote :: p) =
      (nextStdChunk p).map (fun c => ([quote] ++ c.1, c.2.1, c.2.2)) := by
  unfold nextStdChunk
  have hnl : isStdLetter quote = false := by decide
  simp only [List.length_cons, nextStdChunkLoop, hnl, Bool.false_eq_true, if_false, if_true,
    List.nil_append]
  rw [nextStdChunkLoop_pre, nextStdChunkLoop_fuel _ (p.length + 1) [] p (by omega) (by omega)]

/-- C9: quoted text is emitted verbatim.  For every instant `t`, every non-empty text
`w` without a single quote (it may contain directive letters) and every pattern `p`
on which `Format` is defined, `Format t ("'" ++ w ++ "'" ++ p) = w ++ Format t p`. -/
theorem Format_quoted (t : Instant) (w p out : Str) (hw : w ≠ []) (hq : quote ∉ w)
    (hp : Format t p = .ok out) :
    Format t ([quote] ++ w ++ [quote] ++ p) = .ok (w ++ out) := by
  have h := Format_shift t (quote :: (w ++ quote :: p)) p w (List.cons_ne_nil _ _)
    (by simp only [List.length_cons, List.length_append]; omega) (nextStdChunk_quoted w p hw hq)
  have e : [quote] ++ w ++ [quote] ++ p = quote :: (w ++ quote :: p) := by simp
  rw [e, h, hp]
  rfl

set_option maxRecDepth 100000 in
/-- Witness for C9: the test case `'YYZbca'Y`, which renders as `YYZbca2009`. -/
theorem Format_quoted_witness :
    Format testInstant ([quote] ++ "YYZbca".toList ++ [quote] ++ "Y".toList)
      = .ok ("YYZbca".toList ++ "2009".toList) :=
  Format_quoted testInstant "YYZbca".toList "Y".toList "2009".toList (by decide) (by decide)
    (by decide)

/-- C10: escaped quote.  For every instant `t` and every pattern `p` on which `Format`
is defined, `Format t ("''" ++ p) = "'" ++ Format t p`: two consecutive single quotes
render as one literal single quote and do not open a quoted segment. -/
theorem Format_escaped_quote (t : Instant) (p out : Str) (hp : Format t p = .ok out) :
    Format t ([quote, quote] ++ p) = .ok ([quote] ++ out) := by
  have h := Format_shift t (quote :: quote :: p) p [quote] (List.cons_ne_nil _ _)
    (by simp only [List.length_cons]; omega) (nextStdChunk_escaped p)
  have e : [quote, quote] ++ p = quote :: quote :: p := rfl
  rw [e, h, hp]
  rfl

set_option maxRecDepth 100000 in
/-- Witness for C10: the test case `''YYYY`, which renders as `'2009`. -/
theorem Format_escaped_quote_witness :
    Format testInstant ([quote, quote] ++ "YYYY".toList) = .ok ([quote] ++ "2009".toList) :=
  Format_escaped_quote testInstant "YYYY".toList "2009".toList (by decide)

/-! ### Parser -/

theorem digitByte_facts : ∀ d : Nat, d < 10 →
    isDigitByte (digitByte d) = true ∧ digitVal (digitByte d) = (d : Int) ∧
    digitByte d ≠ ' ' ∧ digitByte d ≠ '-' ∧ digitByte d ≠ '+' ∧ digitByte d ≠ '.' := by
  decide

theorem leadingIntLoop_digit (x : Int) (d : Nat) (rest : Str) (hd : d < 10)
    (h0 : 0 ≤ x) (hx : x < 10 ^ 17) :
    leadingIntLoop x (digitByte d :: rest) = leadingIntLoop (x * 10 + (d : Int)) rest := by
  obtain ⟨f1, f2, _⟩ := digitByte_facts d hd
  rw [leadingIntLoop]
  simp only [f1, f2, not_true_eq_false, if_false]
  rw [if_neg (by norm_num; omega), if_neg (by norm_num; omega)]

theorem atoi_fourDigits (v : Int) (h0 : 0 ≤ v) (h1 : v < 10000) :
    atoi (fourDigits v) = (v, false) := by
  obtain ⟨n, rfl⟩ : ∃ n : Nat, v = (n : Int) := ⟨v.toNat, by omega⟩
  have hn : n < 10000 := by omega
  have g1 := digitByte_facts (n / 1000) (by omega)
  simp only [atoi, fourDigits, Int.toNat_ofNat, byteAt, List.getD_cons_zero, ne_eq,
    reduceCtorEq, not_false_eq_true, true_and, g1.2.2.2.1, g1.2.2.2.2.1, or_self, if_false,
    decide_False, leadingInt]
  rw [leadingIntLoop_digit _ _ _ (by omega) (by omega) (by norm_num),
    leadingIntLoop_digit _ _ _ (by omega) (by omega) (by omega),
    leadingIntLoop_digit _ _ _ (by omega) (by omega) (by omega),
    leadingIntLoop_digit _ _ _ (by omega) (by omega) (by omega)]
  simp only [leadingIntLoop, Bool.false_eq_true, not_true_eq_false, or_self, if_false,
    Prod.mk.injEq, and_true]
  omega

theorem getnum_twoDigits (v : Int) (rest : Str) (fixed : Bool) (h0 : 0 ≤ v) (h1 : v < 100) :
    getnum (twoDigits v ++ rest) fixed = (v, rest, false) := by
  obtain ⟨n, rfl⟩ : ∃ n : Nat, v = (n : Int) := ⟨v.toNat, by omega⟩
  have hn : n < 100 := by omega
  have g1 := digitByte_facts (n / 10) (by omega)
  have g2 := digitByte_facts (n % 10) (by omega)
  simp only [getnum, twoDigits, Int.toNat_ofNat, isDigit, byteAt, List.cons_append,
    List.nil_append, List.length_cons, List.getD_cons_zero, List.getD_cons_succ, g1.1, g2.1,
    g1.2.1, g2.2.1, Bool.not_true, Bool.false_eq_true, if_false, List.drop_succ_cons,
    List.drop_zero, Prod.mk.injEq, and_true]
  simp
  omega
theorem parseLoop_step (host : Host) (alayout avalue : Str) (dl loc : Location) (fuel : Nat)
    (layout pre suffix value : Str) (std : Nat) (st st' : ParseState)
    (hc : nextStdChunk layout = .ok (pre, std, suffix))
    (hk : skip st.value pre = .ok (value, false)) (hs : std ≠ 0)
    (hp : parseStd suffix std { st with value := value } = .ok (st', false))
    (hr : st'.rangeErrString = []) :
    parseLoop host alayout avalue dl loc (fuel + 1) layout st =
      parseLoop host alayout avalue dl loc fuel suffix st' := by
  rw [parseLoop, hc]
  simp only [hk, hs, hp, hr, Bool.false_eq_true, if_false, ne_eq, not_true_eq_false]

theorem parseLoop_last (host : Host) (alayout avalue : Str) (dl loc : Location) (fuel : Nat)
    (layout pre suffix : Str) (st : ParseState)
    (hc : nextStdChunk layout = .ok (pre, 0, suffix))
    (hk : skip st.value pre = .ok ([], false)) :
    parseLoop host alayout avalue dl loc (fuel + 1) layout st =
      .ok (parseFinish host alayout avalue dl loc { st with value := [] }) := by
  rw [parseLoop, hc]
  simp only [hk, Bool.false_eq_true, if_false, if_true, List.length_nil, ne_eq,
    not_true_eq_false]

theorem skip_nil (v : Str) : skip v [] = .ok (v, false) := rfl

theorem skip_char (c : Char) (v : Str) (hc : c ≠ ' ') : skip (c :: v) [c] = .ok (v, false) := by
  simp [skip, skipLoop, hc, byteAt]

theorem skip_space (c : Char) (v : Str) (hc : c ≠ ' ') :
    skip (' ' :: c :: v) [' '] = .ok (c :: v, false) := by
  simp [skip, skipLoop, hc, byteAt, cutspace, List.dropWhile_cons]

theorem fourDigits_append (v : Int) (rest : Str) :
    (fourDigits v ++ rest).length ≥ 4 ∧ (fourDigits v ++ rest).take 4 = fourDigits v ∧
      (fourDigits v ++ rest).drop 4 = rest ∧
      byteAt (fourDigits v ++ rest) 0 = digitByte (v.toNat / 1000) := by
  simp [fourDigits, byteAt]

theorem parseStd_longYear (layout : Str) (st : ParseState) (v : Int) (rest : Str)
    (hv : st.value = fourDigits v ++ rest) (h0 : 0 ≤ v) (h1 : v < 10000) :
    parseStd layout stdLongYear st = .ok ({ st with value := rest, year := v }, false) := by
  obtain ⟨a1, a2, a3, a4⟩ := fourDigits_append v rest
  have g := (digitByte_facts (v.toNat / 1000) (by omega)).1
  unfold parseStd
  simp only [show stdLongYear &&& stdMask = stdLongYear from by decide, hv]
  rw [if_neg (by decide), if_pos trivial]
  have hlen : ¬ ((fourDigits v ++ rest).length < 4) := by omega
  have hdig : isDigit (fourDigits v ++ rest) 0 = true := by
    unfold isDigit
    rw [if_neg (by omega), a4, g]
  simp only [hlen, hdig, false_or, Bool.true_eq_false, if_false, a2, a3,
    atoi_fourDigits v h0 h1]

theorem parseSecond_twoDigits (layout : Str) (st : ParseState) (v : Int)
    (hv : st.value = twoDigits v) (h0 : 0 ≤ v) (h1 : v < 60) :
    parseSecond layout stdZeroSecond st = .ok ({ st with sec := v, value := [] }, false) := by
  have e := getnum_twoDigits v [] true h0 (by omega)
  simp only [List.append_nil] at e
  unfold parseSecond
  simp only [hv, decide_True, e]
  have hr : ¬ (v < 0 ∨ 60 ≤ v) := by omega
  simp [hr]

theorem parseStd_twoDigits (layout : Str) (st : ParseState) (std : Nat) (v : Int) (rest : Str)
    (hv : st.value = twoDigits v ++ rest) (h0 : 0 ≤ v) (h1 : v < 100) :
    (std = stdZeroMonth → 1 ≤ v → v ≤ 12 →
      parseStd layout std st = .ok ({ st with month := v, value := rest }, false)) ∧
    (std = stdZeroDay →
      parseStd layout std st = .ok ({ st with day := v, value := rest }, false)) ∧
    (std = stdHour → v < 24 →
      parseStd layout std st = .ok ({ st with hour := v, value := rest }, false)) ∧
    (std = stdZeroMinute → v < 60 →
      parseStd layout std st = .ok ({ st with min := v, value := rest }, false)) ∧
    (std = stdZeroSecond → v < 60 → rest = [] →
      parseStd layout std st = .ok ({ st with sec := v, value := rest }, false)) := by
  refine ⟨?_, ?_, ?_, ?_, ?_⟩
  · intro hs hv1 hv2
    subst hs
    unfold parseStd
    simp only [show stdZeroMonth &&& stdMask = stdZeroMonth from by decide, hv,
      getnum_twoDigits v rest _ h0 h1]
    simp [stdFracSecond0, stdFracSecond9, stdYear, stdLongYear, stdMonth,
      stdLongMonth, stdNumMonth, stdZeroMonth, stdNeedDate, stdNeedClock]
    omega
  · intro hs
    subst hs
    unfold parseStd
    simp only [show stdZeroDay &&& stdMask = stdZeroDay from by decide, hv]
    simp [stdFracSecond0, stdFracSecond9, stdYear, stdLongYear, stdMonth,
      stdLongMonth, stdNumMonth, stdZeroMonth, stdWeekDay, stdLongWeekDay, stdDay, stdUnderDay,
      stdZeroDay, stdNeedDate, stdNeedClock, getnum_twoDigits v rest _ h0 h1]
    omega
  · intro hs hv2
    subst hs
    unfold parseStd
    simp only [show stdHour &&& stdMask = stdHour from by decide, hv,
      getnum_twoDigits v rest _ h0 h1]
    simp [stdFracSecond0, stdFracSecond9, stdYear, stdLongYear, stdMonth,
      stdLongMonth, stdNumMonth, stdZeroMonth, stdWeekDay, stdLongWeekDay, stdDay, stdUnderDay,
      stdZeroDay, stdHour, stdNeedDate, stdNeedClock]
    omega
  · intro hs hv2
    subst hs
    unfold parseStd
    simp only [show stdZeroMinute &&& stdMask = stdZeroMinute from by decide, hv,
      getnum_twoDigits v rest _ h0 h1]
    simp [stdFracSecond0, stdFracSecond9, stdYear, stdLongYear, stdMonth,
      stdLongMonth, stdNumMonth, stdZeroMonth, stdWeekDay, stdLongWeekDay, stdDay, stdUnderDay,
      stdZeroDay, stdHour, stdHour12, stdZeroHour12, stdMinute, stdZeroMinute, stdNeedDate,
      stdNeedClock]
    omega
  · intro hs hv2 hrest
    subst hs hrest
    unfold parseStd
    simp only [show stdZeroSecond &&& stdMask = stdZeroSecond from by decide, hv]
    have hp := parseSecond_twoDigits layout st v (by simpa using hv) h0 hv2
    simp only [List.append_nil] at hv
    simp [stdFracSecond0, stdFracSecond9, stdYear, stdLongYear, stdMonth,
      stdLongMonth, stdNumMonth, stdZeroMonth, stdWeekDay, stdLongWeekDay, stdDay, stdUnderDay,
      stdZeroDay, stdHour, stdHour12, stdZeroHour12, stdMinute, stdZeroMinute, stdSecond,
      stdZeroSecond, stdNeedDate, stdNeedClock]
    simpa [stdZeroSecond, stdNeedClock] using hp

/-- Parsing the text of the six numeric fields gives the fields back. -/
theorem Parse_numeric_digits (host : Host) (Y M D h mi s : Int)
    (hY0 : 0 ≤ Y) (hY1 : Y ≤ 9999) (hM0 : 1 ≤ M) (hM1 : M ≤ 12) (hD0 : 1 ≤ D)
    (hD1 : D ≤ daysIn M Y) (hD2 : D ≤ 31) (hh0 : 0 ≤ h) (hh1 : h < 24) (hm0 : 0 ≤ mi)
    (hm1 : mi < 60) (hs0 : 0 ≤ s) (hs1 : s < 60) :
    Parse host numericLayout
      (fourDigits Y ++ '-' :: (twoDigits M ++ '-' :: (twoDigits D ++ ' ' ::
        (twoDigits h ++ ':' :: (twoDigits mi ++ ':' :: twoDigits s))))) =
      .ok (.time { year := Y, month := M, day := D, hour := h, min := mi, sec := s, nsec := 0,
                   loc := Location.UTC }) := by
  have c1 : nextStdChunk numericLayout = .ok ([], stdLongYear, "-MM-dd HH:mm:ss".toList) := by
    decide
  have c2 : nextStdChunk "-MM-dd HH:mm:ss".toList
      = .ok ("-".toList, stdZeroMonth, "-dd HH:mm:ss".toList) := by decide
  have c3 : nextStdChunk "-dd HH:mm:ss".toList
      = .ok ("-".toList, stdZeroDay, " HH:mm:ss".toList) := by decide
  have c4 : nextStdChunk " HH:mm:ss".toList
      = .ok (" ".toList, stdHour, ":mm:ss".toList) := by decide
  have c5 : nextStdChunk ":mm:ss".toList
      = .ok (":".toList, stdZeroMinute, ":ss".toList) := by decide
  have c6 : nextStdChunk ":ss".toList = .ok (":".toList, stdZeroSecond, []) := by decide
  have c7 : nextStdChunk [] = .ok ([], 0, []) := by decide
  have hsp : digitByte (h.toNat / 10) ≠ ' ' := (digitByte_facts _ (by omega)).2.2.1
  unfold Parse parse
  have e : numericLayout.length + 1 = 19 + 1 := by decide
  rw [e]
  rw [parseLoop_step host _ _ _ _ _ _ _ _ _ _ _ _ c1 (skip_nil _) (by decide)
    (parseStd_longYear _ _ Y _ rfl hY0 (by omega)) rfl]
  rw [parseLoop_step host _ _ _ _ _ _ _ _ _ _ _ _ c2 (skip_char '-' _ (by decide)) (by decide)
    ((parseStd_twoDigits _ _ stdZeroMonth M _ rfl (by omega) (by omega)).1 rfl hM0 hM1) rfl]
  rw [parseLoop_step host _ _ _ _ _ _ _ _ _ _ _ _ c3 (skip_char '-' _ (by decide)) (by decide)
    ((parseStd_twoDigits _ _ stdZeroDay D _ rfl (by omega) (by omega)).2.1 rfl) rfl]
  rw [parseLoop_step host _ _ _ _ _ _ _ _ _ _ _ _ c4 (skip_space _ _ hsp) (by decide)
    ((parseStd_twoDigits _ _ stdHour h (':' :: (twoDigits mi ++ ':' :: twoDigits s)) rfl hh0
      (by omega)).2.2.1 rfl hh1) rfl]
  rw [parseLoop_step host _ _ _ _ _ _ _ _ _ _ _ _ c5 (skip_char ':' _ (by decide)) (by decide)
    ((parseStd_twoDigits _ _ stdZeroMinute mi _ rfl hm0 (by omega)).2.2.2.1 rfl hm1) rfl]
  rw [parseLoop_step host _ _ _ _ _ _ _ _ _ _ _ _ c6 (skip_char ':' _ (by decide)) (by decide)
    ((parseStd_twoDigits _ _ stdZeroSecond s [] (by simp) hs0 (by omega)).2.2.2.2 rfl hs1 rfl)
    rfl]
  rw [parseLoop_last host _ _ _ _ _ _ _ _ _ c7 (skip_nil _)]
  have hday : ¬ (D < 1 ∨ D > daysIn M Y) := by omega
  simp [parseFinish, hday]

/-- C1 (as amended): round trip on the numeric-only pattern.  For every instant whose
civil year is in 0..9999, `Parse (p, Format (t, p))` with `p = "YYYY-MM-dd HH:mm:ss"`
succeeds and yields year, month, day, hour, minute and second equal to the `absDate`
and `absClock` decomposition of the instant's zone-adjusted absolute seconds. -/
theorem Parse_Format_numeric (host : Host) (t : Instant)
    (h0 : 0 ≤ (absDate (locabs t).2.2 true).1) (h1 : (absDate (locabs t).2.2 true).1 ≤ 9999) :
    ∃ out, Format t numericLayout = .ok out ∧
      Parse host numericLayout out = .ok (.time
        { year := (absDate (locabs t).2.2 true).1, month := (absDate (locabs t).2.2 true).2.1,
          day := (absDate (locabs t).2.2 true).2.2.1, hour := (absClock (locabs t).2.2).1,
          min := (absClock (locabs t).2.2).2.1, sec := (absClock (locabs t).2.2).2.2,
          nsec := 0, loc := Location.UTC }) := by
  obtain ⟨c1, c2, c3, c4, c5, c6⟩ := absClock_bounds (locabs t).2.2
  obtain ⟨d1, d2, d3, d4, d5⟩ := civil_bounds (locabs t).2.2
  exact ⟨_, Format_numeric_digits t h0 h1,
    Parse_numeric_digits host _ _ _ _ _ _ h0 h1 d1 d2 d3 d5 d4 c1 c2 c3 c4 c5 c6⟩

set_option maxRecDepth 100000 in
/-- Witness for the amended C1: the test instant, whose civil year is 2009. -/
theorem Parse_Format_numeric_witness :
    ∃ out, Format testInstant numericLayout = .ok out ∧
      Parse bareHost numericLayout out = .ok (.time
        { year := (absDate (locabs testInstant).2.2 true).1,
          month := (absDate (locabs testInstant).2.2 true).2.1,
          day := (absDate (locabs testInstant).2.2 true).2.2.1,
          hour := (absClock (locabs testInstant).2.2).1,
          min := (absClock (locabs testInstant).2.2).2.1,
          sec := (absClock (locabs testInstant).2.2).2.2,
          nsec := 0, loc := Location.UTC }) :=
  Parse_Format_numeric bareHost testInstant (by decide) (by decide)

set_option maxRecDepth 100000 in
/-- Counterexample to C1 as stated: the instant 10000-01-01T00:00:00Z (Unix second
253402300800) is formatted as "10000-01-01 00:00:00", which `Parse` rejects at the
literal `-`; the instant -0001-12-31T00:00:00Z is formatted as
"-0001-12-31 00:00:00", which `Parse` rejects at the directive `YYYY`. -/
theorem Parse_Format_numeric_counterexample :
    (absDate (locabs (Instant.mk 253402300800 0 true "UTC".toList 0)).2.2 true).1 = 10000 ∧
    Format (Instant.mk 253402300800 0 true "UTC".toList 0) numericLayout
      = .ok "10000-01-01 00:00:00".toList ∧
    Parse bareHost numericLayout "10000-01-01 00:00:00".toList
      = .ok (.error ⟨numericLayout, "10000-01-01 00:00:00".toList, "-".toList,
          "0-01-01 00:00:00".toList, []⟩) ∧
    (absDate (locabs (Instant.mk (-62167305600) 0 true "UTC".toList 0)).2.2 true).1 = -1 ∧
    Format (Instant.mk (-62167305600) 0 true "UTC".toList 0) numericLayout
      = .ok "-0001-12-31 00:00:00".toList ∧
    Parse bareHost numericLayout "-0001-12-31 00:00:00".toList
      = .ok (.error ⟨numericLayout, "-0001-12-31 00:00:00".toList, "YYYY".toList,
          "-0001-12-31 00:00:00".toList, []⟩) := by
  decide

theorem appendInt_unpadded (b : Str) (v : Int) (h0 : 0 ≤ v) (h1 : v < 2 ^ 63) :
    appendInt b v 0 = b ++ decimal v.toNat := by
  rw [appendInt_eq b v 0 (by omega)]
  have e : v.natAbs = v.toNat := by omega
  have hn : ¬ v < 0 := by omega
  simp [zeroPadded, e, hn]

theorem decimal_eq_appendInt (n : Nat) (h : n < 2 ^ 63) :
    decimal n = appendInt [] (n : Int) 0 := by
  rw [appendInt_unpadded [] (n : Int) (by omega) (by omega)]
  simp

/-- C12: 12-hour rendering.  For every instant, with `h` its hour of the day (always
in 0..23), `Format t "ha"` is the unpadded decimal of 12 if `h mod 12 = 0` and of
`h mod 12` otherwise, followed by "PM" if `h ≥ 12` and by "AM" otherwise; hour 0
renders "12AM" and hour 12 renders "12PM". -/
theorem Format_hour12 (t : Instant) :
    0 ≤ (absClock (locabs t).2.2).1 ∧ (absClock (locabs t).2.2).1 ≤ 23 ∧
    Format t "ha".toList = .ok
      (decimal (if (absClock (locabs t).2.2).1.toNat % 12 = 0 then 12
                else (absClock (locabs t).2.2).1.toNat % 12) ++
        (if (absClock (locabs t).2.2).1 ≥ 12 then "PM".toList else "AM".toList)) ∧
    ((absClock (locabs t).2.2).1 = 0 → Format t "ha".toList = .ok "12AM".toList) ∧
    ((absClock (locabs t).2.2).1 = 12 → Format t "ha".toList = .ok "12PM".toList) := by
  obtain ⟨c1, c2, _⟩ := absClock_bounds (locabs t).2.2
  have key : Format t "ha".toList = .ok
      (decimal (if (absClock (locabs t).2.2).1.toNat % 12 = 0 then 12
                else (absClock (locabs t).2.2).1.toNat % 12) ++
        (if (absClock (locabs t).2.2).1 ≥ 12 then "PM".toList else "AM".toList)) := by
    unfold Format AppendFormat
    simp only []
    generalize (locabs t).1 = name
    generalize (locabs t).2.1 = offset
    generalize (locabs t).2.2 = abs at c1 c2 ⊢
    have s1 : ∀ (f : FormatFields) (b : Str),
        appendStd name offset abs t.nanosecond f b stdHour12
          = appendInt b (if f.hour.tmod 12 = 0 then 12 else f.hour.tmod 12) 0 := by
      intro f b
      unfold appendStd
      simp only [show stdHour12 &&& stdMask = stdHour12 from by decide]
      simp [stdFracSecond0, stdFracSecond9, stdYear, stdLongYear, stdMonth,
        stdLongMonth, stdNumMonth, stdZeroMonth, stdWeekDay, stdLongWeekDay, stdDay, stdUnderDay,
        stdZeroDay, stdHour, stdHour12, stdNeedDate, stdNeedClock]
    have s2 : ∀ (f : FormatFields) (b : Str),
        appendStd name offset abs t.nanosecond f b stdPM
          = if f.hour ≥ 12 then b ++ "PM".toList else b ++ "AM".toList := by
      intro f b
      unfold appendStd
      simp only [show stdPM &&& stdMask = stdPM from by decide]
      simp [stdFracSecond0, stdFracSecond9, stdYear, stdLongYear, stdMonth,
        stdLongMonth, stdNumMonth, stdZeroMonth, stdWeekDay, stdLongWeekDay, stdDay, stdUnderDay,
        stdZeroDay, stdHour, stdHour12, stdZeroHour12, stdMinute, stdZeroMinute, stdSecond,
        stdZeroSecond, stdPM, stdNeedDate, stdNeedClock]
    have e : "ha".toList.length + 1 = 2 + 1 := by decide
    rw [e]
    rw [appendFormatLoop_step _ _ _ _ _ _ _ "ha".toList [] "a".toList stdHour12
      (by decide) (by decide) (by decide)]
    rw [computeFields_clock abs {} stdHour12 (by decide) (by decide) (Or.inl rfl), s1]
    rw [appendFormatLoop_step _ _ _ _ _ _ _ "a".toList [] [] stdPM
      (by decide) (by decide) (by decide)]
    rw [computeFields_clock abs _ stdPM (by decide) (by decide) (Or.inr ⟨rfl, rfl, rfl⟩), s2]
    generalize (absClock abs).1 = h at c1 c2 ⊢
    obtain ⟨n, rfl⟩ : ∃ n : Nat, h = (n : Int) := ⟨h.toNat, by omega⟩
    have hm : ((n : Int)).tmod 12 = ((n % 12 : Nat) : Int) := by
      rw [Int.tmod_eq_emod (by omega) (by decide)]
      omega
    simp only [List.nil_append, List.append_nil, hm, Int.toNat_ofNat]
    have hc : (((n % 12 : Nat) : Int) = 0) ↔ (n % 12 = 0) := by omega
    simp only [hc]
    rw [appendInt_unpadded _ _ (by split <;> omega) (by split <;> omega)]
    have e2 : (if n % 12 = 0 then (12 : Int) else ((n % 12 : Nat) : Int)).toNat
        = if n % 12 = 0 then 12 else n % 12 := by
      split <;> omega
    rw [e2]
    have fin : ∀ (f : FormatFields) (b : Str),
        appendFormatLoop name offset abs t.nanosecond 1 f b [] = .ok b := fun f b => rfl
    rw [fin]
    split <;> rfl
  refine ⟨c1, by omega, key, ?_, ?_⟩
  · intro h0
    rw [key, h0]
    simp only [Int.toNat_zero, Nat.zero_mod, if_true, decimal_eq_appendInt 12 (by decide)]
    decide
  · intro h12
    rw [key, h12]
    have e : (12 : Int).toNat % 12 = 0 := by decide
    simp only [e, if_true, decimal_eq_appendInt 12 (by decide)]
    decide

set_option maxRecDepth 100000 in
/-- Witness for C12: the test instant, whose hour is 21, renders "9PM"; midnight and
noon of the same day render "12AM" and "12PM". -/
theorem Format_hour12_witness :
    (absClock (locabs testInstant).2.2).1 = 21 ∧
    Format testInstant "ha".toList = .ok "9PM".toList ∧
    Format (Instant.mk 1233820800 0 false "PST".toList (-28800)) "ha".toList
      = .ok "12AM".toList ∧
    Format (Instant.mk 1233864000 0 false "PST".toList (-28800)) "ha".toList
      = .ok "12PM".toList :=
  ⟨by decide, by decide, (Format_hour12 _).2.2.2.1 (by decide),
    (Format_hour12 _).2.2.2.2 (by decide)⟩

theorem computeFields_none (abs : Nat) (f : FormatFields) (std : Nat)
    (hd : std &&& stdNeedDate = 0) (hc : std &&& stdNeedClock = 0) :
    computeFields abs f std = f := by
  unfold computeFields
  simp [hd, hc]

theorem appendZone_numTZ (b : Str) (offset : Int) :
    appendZone b stdNumTZ offset =
      appendInt (appendInt (b ++ [if offset.tdiv 60 < 0 then '-' else '+'])
        (((offset.tdiv 60).natAbs / 60 : Nat) : Int) 2)
        (((offset.tdiv 60).natAbs % 60 : Nat) : Int) 2 := by
  unfold appendZone
  generalize offset.tdiv 60 = m
  simp only [stdISO8601TZ, stdISO8601ColonTZ, stdISO8601SecondsTZ, stdISO8601ShortTZ,
    stdISO8601ColonSecondsTZ, stdNumTZ, stdNumColonTZ, stdNumSecondsTz, stdNumShortTZ,
    stdNumColonSecondsTZ]
  norm_num
  by_cases hm : m < 0
  · have e1 : (-m).tdiv 60 = ((m.natAbs / 60 : Nat) : Int) := by
      rw [Int.tdiv_eq_ediv (by omega) (by decide)]; omega
    have e2 : (-m).tmod 60 = ((m.natAbs % 60 : Nat) : Int) := by
      rw [Int.tmod_eq_emod (by omega) (by decide)]; omega
    simp [hm, e1, e2]
  · have e1 : m.tdiv 60 = ((m.natAbs / 60 : Nat) : Int) := by
      rw [Int.tdiv_eq_ediv (by omega) (by decide)]; omega
    have e2 : m.tmod 60 = ((m.natAbs % 60 : Nat) : Int) := by
      rw [Int.tmod_eq_emod (by omega) (by decide)]; omega
    simp [hm, e1, e2]

theorem appendZone_numColonTZ (b : Str) (offset : Int) :
    appendZone b stdNumColonTZ offset =
      appendInt (appendInt (b ++ [if offset.tdiv 60 < 0 then '-' else '+'])
        (((offset.tdiv 60).natAbs / 60 : Nat) : Int) 2 ++ [':'])
        (((offset.tdiv 60).natAbs % 60 : Nat) : Int) 2 := by
  unfold appendZone
  generalize offset.tdiv 60 = m
  simp only [stdISO8601TZ, stdISO8601ColonTZ, stdISO8601SecondsTZ, stdISO8601ShortTZ,
    stdISO8601ColonSecondsTZ, stdNumTZ, stdNumColonTZ, stdNumSecondsTz, stdNumShortTZ,
    stdNumColonSecondsTZ]
  norm_num
  by_cases hm : m < 0
  · have e1 : (-m).tdiv 60 = ((m.natAbs / 60 : Nat) : Int) := by
      rw [Int.tdiv_eq_ediv (by omega) (by decide)]; omega
    have e2 : (-m).tmod 60 = ((m.natAbs % 60 : Nat) : Int) := by
      rw [Int.tmod_eq_emod (by omega) (by decide)]; omega
    simp [hm, e1, e2]
  · have e1 : m.tdiv 60 = ((m.natAbs / 60 : Nat) : Int) := by
      rw [Int.tdiv_eq_ediv (by omega) (by decide)]; omega
    have e2 : m.tmod 60 = ((m.natAbs % 60 : Nat) : Int) := by
      rw [Int.tmod_eq_emod (by omega) (by decide)]; omega
    simp [hm, e1, e2]

theorem appendStd_numTZ (name : Str) (offset : Int) (abs ns : Nat) (f : FormatFields) (b : Str) :
    appendStd name offset abs ns f b stdNumTZ = appendZone b stdNumTZ offset ∧
    appendStd name offset abs ns f b stdNumColonTZ = appendZone b stdNumColonTZ offset := by
  constructor
  · unfold appendStd
    simp only [show stdNumTZ &&& stdMask = stdNumTZ from by decide]
    simp [stdFracSecond0, stdFracSecond9, stdYear, stdLongYear, stdMonth,
      stdLongMonth, stdNumMonth, stdZeroMonth, stdWeekDay, stdLongWeekDay, stdDay, stdUnderDay,
      stdZeroDay, stdHour, stdHour12, stdZeroHour12, stdMinute, stdZeroMinute, stdSecond,
      stdZeroSecond, stdPM, stdpm, stdISO8601TZ, stdISO8601ColonTZ, stdISO8601SecondsTZ,
      stdISO8601ShortTZ, stdISO8601ColonSecondsTZ, stdNumTZ, stdNeedDate, stdNeedClock]
  · unfold appendStd
    simp only [show stdNumColonTZ &&& stdMask = stdNumColonTZ from by decide]
    simp [stdFracSecond0, stdFracSecond9, stdYear, stdLongYear, stdMonth,
      stdLongMonth, stdNumMonth, stdZeroMonth, stdWeekDay, stdLongWeekDay, stdDay, stdUnderDay,
      stdZeroDay, stdHour, stdHour12, stdZeroHour12, stdMinute, stdZeroMinute, stdSecond,
      stdZeroSecond, stdPM, stdpm, stdISO8601TZ, stdISO8601ColonTZ, stdISO8601SecondsTZ,
      stdISO8601ShortTZ, stdISO8601ColonSecondsTZ, stdNumTZ, stdNumColonTZ, stdNeedDate,
      stdNeedClock]

/-- C13: numeric offset rendering.  For every instant whose zone offset is `o`
seconds, with `m = o / 60` truncated toward zero, the pattern `Z` renders `-` if
`m < 0` and `+` otherwise, then `|m| / 60` zero-padded to 2 digits, then `|m| mod 60`
as 2 digits; the pattern `ZZ` renders the same with `:` between hours and minutes.
This holds for `o = 0` as well, which renders "+0000" and "+00:00". -/
theorem Format_numeric_offset (t : Instant) (hlo : -2 ^ 63 ≤ t.zoneOffset)
    (hhi : t.zoneOffset < 2 ^ 63) :
    Format t "Z".toList = .ok
      ([if t.zoneOffset.tdiv 60 < 0 then '-' else '+'] ++
        zeroPadded 2 (((t.zoneOffset.tdiv 60).natAbs / 60 : Nat) : Int) ++
        zeroPadded 2 (((t.zoneOffset.tdiv 60).natAbs % 60 : Nat) : Int)) ∧
    Format t "ZZ".toList = .ok
      ([if t.zoneOffset.tdiv 60 < 0 then '-' else '+'] ++
        zeroPadded 2 (((t.zoneOffset.tdiv 60).natAbs / 60 : Nat) : Int) ++ [':'] ++
        zeroPadded 2 (((t.zoneOffset.tdiv 60).natAbs % 60 : Nat) : Int)) ∧
    (zeroPadded 2 (((t.zoneOffset.tdiv 60).natAbs % 60 : Nat) : Int)).length = 2 ∧
    (t.zoneOffset = 0 →
      Format t "Z".toList = .ok "+0000".toList ∧ Format t "ZZ".toList = .ok "+00:00".toList) := by
  have hm : (t.zoneOffset.tdiv 60).natAbs < 2 ^ 63 := by
    have e : (t.zoneOffset.tdiv 60).natAbs = t.zoneOffset.natAbs / 60 := Int.natAbs_tdiv _ _
    have h2 : t.zoneOffset.natAbs / 60 ≤ t.zoneOffset.natAbs := Nat.div_le_self _ _
    omega
  have k1 : Format t "Z".toList = .ok
      (appendZone [] stdNumTZ t.zoneOffset) := by
    unfold Format AppendFormat
    simp only []
    have e : "Z".toList.length + 1 = 1 + 1 := by decide
    rw [e, appendFormatLoop_step _ _ _ _ _ _ _ "Z".toList [] [] stdNumTZ
      (by decide) (by decide) (by decide),
      computeFields_none _ _ stdNumTZ (by decide) (by decide), (appendStd_numTZ _ _ _ _ _ _).1]
    rfl
  have k2 : Format t "ZZ".toList = .ok
      (appendZone [] stdNumColonTZ t.zoneOffset) := by
    unfold Format AppendFormat
    simp only []
    have e : "ZZ".toList.length + 1 = 2 + 1 := by decide
    rw [e, appendFormatLoop_step _ _ _ _ _ _ _ "ZZ".toList [] [] stdNumColonTZ
      (by decide) (by decide) (by decide),
      computeFields_none _ _ stdNumColonTZ (by decide) (by decide),
      (appendStd_numTZ _ _ _ _ _ _).2]
    rfl
  have t1 : Format t "Z".toList = .ok
      ([if t.zoneOffset.tdiv 60 < 0 then '-' else '+'] ++
        zeroPadded 2 (((t.zoneOffset.tdiv 60).natAbs / 60 : Nat) : Int) ++
        zeroPadded 2 (((t.zoneOffset.tdiv 60).natAbs % 60 : Nat) : Int)) := by
    rw [k1, appendZone_numTZ, appendInt_eq _ _ 2 (by omega), appendInt_eq _ _ 2 (by omega)]
    simp
  have t2 : Format t "ZZ".toList = .ok
      ([if t.zoneOffset.tdiv 60 < 0 then '-' else '+'] ++
        zeroPadded 2 (((t.zoneOffset.tdiv 60).natAbs / 60 : Nat) : Int) ++ [':'] ++
        zeroPadded 2 (((t.zoneOffset.tdiv 60).natAbs % 60 : Nat) : Int)) := by
    rw [k2, appendZone_numColonTZ, appendInt_eq _ _ 2 (by omega), appendInt_eq _ _ 2 (by omega)]
    simp
  refine ⟨t1, t2, ?_, ?_⟩
  · rw [zeroPadded_two _ (by omega) (by omega)]
    rfl
  · intro h0
    rw [k1, k2, h0]
    decide

set_option maxRecDepth 100000 in
/-- Witness for C13: the offset -28800 of the test instant renders "-0800" and
"-08:00". -/
theorem Format_numeric_offset_witness :
    testInstant.zoneOffset = -28800 ∧
    Format testInstant "Z".toList = .ok "-0800".toList ∧
    Format testInstant "ZZ".toList = .ok "-08:00".toList ∧
    (zeroPadded 2 (((testInstant.zoneOffset.tdiv 60).natAbs % 60 : Nat) : Int)).length = 2 :=
  ⟨rfl, by decide, by decide,
    (Format_numeric_offset testInstant (by decide) (by decide)).2.2.1⟩

set_option maxRecDepth 100000 in
/-- C11 (code at the failing input): a pattern with an unbalanced single quote makes
`nextStdChunk` panic, at the slice `layout[i+j+1:]` taken one past the end of the
layout, and with it `Format` and `Parse`; so does a pattern that ends in a lone
quote. -/
theorem nextStdChunk_unbalanced_quote :
    nextStdChunk ([quote] ++ "abc".toList) = .panic ∧
    nextStdChunk ("YYYY".toList ++ [quote]) = .ok ([], stdLongYear, [quote]) ∧
    nextStdChunk [quote] = .panic ∧
    Format testInstant ([quote] ++ "abc".toList) = .panic ∧
    Format testInstant ("YYYY".toList ++ [quote]) = .panic ∧
    Parse bareHost ([quote] ++ "abc".toList) "abc".toList = .panic := by
  decide

set_option maxRecDepth 100000 in
/-- C18 (code at the failing input): second digits above 59 followed by a fraction
that the layout does not announce are accepted.  The fraction branch of the seconds
case stores the range error string of `parseNanoseconds`, which is empty, over
"second"; without the fraction the same digits are rejected. -/
theorem Parse_second_out_of_range_accepted :
    Parse bareHost "ss".toList "61.5".toList = .ok (.time
      { year := 0, month := 1, day := 1, hour := 0, min := 0, sec := 61, nsec := 500000000,
        loc := Location.UTC }) ∧
    Parse bareHost "HH:mm:ss".toList "10:20:99.25".toList = .ok (.time
      { year := 0, month := 1, day := 1, hour := 10, min := 20, sec := 99, nsec := 250000000,
        loc := Location.UTC }) ∧
    Parse bareHost "ss".toList "61".toList = .ok (.error
      ⟨"ss".toList, "61".toList, "ss".toList, [], ": second out of range".toList⟩) := by
  decide

theorem nanoDigits_acc (k u : Nat) (acc : Str) :
    nanoDigits k u acc = nanoDigits k u [] ++ acc := by
  induction k generalizing u acc with
  | zero => rfl
  | succ k ih =>
    simp only [nanoDigits]
    rw [ih (u / 10) (digitByte (u % 10) :: acc), ih (u / 10) [digitByte (u % 10)]]
    simp

theorem nanoDigits_succ (k u : Nat) :
    nanoDigits (k + 1) u [] = nanoDigits k (u / 10) [] ++ [digitByte (u % 10)] := by
  simp only [nanoDigits]
  rw [nanoDigits_acc]

theorem nanoDigits_length (k u : Nat) : (nanoDigits k u []).length = k := by
  induction k generalizing u with
  | zero => rfl
  | succ k ih => rw [nanoDigits_succ, List.length_append, ih]; rfl

theorem nanoDigits_take (n j u : Nat) :
    (nanoDigits (n + j) u []).take n = nanoDigits n (u / 10 ^ j) [] := by
  induction j generalizing u with
  | zero =>
    rw [Nat.pow_zero, Nat.div_one, Nat.add_zero]
    exact List.take_of_length_le (by rw [nanoDigits_length])
  | succ j ih =>
    rw [← Nat.add_assoc, nanoDigits_succ, List.take_append_of_le_length
      (by rw [nanoDigits_length]; omega), ih, Nat.div_div_eq_div_mul, Nat.pow_succ,
      Nat.mul_comm]

theorem decimal_lt (v : Nat) (h : v < 10) : decimal v = [digitByte v] := by
  simp only [decimal]
  split
  · rename_i h0; subst h0; rfl
  · rename_i h0
    rw [Nat.digits_of_lt 10 v h0 h]
    rfl

theorem decimal_ge (v : Nat) (h : 10 ≤ v) :
    decimal v = decimal (v / 10) ++ [digitByte (v % 10)] := by
  have hu : v ≠ 0 := by omega
  have hq0 : v / 10 ≠ 0 := by omega
  simp only [decimal, hu, hq0, if_false]
  rw [Nat.digits_def' (by decide : 1 < 10) (by omega : 0 < v)]
  simp

theorem nanoDigits_eq (k v : Nat) (hk : 1 ≤ k) (hv : v < 10 ^ k) :
    nanoDigits k v [] = zeroPadded k (v : Int) := by
  have hn : ¬ ((v : Int) < 0) := by omega
  simp only [zeroPadded, hn, if_false, Int.natAbs_ofNat, List.nil_append]
  induction k generalizing v with
  | zero => omega
  | succ k ih =>
    rw [nanoDigits_succ]
    by_cases h10 : 10 ≤ v
    · have hk1 : 1 ≤ k := by
        rcases Nat.eq_zero_or_pos k with e | e
        · subst e; simp at hv; omega
        · exact e
      have hq : v / 10 < 10 ^ k := by
        rw [Nat.div_lt_iff_lt_mul (by decide)]
        rw [Nat.pow_succ] at hv
        exact hv
      rw [ih (v / 10) hk1 hq (by omega), decimal_ge v h10]
      simp [List.append_assoc]
    · have hlt : v < 10 := by omega
      have e0 : v / 10 = 0 := by omega
      have e1 : v % 10 = v := by omega
      rw [decimal_lt v hlt, e0, e1]
      have hz : ∀ j : Nat, nanoDigits j 0 [] = List.replicate j '0' := by
        intro j
        induction j with
        | zero => rfl
        | succ j ihj =>
          rw [nanoDigits_succ, ihj]
          have : digitByte (0 % 10) = '0' := by decide
          rw [this, ← List.replicate_succ']
      rw [hz]
      simp

theorem trimZeros_take (buf : Str) (n : Nat) (h : n ≤ buf.length) :
    buf.take (trimZeros buf n) = (buf.take n).rdropWhile (fun c => c == '0') := by
  induction n with
  | zero => simp [trimZeros, List.rdropWhile]
  | succ n ih =>
    have hlt : n < buf.length := by omega
    have hg : buf.getD n ' ' = buf[n] := by
      simp [List.getD, List.getElem?_eq_getElem hlt]
    rw [List.take_succ, List.getElem?_eq_getElem hlt]
    simp only [Option.toList, trimZeros, hg]
    rw [List.rdropWhile_concat]
    by_cases hc : buf[n] = '0'
    · simp only [hc, if_true, beq_self_eq_true]
      exact ih (by omega)
    · have hb : (buf[n] == '0') = false := by simpa using hc
      simp only [hc, if_false, hb, Bool.false_eq_true]
      rw [List.take_succ, List.getElem?_eq_getElem hlt]
      rfl

/-- C14: fractional-second rendering truncates.  For every nanosecond value
`ns < 10^9` and digit count `n` with `1 ≤ n ≤ 9`, `formatNano` in fixed-width mode
appends exactly `n` characters, the decimal of `ns / 10^(9-n)` (rounded down)
zero-padded on the left to `n` digits; in trimmed mode it appends those same digits
with every trailing '0' removed, and appends nothing at all when the `n` digits are
all zero. -/
theorem formatNano_truncates (b : Str) (ns n : Nat) (hns : ns < 10 ^ 9) (h1 : 1 ≤ n)
    (h9 : n ≤ 9) :
    formatNano b ns n false = b ++ zeroPadded n ((ns / 10 ^ (9 - n) : Nat) : Int) ∧
    (zeroPadded n ((ns / 10 ^ (9 - n) : Nat) : Int)).length = n ∧
    formatNano b ns n true =
      b ++ (zeroPadded n ((ns / 10 ^ (9 - n) : Nat) : Int)).rdropWhile (fun c => c == '0') ∧
    ((∀ c ∈ zeroPadded n ((ns / 10 ^ (9 - n) : Nat) : Int), c = '0') →
      formatNano b ns n true = b) := by
  have hmod : ns % 2 ^ 64 = ns := Nat.mod_eq_of_lt (by omega)
  have hq : ns / 10 ^ (9 - n) < 10 ^ n := by
    rw [Nat.div_lt_iff_lt_mul (Nat.pos_pow_of_pos _ (by decide)), ← Nat.pow_add]
    have : n + (9 - n) = 9 := by omega
    rw [this]
    exact hns
  have hbuf : (nanoDigits 9 ns []).take n = zeroPadded n ((ns / 10 ^ (9 - n) : Nat) : Int) := by
    have e : 9 = n + (9 - n) := by omega
    conv_lhs => rw [e]
    rw [nanoDigits_take, nanoDigits_eq _ _ h1 hq]
  have hn9 : ¬ n > 9 := by omega
  have hfix : formatNano b ns n false = b ++ zeroPadded n ((ns / 10 ^ (9 - n) : Nat) : Int) := by
    simp only [formatNano, hmod, hn9, if_false, Bool.false_eq_true]
    rw [hbuf]
  have htrim : formatNano b ns n true =
      b ++ (zeroPadded n ((ns / 10 ^ (9 - n) : Nat) : Int)).rdropWhile (fun c => c == '0') := by
    simp only [formatNano, hmod, hn9, if_false, if_true]
    rw [← hbuf, ← trimZeros_take _ _ (by rw [nanoDigits_length]; exact h9)]
    split
    · rename_i h0; rw [h0]; simp
    · rfl
  refine ⟨hfix, ?_, htrim, ?_⟩
  · rw [← hbuf, List.length_take, nanoDigits_length]
    omega
  · intro hall
    rw [htrim]
    have : (zeroPadded n ((ns / 10 ^ (9 - n) : Nat) : Int)).rdropWhile (fun c => c == '0') = [] := by
      rw [List.rdropWhile_eq_nil_iff]
      intro c hc
      simp [hall c hc]
    rw [this, List.append_nil]

set_option maxRecDepth 100000 in
/-- Witness for C14: the nanosecond value 12345600 renders the fraction "0123456"
under nine trimmed digits, as in the layout `RFC3339Nano`, and "012" under three
fixed digits. -/
theorem formatNano_truncates_witness :
    formatNano [] 12345600 9 true = "0123456".toList ∧
    formatNano [] 12345600 3 false = "012".toList ∧
    Format testInstant RFC3339Nano
      = .ok "2009-02-04T21:00:57.0123456-08:00".toList ∧
    formatNano [] 12345600 9 true =
      [] ++ (zeroPadded 9 ((12345600 / 10 ^ (9 - 9) : Nat) : Int)).rdropWhile
        (fun c => c == '0') :=
  ⟨by decide, by decide, by decide,
    (formatNano_truncates [] 12345600 9 (by decide) (by decide) (by decide)).2.2.1⟩

theorem atoi_twoDigits (v : Int) (h0 : 0 ≤ v) (h1 : v < 100) :
    atoi (twoDigits v) = (v, false) := by
  obtain ⟨n, rfl⟩ : ∃ n : Nat, v = (n : Int) := ⟨v.toNat, by omega⟩
  have hn : n < 100 := by omega
  have g1 := digitByte_facts (n / 10) (by omega)
  simp only [atoi, twoDigits, Int.toNat_ofNat, byteAt, List.getD_cons_zero, ne_eq,
    reduceCtorEq, not_false_eq_true, true_and, g1.2.2.2.1, g1.2.2.2.2.1, or_self, if_false,
    decide_False, leadingInt]
  rw [leadingIntLoop_digit _ _ _ (by omega) (by omega) (by norm_num),
    leadingIntLoop_digit _ _ _ (by omega) (by omega) (by omega)]
  simp only [leadingIntLoop, Bool.false_eq_true, not_true_eq_false, or_self, if_false,
    Prod.mk.injEq, and_true]
  omega

theorem twoDigits_append (v : Int) (rest : Str) :
    (twoDigits v ++ rest).length ≥ 2 ∧ (twoDigits v ++ rest).take 2 = twoDigits v ∧
      (twoDigits v ++ rest).drop 2 = rest := by
  simp [twoDigits]

theorem parseStd_year (layout : Str) (st : ParseState) (v : Int) (rest : Str)
    (hv : st.value = twoDigits v ++ rest) (h0 : 0 ≤ v) (h1 : v < 100) :
    parseStd layout stdYear st =
      .ok ({ st with value := rest, year := if v ≥ 69 then v + 1900 else v + 2000 }, false) := by
  obtain ⟨a1, a2, a3⟩ := twoDigits_append v rest
  unfold parseStd
  simp only [show stdYear &&& stdMask = stdYear from by decide, hv]
  rw [if_pos trivial]
  have hlen : ¬ ((twoDigits v ++ rest).length < 2) := by omega
  simp only [hlen, if_false, a2, a3, atoi_twoDigits v h0 h1]

theorem daysIn_january (y : Int) : daysIn 1 y = 31 := by
  simp [daysIn, February, daysBeforeAt, daysBefore]

theorem parseFinish_default (host : Host) (al av : Str) (dl loc : Location) (st : ParseState)
    (hd1 : 1 ≤ st.day) (hd2 : st.day ≤ daysIn st.month st.year) (hz : st.z = none)
    (ho : st.zoneOffset = -1) (hn : st.zoneName = []) :
    parseFinish host al av dl loc st = .time
      { year := st.year, month := st.month, day := st.day,
        hour := if st.pmSet = true ∧ st.hour < 12 then st.hour + 12
                else if st.amSet = true ∧ st.hour = 12 then 0 else st.hour,
        min := st.min, sec := st.sec, nsec := st.nsec, loc := dl } := by
  unfold parseFinish
  have hd : ¬ (st.day < 1 ∨ st.day > daysIn st.month st.year) := by omega
  simp only [hd, if_false, hz, ho, hn, ne_eq, not_true_eq_false]

/-- C15: two-digit year windowing.  When the value starts with the two decimal
digits of `v`, the 2-digit year directive consumes exactly those two characters and
sets the year to `1900 + v` when `v ≥ 69` and to `2000 + v` otherwise; each of the
patterns `YY`, `yy` and `xx` is this directive, and `Parse` of the two digits under
it yields that year. -/
theorem Parse_twoDigitYear (host : Host) (v : Int) (h0 : 0 ≤ v) (h1 : v < 100) :
    (∀ (layout : Str) (st : ParseState) (rest : Str), st.value = twoDigits v ++ rest →
      parseStd layout stdYear st =
        .ok ({ st with value := rest, year := if v ≥ 69 then v + 1900 else v + 2000 }, false)) ∧
    (∀ p ∈ ["YY".toList, "yy".toList, "xx".toList],
      nextStdChunk p = .ok ([], stdYear, []) ∧
      Parse host p (twoDigits v) = .ok (.time
        { year := if v ≥ 69 then v + 1900 else v + 2000, month := 1, day := 1, hour := 0,
          min := 0, sec := 0, nsec := 0, loc := Location.UTC })) := by
  refine ⟨fun layout st rest hv => parseStd_year layout st v rest hv h0 h1, ?_⟩
  have key : ∀ p : Str, nextStdChunk p = .ok ([], stdYear, []) → p.length = 2 →
      Parse host p (twoDigits v) = .ok (.time
        { year := if v ≥ 69 then v + 1900 else v + 2000, month := 1, day := 1, hour := 0,
          min := 0, sec := 0, nsec := 0, loc := Location.UTC }) := by
    intro p hp hl
    unfold Parse parse
    rw [hl]
    rw [parseLoop_step host p (twoDigits v) _ _ _ p [] [] (twoDigits v) stdYear _ _ hp
      (skip_nil _) (by decide)
      (parseStd_year [] _ v [] (by simp) h0 h1) rfl]
    rw [parseLoop_last host p (twoDigits v) _ _ _ [] [] [] _ (by decide) (skip_nil _)]
    rw [parseFinish_default _ _ _ _ _ _ (Int.le_refl 1)
      (by show (1 : Int) ≤ daysIn 1 _; rw [daysIn_january]; decide) rfl rfl rfl]
    rfl
  intro p hp
  simp only [List.mem_cons, List.mem_singleton, List.not_mem_nil, or_false] at hp
  rcases hp with rfl | rfl | rfl
  · exact ⟨by decide, key _ (by decide) (by decide)⟩
  · exact ⟨by decide, key _ (by decide) (by decide)⟩
  · exact ⟨by decide, key _ (by decide) (by decide)⟩

set_option maxRecDepth 100000 in
/-- Witness for C15: "68" yields 2068 and "69" yields 1969, and the RFC850 input
"Thursday, 04-Feb-10 21:00:57 PST" yields the year 2010. -/
theorem Parse_twoDigitYear_witness :
    Parse bareHost "YY".toList (twoDigits 68) = .ok (.time
        { year := if (68 : Int) ≥ 69 then 68 + 1900 else 68 + 2000, month := 1, day := 1,
          hour := 0, min := 0, sec := 0, nsec := 0, loc := Location.UTC }) ∧
    Parse bareHost "YY".toList "68".toList = .ok (.time
        { year := 2068, month := 1, day := 1, hour := 0, min := 0, sec := 0, nsec := 0,
          loc := Location.UTC }) ∧
    Parse bareHost "yy".toList "69".toList = .ok (.time
        { year := 1969, month := 1, day := 1, hour := 0, min := 0, sec := 0, nsec := 0,
          loc := Location.UTC }) ∧
    Parse bareHost RFC850 "Thursday, 04-Feb-10 21:00:57 PST".toList = .ok (.time
        { year := 2010, month := 2, day := 4, hour := 21, min := 0, sec := 57, nsec := 0,
          loc := Location.fixed "America/Los_Angeles".toList 0 }) :=
  ⟨((Parse_twoDigitYear bareHost 68 (by decide) (by decide)).2 "YY".toList (by simp)).2,
    by decide, by decide, by decide⟩

theorem atoi_zeros : atoi "00".toList = (0, false) := by decide

theorem parseNumTZ_num (st : ParseState) (neg : Bool) (hh mm : Int) (rest : Str)
    (hv : st.value = (if neg then '-' else '+') :: (twoDigits hh ++ twoDigits mm ++ rest))
    (h0 : 0 ≤ hh) (h1 : hh < 100) (m0 : 0 ≤ mm) (m1 : mm < 100) :
    parseNumTZ stdNumTZ st =
      ({ st with value := rest,
                 zoneOffset := if neg then -(hh * 3600 + mm * 60) else hh * 3600 + mm * 60 },
        false) := by
  have a1 := atoi_twoDigits hh h0 h1
  have a2 := atoi_twoDigits mm m0 m1
  have a3 : atoi ['0', '0'] = (0, false) := atoi_zeros
  simp only [twoDigits] at a1 a2 hv
  have hlen : ¬ (rest.length + 1 + 1 + 1 + 1 + 1 < 5) := by omega
  cases neg
  · simp [parseNumTZ, hv, stdISO8601TZ, stdISO8601ColonTZ, stdISO8601SecondsTZ,
      stdISO8601ShortTZ, stdISO8601ColonSecondsTZ, stdNumTZ, stdNumColonTZ, stdNumSecondsTz,
      stdNumShortTZ, stdNumColonSecondsTZ, stdTZ, a1, a2, a3, byteAt]
    rw [if_neg hlen]
    simp [a1, a2, a3]
    ring
  · simp [parseNumTZ, hv, stdISO8601TZ, stdISO8601ColonTZ, stdISO8601SecondsTZ,
      stdISO8601ShortTZ, stdISO8601ColonSecondsTZ, stdNumTZ, stdNumColonTZ, stdNumSecondsTz,
      stdNumShortTZ, stdNumColonSecondsTZ, stdTZ, a1, a2, a3, byteAt]
    rw [if_neg hlen]
    simp [a1, a2, a3]
    ring

theorem parseNumTZ_colon (st : ParseState) (neg : Bool) (hh mm : Int) (rest : Str)
    (hv : st.value =
      (if neg then '-' else '+') :: (twoDigits hh ++ ':' :: (twoDigits mm ++ rest)))
    (h0 : 0 ≤ hh) (h1 : hh < 100) (m0 : 0 ≤ mm) (m1 : mm < 100) :
    parseNumTZ stdNumColonTZ st =
      ({ st with value := rest,
                 zoneOffset := if neg then -(hh * 3600 + mm * 60) else hh * 3600 + mm * 60 },
        false) := by
  have a1 := atoi_twoDigits hh h0 h1
  have a2 := atoi_twoDigits mm m0 m1
  have a3 : atoi ['0', '0'] = (0, false) := atoi_zeros
  simp only [twoDigits] at a1 a2 hv
  have hlen : ¬ (rest.length + 1 + 1 + 1 + 1 + 1 + 1 < 6) := by omega
  cases neg
  · simp [parseNumTZ, hv, stdISO8601TZ, stdISO8601ColonTZ, stdISO8601SecondsTZ,
      stdISO8601ShortTZ, stdISO8601ColonSecondsTZ, stdNumTZ, stdNumColonTZ, stdNumSecondsTz,
      stdNumShortTZ, stdNumColonSecondsTZ, stdTZ, a1, a2, a3, byteAt]
    rw [if_neg hlen]
    simp [a1, a2, a3]
    ring
  · simp [parseNumTZ, hv, stdISO8601TZ, stdISO8601ColonTZ, stdISO8601SecondsTZ,
      stdISO8601ShortTZ, stdISO8601ColonSecondsTZ, stdNumTZ, stdNumColonTZ, stdNumSecondsTz,
      stdNumShortTZ, stdNumColonSecondsTZ, stdTZ, a1, a2, a3, byteAt]
    rw [if_neg hlen]
    simp [a1, a2, a3]
    ring

theorem parseNumTZ_short (st : ParseState) (neg : Bool) (hh : Int)
    (hv : st.value = (if neg then '-' else '+') :: twoDigits hh)
    (h0 : 0 ≤ hh) (h1 : hh < 100) :
    parseNumTZ stdNumTZ st =
      ({ st with value := [], zoneOffset := if neg then -(hh * 3600) else hh * 3600 },
        false) := by
  have a1 := atoi_twoDigits hh h0 h1
  have a3 : atoi ['0', '0'] = (0, false) := atoi_zeros
  simp only [twoDigits] at a1 hv
  cases neg
  · simp [parseNumTZ, hv, stdISO8601TZ, stdISO8601ColonTZ, stdISO8601SecondsTZ,
      stdISO8601ShortTZ, stdISO8601ColonSecondsTZ, stdNumTZ, stdNumColonTZ, stdNumSecondsTz,
      stdNumShortTZ, stdNumColonSecondsTZ, stdTZ, a1, a3, byteAt]
    omega
  · simp [parseNumTZ, hv, stdISO8601TZ, stdISO8601ColonTZ, stdISO8601SecondsTZ,
      stdISO8601ShortTZ, stdISO8601ColonSecondsTZ, stdNumTZ, stdNumColonTZ, stdNumSecondsTz,
      stdNumShortTZ, stdNumColonSecondsTZ, stdTZ, a1, a3, byteAt]
    omega

theorem parseStd_numTZ (layout : Str) (st : ParseState) :
    parseStd layout stdNumTZ st = .ok (parseNumTZ stdNumTZ st) ∧
    parseStd layout stdNumColonTZ st = .ok (parseNumTZ stdNumColonTZ st) := by
  constructor
  · unfold parseStd
    simp only [show stdNumTZ &&& stdMask = stdNumTZ from by decide]
    simp [stdFracSecond0, stdFracSecond9, stdYear, stdLongYear, stdMonth,
      stdLongMonth, stdNumMonth, stdZeroMonth, stdWeekDay, stdLongWeekDay, stdDay, stdUnderDay,
      stdZeroDay, stdHour, stdHour12, stdZeroHour12, stdMinute, stdZeroMinute, stdSecond,
      stdZeroSecond, stdPM, stdpm, stdISO8601TZ, stdISO8601ColonTZ, stdISO8601SecondsTZ,
      stdISO8601ShortTZ, stdISO8601ColonSecondsTZ, stdNumTZ, stdNeedDate, stdNeedClock]
  · unfold parseStd
    simp only [show stdNumColonTZ &&& stdMask = stdNumColonTZ from by decide]
    simp [stdFracSecond0, stdFracSecond9, stdYear, stdLongYear, stdMonth,
      stdLongMonth, stdNumMonth, stdZeroMonth, stdWeekDay, stdLongWeekDay, stdDay, stdUnderDay,
      stdZeroDay, stdHour, stdHour12, stdZeroHour12, stdMinute, stdZeroMinute, stdSecond,
      stdZeroSecond, stdPM, stdpm, stdISO8601TZ, stdISO8601ColonTZ, stdISO8601SecondsTZ,
      stdISO8601ShortTZ, stdISO8601ColonSecondsTZ, stdNumTZ, stdNumShortTZ, stdNumColonTZ,
      stdNeedDate, stdNeedClock]

theorem parseFinish_fixed (host : Host) (al av : Str) (dl loc : Location) (st : ParseState)
    (hd1 : 1 ≤ st.day) (hd2 : st.day ≤ daysIn st.month st.year) (hz : st.z = none)
    (ho : st.zoneOffset ≠ -1) :
    parseFinish host al av dl loc st = .time
      { year := st.year, month := st.month, day := st.day,
        hour := if st.pmSet = true ∧ st.hour < 12 then st.hour + 12
                else if st.amSet = true ∧ st.hour = 12 then 0 else st.hour,
        min := st.min, sec := st.sec, nsec := st.nsec,
        loc := Location.fixed st.zoneName st.zoneOffset } := by
  unfold parseFinish
  have hd : ¬ (st.day < 1 ∨ st.day > daysIn st.month st.year) := by omega
  simp only [hd, if_false, hz, ho, ne_eq, not_false_eq_true, if_true]

/-- C20: numeric offset parsing.  With `sign` one of '+' and '-' and `hh`, `mm`
two-digit values, the directive `Z` consumes exactly the 5 characters
`sign h1 h2 m1 m2` and the directive `ZZ` exactly the 6 characters
`sign h1 h2 : m1 m2`, and both record the zone offset `hh*3600 + mm*60` seconds,
negated when the sign is '-'; when the remaining input is exactly the 3 characters
`sign h1 h2`, the directive `Z` records `hh*3600` with that sign.  `Parse` of these
inputs under the patterns `Z` and `ZZ` yields a time in the fixed zone of that
offset. -/
theorem Parse_numeric_offset (host : Host) (neg : Bool) (hh mm : Int)
    (h0 : 0 ≤ hh) (h1 : hh < 100) (m0 : 0 ≤ mm) (m1 : mm < 100) :
    (∀ (layout : Str) (st : ParseState) (rest : Str),
      st.value = (if neg then '-' else '+') :: (twoDigits hh ++ twoDigits mm ++ rest) →
      parseStd layout stdNumTZ st = .ok
        ({ st with value := rest,
                   zoneOffset := if neg then -(hh * 3600 + mm * 60) else hh * 3600 + mm * 60 },
          false)) ∧
    (∀ (layout : Str) (st : ParseState) (rest : Str),
      st.value = (if neg then '-' else '+') :: (twoDigits hh ++ ':' :: (twoDigits mm ++ rest)) →
      parseStd layout stdNumColonTZ st = .ok
        ({ st with value := rest,
                   zoneOffset := if neg then -(hh * 3600 + mm * 60) else hh * 3600 + mm * 60 },
          false)) ∧
    (∀ (layout : Str) (st : ParseState),
      st.value = (if neg then '-' else '+') :: twoDigits hh →
      parseStd layout stdNumTZ st = .ok
        ({ st with value := [], zoneOffset := if neg then -(hh * 3600) else hh * 3600 },
          false)) ∧
    Parse host "Z".toList ((if neg then '-' else '+') :: (twoDigits hh ++ twoDigits mm)) =
      .ok (.time
        { year := 0, month := 1, day := 1, hour := 0, min := 0, sec := 0, nsec := 0,
          loc := Location.fixed []
            (if neg then -(hh * 3600 + mm * 60) else hh * 3600 + mm * 60) }) ∧
    Parse host "ZZ".toList
        ((if neg then '-' else '+') :: (twoDigits hh ++ ':' :: twoDigits mm)) =
      .ok (.time
        { year := 0, month := 1, day := 1, hour := 0, min := 0, sec := 0, nsec := 0,
          loc := Location.fixed []
            (if neg then -(hh * 3600 + mm * 60) else hh * 3600 + mm * 60) }) ∧
    Parse host "Z".toList ((if neg then '-' else '+') :: twoDigits hh) =
      .ok (.time
        { year := 0, month := 1, day := 1, hour := 0, min := 0, sec := 0, nsec := 0,
          loc := Location.fixed [] (if neg then -(hh * 3600) else hh * 3600) }) := by
  have s1 : ∀ (layout : Str) (st : ParseState) (rest : Str),
      st.value = (if neg then '-' else '+') :: (twoDigits hh ++ twoDigits mm ++ rest) →
      parseStd layout stdNumTZ st = .ok
        ({ st with value := rest,
                   zoneOffset := if neg then -(hh * 3600 + mm * 60) else hh * 3600 + mm * 60 },
          false) := by
    intro layout st rest hv
    rw [(parseStd_numTZ layout st).1, parseNumTZ_num st neg hh mm rest hv h0 h1 m0 m1]
  have s2 : ∀ (layout : Str) (st : ParseState) (rest : Str),
      st.value = (if neg then '-' else '+') :: (twoDigits hh ++ ':' :: (twoDigits mm ++ rest)) →
      parseStd layout stdNumColonTZ st = .ok
        ({ st with value := rest,
                   zoneOffset := if neg then -(hh * 3600 + mm * 60) else hh * 3600 + mm * 60 },
          false) := by
    intro layout st rest hv
    rw [(parseStd_numTZ layout st).2, parseNumTZ_colon st neg hh mm rest hv h0 h1 m0 m1]
  have s3 : ∀ (layout : Str) (st : ParseState),
      st.value = (if neg then '-' else '+') :: twoDigits hh →
      parseStd layout stdNumTZ st = .ok
        ({ st with value := [], zoneOffset := if neg then -(hh * 3600) else hh * 3600 },
          false) := by
    intro layout st hv
    rw [(parseStd_numTZ layout st).1, parseNumTZ_short st neg hh hv h0 h1]
  have o1 : (if neg then -(hh * 3600 + mm * 60) else hh * 3600 + mm * 60) ≠ -1 := by
    split <;> omega
  have o2 : (if neg then -(hh * 3600) else hh * 3600) ≠ -1 := by
    split <;> omega
  refine ⟨s1, s2, s3, ?_, ?_, ?_⟩
  · unfold Parse parse
    rw [show "Z".toList.length + 1 = 1 + 1 from rfl]
    rw [parseLoop_step host _ _ _ _ _ "Z".toList [] [] _ stdNumTZ _ _ (by decide)
      (skip_nil _) (by decide) (s1 [] _ [] (by simp)) rfl]
    rw [parseLoop_last host _ _ _ _ _ [] [] [] _ (by decide) (skip_nil _)]
    rw [parseFinish_fixed _ _ _ _ _ _ (Int.le_refl 1)
      (by show (1 : Int) ≤ daysIn 1 _; rw [daysIn_january]; decide) rfl o1]
    rfl
  · unfold Parse parse
    rw [show "ZZ".toList.length + 1 = 2 + 1 from rfl]
    rw [parseLoop_step host _ _ _ _ _ "ZZ".toList [] [] _ stdNumColonTZ _ _ (by decide)
      (skip_nil _) (by decide) (s2 [] _ [] (by simp)) rfl]
    rw [parseLoop_last host _ _ _ _ _ [] [] [] _ (by decide) (skip_nil _)]
    rw [parseFinish_fixed _ _ _ _ _ _ (Int.le_refl 1)
      (by show (1 : Int) ≤ daysIn 1 _; rw [daysIn_january]; decide) rfl o1]
    rfl
  · unfold Parse parse
    rw [show "Z".toList.length + 1 = 1 + 1 from rfl]
    rw [parseLoop_step host _ _ _ _ _ "Z".toList [] [] _ stdNumTZ _ _ (by decide)
      (skip_nil _) (by decide) (s3 [] _ rfl) rfl]
    rw [parseLoop_last host _ _ _ _ _ [] [] [] _ (by decide) (skip_nil _)]
    rw [parseFinish_fixed _ _ _ _ _ _ (Int.le_refl 1)
      (by show (1 : Int) ≤ daysIn 1 _; rw [daysIn_january]; decide) rfl o2]
    rfl

set_option maxRecDepth 100000 in
/-- Witness for C20: the inputs "-0800", "-08:00" and "-08" all give the offset
-28800, and so does the offset of the RFC1123Z test input. -/
theorem Parse_numeric_offset_witness :
    Parse bareHost "Z".toList "-0800".toList = .ok (.time
      { year := 0, month := 1, day := 1, hour := 0, min := 0, sec := 0, nsec := 0,
        loc := Location.fixed [] (-28800) }) ∧
    Parse bareHost "ZZ".toList "-08:00".toList = .ok (.time
      { year := 0, month := 1, day := 1, hour := 0, min := 0, sec := 0, nsec := 0,
        loc := Location.fixed [] (-28800) }) ∧
    Parse bareHost "Z".toList "-08".toList = .ok (.time
      { year := 0, month := 1, day := 1, hour := 0, min := 0, sec := 0, nsec := 0,
        loc := Location.fixed [] (-28800) }) ∧
    Parse bareHost RFC1123Z "Thu, 04 Feb 2010 21:00:57 -0800".toList = .ok (.time
      { year := 2010, month := 2, day := 4, hour := 21, min := 0, sec := 57, nsec := 0,
        loc := Location.fixed [] (-28800) }) ∧
    Parse bareHost "Z".toList ((if true then '-' else '+') :: (twoDigits 8 ++ twoDigits 0)) =
      .ok (.time
        { year := 0, month := 1, day := 1, hour := 0, min := 0, sec := 0, nsec := 0,
          loc := Location.fixed []
            (if true then -((8 : Int) * 3600 + 0 * 60) else 8 * 3600 + 0 * 60) }) :=
  ⟨by decide, by decide, by decide, by decide,
    (Parse_numeric_offset bareHost true 8 0 (by decide) (by decide) (by decide)
      (by decide)).2.2.2.1⟩

theorem lookupFrom_bound (tab : List Str) (i : Nat) (val : Str)
    (h : (lookupFrom tab i val).2.2 = false) :
    (i : Int) ≤ (lookupFrom tab i val).1 ∧ (lookupFrom tab i val).1 < (i : Int) + tab.length := by
  induction tab generalizing i with
  | nil => simp [lookupFrom] at h
  | cons v tab ih =>
    rw [lookupFrom] at h ⊢
    split
    · simp
    · rename_i hc
      rw [if_neg hc] at h
      have := ih (i + 1) h
      simp only [List.length_cons]
      push_cast at this ⊢
      omega

theorem getnum_nonneg (s : Str) (fixed : Bool) : 0 ≤ (getnum s fixed).1 := by
  unfold getnum digitVal
  split
  · simp
  · split
    · split <;> simp
    · simp
      omega

theorem parseSecond_frame (layout : Str) (std : Nat) (st st' : ParseState) (err : Bool)
    (h : parseSecond layout std st = .ok (st', err)) :
    st'.month = st.month ∧ st'.hour = st.hour ∧ st'.min = st.min ∧ st'.day = st.day ∧
    st'.year = st.year ∧ st'.amSet = st.amSet ∧ st'.pmSet = st.pmSet := by
  unfold parseSecond at h
  simp only [] at h
  repeat' split at h
  all_goals first
    | (simp only [reduceCtorEq] at h; done)
    | (simp only [Outcome.ok.injEq, Prod.mk.injEq] at h
       obtain ⟨rfl, _⟩ := h
       simp)

theorem parseNumTZ_frame (std : Nat) (st : ParseState) :
    (parseNumTZ std st).1.month = st.month ∧ (parseNumTZ std st).1.hour = st.hour ∧
    (parseNumTZ std st).1.min = st.min ∧ (parseNumTZ std st).1.day = st.day ∧
    (parseNumTZ std st).1.year = st.year ∧ (parseNumTZ std st).1.amSet = st.amSet ∧
    (parseNumTZ std st).1.pmSet = st.pmSet ∧
    (parseNumTZ std st).1.rangeErrString = st.rangeErrString := by
  unfold parseNumTZ
  simp only []
  split
  · simp
  · split
    · simp
    · split <;> [simp; (split <;> simp)]
set_option linter.unusedTactic false in
set_option linter.unreachableTactic false in
set_option linter.unnecessarySeqFocus false in
theorem parseStd_bounds (layout : Str) (std : Nat) (st st' : ParseState)
    (h : parseStd layout std st = .ok (st', false)) (hr : st'.rangeErrString = [])
    (hm : 1 ≤ st.month ∧ st.month ≤ 12) (hh : 0 ≤ st.hour ∧ st.hour ≤ 23)
    (hmin : 0 ≤ st.min ∧ st.min ≤ 59) :
    (1 ≤ st'.month ∧ st'.month ≤ 12) ∧ (0 ≤ st'.hour ∧ st'.hour ≤ 23) ∧
    (0 ≤ st'.min ∧ st'.min ≤ 59) := by
  unfold parseStd at h
  dsimp only at h
  generalize std &&& stdMask = s at h
  by_cases c0 : s = stdYear
  · rw [if_pos c0] at h
    (repeat' split at h) <;> first
      | (simp at h; done)
      | (simp only [Outcome.ok.injEq, Prod.mk.injEq] at h
         obtain ⟨rfl, _⟩ := h
         first
           | exact ⟨hm, hh, hmin⟩
           | (simp at hr; done)
           | (dsimp only at hr ⊢; omega))
  rw [if_neg c0] at h
  by_cases c1 : s = stdLongYear
  · rw [if_pos c1] at h
    (repeat' split at h) <;> first
      | (simp at h; done)
      | (simp only [Outcome.ok.injEq, Prod.mk.injEq] at h
         obtain ⟨rfl, _⟩ := h
         first
           | exact ⟨hm, hh, hmin⟩
           | (simp at hr; done)
           | (dsimp only at hr ⊢; omega))
  rw [if_neg c1] at h
  by_cases c2 : s = stdMonth
  · rw [if_pos c2] at h
    simp only [Outcome.ok.injEq, Prod.mk.injEq] at h
    obtain ⟨rfl, he⟩ := h
    have b := lookupFrom_bound shortMonthNames 0 st.value he
    have l : shortMonthNames.length = 12 := rfl
    rw [l] at b
    refine ⟨?_, hh, hmin⟩
    show 1 ≤ (lookupFrom shortMonthNames 0 st.value).1 + 1 ∧ (lookupFrom shortMonthNames 0 st.value).1 + 1 ≤ 12
    omega
  rw [if_neg c2] at h
  by_cases c3 : s = stdLongMonth
  · rw [if_pos c3] at h
    simp only [Outcome.ok.injEq, Prod.mk.injEq] at h
    obtain ⟨rfl, he⟩ := h
    have b := lookupFrom_bound longMonthNames 0 st.value he
    have l : longMonthNames.length = 12 := rfl
    rw [l] at b
    refine ⟨?_, hh, hmin⟩
    show 1 ≤ (lookupFrom longMonthNames 0 st.value).1 + 1 ∧ (lookupFrom longMonthNames 0 st.value).1 + 1 ≤ 12
    omega
  rw [if_neg c3] at h
  by_cases c4 : s = stdNumMonth ∨ s = stdZeroMonth
  · rw [if_pos c4] at h
    (repeat' split at h) <;> first
      | (simp at h; done)
      | (simp only [Outcome.ok.injEq, Prod.mk.injEq] at h
         obtain ⟨rfl, _⟩ := h
         first
           | exact ⟨hm, hh, hmin⟩
           | (simp at hr; done)
           | (dsimp only at hr ⊢; omega))
  rw [if_neg c4] at h
  by_cases c5 : s = stdWeekDay
  · rw [if_pos c5] at h
    (repeat' split at h) <;> first
      | (simp at h; done)
      | (simp only [Outcome.ok.injEq, Prod.mk.injEq] at h
         obtain ⟨rfl, _⟩ := h
         first
           | exact ⟨hm, hh, hmin⟩
           | (simp at hr; done)
           | (dsimp only at hr ⊢; omega))
  rw [if_neg c5] at h
  by_cases c6 : s = stdLongWeekDay
  · rw [if_pos c6] at h
    (repeat' split at h) <;> first
      | (simp at h; done)
      | (simp only [Outcome.ok.injEq, Prod.mk.injEq] at h
         obtain ⟨rfl, _⟩ := h
         first
           | exact ⟨hm, hh, hmin⟩
           | (simp at hr; done)
           | (dsimp only at hr ⊢; omega))
  rw [if_neg c6] at h
  by_cases c7 : s = stdDay ∨ s = stdUnderDay ∨ s = stdZeroDay
  · rw [if_pos c7] at h
    (repeat' split at h) <;> first
      | (simp at h; done)
      | (simp only [Outcome.ok.injEq, Prod.mk.injEq] at h
         obtain ⟨rfl, _⟩ := h
         first
           | exact ⟨hm, hh, hmin⟩
           | (simp at hr; done)
           | (dsimp only at hr ⊢; omega))
  rw [if_neg c7] at h
  by_cases c8 : s = stdHour
  · rw [if_pos c8] at h
    (repeat' split at h) <;> first
      | (simp at h; done)
      | (simp only [Outcome.ok.injEq, Prod.mk.injEq] at h
         obtain ⟨rfl, _⟩ := h
         first
           | exact ⟨hm, hh, hmin⟩
           | (simp at hr; done)
           | (dsimp only at hr ⊢; omega))
  rw [if_neg c8] at h
  by_cases c9 : s = stdHour12 ∨ s = stdZeroHour12
  · rw [if_pos c9] at h
    (repeat' split at h) <;> first
      | (simp at h; done)
      | (simp only [Outcome.ok.injEq, Prod.mk.injEq] at h
         obtain ⟨rfl, _⟩ := h
         first
           | exact ⟨hm, hh, hmin⟩
           | (simp at hr; done)
           | (dsimp only at hr ⊢; omega))
  rw [if_neg c9] at h
  by_cases c10 : s = stdMinute ∨ s = stdZeroMinute
  · rw [if_pos c10] at h
    (repeat' split at h) <;> first
      | (simp at h; done)
      | (simp only [Outcome.ok.injEq, Prod.mk.injEq] at h
         obtain ⟨rfl, _⟩ := h
         first
           | exact ⟨hm, hh, hmin⟩
           | (simp at hr; done)
           | (dsimp only at hr ⊢; omega))
  rw [if_neg c10] at h
  by_cases c11 : s = stdSecond ∨ s = stdZeroSecond
  · rw [if_pos c11] at h
    obtain ⟨a, b, c, _⟩ := parseSecond_frame _ _ _ _ _ h
    rw [a, b, c]
    exact ⟨hm, hh, hmin⟩
  rw [if_neg c11] at h
  by_cases c12 : s = stdPM
  · rw [if_pos c12] at h
    (repeat' split at h) <;> first
      | (simp at h; done)
      | (simp only [Outcome.ok.injEq, Prod.mk.injEq] at h
         obtain ⟨rfl, _⟩ := h
         first
           | exact ⟨hm, hh, hmin⟩
           | (simp at hr; done)
           | (dsimp only at hr ⊢; omega))
  rw [if_neg c12] at h
  by_cases c13 : s = stdpm
  · rw [if_pos c13] at h
    (repeat' split at h) <;> first
      | (simp at h; done)
      | (simp only [Outcome.ok.injEq, Prod.mk.injEq] at h
         obtain ⟨rfl, _⟩ := h
         first
           | exact ⟨hm, hh, hmin⟩
           | (simp at hr; done)
           | (dsimp only at hr ⊢; omega))
  rw [if_neg c13] at h
  by_cases c14 : s = stdISO8601TZ ∨ s = stdISO8601ColonTZ ∨ s = stdISO8601SecondsTZ ∨
      s = stdISO8601ShortTZ ∨ s = stdISO8601ColonSecondsTZ ∨ s = stdNumTZ ∨ s = stdNumShortTZ ∨
      s = stdNumColonTZ ∨ s = stdNumSecondsTz ∨ s = stdNumColonSecondsTZ
  · rw [if_pos c14] at h
    simp only [Outcome.ok.injEq] at h
    obtain ⟨a, b, c, _⟩ := parseNumTZ_frame std st
    rw [h] at a b c
    dsimp only at a b c
    rw [a, b, c]
    exact ⟨hm, hh, hmin⟩
  rw [if_neg c14] at h
  by_cases c15 : s = stdTZ
  · rw [if_pos c15] at h
    (repeat' split at h) <;> first
      | (simp at h; done)
      | (simp only [Outcome.ok.injEq, Prod.mk.injEq] at h
         obtain ⟨rfl, _⟩ := h
         first
           | exact ⟨hm, hh, hmin⟩
           | (simp at hr; done)
           | (dsimp only at hr ⊢; omega))
  rw [if_neg c15] at h
  by_cases c16 : s = stdFracSecond0
  · rw [if_pos c16] at h
    (repeat' split at h) <;> first
      | (simp at h; done)
      | (simp only [Outcome.ok.injEq, Prod.mk.injEq] at h
         obtain ⟨rfl, _⟩ := h
         first
           | exact ⟨hm, hh, hmin⟩
           | (simp at hr; done)
           | (dsimp only at hr ⊢; omega))
  rw [if_neg c16] at h
  by_cases c17 : s = stdFracSecond9
  · rw [if_pos c17] at h
    (repeat' split at h) <;> first
      | (simp at h; done)
      | (simp only [Outcome.ok.injEq, Prod.mk.injEq] at h
         obtain ⟨rfl, _⟩ := h
         first
           | exact ⟨hm, hh, hmin⟩
           | (simp at hr; done)
           | (dsimp only at hr ⊢; omega))
  rw [if_neg c17] at h
  simp only [Outcome.ok.injEq, Prod.mk.injEq] at h
  obtain ⟨rfl, _⟩ := h
  exact ⟨hm, hh, hmin⟩

theorem parseLoop_time (host : Host) (al av : Str) (dl loc : Location) (fuel : Nat)
    (layout : Str) (st : ParseState) (pt : ParsedTime)
    (hm : 1 ≤ st.month ∧ st.month ≤ 12) (hh : 0 ≤ st.hour ∧ st.hour ≤ 23)
    (hmin : 0 ≤ st.min ∧ st.min ≤ 59)
    (h : parseLoop host al av dl loc fuel layout st = .ok (.time pt)) :
    ∃ st' : ParseState, (1 ≤ st'.month ∧ st'.month ≤ 12) ∧ (0 ≤ st'.hour ∧ st'.hour ≤ 23) ∧
      (0 ≤ st'.min ∧ st'.min ≤ 59) ∧ parseFinish host al av dl loc st' = .time pt := by
  induction fuel generalizing layout st with
  | zero => simp [parseLoop] at h
  | succ fuel ih =>
    rw [parseLoop] at h
    cases hc : nextStdChunk layout with
    | panic => simp [hc] at h
    | outOfFuel => simp [hc] at h
    | ok c =>
      obtain ⟨pre, std, suffix⟩ := c
      simp only [hc] at h
      cases hk : skip st.value pre with
      | panic => simp [hk] at h
      | outOfFuel => simp [hk] at h
      | ok r =>
        obtain ⟨value, err⟩ := r
        simp only [hk] at h
        cases err with
        | true => simp at h
        | false =>
          simp only [Bool.false_eq_true, if_false] at h
          by_cases hs : std = 0
          · simp only [hs, if_true] at h
            by_cases hv : value.length ≠ 0
            · simp [hv] at h
            · simp only [hv, if_false, Outcome.ok.injEq] at h
              exact ⟨{ st with value := value }, hm, hh, hmin, h⟩
          · simp only [hs, if_false] at h
            cases hp : parseStd suffix std { st with value := value } with
            | panic => simp [hp] at h
            | outOfFuel => simp [hp] at h
            | ok q =>
              obtain ⟨st2, err2⟩ := q
              simp only [hp] at h
              by_cases hr : st2.rangeErrString ≠ []
              · simp [hr] at h
              · simp only [hr, if_false] at h
                cases err2 with
                | true => simp at h
                | false =>
                  simp only [Bool.false_eq_true, if_false] at h
                  have hr2 : st2.rangeErrString = [] := by simpa using hr
                  obtain ⟨b1, b2, b3⟩ := parseStd_bounds suffix std _ st2 hp hr2 hm hh hmin
                  exact ih suffix st2 b1 b2 b3 h

theorem parseFinish_time (host : Host) (al av : Str) (dl loc : Location) (st : ParseState)
    (pt : ParsedTime) (h : parseFinish host al av dl loc st = .time pt) :
    pt.year = st.year ∧ pt.month = st.month ∧ pt.day = st.day ∧
    pt.hour = (if st.pmSet = true ∧ st.hour < 12 then st.hour + 12
               else if st.amSet = true ∧ st.hour = 12 then 0 else st.hour) ∧
    pt.min = st.min ∧ pt.sec = st.sec ∧ pt.nsec = st.nsec ∧
    1 ≤ st.day ∧ st.day ≤ daysIn st.month st.year := by
  unfold parseFinish at h
  dsimp only at h
  generalize (if st.pmSet = true ∧ st.hour < 12 then st.hour + 12
               else if st.amSet = true ∧ st.hour = 12 then 0 else st.hour) = H at h ⊢
  by_cases hd : st.day < 1 ∨ st.day > daysIn st.month st.year
  · rw [if_pos hd] at h
    simp at h
  · rw [if_neg hd] at h
    have hd1 : 1 ≤ st.day ∧ st.day ≤ daysIn st.month st.year := by omega
    (repeat' split at h) <;>
      (simp only [Parsed.time.injEq] at h
       subst h
       exact ⟨rfl, rfl, rfl, rfl, rfl, rfl, rfl, hd1⟩)

theorem parseStd_range (layout : Str) (st : ParseState) (v : Int) (rest : Str)
    (hv : st.value = twoDigits v ++ rest) (h0 : 0 ≤ v) (h1 : v < 100) :
    (∀ std : Nat, std = stdNumMonth ∨ std = stdZeroMonth → v = 0 ∨ 12 < v →
      parseStd layout std st = .ok
        ({ st with month := v, value := rest, rangeErrString := "month".toList }, false)) ∧
    (24 ≤ v →
      parseStd layout stdHour st = .ok
        ({ st with hour := v, value := rest, rangeErrString := "hour".toList }, false)) ∧
    (∀ std : Nat, std = stdHour12 ∨ std = stdZeroHour12 → 12 < v →
      parseStd layout std st = .ok
        ({ st with hour := v, value := rest, rangeErrString := "hour".toList }, false)) ∧
    (∀ std : Nat, std = stdMinute ∨ std = stdZeroMinute → 60 ≤ v →
      parseStd layout std st = .ok
        ({ st with min := v, value := rest, rangeErrString := "minute".toList }, false)) := by
  refine ⟨?_, ?_, ?_, ?_⟩
  · intro std hs hr
    have hc : v ≤ 0 ∨ 12 < v := by omega
    rcases hs with rfl | rfl
    · unfold parseStd
      simp only [show stdNumMonth &&& stdMask = stdNumMonth from by decide, hv,
        getnum_twoDigits v rest _ h0 h1]
      simp [stdFracSecond0, stdFracSecond9, stdYear, stdLongYear, stdMonth,
        stdLongMonth, stdNumMonth, stdZeroMonth, stdNeedDate, stdNeedClock, hc]
    · unfold parseStd
      simp only [show stdZeroMonth &&& stdMask = stdZeroMonth from by decide, hv,
        getnum_twoDigits v rest _ h0 h1]
      simp [stdFracSecond0, stdFracSecond9, stdYear, stdLongYear, stdMonth,
        stdLongMonth, stdNumMonth, stdZeroMonth, stdNeedDate, stdNeedClock, hc]
  · intro hr
    have hc : v < 0 ∨ 24 ≤ v := by omega
    unfold parseStd
    simp only [show stdHour &&& stdMask = stdHour from by decide, hv,
      getnum_twoDigits v rest _ h0 h1]
    simp [stdFracSecond0, stdFracSecond9, stdYear, stdLongYear, stdMonth,
      stdLongMonth, stdNumMonth, stdZeroMonth, stdWeekDay, stdLongWeekDay, stdDay, stdUnderDay,
      stdZeroDay, stdHour, stdNeedDate, stdNeedClock, hc]
  · intro std hs hr
    have hc : v < 0 ∨ 12 < v := by omega
    rcases hs with rfl | rfl
    · unfold parseStd
      simp only [show stdHour12 &&& stdMask = stdHour12 from by decide, hv,
        getnum_twoDigits v rest _ h0 h1]
      simp [stdFracSecond0, stdFracSecond9, stdYear, stdLongYear, stdMonth,
        stdLongMonth, stdNumMonth, stdZeroMonth, stdWeekDay, stdLongWeekDay, stdDay,
        stdUnderDay, stdZeroDay, stdHour, stdHour12, stdZeroHour12, stdNeedDate, stdNeedClock,
        hc]
    · unfold parseStd
      simp only [show stdZeroHour12 &&& stdMask = stdZeroHour12 from by decide, hv,
        getnum_twoDigits v rest _ h0 h1]
      simp [stdFracSecond0, stdFracSecond9, stdYear, stdLongYear, stdMonth,
        stdLongMonth, stdNumMonth, stdZeroMonth, stdWeekDay, stdLongWeekDay, stdDay,
        stdUnderDay, stdZeroDay, stdHour, stdHour12, stdZeroHour12, stdNeedDate, stdNeedClock,
        hc]
  · intro std hs hr
    have hc : v < 0 ∨ 60 ≤ v := by omega
    rcases hs with rfl | rfl
    · unfold parseStd
      simp only [show stdMinute &&& stdMask = stdMinute from by decide, hv,
        getnum_twoDigits v rest _ h0 h1]
      simp [stdFracSecond0, stdFracSecond9, stdYear, stdLongYear, stdMonth,
        stdLongMonth, stdNumMonth, stdZeroMonth, stdWeekDay, stdLongWeekDay, stdDay,
        stdUnderDay, stdZeroDay, stdHour, stdHour12, stdZeroHour12, stdMinute, stdZeroMinute,
        stdNeedDate, stdNeedClock, hc]
    · unfold parseStd
      simp only [show stdZeroMinute &&& stdMask = stdZeroMinute from by decide, hv,
        getnum_twoDigits v rest _ h0 h1]
      simp [stdFracSecond0, stdFracSecond9, stdYear, stdLongYear, stdMonth,
        stdLongMonth, stdNumMonth, stdZeroMonth, stdWeekDay, stdLongWeekDay, stdDay,
        stdUnderDay, stdZeroDay, stdHour, stdHour12, stdZeroHour12, stdMinute, stdZeroMinute,
        stdNeedDate, stdNeedClock, hc]

theorem parseLoop_range (host : Host) (al av : Str) (dl loc : Location) (fuel : Nat)
    (layout pre suffix value : Str) (std : Nat) (st st' : ParseState) (err : Bool)
    (hc : nextStdChunk layout = .ok (pre, std, suffix))
    (hk : skip st.value pre = .ok (value, false)) (hs : std ≠ 0)
    (hp : parseStd suffix std { st with value := value } = .ok (st', err))
    (hr : st'.rangeErrString ≠ []) :
    parseLoop host al av dl loc (fuel + 1) layout st =
      .ok (.error ⟨al, av,
        (layout.drop pre.length).take (layout.length - suffix.length - pre.length), st'.value,
        ": ".toList ++ st'.rangeErrString ++ " out of range".toList⟩) := by
  rw [parseLoop, hc]
  simp only [hk, hs, hp, hr, Bool.false_eq_true, if_false, ne_eq, not_false_eq_true, if_true]

/-! ### The loop of parse as a state transformer -/

theorem parseLoop_directives (host : Host) (al av : Str) (dl loc : Location) (fuel : Nat)
    (layout : Str) (st : ParseState) :
    parseLoop host al av dl loc fuel layout st =
      match parseDirectives al av fuel layout st with
      | .panic => .panic
      | .outOfFuel => .outOfFuel
      | .ok (.error e) => .ok (.error e)
      | .ok (.ok st') => .ok (parseFinish host al av dl loc st') := by
  induction fuel generalizing layout st with
  | zero => rfl
  | succ fuel ih =>
    rw [parseLoop, parseDirectives, parseIteration]
    cases hc : nextStdChunk layout with
    | panic => rfl
    | outOfFuel => rfl
    | ok c =>
      obtain ⟨pre, std, suffix⟩ := c
      dsimp only
      cases hk : skip st.value pre with
      | panic => rfl
      | outOfFuel => rfl
      | ok r =>
        obtain ⟨value, err⟩ := r
        dsimp only
        cases err with
        | true => rfl
        | false =>
          simp only [Bool.false_eq_true, if_false]
          by_cases hs : std = 0
          · simp only [hs, if_true]
            by_cases hv : value.length ≠ 0
            · rw [if_pos hv, if_pos hv]
            · rw [if_neg hv, if_neg hv]
          · simp only [hs, if_false]
            cases hp : parseStd suffix std { st with value := value } with
            | panic => rfl
            | outOfFuel => rfl
            | ok q =>
              obtain ⟨st2, err2⟩ := q
              dsimp only
              by_cases hr : st2.rangeErrString ≠ []
              · rw [if_pos hr, if_pos hr]
              · rw [if_neg hr, if_neg hr]
                cases err2 with
                | true => rfl
                | false =>
                  simp only [Bool.false_eq_true, if_false]
                  exact ih suffix st2

set_option linter.unusedTactic false in
set_option linter.unreachableTactic false in
set_option linter.unnecessarySeqFocus false in
theorem parseStd_flags_frame (layout : Str) (std : Nat) (st st' : ParseState) (err : Bool)
    (h : parseStd layout std st = .ok (st', err))
    (h1 : std &&& stdMask ≠ stdPM) (h2 : std &&& stdMask ≠ stdpm) :
    st'.pmSet = st.pmSet ∧ st'.amSet = st.amSet := by
  unfold parseStd at h
  dsimp only at h
  generalize std &&& stdMask = s at h h1 h2
  by_cases c0 : s = stdYear
  · rw [if_pos c0] at h
    (repeat' split at h) <;> first
      | (simp at h; done)
      | (simp only [Outcome.ok.injEq, Prod.mk.injEq] at h
         obtain ⟨rfl, _⟩ := h
         exact ⟨rfl, rfl⟩)
  rw [if_neg c0] at h
  by_cases c1 : s = stdLongYear
  · rw [if_pos c1] at h
    (repeat' split at h) <;> first
      | (simp at h; done)
      | (simp only [Outcome.ok.injEq, Prod.mk.injEq] at h
         obtain ⟨rfl, _⟩ := h
         exact ⟨rfl, rfl⟩)
  rw [if_neg c1] at h
  by_cases c2 : s = stdMonth
  · rw [if_pos c2] at h
    (repeat' split at h) <;> first
      | (simp at h; done)
      | (simp only [Outcome.ok.injEq, Prod.mk.injEq] at h
         obtain ⟨rfl, _⟩ := h
         exact ⟨rfl, rfl⟩)
  rw [if_neg c2] at h
  by_cases c3 : s = stdLongMonth
  · rw [if_pos c3] at h
    (repeat' split at h) <;> first
      | (simp at h; done)
      | (simp only [Outcome.ok.injEq, Prod.mk.injEq] at h
         obtain ⟨rfl, _⟩ := h
         exact ⟨rfl, rfl⟩)
  rw [if_neg c3] at h
  by_cases c4 : s = stdNumMonth ∨ s = stdZeroMonth
  · rw [if_pos c4] at h
    (repeat' split at h) <;> first
      | (simp at h; done)
      | (simp only [Outcome.ok.injEq, Prod.mk.injEq] at h
         obtain ⟨rfl, _⟩ := h
         exact ⟨rfl, rfl⟩)
  rw [if_neg c4] at h
  by_cases c5 : s = stdWeekDay
  · rw [if_pos c5] at h
    (repeat' split at h) <;> first
      | (simp at h; done)
      | (simp only [Outcome.ok.injEq, Prod.mk.injEq] at h
         obtain ⟨rfl, _⟩ := h
         exact ⟨rfl, rfl⟩)
  rw [if_neg c5] at h
  by_cases c6 : s = stdLongWeekDay
  · rw [if_pos c6] at h
    (repeat' split at h) <;> first
      | (simp at h; done)
      | (simp only [Outcome.ok.injEq, Prod.mk.injEq] at h
         obtain ⟨rfl, _⟩ := h
         exact ⟨rfl, rfl⟩)
  rw [if_neg c6] at h
  by_cases c7 : s = stdDay ∨ s = stdUnderDay ∨ s = stdZeroDay
  · rw [if_pos c7] at h
    (repeat' split at h) <;> first
      | (simp at h; done)
      | (simp only [Outcome.ok.injEq, Prod.mk.injEq] at h
         obtain ⟨rfl, _⟩ := h
         exact ⟨rfl, rfl⟩)
  rw [if_neg c7] at h
  by_cases c8 : s = stdHour
  · rw [if_pos c8] at h
    (repeat' split at h) <;> first
      | (simp at h; done)
      | (simp only [Outcome.ok.injEq, Prod.mk.injEq] at h
         obtain ⟨rfl, _⟩ := h
         exact ⟨rfl, rfl⟩)
  rw [if_neg c8] at h
  by_cases c9 : s = stdHour12 ∨ s = stdZeroHour12
  · rw [if_pos c9] at h
    (repeat' split at h) <;> first
      | (simp at h; done)
      | (simp only [Outcome.ok.injEq, Prod.mk.injEq] at h
         obtain ⟨rfl, _⟩ := h
         exact ⟨rfl, rfl⟩)
  rw [if_neg c9] at h
  by_cases c10 : s = stdMinute ∨ s = stdZeroMinute
  · rw [if_pos c10] at h
    (repeat' split at h) <;> first
      | (simp at h; done)
      | (simp only [Outcome.ok.injEq, Prod.mk.injEq] at h
         obtain ⟨rfl, _⟩ := h
         exact ⟨rfl, rfl⟩)
  rw [if_neg c10] at h
  by_cases c11 : s = stdSecond ∨ s = stdZeroSecond
  · rw [if_pos c11] at h
    obtain ⟨_, _, _, _, _, a, b⟩ := parseSecond_frame _ _ _ _ _ h
    exact ⟨b, a⟩
  rw [if_neg c11] at h
  by_cases c12 : s = stdPM
  · rw [if_pos c12] at h
    exact absurd c12 h1
  rw [if_neg c12] at h
  by_cases c13 : s = stdpm
  · rw [if_pos c13] at h
    exact absurd c13 h2
  rw [if_neg c13] at h
  by_cases c14 : s = stdISO8601TZ ∨ s = stdISO8601ColonTZ ∨ s = stdISO8601SecondsTZ ∨
      s = stdISO8601ShortTZ ∨ s = stdISO8601ColonSecondsTZ ∨ s = stdNumTZ ∨ s = stdNumShortTZ ∨
      s = stdNumColonTZ ∨ s = stdNumSecondsTz ∨ s = stdNumColonSecondsTZ
  · rw [if_pos c14] at h
    simp only [Outcome.ok.injEq] at h
    obtain ⟨_, _, _, _, _, a, b, _⟩ := parseNumTZ_frame std st
    rw [h] at a b
    exact ⟨b, a⟩
  rw [if_neg c14] at h
  by_cases c15 : s = stdTZ
  · rw [if_pos c15] at h
    (repeat' split at h) <;> first
      | (simp at h; done)
      | (simp only [Outcome.ok.injEq, Prod.mk.injEq] at h
         obtain ⟨rfl, _⟩ := h
         exact ⟨rfl, rfl⟩)
  rw [if_neg c15] at h
  by_cases c16 : s = stdFracSecond0
  · rw [if_pos c16] at h
    (repeat' split at h) <;> first
      | (simp at h; done)
      | (simp only [Outcome.ok.injEq, Prod.mk.injEq] at h
         obtain ⟨rfl, _⟩ := h
         exact ⟨rfl, rfl⟩)
  rw [if_neg c16] at h
  by_cases c17 : s = stdFracSecond9
  · rw [if_pos c17] at h
    (repeat' split at h) <;> first
      | (simp at h; done)
      | (simp only [Outcome.ok.injEq, Prod.mk.injEq] at h
         obtain ⟨rfl, _⟩ := h
         exact ⟨rfl, rfl⟩)
  rw [if_neg c17] at h
  simp only [Outcome.ok.injEq, Prod.mk.injEq] at h
  obtain ⟨rfl, _⟩ := h
  exact ⟨rfl, rfl⟩

theorem parseStd_marker (layout : Str) (std : Nat) (st st' : ParseState)
    (h : parseStd layout std st = .ok (st', false)) :
    (std &&& stdMask = stdPM →
      (st'.pmSet = true ↔ st.pmSet = true ∨ st.value.take 2 = "PM".toList) ∧
      (st'.amSet = true ↔ st.amSet = true ∨ st.value.take 2 = "AM".toList)) ∧
    (std &&& stdMask = stdpm →
      (st'.pmSet = true ↔ st.pmSet = true ∨ st.value.take 2 = "pm".toList) ∧
      (st'.amSet = true ↔ st.amSet = true ∨ st.value.take 2 = "am".toList)) := by
  constructor
  · intro hs
    unfold parseStd at h
    simp only [hs] at h
    simp [stdFracSecond0, stdFracSecond9, stdYear, stdLongYear, stdMonth,
      stdLongMonth, stdNumMonth, stdZeroMonth, stdWeekDay, stdLongWeekDay, stdDay, stdUnderDay,
      stdZeroDay, stdHour, stdHour12, stdZeroHour12, stdMinute, stdZeroMinute, stdSecond,
      stdZeroSecond, stdPM, stdNeedDate, stdNeedClock] at h
    (repeat' split at h) <;>
      first
      | (simp at h; done)
      | (simp only [Outcome.ok.injEq, Prod.mk.injEq] at h
         obtain ⟨rfl, _⟩ := h
         simp_all)
  · intro hs
    unfold parseStd at h
    simp only [hs] at h
    simp [stdFracSecond0, stdFracSecond9, stdYear, stdLongYear, stdMonth,
      stdLongMonth, stdNumMonth, stdZeroMonth, stdWeekDay, stdLongWeekDay, stdDay, stdUnderDay,
      stdZeroDay, stdHour, stdHour12, stdZeroHour12, stdMinute, stdZeroMinute, stdSecond,
      stdZeroSecond, stdPM, stdpm, stdNeedDate, stdNeedClock] at h
    (repeat' split at h) <;>
      first
      | (simp at h; done)
      | (simp only [Outcome.ok.injEq, Prod.mk.injEq] at h
         obtain ⟨rfl, _⟩ := h
         simp_all)

theorem parseIteration_next (al av layout l2 : Str) (st st2 : ParseState)
    (h : parseIteration al av layout st = .ok (.next l2 st2)) :
    ∃ pre std value, nextStdChunk layout = .ok (pre, std, l2) ∧
      skip st.value pre = .ok (value, false) ∧ std ≠ 0 ∧
      parseStd l2 std { st with value := value } = .ok (st2, false) ∧
      st2.rangeErrString = [] := by
  unfold parseIteration at h
  cases hc : nextStdChunk layout with
  | panic => simp [hc] at h
  | outOfFuel => simp [hc] at h
  | ok c =>
    obtain ⟨pre, std, suffix⟩ := c
    simp only [hc] at h
    cases hk : skip st.value pre with
    | panic => simp [hk] at h
    | outOfFuel => simp [hk] at h
    | ok r =>
      obtain ⟨value, err⟩ := r
      simp only [hk] at h
      cases err with
      | true => simp at h
      | false =>
        simp only [Bool.false_eq_true, if_false] at h
        by_cases hs : std = 0
        · rw [if_pos hs] at h
          by_cases hv : value.length ≠ 0
          · rw [if_pos hv] at h
            simp at h
          · rw [if_neg hv] at h
            simp at h
        · rw [if_neg hs] at h
          cases hp : parseStd suffix std { st with value := value } with
          | panic => simp [hp] at h
          | outOfFuel => simp [hp] at h
          | ok q =>
            obtain ⟨st3, err2⟩ := q
            simp only [hp] at h
            by_cases hr : st3.rangeErrString ≠ []
            · rw [if_pos hr] at h
              simp at h
            · rw [if_neg hr] at h
              cases err2 with
              | true => simp at h
              | false =>
                simp only [Bool.false_eq_true, if_false, Outcome.ok.injEq,
                  Iteration.next.injEq] at h
                obtain ⟨rfl, rfl⟩ := h
                exact ⟨pre, std, value, rfl, hk, hs, hp, by simpa using hr⟩

theorem parseIteration_done (al av layout : Str) (st st2 : ParseState)
    (h : parseIteration al av layout st = .ok (.done st2)) :
    st2 = { st with value := [] } ∧
    ∃ pre suffix, nextStdChunk layout = .ok (pre, 0, suffix) ∧
      skip st.value pre = .ok ([], false) := by
  unfold parseIteration at h
  cases hc : nextStdChunk layout with
  | panic => simp [hc] at h
  | outOfFuel => simp [hc] at h
  | ok c =>
    obtain ⟨pre, std, suffix⟩ := c
    simp only [hc] at h
    cases hk : skip st.value pre with
    | panic => simp [hk] at h
    | outOfFuel => simp [hk] at h
    | ok r =>
      obtain ⟨value, err⟩ := r
      simp only [hk] at h
      cases err with
      | true => simp at h
      | false =>
        simp only [Bool.false_eq_true, if_false] at h
        by_cases hs : std = 0
        · rw [if_pos hs] at h
          by_cases hv : value.length ≠ 0
          · rw [if_pos hv] at h
            simp at h
          · rw [if_neg hv] at h
            have hv0 : value = [] := by
              cases value with
              | nil => rfl
              | cons a b => simp at hv
            subst hv0
            subst hs
            simp only [Outcome.ok.injEq, Iteration.done.injEq] at h
            exact ⟨h.symm, pre, suffix, rfl, hk⟩
        · rw [if_neg hs] at h
          cases hp : parseStd suffix std { st with value := value } with
          | panic => simp [hp] at h
          | outOfFuel => simp [hp] at h
          | ok q =>
            obtain ⟨st3, err2⟩ := q
            simp only [hp] at h
            by_cases hr : st3.rangeErrString ≠ []
            · rw [if_pos hr] at h
              simp at h
            · rw [if_neg hr] at h
              cases err2 with
              | true => simp at h
              | false => simp at h

theorem parseIteration_next_flags (al av layout l2 : Str) (st st2 : ParseState)
    (h : parseIteration al av layout st = .ok (.next l2 st2)) :
    (st2.pmSet = true ↔ st.pmSet = true ∨ readsMarker true layout st = true) ∧
    (st2.amSet = true ↔ st.amSet = true ∨ readsMarker false layout st = true) := by
  obtain ⟨pre, std, value, hc, hk, _, hp, _⟩ := parseIteration_next al av layout l2 st st2 h
  unfold readsMarker
  simp only [hc, hk]
  by_cases h1 : std &&& stdMask = stdPM
  · have h2 : ¬ (std &&& stdMask = stdpm) := by rw [h1]; decide
    obtain ⟨a, b⟩ := (parseStd_marker l2 std _ st2 hp).1 h1
    simp only [h1, h2, a, b]
    simp [show ¬ (stdPM = stdpm) from by decide]
  · by_cases h2 : std &&& stdMask = stdpm
    · obtain ⟨a, b⟩ := (parseStd_marker l2 std _ st2 hp).2 h2
      simp only [h1, h2, a, b]
      simp [show ¬ (stdpm = stdPM) from by decide]
    · obtain ⟨a, b⟩ := parseStd_flags_frame l2 std _ st2 false hp h1 h2
      simp only [a, b]
      simp [h1, h2]

theorem parseDirectives_end (al av : Str) (fuel : Nat) (layout : Str) (st st' : ParseState)
    (h : parseDirectives al av fuel layout st = .ok (.ok st')) :
    st'.value = [] ∧
    (st'.pmSet = true ↔ st.pmSet = true ∨ markerRead true al av fuel layout st = true) ∧
    (st'.amSet = true ↔ st.amSet = true ∨ markerRead false al av fuel layout st = true) := by
  induction fuel generalizing layout st with
  | zero => simp [parseDirectives] at h
  | succ fuel ih =>
    rw [parseDirectives] at h
    cases hi : parseIteration al av layout st with
    | panic => simp [hi] at h
    | outOfFuel => simp [hi] at h
    | ok it =>
      cases it with
      | fail e => simp [hi] at h
      | done s2 =>
        simp only [hi, Outcome.ok.injEq, Except.ok.injEq] at h
        subst h
        obtain ⟨e, _⟩ := parseIteration_done al av layout st s2 hi
        subst e
        simp [markerRead, hi]
      | next l2 s2 =>
        simp only [hi] at h
        obtain ⟨v, p, a⟩ := ih l2 s2 h
        obtain ⟨fp, fa⟩ := parseIteration_next_flags al av layout l2 st s2 hi
        refine ⟨v, ?_, ?_⟩
        · rw [p, fp]
          simp [markerRead, hi, or_assoc]
        · rw [a, fa]
          simp [markerRead, hi, or_assoc]

theorem parse_directives (host : Host) (layout value : Str) (dl loc : Location)
    (pt : ParsedTime) (h : parse host layout value dl loc = .ok (.time pt)) :
    ∃ st : ParseState,
      parseDirectives layout value (layout.length + 1) layout { value := value } = .ok (.ok st) ∧
      parseFinish host layout value dl loc st = .time pt := by
  unfold parse at h
  rw [parseLoop_directives] at h
  cases hd : parseDirectives layout value (layout.length + 1) layout { value := value } with
  | panic => simp [hd] at h
  | outOfFuel => simp [hd] at h
  | ok r =>
    cases r with
    | error e => simp [hd] at h
    | ok st =>
      simp only [hd, Outcome.ok.injEq] at h
      exact ⟨st, rfl, h⟩

theorem Parse_time_finish (host : Host) (layout value : Str) (pt : ParsedTime)
    (h : Parse host layout value = .ok (.time pt)) :
    ∃ st : ParseState, (1 ≤ st.month ∧ st.month ≤ 12) ∧ (0 ≤ st.hour ∧ st.hour ≤ 23) ∧
      (0 ≤ st.min ∧ st.min ≤ 59) ∧
      parseFinish host layout value Location.UTC Location.Local st = .time pt :=
  parseLoop_time host layout value Location.UTC Location.Local (layout.length + 1) layout
    { value := value } pt
    (show (1 : Int) ≤ 1 ∧ (1 : Int) ≤ 12 from by decide)
    (show (0 : Int) ≤ 0 ∧ (0 : Int) ≤ 23 from by decide)
    (show (0 : Int) ≤ 0 ∧ (0 : Int) ≤ 59 from by decide) h

theorem parseStd_marker_hour (layout : Str) (st st' : ParseState) (err : Bool) :
    (parseStd layout stdPM st = .ok (st', err) → st'.hour = st.hour) ∧
    (parseStd layout stdpm st = .ok (st', err) → st'.hour = st.hour) := by
  constructor
  · intro h
    unfold parseStd at h
    simp only [show stdPM &&& stdMask = stdPM from by decide] at h
    simp [stdFracSecond0, stdFracSecond9, stdYear, stdLongYear, stdMonth,
      stdLongMonth, stdNumMonth, stdZeroMonth, stdWeekDay, stdLongWeekDay, stdDay, stdUnderDay,
      stdZeroDay, stdHour, stdHour12, stdZeroHour12, stdMinute, stdZeroMinute, stdSecond,
      stdZeroSecond, stdPM, stdNeedDate, stdNeedClock] at h
    (repeat' split at h) <;>
      (simp only [Outcome.ok.injEq, Prod.mk.injEq] at h
       obtain ⟨rfl, _⟩ := h
       rfl)
  · intro h
    unfold parseStd at h
    simp only [show stdpm &&& stdMask = stdpm from by decide] at h
    simp [stdFracSecond0, stdFracSecond9, stdYear, stdLongYear, stdMonth,
      stdLongMonth, stdNumMonth, stdZeroMonth, stdWeekDay, stdLongWeekDay, stdDay, stdUnderDay,
      stdZeroDay, stdHour, stdHour12, stdZeroHour12, stdMinute, stdZeroMinute, stdSecond,
      stdZeroSecond, stdPM, stdpm, stdNeedDate, stdNeedClock] at h
    (repeat' split at h) <;>
      (simp only [Outcome.ok.injEq, Prod.mk.injEq] at h
       obtain ⟨rfl, _⟩ := h
       rfl)

set_option maxRecDepth 100000 in
/-- C16: 12-hour normalisation on parse.  Every time that `Parse` returns is built
after the loop over the directives, by `parseFinish`, from the variables `st` that the
loop leaves on this layout and input.  In these variables the PM flag is set exactly
when some iteration of the loop read a PM marker, and the AM flag exactly when some
iteration read an AM marker; the hour returned is the parsed hour plus 12 if a PM
marker was read and the parsed hour is below 12; otherwise 0 if an AM marker was read
and the parsed hour is 12; otherwise the parsed hour.  The marker directives leave the
parsed hour alone.  Hence, with the marker after or before the hour, "12" with AM
yields hour 0, "12" with PM yields hour 12, and `h` in 1..11 with PM yields `h + 12`,
also after a year directive. -/
theorem Parse_hour12_normalisation (host : Host) :
    (∀ (layout value : Str) (pt : ParsedTime), Parse host layout value = .ok (.time pt) →
      ∃ st : ParseState,
        parseDirectives layout value (layout.length + 1) layout { value := value }
          = .ok (.ok st) ∧
        (st.pmSet = true ↔
          markerRead true layout value (layout.length + 1) layout { value := value } = true) ∧
        (st.amSet = true ↔
          markerRead false layout value (layout.length + 1) layout { value := value } = true) ∧
        parseFinish host layout value Location.UTC Location.Local st = .time pt ∧
        pt.hour = (if st.pmSet = true ∧ st.hour < 12 then st.hour + 12
                   else if st.amSet = true ∧ st.hour = 12 then 0 else st.hour)) ∧
    (∀ (layout : Str) (st st' : ParseState) (err : Bool),
      (parseStd layout stdPM st = .ok (st', err) → st'.hour = st.hour) ∧
      (parseStd layout stdpm st = .ok (st', err) → st'.hour = st.hour)) ∧
    (∀ p ∈ ["ha".toList, "hha".toList],
      Parse host p "12AM".toList = .ok (.time
        { year := 0, month := 1, day := 1, hour := 0, min := 0, sec := 0, nsec := 0,
          loc := Location.UTC }) ∧
      Parse host p "12PM".toList = .ok (.time
        { year := 0, month := 1, day := 1, hour := 12, min := 0, sec := 0, nsec := 0,
          loc := Location.UTC }) ∧
      ∀ h : Nat, 1 ≤ h → h ≤ 11 →
        Parse host p (twoDigits h ++ "PM".toList) = .ok (.time
          { year := 0, month := 1, day := 1, hour := (h : Int) + 12, min := 0, sec := 0,
            nsec := 0, loc := Location.UTC })) ∧
    (∀ p ∈ ["ah".toList, "ahh".toList],
      Parse host p "AM12".toList = .ok (.time
        { year := 0, month := 1, day := 1, hour := 0, min := 0, sec := 0, nsec := 0,
          loc := Location.UTC }) ∧
      Parse host p "PM12".toList = .ok (.time
        { year := 0, month := 1, day := 1, hour := 12, min := 0, sec := 0, nsec := 0,
          loc := Location.UTC }) ∧
      ∀ h : Nat, 1 ≤ h → h ≤ 11 →
        Parse host p ("PM".toList ++ twoDigits h) = .ok (.time
          { year := 0, month := 1, day := 1, hour := (h : Int) + 12, min := 0, sec := 0,
            nsec := 0, loc := Location.UTC })) ∧
    (∀ h : Nat, 1 ≤ h → h ≤ 11 →
      Parse host "YYYY ha".toList ("2010 ".toList ++ twoDigits h ++ "PM".toList) = .ok (.time
        { year := 2010, month := 1, day := 1, hour := (h : Int) + 12, min := 0, sec := 0,
          nsec := 0, loc := Location.UTC }) ∧
      Parse host "YYYY ha".toList ("2010 ".toList ++ twoDigits h ++ "AM".toList) = .ok (.time
        { year := 2010, month := 1, day := 1, hour := (h : Int), min := 0, sec := 0,
          nsec := 0, loc := Location.UTC })) ∧
    Parse host "YYYY ha".toList "2010 12AM".toList = .ok (.time
      { year := 2010, month := 1, day := 1, hour := 0, min := 0, sec := 0, nsec := 0,
        loc := Location.UTC }) ∧
    Parse host "YYYY ha".toList "2010 12PM".toList = .ok (.time
      { year := 2010, month := 1, day := 1, hour := 12, min := 0, sec := 0, nsec := 0,
        loc := Location.UTC }) := by
  refine ⟨?_, fun layout st st' err => parseStd_marker_hour layout st st' err, ?_, ?_, ?_,
    rfl, rfl⟩
  · intro layout value pt h
    obtain ⟨st, hd, hf⟩ := parse_directives host layout value Location.UTC Location.Local pt h
    obtain ⟨_, p, a⟩ := parseDirectives_end layout value _ layout _ st hd
    refine ⟨st, hd, ?_, ?_, hf, (parseFinish_time host _ _ _ _ st pt hf).2.2.2.1⟩
    · rw [p]
      simp
    · rw [a]
      simp
  · intro p hp
    simp only [List.mem_cons, List.mem_singleton, List.not_mem_nil, or_false] at hp
    rcases hp with rfl | rfl
    · refine ⟨rfl, rfl, ?_⟩
      intro h h1 h2
      interval_cases h <;> rfl
    · refine ⟨rfl, rfl, ?_⟩
      intro h h1 h2
      interval_cases h <;> rfl
  · intro p hp
    simp only [List.mem_cons, List.mem_singleton, List.not_mem_nil, or_false] at hp
    rcases hp with rfl | rfl
    · refine ⟨rfl, rfl, ?_⟩
      intro h h1 h2
      interval_cases h <;> rfl
    · refine ⟨rfl, rfl, ?_⟩
      intro h h1 h2
      interval_cases h <;> rfl
  · intro h h1 h2
    interval_cases h <;> exact ⟨rfl, rfl⟩

set_option maxRecDepth 100000 in
/-- Witness for C16: "9PM" under `ha` yields hour 21, "12AM" yields hour 0 and
"12PM" yields hour 12; the Kitchen layout reads "3:04PM" as 15:04; under `YYYY ha`
the input "2010 9PM" yields hour 21 from variables in which the PM flag is set, the
marker having been read. -/
theorem Parse_hour12_normalisation_witness :
    Parse bareHost "ha".toList "9PM".toList = .ok (.time
      { year := 0, month := 1, day := 1, hour := 21, min := 0, sec := 0, nsec := 0,
        loc := Location.UTC }) ∧
    Parse bareHost Kitchen "3:04PM".toList = .ok (.time
      { year := 0, month := 1, day := 1, hour := 15, min := 4, sec := 0, nsec := 0,
        loc := Location.UTC }) ∧
    Parse bareHost "ha".toList "12AM".toList = .ok (.time
      { year := 0, month := 1, day := 1, hour := 0, min := 0, sec := 0, nsec := 0,
        loc := Location.UTC }) ∧
    Parse bareHost "ah".toList ("PM".toList ++ twoDigits (7 : Nat)) = .ok (.time
      { year := 0, month := 1, day := 1, hour := ((7 : Nat) : Int) + 12, min := 0, sec := 0,
        nsec := 0, loc := Location.UTC }) ∧
    markerRead true "YYYY ha".toList "2010 9PM".toList ("YYYY ha".toList.length + 1)
      "YYYY ha".toList { value := "2010 9PM".toList } = true ∧
    markerRead false "YYYY ha".toList "2010 9PM".toList ("YYYY ha".toList.length + 1)
      "YYYY ha".toList { value := "2010 9PM".toList } = false ∧
    (∃ st : ParseState,
      parseDirectives "YYYY ha".toList "2010 9PM".toList ("YYYY ha".toList.length + 1)
        "YYYY ha".toList { value := "2010 9PM".toList } = .ok (.ok st) ∧
      (st.pmSet = true ↔
        markerRead true "YYYY ha".toList "2010 9PM".toList ("YYYY ha".toList.length + 1)
          "YYYY ha".toList { value := "2010 9PM".toList } = true) ∧
      (st.amSet = true ↔
        markerRead false "YYYY ha".toList "2010 9PM".toList ("YYYY ha".toList.length + 1)
          "YYYY ha".toList { value := "2010 9PM".toList } = true) ∧
      parseFinish bareHost "YYYY ha".toList "2010 9PM".toList Location.UTC Location.Local st
        = .time { year := 2010, month := 1, day := 1, hour := 21, min := 0, sec := 0,
                  nsec := 0, loc := Location.UTC } ∧
      (21 : Int) = (if st.pmSet = true ∧ st.hour < 12 then st.hour + 12
                 else if st.amSet = true ∧ st.hour = 12 then 0 else st.hour)) :=
  ⟨by decide, by decide,
    ((Parse_hour12_normalisation bareHost).2.2.1 "ha".toList (by simp)).1,
    ((Parse_hour12_normalisation bareHost).2.2.2.1 "ah".toList (by simp)).2.2 7 (by decide)
      (by decide),
    by decide, by decide,
    (Parse_hour12_normalisation bareHost).1 "YYYY ha".toList "2010 9PM".toList
      { year := 2010, month := 1, day := 1, hour := 21, min := 0, sec := 0, nsec := 0,
        loc := Location.UTC } (by decide)⟩

theorem parseStd_month_zero (layout : Str) (st : ParseState) (rest : Str)
    (hv : st.value = '0' :: rest) (hd : isDigit rest 0 = false) :
    parseStd layout stdNumMonth st = .ok
      ({ st with month := 0, value := rest, rangeErrString := "month".toList }, false) := by
  have g : getnum ('0' :: rest) false = (0, rest, false) := by
    have h1 : isDigit ('0' :: rest) 1 = false := by
      unfold isDigit at hd ⊢
      simp only [List.length_cons, byteAt, List.getD_cons_succ] at hd ⊢
      by_cases hl : rest.length ≤ 0
      · have : rest.length + 1 ≤ 1 := by omega
        simp [this]
      · have : ¬ (rest.length + 1 ≤ 1) := by omega
        simp only [hl, if_false] at hd
        simp only [this, if_false]
        exact hd
    have h0 : isDigit ('0' :: rest) 0 = true := by
      simp [isDigit, byteAt, isDigitByte]
    simp [getnum, h0, h1, byteAt, digitVal]
  unfold parseStd
  simp only [show stdNumMonth &&& stdMask = stdNumMonth from by decide, hv]
  have e : decide (stdNumMonth = stdZeroMonth) = false := by decide
  simp only [e, g]
  simp [stdFracSecond0, stdFracSecond9, stdYear, stdLongYear, stdMonth,
    stdLongMonth, stdNumMonth, stdZeroMonth, stdNeedDate, stdNeedClock]

set_option maxRecDepth 100000 in
/-- C17: range validation of month, hour and minute.  Whenever `Parse` returns a
time, its month is in 1..12, its hour in 0..23 and its minute in 0..59.  When the
parser reaches a numeric month directive with two digits outside 1..12 at the head
of the value, a 24-hour directive with digits of 24 or more, a 12-hour directive
with digits above 12, or a minute directive with digits of 60 or more, it returns an
error whose detail is ": month out of range", ": hour out of range" or
": minute out of range"; so it does for the one-digit month directive at a single
digit 0. -/
theorem Parse_range_validation (host : Host) :
    (∀ (layout value : Str) (pt : ParsedTime), Parse host layout value = .ok (.time pt) →
      (1 ≤ pt.month ∧ pt.month ≤ 12) ∧ (0 ≤ pt.hour ∧ pt.hour ≤ 23) ∧
      (0 ≤ pt.min ∧ pt.min ≤ 59)) ∧
    (∀ (al av : Str) (dl loc : Location) (fuel : Nat) (layout pre suffix rest : Str)
      (std : Nat) (st : ParseState) (v : Int) (field : Str),
      nextStdChunk layout = .ok (pre, std, suffix) →
      skip st.value pre = .ok (twoDigits v ++ rest, false) → 0 ≤ v → v < 100 →
      (((std = stdNumMonth ∨ std = stdZeroMonth) ∧ (v = 0 ∨ 12 < v) ∧
          field = "month".toList) ∨
        (std = stdHour ∧ 24 ≤ v ∧ field = "hour".toList) ∨
        ((std = stdHour12 ∨ std = stdZeroHour12) ∧ 12 < v ∧ field = "hour".toList) ∨
        ((std = stdMinute ∨ std = stdZeroMinute) ∧ 60 ≤ v ∧ field = "minute".toList)) →
      parseLoop host al av dl loc (fuel + 1) layout st =
        .ok (.error ⟨al, av,
          (layout.drop pre.length).take (layout.length - suffix.length - pre.length), rest,
          ": ".toList ++ field ++ " out of range".toList⟩)) ∧
    (∀ (al av : Str) (dl loc : Location) (fuel : Nat) (layout pre suffix rest : Str)
      (st : ParseState),
      nextStdChunk layout = .ok (pre, stdNumMonth, suffix) →
      skip st.value pre = .ok ('0' :: rest, false) → isDigit rest 0 = false →
      parseLoop host al av dl loc (fuel + 1) layout st =
        .ok (.error ⟨al, av,
          (layout.drop pre.length).take (layout.length - suffix.length - pre.length), rest,
          ": month out of range".toList⟩)) := by
  refine ⟨?_, ?_, ?_⟩
  · intro layout value pt h
    obtain ⟨st, ⟨m1, m2⟩, ⟨h1, h2⟩, ⟨n1, n2⟩, hf⟩ := Parse_time_finish host layout value pt h
    obtain ⟨_, e2, _, e4, e5, _⟩ := parseFinish_time host _ _ _ _ st pt hf
    rw [e2, e4, e5]
    refine ⟨⟨m1, m2⟩, ?_, ⟨n1, n2⟩⟩
    split
    · omega
    · split <;> omega
  · intro al av dl loc fuel layout pre suffix rest std st v field hc hk h0 h1 hcase
    obtain ⟨r1, r2, r3, r4⟩ :=
      parseStd_range suffix { st with value := twoDigits v ++ rest } v rest rfl h0 h1
    rcases hcase with ⟨hs, hv, rfl⟩ | ⟨hs, hv, rfl⟩ | ⟨hs, hv, rfl⟩ | ⟨hs, hv, rfl⟩
    · have hs0 : std ≠ 0 := by rcases hs with rfl | rfl <;> decide
      exact parseLoop_range host al av dl loc fuel layout pre suffix _ std st _ false hc hk hs0
        (r1 std hs hv) (show "month".toList ≠ [] from by decide)
    · have hs0 : std ≠ 0 := by rw [hs]; decide
      subst hs
      exact parseLoop_range host al av dl loc fuel layout pre suffix _ stdHour st _ false hc hk
        hs0 (r2 hv) (show "hour".toList ≠ [] from by decide)
    · have hs0 : std ≠ 0 := by rcases hs with rfl | rfl <;> decide
      exact parseLoop_range host al av dl loc fuel layout pre suffix _ std st _ false hc hk hs0
        (r3 std hs hv) (show "hour".toList ≠ [] from by decide)
    · have hs0 : std ≠ 0 := by rcases hs with rfl | rfl <;> decide
      exact parseLoop_range host al av dl loc fuel layout pre suffix _ std st _ false hc hk hs0
        (r4 std hs hv) (show "minute".toList ≠ [] from by decide)
  · intro al av dl loc fuel layout pre suffix rest st hc hk hd
    exact parseLoop_range host al av dl loc fuel layout pre suffix _ stdNumMonth st _ false hc hk
      (by decide) (parseStd_month_zero suffix { st with value := '0' :: rest } rest rfl hd)
      (show "month".toList ≠ [] from by decide)

set_option maxRecDepth 100000 in
/-- Witness for C17: the fields of the RFC3339 test input are in range, and the
inputs "13" for `MM`, "24" for `HH`, "13" for `hh` and "60" for `mm` are rejected
with the range error of their field. -/
theorem Parse_range_validation_witness :
    (((1 : Int) ≤ 2 ∧ (2 : Int) ≤ 12) ∧ ((0 : Int) ≤ 21 ∧ (21 : Int) ≤ 23) ∧
      ((0 : Int) ≤ 0 ∧ (0 : Int) ≤ 59)) ∧
    Parse bareHost "MM".toList "13".toList = .ok (.error
      ⟨"MM".toList, "13".toList, "MM".toList, [], ": month out of range".toList⟩) ∧
    Parse bareHost "HH".toList "24".toList = .ok (.error
      ⟨"HH".toList, "24".toList, "HH".toList, [], ": hour out of range".toList⟩) ∧
    Parse bareHost "hh".toList "13".toList = .ok (.error
      ⟨"hh".toList, "13".toList, "hh".toList, [], ": hour out of range".toList⟩) ∧
    Parse bareHost "mm".toList "60".toList = .ok (.error
      ⟨"mm".toList, "60".toList, "mm".toList, [], ": minute out of range".toList⟩) ∧
    Parse bareHost "YYYY-MM-dd".toList "2010-00-10".toList = .ok (.error
      ⟨"YYYY-MM-dd".toList, "2010-00-10".toList, "MM".toList, "-10".toList,
        ": month out of range".toList⟩) :=
  ⟨(Parse_range_validation bareHost).1 RFC3339 "2010-02-04T21:00:57-08:00".toList
      { year := 2010, month := 2, day := 4, hour := 21, min := 0, sec := 57, nsec := 0,
        loc := Location.fixed [] (-28800) } (by decide),
    (Parse_range_validation bareHost).2.1 "MM".toList "13".toList Location.UTC Location.Local 2
      "MM".toList [] [] [] stdZeroMonth { value := "13".toList } 13 "month".toList
      (by decide) (by decide) (by decide) (by decide)
      (Or.inl ⟨Or.inr rfl, Or.inr (by decide), rfl⟩),
    by decide, by decide, by decide, by decide⟩

set_option maxRecDepth 100000 in
/-- C19: day-of-month validation.  Whenever `Parse` returns a time, its day `d`
satisfies `1 ≤ d ≤ daysIn month year` for the month and year of that time.  The check
is made at the end, on the final fields: a state whose day fails it gives the error
with detail ": day out of range", and a state whose day passes it gives a time.
With the pattern `YYYY-MM-dd` the inputs "2010-02-30", "1900-02-29" and "2010-02-00"
are rejected and "2000-02-29" is accepted, and likewise with the directives in the
order `dd-MM-YYYY`. -/
theorem Parse_day_validation (host : Host) :
    (∀ (layout value : Str) (pt : ParsedTime), Parse host layout value = .ok (.time pt) →
      1 ≤ pt.day ∧ pt.day ≤ daysIn pt.month pt.year) ∧
    (∀ (al av : Str) (dl loc : Location) (st : ParseState),
      st.day < 1 ∨ st.day > daysIn st.month st.year →
      parseFinish host al av dl loc st =
        .error ⟨al, av, [], st.value, ": day out of range".toList⟩) ∧
    (∀ (al av : Str) (dl loc : Location) (st : ParseState),
      1 ≤ st.day → st.day ≤ daysIn st.month st.year →
      ∃ pt : ParsedTime, parseFinish host al av dl loc st = .time pt ∧
        pt.day = st.day ∧ pt.month = st.month ∧ pt.year = st.year) ∧
    (∀ v ∈ ["2010-02-30".toList, "1900-02-29".toList, "2010-02-00".toList],
      Parse host "YYYY-MM-dd".toList v = .ok (.error
        ⟨"YYYY-MM-dd".toList, v, [], [], ": day out of range".toList⟩)) ∧
    Parse host "YYYY-MM-dd".toList "2000-02-29".toList = .ok (.time
      { year := 2000, month := 2, day := 29, hour := 0, min := 0, sec := 0, nsec := 0,
        loc := Location.UTC }) ∧
    (∀ v ∈ ["30-02-2010".toList, "29-02-1900".toList, "00-02-2010".toList],
      Parse host "dd-MM-YYYY".toList v = .ok (.error
        ⟨"dd-MM-YYYY".toList, v, [], [], ": day out of range".toList⟩)) ∧
    Parse host "dd-MM-YYYY".toList "29-02-2000".toList = .ok (.time
      { year := 2000, month := 2, day := 29, hour := 0, min := 0, sec := 0, nsec := 0,
        loc := Location.UTC }) := by
  refine ⟨?_, ?_, ?_, ?_, rfl, ?_, rfl⟩
  · intro layout value pt h
    obtain ⟨st, _, _, _, hf⟩ := Parse_time_finish host layout value pt h
    obtain ⟨e1, e2, e3, _, _, _, _, d1, d2⟩ := parseFinish_time host _ _ _ _ st pt hf
    rw [e1, e2, e3]
    exact ⟨d1, d2⟩
  · intro al av dl loc st hd
    unfold parseFinish
    dsimp only
    rw [if_pos hd]
  · intro al av dl loc st d1 d2
    have hd : ¬ (st.day < 1 ∨ st.day > daysIn st.month st.year) := by omega
    cases hf : parseFinish host al av dl loc st with
    | time pt =>
      obtain ⟨e1, e2, e3, _⟩ := parseFinish_time host _ _ _ _ st pt hf
      exact ⟨pt, rfl, e3, e2, e1⟩
    | error e =>
      exfalso
      unfold parseFinish at hf
      dsimp only at hf
      rw [if_neg hd] at hf
      (repeat' split at hf) <;> simp at hf
  · intro v hv
    simp only [List.mem_cons, List.mem_singleton, List.not_mem_nil, or_false] at hv
    rcases hv with rfl | rfl | rfl <;> rfl
  · intro v hv
    simp only [List.mem_cons, List.mem_singleton, List.not_mem_nil, or_false] at hv
    rcases hv with rfl | rfl | rfl <;> rfl

set_option maxRecDepth 100000 in
/-- Witness for C19: the day of the RFC3339 test input lies within its month, and
"2010-02-30" is rejected under `YYYY-MM-dd`. -/
theorem Parse_day_validation_witness :
    ((1 : Int) ≤ 4 ∧ (4 : Int) ≤ daysIn 2 2010) ∧
    Parse bareHost "YYYY-MM-dd".toList "2010-02-30".toList = .ok (.error
      ⟨"YYYY-MM-dd".toList, "2010-02-30".toList, [], [], ": day out of range".toList⟩) ∧
    Parse bareHost "YYYY-MM-dd".toList "2010-02-29".toList = .ok (.error
      ⟨"YYYY-MM-dd".toList, "2010-02-29".toList, [], [], ": day out of range".toList⟩) :=
  ⟨(Parse_day_validation bareHost).1 RFC3339 "2010-02-04T21:00:57-08:00".toList
      { year := 2010, month := 2, day := 4, hour := 21, min := 0, sec := 57, nsec := 0,
        loc := Location.fixed [] (-28800) } (by decide),
    (Parse_day_validation bareHost).2.2.2.1 "2010-02-30".toList (by simp), by decide⟩

set_option maxRecDepth 100000 in
/-- Counterexample to C21 as stated: the literal `Z` is not read as UTC at the
directives `Z` and `ZZ`.  `Parse` of "2010-02-04T21:00:57Z" under `RFC3339`, and of "Z"
under the patterns `Z` and `ZZ`, returns a `ParseError` whose layout element is the
directive and whose value element is "Z".  The lexer turns the directives into
`stdNumTZ` and `stdNumColonTZ`, while the test for a literal `Z` in `parse` is made for
the std values `stdISO8601TZ`, `stdISO8601ShortTZ` and `stdISO8601ColonTZ` only. -/
theorem Parse_literal_Z_counterexample :
    Parse bareHost RFC3339 "2010-02-04T21:00:57Z".toList = .ok (.error
      ⟨RFC3339, "2010-02-04T21:00:57Z".toList, "ZZ".toList, "Z".toList, []⟩) ∧
    Parse bareHost "Z".toList "Z".toList = .ok (.error
      ⟨"Z".toList, "Z".toList, "Z".toList, "Z".toList, []⟩) ∧
    Parse bareHost "ZZ".toList "Z".toList = .ok (.error
      ⟨"ZZ".toList, "Z".toList, "ZZ".toList, "Z".toList, []⟩) ∧
    nextStdChunk "Z".toList = .ok ([], stdNumTZ, []) ∧
    nextStdChunk "ZZ".toList = .ok ([], stdNumColonTZ, []) ∧
    parseStd [] stdISO8601ColonTZ { value := "Z".toList } =
      .ok ({ value := [], z := some Location.UTC }, false) ∧
    parseStd [] stdNumColonTZ { value := "Z".toList } = .ok ({ value := "Z".toList }, true) := by
  decide

set_option maxRecDepth 100000 in
/-- C26 (code at the failing input): a seconds directive reached at an input that
starts with `.` and a digit does not fail.  The error of `getnum` is overwritten by
the result of `parseNanoseconds` in the branch for a fraction that the layout does
not announce; the minute directive at the same input fails, and so does the seconds
directive at other non-digit input. -/
theorem Parse_second_missing_digits_accepted :
    Parse bareHost "ss".toList ".5".toList = .ok (.time
      { year := 0, month := 1, day := 1, hour := 0, min := 0, sec := 0, nsec := 500000000,
        loc := Location.UTC }) ∧
    Parse bareHost "HH:mm:s".toList "10:20:.25".toList = .ok (.time
      { year := 0, month := 1, day := 1, hour := 10, min := 20, sec := 0, nsec := 250000000,
        loc := Location.UTC }) ∧
    Parse bareHost "mm".toList ".5".toList = .ok (.error
      ⟨"mm".toList, ".5".toList, "mm".toList, ".5".toList, []⟩) ∧
    Parse bareHost "ss".toList "x5".toList = .ok (.error
      ⟨"ss".toList, "x5".toList, "ss".toList, "x5".toList, []⟩) := by
  decide

set_option maxRecDepth 100000 in
/-- C28 (code at the failing input): with a quoted literal before the directive the
error does not carry the directive's own run of pattern characters.  The chunk is
cut from the layout at the length of the literal prefix, which the lexer returns
without its quotes: for the pattern `'T'MM` it is `T'MM`, not `MM`.  Without quotes
the chunk is the run, and a literal mismatch reports the literal. -/
theorem Parse_error_chunk_quoted :
    Parse bareHost ([quote] ++ "T".toList ++ [quote] ++ "MM".toList) "T13".toList =
      .ok (.error
        ⟨[quote] ++ "T".toList ++ [quote] ++ "MM".toList, "T13".toList,
          "T".toList ++ [quote] ++ "MM".toList, [], ": month out of range".toList⟩) ∧
    Parse bareHost ([quote] ++ "at".toList ++ [quote] ++ " HH".toList) "at 99".toList =
      .ok (.error
        ⟨[quote] ++ "at".toList ++ [quote] ++ " HH".toList, "at 99".toList,
          [quote] ++ " HH".toList, [], ": hour out of range".toList⟩) ∧
    Parse bareHost "TMM".toList "T13".toList = .ok (.error
      ⟨"TMM".toList, "T13".toList, "MM".toList, [], ": month out of range".toList⟩) ∧
    Parse bareHost "YYYY-MM-dd".toList "2010/02/04".toList = .ok (.error
      ⟨"YYYY-MM-dd".toList, "2010/02/04".toList, "-".toList, "/02/04".toList, []⟩) := by
  decide

theorem cutspace_cons_space (s : Str) : cutspace (' ' :: s) = cutspace s := by
  simp [cutspace, List.dropWhile_cons]

theorem cutspace_cons_other (c : Char) (s : Str) (h : c ≠ ' ') : cutspace (c :: s) = c :: s := by
  simp [cutspace, List.dropWhile_cons, h]

theorem cutspace_length_le (s : Str) : (cutspace s).length ≤ s.length :=
  length_dropWhile_le _ s

theorem literalMatchFrom_run (cs v : Str) :
    literalMatchFrom true cs v = literalMatchFrom false (cutspace cs) v := by
  induction cs with
  | nil => rfl
  | cons c cs ih =>
    by_cases hc : c = ' '
    · subst hc
      rw [cutspace_cons_space, ← ih]
      simp [literalMatchFrom]
    · rw [cutspace_cons_other c cs hc]
      simp [literalMatchFrom, hc]

theorem skipLoop_literalMatch (fuel : Nat) (value pre : Str) (hf : pre.length < fuel) :
    ∃ r e, skipLoop fuel value pre = .ok (r, e) ∧
      (e = false → literalMatchFrom false pre value = some r) ∧
      (e = true → literalMatchFrom false pre value = none) := by
  induction fuel generalizing value pre with
  | zero => omega
  | succ fuel ih =>
    cases pre with
    | nil => exact ⟨value, false, rfl, fun _ => rfl, fun h => by simp at h⟩
    | cons p ps =>
      simp only [List.length_cons] at hf
      by_cases hp : p = ' '
      · subst hp
        cases value with
        | nil =>
          obtain ⟨r, e, h1, h2, h3⟩ := ih (cutspace []) (cutspace (' ' :: ps))
            (by rw [cutspace_cons_space]; have := cutspace_length_le ps; omega)
          refine ⟨r, e, ?_, ?_, ?_⟩
          · simp only [skipLoop, List.length_nil, if_true]
            simpa using h1
          · intro he
            have := h2 he
            rw [cutspace_cons_space] at this
            simp only [literalMatchFrom, if_true, Bool.false_eq_true, if_false]
            rw [literalMatchFrom_run]
            exact this
          · intro he
            have := h3 he
            rw [cutspace_cons_space] at this
            simp only [literalMatchFrom, if_true, Bool.false_eq_true, if_false]
            rw [literalMatchFrom_run]
            exact this
        | cons x v1 =>
          by_cases hx : x = ' '
          · subst hx
            obtain ⟨r, e, h1, h2, h3⟩ := ih (cutspace (' ' :: v1)) (cutspace (' ' :: ps))
              (by rw [cutspace_cons_space]; have := cutspace_length_le ps; omega)
            refine ⟨r, e, ?_, ?_, ?_⟩
            · simp only [skipLoop, if_true, byteAt, List.getD_cons_zero, ne_eq,
                not_true_eq_false, and_false, if_false]
              exact h1
            · intro he
              have := h2 he
              rw [cutspace_cons_space, cutspace_cons_space] at this
              simp only [literalMatchFrom, if_true, Bool.false_eq_true, if_false]
              rw [literalMatchFrom_run]
              exact this
            · intro he
              have := h3 he
              rw [cutspace_cons_space, cutspace_cons_space] at this
              simp only [literalMatchFrom, if_true, Bool.false_eq_true, if_false]
              rw [literalMatchFrom_run]
              exact this
          · refine ⟨x :: v1, true, ?_, fun h => by simp at h, fun _ => ?_⟩
            · simp [skipLoop, byteAt, hx]
            · simp [literalMatchFrom, hx]
      · cases value with
        | nil =>
          refine ⟨[], true, ?_, fun h => by simp at h, fun _ => ?_⟩
          · simp [skipLoop, hp]
          · simp [literalMatchFrom, hp]
        | cons x v1 =>
          by_cases hx : x = p
          · subst hx
            obtain ⟨r, e, h1, h2, h3⟩ := ih v1 ps (by omega)
            refine ⟨r, e, ?_, ?_, ?_⟩
            · simp only [skipLoop, hp, if_false, List.length_cons, byteAt, List.getD_cons_zero,
                ne_eq, not_true_eq_false, or_false, List.drop_succ_cons, List.drop_zero]
              rw [if_neg (by omega)]
              exact h1
            · intro he
              simp only [literalMatchFrom, hp, if_false, if_true]
              exact h2 he
            · intro he
              simp only [literalMatchFrom, hp, if_false, if_true]
              exact h3 he
          · refine ⟨x :: v1, true, ?_, fun h => by simp at h, fun _ => ?_⟩
            · simp [skipLoop, byteAt, hx, hp]
            · simp [literalMatchFrom, hx, hp]

/-- C24 as amended: `skip` always returns, and it succeeds exactly when the input
matches the pattern literal with every non-space character matched one for one and
every run of spaces of the literal matched by a non-empty run of spaces of the
input, taken whole, or by the end of the input; it then returns the input that
remains after the matched part.  The literal `a b` matches the inputs `a b` and
`a   b`, and does not match `ab`. -/
theorem skip_literalMatch (value pre : Str) :
    (∃ r e, skip value pre = .ok (r, e)) ∧
    (∀ r : Str, skip value pre = .ok (r, false) ↔ literalMatch pre value = some r) ∧
    ((∃ r, skip value pre = .ok (r, true)) ↔ literalMatch pre value = none) ∧
    literalMatch "a b".toList "a b".toList = some [] ∧
    literalMatch "a b".toList "a   b".toList = some [] ∧
    literalMatch "a b".toList "ab".toList = none := by
  obtain ⟨r0, e0, h1, h2, h3⟩ := skipLoop_literalMatch (pre.length + 1) value pre (by omega)
  refine ⟨⟨r0, e0, h1⟩, ?_, ?_, by decide, by decide, by decide⟩
  · intro r
    unfold skip literalMatch
    constructor
    · intro h
      rw [h1] at h
      simp only [Outcome.ok.injEq, Prod.mk.injEq] at h
      obtain ⟨rfl, rfl⟩ := h
      exact h2 rfl
    · intro h
      cases e0 with
      | true => rw [h3 rfl] at h; simp at h
      | false =>
        rw [h2 rfl] at h
        simp only [Option.some.injEq] at h
        rw [h1, h]
  · unfold skip literalMatch
    constructor
    · rintro ⟨r, h⟩
      rw [h1] at h
      simp only [Outcome.ok.injEq, Prod.mk.injEq] at h
      exact h3 h.2
    · intro h
      cases e0 with
      | true => exact ⟨r0, h1⟩
      | false => rw [h2 rfl] at h; simp at h

set_option maxRecDepth 100000 in
/-- Counterexample to C24 as stated: the pattern literal `a b` does not match the
input `ab`; `skip` fails at the space of the literal, the input `b` still to match.
A run of spaces of the literal is matched by no space only at the end of the
input. -/
theorem skip_space_run_counterexample :
    skip "ab".toList "a b".toList = .ok ("b".toList, true) ∧
    skip "a b".toList "a b".toList = .ok ([], false) ∧
    skip "a   b".toList "a b".toList = .ok ([], false) ∧
    skip "a".toList "a ".toList = .ok ([], false) ∧
    Parse bareHost "HH mm".toList "1020".toList = .ok (.error
      ⟨"HH mm".toList, "1020".toList, " ".toList, "20".toList, []⟩) := by
  decide

set_option linter.unusedTactic false in
set_option linter.unreachableTactic false in
set_option linter.unnecessarySeqFocus false in
theorem stdOfRun_ne_zero (r : Char) (j std : Nat) (h : stdOfRun r j = some std) : std ≠ 0 := by
  have hS : ∀ base : Nat, base < 2 ^ 16 → base ≠ 0 → base ||| (j <<< stdArgShift) ≠ 0 := by
    intro base hb h0 hz
    have := (fracStd_bits base j hb).1
    rw [hz, Nat.zero_and] at this
    exact h0 this.symm
  unfold stdOfRun at h
  by_cases c0 : r = 'h'
  · rw [if_pos c0] at h
    (repeat' split at h) <;> first
      | (simp only [reduceCtorEq] at h; done)
      | (simp only [Option.some.injEq] at h
         subst h
         first
           | decide
           | exact hS _ (by decide) (by decide))
  rw [if_neg c0] at h
  by_cases c1 : r = 'H'
  · rw [if_pos c1] at h
    (repeat' split at h) <;> first
      | (simp only [reduceCtorEq] at h; done)
      | (simp only [Option.some.injEq] at h
         subst h
         first
           | decide
           | exact hS _ (by decide) (by decide))
  rw [if_neg c1] at h
  by_cases c2 : r = 'm'
  · rw [if_pos c2] at h
    (repeat' split at h) <;> first
      | (simp only [reduceCtorEq] at h; done)
      | (simp only [Option.some.injEq] at h
         subst h
         first
           | decide
           | exact hS _ (by decide) (by decide))
  rw [if_neg c2] at h
  by_cases c3 : r = 's'
  · rw [if_pos c3] at h
    (repeat' split at h) <;> first
      | (simp only [reduceCtorEq] at h; done)
      | (simp only [Option.some.injEq] at h
         subst h
         first
           | decide
           | exact hS _ (by decide) (by decide))
  rw [if_neg c3] at h
  by_cases c4 : r = 'd'
  · rw [if_pos c4] at h
    (repeat' split at h) <;> first
      | (simp only [reduceCtorEq] at h; done)
      | (simp only [Option.some.injEq] at h
         subst h
         first
           | decide
           | exact hS _ (by decide) (by decide))
  rw [if_neg c4] at h
  by_cases c5 : r = 'E'
  · rw [if_pos c5] at h
    (repeat' split at h) <;> first
      | (simp only [reduceCtorEq] at h; done)
      | (simp only [Option.some.injEq] at h
         subst h
         first
           | decide
           | exact hS _ (by decide) (by decide))
  rw [if_neg c5] at h
  by_cases c6 : r = 'M'
  · rw [if_pos c6] at h
    (repeat' split at h) <;> first
      | (simp only [reduceCtorEq] at h; done)
      | (simp only [Option.some.injEq] at h
         subst h
         first
           | decide
           | exact hS _ (by decide) (by decide))
  rw [if_neg c6] at h
  by_cases c7 : r = 'Y' ∨ r = 'y' ∨ r = 'x'
  · rw [if_pos c7] at h
    (repeat' split at h) <;> first
      | (simp only [reduceCtorEq] at h; done)
      | (simp only [Option.some.injEq] at h
         subst h
         first
           | decide
           | exact hS _ (by decide) (by decide))
  rw [if_neg c7] at h
  by_cases c8 : r = 'S'
  · rw [if_pos c8] at h
    (repeat' split at h) <;> first
      | (simp only [reduceCtorEq] at h; done)
      | (simp only [Option.some.injEq] at h
         subst h
         first
           | decide
           | exact hS _ (by decide) (by decide))
  rw [if_neg c8] at h
  by_cases c9 : r = 'a'
  · rw [if_pos c9] at h
    (repeat' split at h) <;> first
      | (simp only [reduceCtorEq] at h; done)
      | (simp only [Option.some.injEq] at h
         subst h
         first
           | decide
           | exact hS _ (by decide) (by decide))
  rw [if_neg c9] at h
  by_cases c10 : r = 'Z'
  · rw [if_pos c10] at h
    (repeat' split at h) <;> first
      | (simp only [reduceCtorEq] at h; done)
      | (simp only [Option.some.injEq] at h
         subst h
         first
           | decide
           | exact hS _ (by decide) (by decide))
  rw [if_neg c10] at h
  simp only [reduceCtorEq] at h

theorem takeWhile_eq_replicate (r : Char) (l : Str) :
    l.takeWhile (fun c => c == r) = List.replicate (l.takeWhile (fun c => c == r)).length r := by
  rw [List.eq_replicate_iff]
  refine ⟨rfl, ?_⟩
  intro b hb
  have := List.mem_takeWhile_imp hb
  simpa using this

theorem run_split (r : Char) (tl : Str) :
    r :: tl = List.replicate (1 + (tl.takeWhile (fun c => c == r)).length) r ++
      tl.drop (tl.takeWhile (fun c => c == r)).length := by
  rw [Nat.add_comm, List.replicate_succ, List.cons_append, ← takeWhile_eq_replicate,
    drop_length_takeWhile, List.takeWhile_append_dropWhile]

theorem nextStdChunkLoop_partition (fuel : Nat) (pre rest : Str) (hq : quote ∉ rest)
    (hf : rest.length < fuel) :
    ∃ p std suf, nextStdChunkLoop fuel pre rest = .ok (p, std, suf) ∧
      (std ≠ 0 → ∃ (c : Char) (n : Nat) (mid : Str), isStdLetter c = true ∧ 1 ≤ n ∧
        p = pre ++ mid ∧ rest = mid ++ List.replicate n c ++ suf) ∧
      (std = 0 → p = pre ++ rest ∧ suf = []) := by
  induction fuel generalizing pre rest with
  | zero => omega
  | succ fuel ih =>
    cases rest with
    | nil => exact ⟨pre, 0, [], rfl, fun h => absurd rfl h, fun _ => ⟨by simp, rfl⟩⟩
    | cons r tl =>
      simp only [List.length_cons] at hf
      have hr : r ≠ quote := fun h => hq (by simp [h])
      have htl : quote ∉ tl := fun h => hq (List.mem_cons_of_mem _ h)
      by_cases hl : isStdLetter r = true
      · have hsplit := run_split r tl
        generalize hk : (tl.takeWhile (fun c => c == r)).length = k at hsplit
        have hdl : (tl.drop k).length < fuel := by
          rw [List.length_drop]; omega
        have hdq : quote ∉ tl.drop k := fun h => htl (List.mem_of_mem_drop h)
        cases hs : stdOfRun r (1 + k) with
        | some std =>
          refine ⟨pre, std, tl.drop k, ?_, ?_, ?_⟩
          · simp only [nextStdChunkLoop, hl, if_true, hk, hs, Nat.add_sub_cancel_left]
          · intro _
            exact ⟨r, 1 + k, [], hl, by omega, by simp, by simpa using hsplit⟩
          · intro h0
            exact absurd h0 (stdOfRun_ne_zero r _ std hs)
        | none =>
          obtain ⟨p, std, suf, h1, h2, h3⟩ :=
            ih (pre ++ (r :: tl).take (1 + k)) (tl.drop k) hdq hdl
          have htake : (r :: tl).take (1 + k) = List.replicate (1 + k) r := by
            conv_lhs => rw [hsplit]
            rw [List.take_append_of_le_length (by simp)]
            simp
          refine ⟨p, std, suf, ?_, ?_, ?_⟩
          · simp only [nextStdChunkLoop, hl, if_true, hk, hs, Nat.add_sub_cancel_left]
            exact h1
          · intro hne
            obtain ⟨c, n, mid, a1, a2, a3, a4⟩ := h2 hne
            refine ⟨c, n, List.replicate (1 + k) r ++ mid, a1, a2, ?_, ?_⟩
            · rw [a3, htake, List.append_assoc]
            · rw [hsplit, a4]
              simp [List.append_assoc]
          · intro h0
            obtain ⟨b1, b2⟩ := h3 h0
            refine ⟨?_, b2⟩
            rw [b1, htake, List.append_assoc, ← hsplit]
      · have hl2 : isStdLetter r = false := by simpa using hl
        obtain ⟨p, std, suf, h1, h2, h3⟩ := ih (pre ++ [r]) tl htl (by omega)
        refine ⟨p, std, suf, ?_, ?_, ?_⟩
        · simp only [nextStdChunkLoop, hl2, Bool.false_eq_true, if_false, hr]
          exact h1
        · intro hne
          obtain ⟨c, n, mid, a1, a2, a3, a4⟩ := h2 hne
          exact ⟨c, n, r :: mid, a1, a2, by rw [a3]; simp, by rw [a4]; simp⟩
        · intro h0
          obtain ⟨b1, b2⟩ := h3 h0
          exact ⟨by rw [b1]; simp, b2⟩

/-- C30: lexer chunks partition the pattern and make progress.  For every pattern
that contains no single quote `nextStdChunk` returns a result; when the result is a
directive the pattern is `prefix ++ run ++ suffix` with `run` a non-empty block of
one repeated trigger character, so the suffix is strictly shorter than the pattern
and again free of quotes; when the result is the sentinel 0 the prefix is the whole
pattern and the suffix is empty. -/
theorem nextStdChunk_partition (layout : Str) (hq : quote ∉ layout) :
    ∃ p std suf, nextStdChunk layout = .ok (p, std, suf) ∧
      (std ≠ 0 → ∃ (c : Char) (n : Nat), c ∈ triggerChars ∧ c ≠ quote ∧ 1 ≤ n ∧
        layout = p ++ List.replicate n c ++ suf ∧ suf.length < layout.length ∧
        quote ∉ suf) ∧
      (std = 0 → p = layout ∧ suf = []) := by
  obtain ⟨p, std, suf, h1, h2, h3⟩ :=
    nextStdChunkLoop_partition (layout.length + 1) [] layout hq (by omega)
  refine ⟨p, std, suf, h1, ?_, ?_⟩
  · intro hne
    obtain ⟨c, n, mid, a1, a2, a3, a4⟩ := h2 hne
    simp only [List.nil_append] at a3
    subst a3
    have hc : c ∈ triggerChars ∧ c ≠ quote := by
      simp only [isStdLetter, Bool.or_eq_true, beq_iff_eq] at a1
      simp only [triggerChars, List.mem_cons, List.mem_singleton, List.not_mem_nil, or_false]
      constructor
      · tauto
      · rcases a1 with ((((((((((((h | h) | h) | h) | h) | h) | h) | h) | h) | h) | h) | h) | h) <;>
          (subst h; decide)
    refine ⟨c, n, hc.1, hc.2, a2, a4, ?_, ?_⟩
    · rw [a4]
      simp only [List.length_append, List.length_replicate]
      omega
    · intro hs
      exact hq (by rw [a4]; simp [hs])
  · intro h0
    simpa using h3 h0

set_option maxRecDepth 100000 in
/-- Witness for C30: the pattern `YYYY-MM-dd` splits into the empty prefix, the run
`YYYY` and the suffix `-MM-dd`; a pattern without trigger characters comes back
whole with the sentinel. -/
theorem nextStdChunk_partition_witness :
    nextStdChunk "YYYY-MM-dd".toList = .ok ([], stdLongYear, "-MM-dd".toList) ∧
    nextStdChunk "-MM-dd".toList = .ok ("-".toList, stdZeroMonth, "-dd".toList) ∧
    nextStdChunk "T:,".toList = .ok ("T:,".toList, 0, []) ∧
    nextStdChunk "MMMMM".toList = .ok ("MMMMM".toList, 0, []) ∧
    ∃ p std suf, nextStdChunk "YYYY-MM-dd".toList = .ok (p, std, suf) ∧
      (std ≠ 0 → ∃ (c : Char) (n : Nat), c ∈ triggerChars ∧ c ≠ quote ∧ 1 ≤ n ∧
        "YYYY-MM-dd".toList = p ++ List.replicate n c ++ suf ∧
        suf.length < "YYYY-MM-dd".toList.length ∧ quote ∉ suf) ∧
      (std = 0 → p = "YYYY-MM-dd".toList ∧ suf = []) :=
  ⟨by decide, by decide, by decide, by decide,
    nextStdChunk_partition "YYYY-MM-dd".toList (by decide)⟩

theorem parseLoop_time_value (host : Host) (al av : Str) (dl loc : Location) (fuel : Nat)
    (layout : Str) (st : ParseState) (pt : ParsedTime)
    (h : parseLoop host al av dl loc fuel layout st = .ok (.time pt)) :
    ∃ st' : ParseState, st'.value = [] ∧ parseFinish host al av dl loc st' = .time pt := by
  induction fuel generalizing layout st with
  | zero => simp [parseLoop] at h
  | succ fuel ih =>
    rw [parseLoop] at h
    cases hc : nextStdChunk layout with
    | panic => simp [hc] at h
    | outOfFuel => simp [hc] at h
    | ok c =>
      obtain ⟨pre, std, suffix⟩ := c
      simp only [hc] at h
      cases hk : skip st.value pre with
      | panic => simp [hk] at h
      | outOfFuel => simp [hk] at h
      | ok r =>
        obtain ⟨value, err⟩ := r
        simp only [hk] at h
        cases err with
        | true => simp at h
        | false =>
          simp only [Bool.false_eq_true, if_false] at h
          by_cases hs : std = 0
          · simp only [hs, if_true] at h
            by_cases hv : value.length ≠ 0
            · simp [hv] at h
            · simp only [hv, if_false, Outcome.ok.injEq] at h
              have hv0 : value = [] := by
                cases value with
                | nil => rfl
                | cons a b => simp at hv
              exact ⟨{ st with value := value }, hv0, h⟩
          · simp only [hs, if_false] at h
            cases hp : parseStd suffix std { st with value := value } with
            | panic => simp [hp] at h
            | outOfFuel => simp [hp] at h
            | ok q =>
              obtain ⟨st2, err2⟩ := q
              simp only [hp] at h
              by_cases hr : st2.rangeErrString ≠ []
              · simp [hr] at h
              · simp only [hr, if_false] at h
                cases err2 with
                | true => simp at h
                | false =>
                  simp only [Bool.false_eq_true, if_false] at h
                  exact ih suffix st2 h

theorem parseLoop_extra (host : Host) (al av : Str) (dl loc : Location) (fuel : Nat)
    (layout pre suffix value : Str) (st : ParseState)
    (hc : nextStdChunk layout = .ok (pre, 0, suffix))
    (hk : skip st.value pre = .ok (value, false)) (hv : value ≠ []) :
    parseLoop host al av dl loc (fuel + 1) layout st =
      .ok (.error ⟨al, av, [], value, ": extra text: ".toList ++ value⟩) := by
  rw [parseLoop, hc]
  have hl : value.length ≠ 0 := by
    cases value with
    | nil => exact absurd rfl hv
    | cons a b => simp
  simp only [hk, Bool.false_eq_true, if_false, if_true, hl, ne_eq, not_false_eq_true]

set_option maxRecDepth 100000 in
/-- C27: no trailing input.  When `Parse` returns a time, the loop over the
directives, run on this layout and this input, is left by its `break` with variables
`st` in which the input still to consume is empty, and the time is built from these
variables: the whole input was consumed.  No run of the loop is left by the `break`
with input still to consume.  When the lexer finds no further directive and the
trailing literal has been matched with input `value` left over, `parse` returns the
error with detail ": extra text: " followed by exactly that input; with nothing left
over it finishes. -/
theorem Parse_no_trailing_input (host : Host) :
    (∀ (layout value : Str) (pt : ParsedTime), Parse host layout value = .ok (.time pt) →
      ∃ st : ParseState,
        parseDirectives layout value (layout.length + 1) layout { value := value }
          = .ok (.ok st) ∧
        st.value = [] ∧
        parseFinish host layout value Location.UTC Location.Local st = .time pt) ∧
    (∀ (al av : Str) (fuel : Nat) (layout : Str) (st st' : ParseState),
      parseDirectives al av fuel layout st = .ok (.ok st') → st'.value = []) ∧
    (∀ (al av : Str) (dl loc : Location) (fuel : Nat) (layout pre suffix value : Str)
      (st : ParseState),
      nextStdChunk layout = .ok (pre, 0, suffix) →
      skip st.value pre = .ok (value, false) →
      (value ≠ [] →
        parseLoop host al av dl loc (fuel + 1) layout st =
          .ok (.error ⟨al, av, [], value, ": extra text: ".toList ++ value⟩)) ∧
      (value = [] →
        parseLoop host al av dl loc (fuel + 1) layout st =
          .ok (parseFinish host al av dl loc { st with value := [] }))) ∧
    Parse host "YYYY".toList "2010 ".toList = .ok (.error
      ⟨"YYYY".toList, "2010 ".toList, [], " ".toList, ": extra text:  ".toList⟩) ∧
    Parse host "YYYY-MM".toList "2010-0212".toList = .ok (.error
      ⟨"YYYY-MM".toList, "2010-0212".toList, [], "12".toList, ": extra text: 12".toList⟩) ∧
    Parse host Kitchen "3:04PMjunk".toList = .ok (.error
      ⟨Kitchen, "3:04PMjunk".toList, [], "junk".toList, ": extra text: junk".toList⟩) := by
  refine ⟨?_, ?_, ?_, rfl, rfl, rfl⟩
  · intro layout value pt h
    obtain ⟨st, hd, hf⟩ := parse_directives host layout value Location.UTC Location.Local pt h
    exact ⟨st, hd, (parseDirectives_end layout value _ layout _ st hd).1, hf⟩
  · intro al av fuel layout st st' h
    exact (parseDirectives_end al av fuel layout st st' h).1
  · intro al av dl loc fuel layout pre suffix value st hc hk
    constructor
    · intro hv
      exact parseLoop_extra host al av dl loc fuel layout pre suffix value st hc hk hv
    · intro hv
      subst hv
      exact parseLoop_last host al av dl loc fuel layout pre suffix st hc hk

set_option maxRecDepth 100000 in
/-- Witness for C27: the RFC3339 test input is consumed whole by the loop over the
directives, and the same input with one more character is rejected for its extra
text. -/
theorem Parse_no_trailing_input_witness :
    (∃ st : ParseState,
      parseDirectives RFC3339 "2010-02-04T21:00:57-08:00".toList (RFC3339.length + 1) RFC3339
        { value := "2010-02-04T21:00:57-08:00".toList } = .ok (.ok st) ∧
      st.value = [] ∧
      parseFinish bareHost RFC3339 "2010-02-04T21:00:57-08:00".toList Location.UTC
        Location.Local st = .time
          { year := 2010, month := 2, day := 4, hour := 21, min := 0, sec := 57, nsec := 0,
            loc := Location.fixed [] (-28800) }) ∧
    Parse bareHost RFC3339 "2010-02-04T21:00:57-08:00x".toList = .ok (.error
      ⟨RFC3339, "2010-02-04T21:00:57-08:00x".toList, [], "x".toList,
        ": extra text: x".toList⟩) :=
  ⟨(Parse_no_trailing_input bareHost).1 RFC3339 "2010-02-04T21:00:57-08:00".toList _
      (by decide), by decide⟩

theorem nanoDigits_allDigits (k v : Nat) : ∀ c ∈ nanoDigits k v [], isDigitByte c = true := by
  induction k generalizing v with
  | zero => intro c hc; simp [nanoDigits] at hc
  | succ k ih =>
    intro c hc
    rw [nanoDigits_succ, List.mem_append, List.mem_singleton] at hc
    rcases hc with hc | rfl
    · exact ih _ c hc
    · exact (digitByte_facts (v % 10) (by omega)).1

theorem leadingIntLoop_nanoDigits (k v : Nat) (tail : Str) (hk : k ≤ 17) (hv : v < 10 ^ k) :
    leadingIntLoop 0 (nanoDigits k v [] ++ tail) = leadingIntLoop (v : Int) tail := by
  induction k generalizing v tail with
  | zero =>
    have : v = 0 := by simpa using hv
    subst this
    rfl
  | succ k ih =>
    have hq : v / 10 < 10 ^ k := by
      rw [Nat.div_lt_iff_lt_mul (by decide)]
      rw [Nat.pow_succ] at hv
      exact hv
    have hb : (10 : Nat) ^ k ≤ 10 ^ 16 := Nat.pow_le_pow_right (by decide) (by omega)
    rw [nanoDigits_succ, List.append_assoc, List.singleton_append, ih (v / 10) _ (by omega) hq,
      leadingIntLoop_digit _ _ _ (by omega) (by omega) (by
        have : ((v / 10 : Nat) : Int) < 10 ^ 16 := by
          have : v / 10 < 10 ^ 16 := by omega
          exact_mod_cast this
        omega)]
    congr 1
    omega

theorem atoi_nanoDigits (k v : Nat) (h1 : 1 ≤ k) (hk : k ≤ 17) (hv : v < 10 ^ k) :
    atoi (nanoDigits k v []) = ((v : Int), false) := by
  obtain ⟨j, rfl⟩ : ∃ j, k = j + 1 := ⟨k - 1, by omega⟩
  have hall := nanoDigits_allDigits (j + 1) v
  have hlen := nanoDigits_length (j + 1) v
  have hloop := leadingIntLoop_nanoDigits (j + 1) v [] hk hv
  rw [List.append_nil] at hloop
  generalize nanoDigits (j + 1) v [] = ds at hall hlen hloop
  cases ds with
  | nil => simp at hlen
  | cons c ds =>
    have hc : isDigitByte c = true := hall c (List.mem_cons_self _ _)
    have hm : c ≠ '-' := by
      intro h; subst h; exact absurd hc (by decide)
    have hp : c ≠ '+' := by
      intro h; subst h; exact absurd hc (by decide)
    simp only [atoi, leadingInt, byteAt, List.getD_cons_zero, hm, hp, or_self, and_false,
      if_false, decide_False, hloop]
    simp [leadingIntLoop]

theorem zeroPadded_digits (k v : Nat) (h1 : 1 ≤ k) (hv : v < 10 ^ k) :
    (zeroPadded k (v : Int)).length = k ∧
    (∀ c ∈ zeroPadded k (v : Int), isDigitByte c = true) ∧
    (k ≤ 17 → atoi (zeroPadded k (v : Int)) = ((v : Int), false)) := by
  rw [← nanoDigits_eq k v h1 hv]
  exact ⟨nanoDigits_length k v, nanoDigits_allDigits k v, fun hk => atoi_nanoDigits k v h1 hk hv⟩

theorem parseNanoseconds_digits (k v : Nat) (rest : Str) (h1 : 1 ≤ k) (h9 : k ≤ 9)
    (hv : v < 10 ^ k) :
    parseNanoseconds (zeroPadded k (v : Int) ++ rest) k = ((v : Int) * 10 ^ (9 - k), [], false) := by
  obtain ⟨hl, _, ha⟩ := zeroPadded_digits k v h1 hv
  have ht : (zeroPadded k (v : Int) ++ rest).take k = zeroPadded k (v : Int) := by
    rw [List.take_append_of_le_length (by omega), List.take_of_length_le (by omega)]
  have hb : v < 10 ^ 9 := lt_of_lt_of_le hv (Nat.pow_le_pow_right (by decide) h9)
  have hr : ¬ ((v : Int) < 0 ∨ 1000000000 ≤ (v : Int)) := by omega
  simp only [parseNanoseconds, ht, ha (by omega), Bool.false_eq_true, if_false, hr]

theorem takeWhile_digits (ds rest : Str) (n : Nat) (hd : ∀ c ∈ ds, isDigitByte c = true)
    (hn : ds.length ≤ n) (hr : ds.length = n ∨ isDigit rest 0 = false) :
    (((ds ++ rest).take n).takeWhile isDigitByte).length = ds.length := by
  rw [List.take_append_eq_append_take, List.take_of_length_le hn,
    List.takeWhile_append_of_pos hd]
  have : (rest.take (n - ds.length)).takeWhile isDigitByte = [] := by
    rcases hr with hr | hr
    · rw [hr, Nat.sub_self]; rfl
    · cases rest with
      | nil => simp
      | cons a rest =>
        have ha : isDigitByte a = false := by
          simpa [isDigit, byteAt] using hr
        cases hm : n - ds.length with
        | zero => rfl
        | succ m => simp [List.take_succ_cons, List.takeWhile_cons, ha]
  rw [this]
  simp

theorem dropWhile_digits (ds rest : Str) (hd : ∀ c ∈ ds, isDigitByte c = true)
    (hr : isDigit rest 0 = false) :
    ((ds ++ rest).takeWhile isDigitByte).length = ds.length := by
  have := takeWhile_digits ds rest (ds ++ rest).length hd (by simp) (Or.inr hr)
  rwa [List.take_of_length_le (le_refl _)] at this

theorem parseStd_frac0 (layout : Str) (std : Nat) (st : ParseState)
    (h : std &&& stdMask = stdFracSecond0) :
    parseStd layout std st =
      if st.value.length < std >>> stdArgShift then .ok (st, true)
      else .ok ({ st with nsec := (parseNanoseconds st.value (std >>> stdArgShift)).1,
                          rangeErrString := (parseNanoseconds st.value (std >>> stdArgShift)).2.1,
                          value := st.value.drop (std >>> stdArgShift) },
                (parseNanoseconds st.value (std >>> stdArgShift)).2.2) := by
  unfold parseStd
  simp only [h]
  simp [stdFracSecond0, stdFracSecond9, stdYear, stdLongYear, stdMonth, stdLongMonth,
    stdNumMonth, stdZeroMonth, stdWeekDay, stdLongWeekDay, stdDay, stdUnderDay, stdZeroDay,
    stdHour, stdHour12, stdZeroHour12, stdMinute, stdZeroMinute, stdSecond, stdZeroSecond,
    stdPM, stdpm, stdISO8601TZ, stdISO8601ColonTZ, stdISO8601SecondsTZ, stdISO8601ShortTZ,
    stdISO8601ColonSecondsTZ, stdNumTZ, stdNumColonTZ, stdNumSecondsTz, stdNumShortTZ,
    stdNumColonSecondsTZ, stdTZ, stdNeedDate, stdNeedClock]

theorem parseStd_frac9 (layout : Str) (std : Nat) (st : ParseState)
    (h : std &&& stdMask = stdFracSecond9) :
    parseStd layout std st =
      if st.value.length < 1 ∨ isDigitByte (byteAt st.value 0) = false then .ok (st, false)
      else .ok ({ st with
          nsec := (parseNanoseconds st.value
            ((st.value.take 9).takeWhile isDigitByte).length).1,
          rangeErrString := (parseNanoseconds st.value
            ((st.value.take 9).takeWhile isDigitByte).length).2.1,
          value := st.value.drop ((st.value.take 9).takeWhile isDigitByte).length },
        (parseNanoseconds st.value ((st.value.take 9).takeWhile isDigitByte).length).2.2) := by
  unfold parseStd
  simp only [h]
  simp [stdFracSecond0, stdFracSecond9, stdYear, stdLongYear, stdMonth, stdLongMonth,
    stdNumMonth, stdZeroMonth, stdWeekDay, stdLongWeekDay, stdDay, stdUnderDay, stdZeroDay,
    stdHour, stdHour12, stdZeroHour12, stdMinute, stdZeroMinute, stdSecond, stdZeroSecond,
    stdPM, stdpm, stdISO8601TZ, stdISO8601ColonTZ, stdISO8601SecondsTZ, stdISO8601ShortTZ,
    stdISO8601ColonSecondsTZ, stdNumTZ, stdNumColonTZ, stdNumSecondsTz, stdNumShortTZ,
    stdNumColonSecondsTZ, stdTZ, stdNeedDate, stdNeedClock]
theorem nextStdChunk_S (n : Nat) (h1 : 1 ≤ n) :
    nextStdChunk (List.replicate n 'S') =
      .ok ([], (if n ≤ 3 then stdFracSecond0 else stdFracSecond9) ||| (n <<< stdArgShift), []) := by
  obtain ⟨m, rfl⟩ : ∃ m, n = m + 1 := ⟨n - 1, by omega⟩
  have h := nextStdChunkLoop_run 'S' (by decide) m [] (by simp) (List.replicate (m + 1) 'S').length []
  rw [List.append_nil] at h
  unfold nextStdChunk
  rw [h]
  have hs : stdOfRun 'S' (m + 1) = some ((if m + 1 ≤ 3 then stdFracSecond0 else stdFracSecond9)
      ||| ((m + 1) <<< stdArgShift)) := by
    simp only [stdOfRun, Char.reduceEq, if_false, if_true, or_self]
    by_cases hm : m + 1 ≤ 3
    · have : m + 1 = 1 ∨ m + 1 = 2 ∨ m + 1 = 3 := by omega
      simp only [hm, this, if_true]
    · have : ¬ (m + 1 = 1 ∨ m + 1 = 2 ∨ m + 1 = 3) := by omega
      simp only [hm, this, if_false]
  rw [hs]

/-- C22: parsing a fractional-second directive scales to nanoseconds.  A run of `n`
characters `S` with `1 ≤ n ≤ 3` is the fixed directive of count `n`: it fails when
fewer than `n` characters remain, and on `n` decimal digits of value `v` it consumes
exactly them and sets the nanoseconds to `v * 10^(9-n)`.  A run of 4 or more is the
trimmed directive: on a leading run of `k` decimal digits of value `v`, `1 ≤ k ≤ 9`
(the run ends there, or `k = 9`), it consumes them and sets the nanoseconds to
`v * 10^(9-k)`; on input that does not start with a digit it consumes nothing and
reports no error. -/
theorem Parse_fracSecond (n : Nat) (h1 : 1 ≤ n) :
    (n ≤ 3 →
      nextStdChunk (List.replicate n 'S') =
        .ok ([], stdFracSecond0 ||| (n <<< stdArgShift), []) ∧
      (∀ (layout : Str) (st : ParseState), st.value.length < n →
        parseStd layout (stdFracSecond0 ||| (n <<< stdArgShift)) st = .ok (st, true)) ∧
      (∀ (layout : Str) (st : ParseState) (v : Nat) (rest : Str), v < 10 ^ n →
        st.value = zeroPadded n (v : Int) ++ rest →
        parseStd layout (stdFracSecond0 ||| (n <<< stdArgShift)) st =
          .ok ({ st with nsec := (v : Int) * 10 ^ (9 - n), rangeErrString := [],
                         value := rest }, false))) ∧
    (4 ≤ n →
      nextStdChunk (List.replicate n 'S') =
        .ok ([], stdFracSecond9 ||| (n <<< stdArgShift), []) ∧
      (∀ (layout : Str) (st : ParseState) (k v : Nat) (rest : Str), 1 ≤ k → k ≤ 9 →
        v < 10 ^ k → (k = 9 ∨ isDigit rest 0 = false) →
        st.value = zeroPadded k (v : Int) ++ rest →
        parseStd layout (stdFracSecond9 ||| (n <<< stdArgShift)) st =
          .ok ({ st with nsec := (v : Int) * 10 ^ (9 - k), rangeErrString := [],
                         value := rest }, false)) ∧
      (∀ (layout : Str) (st : ParseState), isDigit st.value 0 = false →
        parseStd layout (stdFracSecond9 ||| (n <<< stdArgShift)) st = .ok (st, false))) := by
  have hlex := nextStdChunk_S n h1
  constructor
  · intro h3
    obtain ⟨b1, b2⟩ := fracStd_bits stdFracSecond0 n (by decide)
    refine ⟨by simpa [h3] using hlex, ?_, ?_⟩
    · intro layout st hl
      rw [parseStd_frac0 layout _ st b1, b2, if_pos hl]
    · intro layout st v rest hv hval
      obtain ⟨hlen, _, _⟩ := zeroPadded_digits n v h1 hv
      have hl : ¬ st.value.length < n := by
        rw [hval, List.length_append]; omega
      have hd : st.value.drop n = rest := by
        rw [hval, List.drop_append_of_le_length (by omega), List.drop_of_length_le (by omega)]
        rfl
      rw [parseStd_frac0 layout _ st b1, b2, if_neg hl, hd, hval,
        parseNanoseconds_digits n v rest h1 (by omega) hv]
  · intro h4
    obtain ⟨b1, b2⟩ := fracStd_bits stdFracSecond9 n (by decide)
    have hn3 : ¬ n ≤ 3 := by omega
    refine ⟨by simpa [hn3] using hlex, ?_, ?_⟩
    · intro layout st k v rest hk1 hk9 hv hr hval
      obtain ⟨hlen, hall, _⟩ := zeroPadded_digits k v hk1 hv
      have hi : ((st.value.take 9).takeWhile isDigitByte).length = k := by
        rw [hval, takeWhile_digits _ rest 9 hall (by omega) (hr.imp (fun h => hlen.trans h) id),
          hlen]
      have hne : ¬ (st.value.length < 1 ∨ isDigitByte (byteAt st.value 0) = false) := by
        rw [hval]
        cases hz : zeroPadded k (v : Int) with
        | nil => rw [hz] at hlen; simp at hlen; omega
        | cons c cs =>
          have hc : isDigitByte c = true := hall c (by rw [hz]; exact List.mem_cons_self _ _)
          simp [byteAt, hc]
      have hd : st.value.drop k = rest := by
        rw [hval, List.drop_append_of_le_length (by omega), List.drop_of_length_le (by omega)]
        rfl
      rw [parseStd_frac9 layout _ st b1, if_neg hne, hi, hd, hval,
        parseNanoseconds_digits k v rest hk1 hk9 hv]
    · intro layout st hdig
      have hc : st.value.length < 1 ∨ isDigitByte (byteAt st.value 0) = false := by
        unfold isDigit at hdig
        by_cases hl : st.value.length ≤ 0
        · left; omega
        · right
          simpa [hl] using hdig
      rw [parseStd_frac9 layout _ st b1, if_pos hc]

set_option maxRecDepth 100000 in
/-- Witness for C22: `SSS` on "208" gives 208000000 ns, `SSSSSS` on "012345" gives
12345000 ns, and the pattern `YYYY-MM-dd HH:mm:ss,SSS` reads
"2018-09-19 19:50:26,208". -/
theorem Parse_fracSecond_witness :
    Parse bareHost "SSS".toList "208".toList = .ok (.time
      { year := 0, month := 1, day := 1, hour := 0, min := 0, sec := 0, nsec := 208000000,
        loc := Location.UTC }) ∧
    Parse bareHost "SSSSSS".toList "012345".toList = .ok (.time
      { year := 0, month := 1, day := 1, hour := 0, min := 0, sec := 0, nsec := 12345000,
        loc := Location.UTC }) ∧
    Parse bareHost "YYYY-MM-dd HH:mm:ss,SSS".toList "2018-09-19 19:50:26,208".toList =
      .ok (.time
        { year := 2018, month := 9, day := 19, hour := 19, min := 50, sec := 26,
          nsec := 208000000, loc := Location.UTC }) ∧
    parseStd [] (stdFracSecond0 ||| (3 <<< stdArgShift)) { value := "208".toList } =
      .ok ({ value := [], nsec := ((208 : Nat) : Int) * 10 ^ (9 - 3), rangeErrString := [] },
        false) ∧
    parseStd [] (stdFracSecond9 ||| (6 <<< stdArgShift)) { value := "012345".toList } =
      .ok ({ value := [], nsec := ((12345 : Nat) : Int) * 10 ^ (9 - 6), rangeErrString := [] },
        false) :=
  ⟨by decide, by decide, by decide,
    ((Parse_fracSecond 3 (by decide)).1 (by decide)).2.2 [] { value := "208".toList } 208 []
      (by decide)
      (by show "208".toList = zeroPadded 3 ((208 : Nat) : Int) ++ []
          rw [← nanoDigits_eq 3 208 (by decide) (by decide)]; decide),
    ((Parse_fracSecond 6 (by decide)).2 (by decide)).2.1 [] { value := "012345".toList } 6
      12345 [] (by decide) (by decide) (by decide) (Or.inr (by decide))
      (by show "012345".toList = zeroPadded 6 ((12345 : Nat) : Int) ++ []
          rw [← nanoDigits_eq 6 12345 (by decide) (by decide)]; decide)⟩

theorem parseStd_second (layout : Str) (std : Nat) (st : ParseState)
    (h : std = stdSecond ∨ std = stdZeroSecond) :
    parseStd layout std st = parseSecond layout std st := by
  rcases h with rfl | rfl
  · unfold parseStd
    simp only [show stdSecond &&& stdMask = stdSecond from by decide]
    simp [stdFracSecond0, stdFracSecond9, stdYear, stdLongYear, stdMonth, stdLongMonth,
      stdNumMonth, stdZeroMonth, stdWeekDay, stdLongWeekDay, stdDay, stdUnderDay, stdZeroDay,
      stdHour, stdHour12, stdZeroHour12, stdMinute, stdZeroMinute, stdSecond, stdZeroSecond,
      stdNeedDate, stdNeedClock]
  · unfold parseStd
    simp only [show stdZeroSecond &&& stdMask = stdZeroSecond from by decide]
    simp [stdFracSecond0, stdFracSecond9, stdYear, stdLongYear, stdMonth, stdLongMonth,
      stdNumMonth, stdZeroMonth, stdWeekDay, stdLongWeekDay, stdDay, stdUnderDay, stdZeroDay,
      stdHour, stdHour12, stdZeroHour12, stdMinute, stdZeroMinute, stdSecond, stdZeroSecond,
      stdNeedDate, stdNeedClock]

theorem parseSecond_fraction (layout : Str) (std : Nat) (st : ParseState) (s : Int)
    (k v : Nat) (rest pre suf : Str) (nstd : Nat)
    (hg : getnum st.value (decide (std = stdZeroSecond)) =
      (s, '.' :: (zeroPadded k (v : Int) ++ rest), false))
    (hs0 : 0 ≤ s) (hs1 : s < 60) (hk1 : 1 ≤ k) (hk9 : k ≤ 9) (hv : v < 10 ^ k)
    (hrest : isDigit rest 0 = false)
    (hc : nextStdChunk layout = .ok (pre, nstd, suf))
    (hn0 : nstd &&& stdMask ≠ stdFracSecond0) (hn9 : nstd &&& stdMask ≠ stdFracSecond9) :
    parseSecond layout std st =
      .ok ({ st with sec := s, nsec := (v : Int) * 10 ^ (9 - k), rangeErrString := [],
                     value := rest }, false) := by
  obtain ⟨hlen, hall, _⟩ := zeroPadded_digits k v hk1 hv
  have hrange : ¬ (s < 0 ∨ 60 ≤ s) := by omega
  have htw : ((zeroPadded k (v : Int) ++ rest).takeWhile isDigitByte).length = k := by
    rw [dropWhile_digits _ rest hall hrest, hlen]
  have hcond : ('.' :: (zeroPadded k (v : Int) ++ rest)).length ≥ 2 ∧
      byteAt ('.' :: (zeroPadded k (v : Int) ++ rest)) 0 = '.' ∧
      isDigit ('.' :: (zeroPadded k (v : Int) ++ rest)) 1 = true := by
    refine ⟨by simp only [List.length_cons, List.length_append]; omega, rfl, ?_⟩
    cases hz : zeroPadded k (v : Int) with
    | nil => rw [hz] at hlen; simp at hlen; omega
    | cons c cs =>
      have hc : isDigitByte c = true := hall c (by rw [hz]; exact List.mem_cons_self _ _)
      simp [isDigit, byteAt, hc]
  have hd : (zeroPadded k (v : Int) ++ rest).drop k = rest := by
    rw [List.drop_append_of_le_length (by omega), List.drop_of_length_le (by omega)]
    rfl
  unfold parseSecond
  simp only [hg, hrange, if_false, hcond, and_self, if_true, hc, hn0, hn9, or_self,
    List.drop_succ_cons, List.drop_zero, htw, Nat.add_sub_cancel_left,
    parseNanoseconds_digits k v rest hk1 hk9 hv]
  rw [Nat.add_comm 1 k, List.drop_succ_cons, hd]

theorem getnum_oneDigit (d : Nat) (rest : Str) (hd : d < 10) (hr : isDigit rest 0 = false)
    (fixed : Bool) :
    getnum (digitByte d :: rest) fixed =
      if fixed then (0, digitByte d :: rest, true) else ((d : Int), rest, false) := by
  obtain ⟨f1, f2, _⟩ := digitByte_facts d hd
  have h0 : isDigit (digitByte d :: rest) 0 = true := by
    simp [isDigit, byteAt, f1]
  have h1 : isDigit (digitByte d :: rest) 1 = false := by
    unfold isDigit at hr ⊢
    simp only [List.length_cons, byteAt, List.getD_cons_succ] at hr ⊢
    by_cases hl : rest.length ≤ 0
    · have : rest.length + 1 ≤ 1 := by omega
      simp [this]
    · have : ¬ (rest.length + 1 ≤ 1) := by omega
      simp only [hl, if_false] at hr
      simp only [this, if_false]
      exact hr
  cases fixed <;> simp [getnum, h0, h1, byteAt, f2]

/-- C23: opportunistic fractional seconds.  When the value at a seconds directive
(`s` or `ss`) holds two second digits of value `s < 60`, then `.` and a run of `k`
decimal digits of value `v` with `1 ≤ k ≤ 9`, and the next directive of the layout is
not a fractional-second directive, the directive consumes the seconds, the `.` and
all `k` digits and sets the nanoseconds to `v * 10^(9-k)`, without error.  The same
holds for the directive `s` at a single second digit. -/
theorem Parse_opportunistic_fraction (layout pre suf rest : Str) (nstd k v : Nat)
    (hk1 : 1 ≤ k) (hk9 : k ≤ 9) (hv : v < 10 ^ k) (hrest : isDigit rest 0 = false)
    (hc : nextStdChunk layout = .ok (pre, nstd, suf))
    (hn0 : nstd &&& stdMask ≠ stdFracSecond0) (hn9 : nstd &&& stdMask ≠ stdFracSecond9) :
    (∀ (std : Nat) (st : ParseState) (s : Int), std = stdSecond ∨ std = stdZeroSecond →
      0 ≤ s → s < 60 →
      st.value = twoDigits s ++ '.' :: (zeroPadded k (v : Int) ++ rest) →
      parseStd layout std st =
        .ok ({ st with sec := s, nsec := (v : Int) * 10 ^ (9 - k), rangeErrString := [],
                       value := rest }, false)) ∧
    (∀ (st : ParseState) (d : Nat), d < 10 →
      st.value = digitByte d :: '.' :: (zeroPadded k (v : Int) ++ rest) →
      parseStd layout stdSecond st =
        .ok ({ st with sec := (d : Int), nsec := (v : Int) * 10 ^ (9 - k),
                       rangeErrString := [], value := rest }, false)) := by
  constructor
  · intro std st s hstd hs0 hs1 hval
    rw [parseStd_second layout std st hstd]
    refine parseSecond_fraction layout std st s k v rest pre suf nstd ?_ hs0 hs1 hk1 hk9 hv
      hrest hc hn0 hn9
    rw [hval, getnum_twoDigits s _ _ hs0 (by omega)]
  · intro st d hd hval
    rw [parseStd_second layout stdSecond st (Or.inl rfl)]
    refine parseSecond_fraction layout stdSecond st d k v rest pre suf nstd ?_ (by omega)
      (by omega) hk1 hk9 hv hrest hc hn0 hn9
    have hdot : isDigit ('.' :: (zeroPadded k (v : Int) ++ rest)) 0 = false := by
      simp [isDigit, byteAt, isDigitByte]
    rw [hval, getnum_oneDigit d _ hd hdot]
    simp [stdSecond, stdZeroSecond, stdNeedClock]

set_option maxRecDepth 100000 in
/-- Witness for C23: RFC3339 on "2010-02-04T21:00:57.012345678-08:00" yields
12345678 ns, and RFC1123Z on "Thu, 04 Feb 2010 21:00:57.01234 -0800" yields
12340000 ns. -/
theorem Parse_opportunistic_fraction_witness :
    Parse bareHost RFC3339 "2010-02-04T21:00:57.012345678-08:00".toList = .ok (.time
      { year := 2010, month := 2, day := 4, hour := 21, min := 0, sec := 57,
        nsec := 12345678, loc := Location.fixed [] (-28800) }) ∧
    Parse bareHost RFC1123Z "Thu, 04 Feb 2010 21:00:57.01234 -0800".toList = .ok (.time
      { year := 2010, month := 2, day := 4, hour := 21, min := 0, sec := 57,
        nsec := 12340000, loc := Location.fixed [] (-28800) }) ∧
    parseStd "ZZ".toList stdZeroSecond { value := "57.012345678-08:00".toList } =
      .ok ({ value := "-08:00".toList, sec := 57,
             nsec := ((12345678 : Nat) : Int) * 10 ^ (9 - 9), rangeErrString := [] }, false) :=
  ⟨by decide, by decide,
    (Parse_opportunistic_fraction "ZZ".toList [] [] "-08:00".toList stdNumColonTZ 9 12345678
      (by decide) (by decide) (by decide) (by decide) (by decide) (by decide) (by decide)).1
      stdZeroSecond { value := "57.012345678-08:00".toList } 57 (Or.inr rfl) (by decide)
      (by decide)
      (by show "57.012345678-08:00".toList =
            twoDigits 57 ++ '.' :: (zeroPadded 9 ((12345678 : Nat) : Int) ++ "-08:00".toList)
          rw [← nanoDigits_eq 9 12345678 (by decide) (by decide)]; decide)⟩

theorem parseSecond_plain (layout : Str) (std : Nat) (st : ParseState) (s : Int) (rest : Str)
    (e : Bool) (hg : getnum st.value (decide (std = stdZeroSecond)) = (s, rest, e))
    (hs0 : 0 ≤ s) (hs1 : s < 60) (hdot : byteAt rest 0 ≠ '.') :
    parseSecond layout std st = .ok ({ st with sec := s, value := rest }, e) := by
  have hrange : ¬ (s < 0 ∨ 60 ≤ s) := by omega
  unfold parseSecond
  simp only [hg, hrange, if_false, hdot, false_and, and_false]

theorem parseStd_oneDigit (layout : Str) (st : ParseState) (d : Nat) (rest : Str)
    (hd : d < 10) (hr : isDigit rest 0 = false) (hval : st.value = digitByte d :: rest) :
    (1 ≤ d → parseStd layout stdNumMonth st =
      .ok ({ st with month := (d : Int), value := rest }, false)) ∧
    (parseStd layout stdDay st = .ok ({ st with day := (d : Int), value := rest }, false)) ∧
    (parseStd layout stdHour st = .ok ({ st with hour := (d : Int), value := rest }, false)) ∧
    (parseStd layout stdHour12 st = .ok ({ st with hour := (d : Int), value := rest }, false)) ∧
    (parseStd layout stdMinute st = .ok ({ st with min := (d : Int), value := rest }, false)) ∧
    (byteAt rest 0 ≠ '.' →
      parseStd layout stdSecond st = .ok ({ st with sec := (d : Int), value := rest }, false)) ∧
    (∀ std : Nat, std = stdZeroMonth ∨ std = stdZeroDay ∨ std = stdZeroHour12 ∨
        std = stdZeroMinute ∨ std = stdZeroSecond →
      ∃ st', parseStd layout std st = .ok (st', true) ∧ st'.value = st.value) := by
  have gt : getnum (digitByte d :: rest) true = (0, digitByte d :: rest, true) := by
    simpa using getnum_oneDigit d rest hd hr true
  have gf : getnum (digitByte d :: rest) false = ((d : Int), rest, false) := by
    simpa using getnum_oneDigit d rest hd hr false
  refine ⟨?_, ?_, ?_, ?_, ?_, ?_, ?_⟩
  · intro h1
    have hc : ¬ (d = 0 ∨ 12 < d) := by omega
    unfold parseStd
    simp only [show stdNumMonth &&& stdMask = stdNumMonth from by decide, hval]
    simp [stdFracSecond0, stdFracSecond9, stdYear, stdLongYear, stdMonth, stdLongMonth,
      stdNumMonth, stdZeroMonth, stdWeekDay, stdLongWeekDay, stdDay, stdUnderDay, stdZeroDay,
      stdHour, stdHour12, stdZeroHour12, stdMinute, stdZeroMinute, stdSecond, stdZeroSecond,
      stdNeedDate, stdNeedClock, gt, gf, hc]
  · unfold parseStd
    simp only [show stdDay &&& stdMask = stdDay from by decide, hval]
    simp [stdFracSecond0, stdFracSecond9, stdYear, stdLongYear, stdMonth, stdLongMonth,
      stdNumMonth, stdZeroMonth, stdWeekDay, stdLongWeekDay, stdDay, stdUnderDay, stdZeroDay,
      stdHour, stdHour12, stdZeroHour12, stdMinute, stdZeroMinute, stdSecond, stdZeroSecond,
      stdNeedDate, stdNeedClock, gt, gf]
  · unfold parseStd
    simp only [show stdHour &&& stdMask = stdHour from by decide, hval]
    simp [stdFracSecond0, stdFracSecond9, stdYear, stdLongYear, stdMonth, stdLongMonth,
      stdNumMonth, stdZeroMonth, stdWeekDay, stdLongWeekDay, stdDay, stdUnderDay, stdZeroDay,
      stdHour, stdHour12, stdZeroHour12, stdMinute, stdZeroMinute, stdSecond, stdZeroSecond,
      stdNeedDate, stdNeedClock, gt, gf]
    omega
  · unfold parseStd
    simp only [show stdHour12 &&& stdMask = stdHour12 from by decide, hval]
    simp [stdFracSecond0, stdFracSecond9, stdYear, stdLongYear, stdMonth, stdLongMonth,
      stdNumMonth, stdZeroMonth, stdWeekDay, stdLongWeekDay, stdDay, stdUnderDay, stdZeroDay,
      stdHour, stdHour12, stdZeroHour12, stdMinute, stdZeroMinute, stdSecond, stdZeroSecond,
      stdNeedDate, stdNeedClock, gt, gf]
    omega
  · unfold parseStd
    simp only [show stdMinute &&& stdMask = stdMinute from by decide, hval]
    simp [stdFracSecond0, stdFracSecond9, stdYear, stdLongYear, stdMonth, stdLongMonth,
      stdNumMonth, stdZeroMonth, stdWeekDay, stdLongWeekDay, stdDay, stdUnderDay, stdZeroDay,
      stdHour, stdHour12, stdZeroHour12, stdMinute, stdZeroMinute, stdSecond, stdZeroSecond,
      stdNeedDate, stdNeedClock, gt, gf]
    omega
  · intro hdot
    rw [parseStd_second layout stdSecond st (Or.inl rfl)]
    exact parseSecond_plain layout stdSecond st d rest false
      (by rw [hval, show decide (stdSecond = stdZeroSecond) = false from by decide, gf])
      (by omega) (by omega) hdot
  · intro std hstd
    rcases hstd with rfl | rfl | rfl | rfl | rfl
    · unfold parseStd
      simp only [show stdZeroMonth &&& stdMask = stdZeroMonth from by decide, hval]
      simp [stdFracSecond0, stdFracSecond9, stdYear, stdLongYear, stdMonth, stdLongMonth,
        stdNumMonth, stdZeroMonth, stdWeekDay, stdLongWeekDay, stdDay, stdUnderDay, stdZeroDay,
        stdHour, stdHour12, stdZeroHour12, stdMinute, stdZeroMinute, stdSecond, stdZeroSecond,
        stdNeedDate, stdNeedClock, gt, gf]
    · unfold parseStd
      simp only [show stdZeroDay &&& stdMask = stdZeroDay from by decide, hval]
      simp [stdFracSecond0, stdFracSecond9, stdYear, stdLongYear, stdMonth, stdLongMonth,
        stdNumMonth, stdZeroMonth, stdWeekDay, stdLongWeekDay, stdDay, stdUnderDay, stdZeroDay,
        stdHour, stdHour12, stdZeroHour12, stdMinute, stdZeroMinute, stdSecond, stdZeroSecond,
        stdNeedDate, stdNeedClock, gt, gf]
    · unfold parseStd
      simp only [show stdZeroHour12 &&& stdMask = stdZeroHour12 from by decide, hval]
      simp [stdFracSecond0, stdFracSecond9, stdYear, stdLongYear, stdMonth, stdLongMonth,
        stdNumMonth, stdZeroMonth, stdWeekDay, stdLongWeekDay, stdDay, stdUnderDay, stdZeroDay,
        stdHour, stdHour12, stdZeroHour12, stdMinute, stdZeroMinute, stdSecond, stdZeroSecond,
        stdNeedDate, stdNeedClock, gt, gf]
    · unfold parseStd
      simp only [show stdZeroMinute &&& stdMask = stdZeroMinute from by decide, hval]
      simp [stdFracSecond0, stdFracSecond9, stdYear, stdLongYear, stdMonth, stdLongMonth,
        stdNumMonth, stdZeroMonth, stdWeekDay, stdLongWeekDay, stdDay, stdUnderDay, stdZeroDay,
        stdHour, stdHour12, stdZeroHour12, stdMinute, stdZeroMinute, stdSecond, stdZeroSecond,
        stdNeedDate, stdNeedClock, gt, gf]
    · rw [parseStd_second layout stdZeroSecond st (Or.inr rfl)]
      have hb : byteAt (digitByte d :: rest) 0 ≠ '.' := by
        simp only [byteAt, List.getD_cons_zero]
        exact (digitByte_facts d hd).2.2.2.2.2
      rw [parseSecond_plain layout stdZeroSecond st 0 (digitByte d :: rest) true
        (by rw [hval, show decide (stdZeroSecond = stdZeroSecond) = true from by decide, gt])
        (by omega) (by omega) hb]
      exact ⟨_, rfl, hval.symm⟩

theorem parseStd_twoDigits_raw (layout : Str) (st : ParseState) (v : Int) (rest : Str)
    (hval : st.value = twoDigits v ++ rest) (h0 : 0 ≤ v) (h1 : v < 100) :
    (1 ≤ v → v ≤ 12 → parseStd layout stdNumMonth st =
      .ok ({ st with month := v, value := rest }, false)) ∧
    (parseStd layout stdDay st = .ok ({ st with day := v, value := rest }, false)) ∧
    (v < 24 → parseStd layout stdHour st = .ok ({ st with hour := v, value := rest }, false)) ∧
    (v ≤ 12 → parseStd layout stdHour12 st =
      .ok ({ st with hour := v, value := rest }, false)) ∧
    (v < 60 → parseStd layout stdMinute st =
      .ok ({ st with min := v, value := rest }, false)) ∧
    (v < 60 → byteAt rest 0 ≠ '.' →
      parseStd layout stdSecond st = .ok ({ st with sec := v, value := rest }, false)) := by
  have g : ∀ fixed : Bool, getnum (twoDigits v ++ rest) fixed = (v, rest, false) :=
    fun fixed => getnum_twoDigits v rest fixed h0 h1
  refine ⟨?_, ?_, ?_, ?_, ?_, ?_⟩
  · intro a b
    unfold parseStd
    simp only [show stdNumMonth &&& stdMask = stdNumMonth from by decide, hval]
    simp [stdFracSecond0, stdFracSecond9, stdYear, stdLongYear, stdMonth, stdLongMonth,
      stdNumMonth, stdZeroMonth, stdWeekDay, stdLongWeekDay, stdDay, stdUnderDay, stdZeroDay,
      stdHour, stdHour12, stdZeroHour12, stdMinute, stdZeroMinute, stdSecond, stdZeroSecond,
      stdNeedDate, stdNeedClock, g]
    omega
  · unfold parseStd
    simp only [show stdDay &&& stdMask = stdDay from by decide, hval]
    simp [stdFracSecond0, stdFracSecond9, stdYear, stdLongYear, stdMonth, stdLongMonth,
      stdNumMonth, stdZeroMonth, stdWeekDay, stdLongWeekDay, stdDay, stdUnderDay, stdZeroDay,
      stdHour, stdHour12, stdZeroHour12, stdMinute, stdZeroMinute, stdSecond, stdZeroSecond,
      stdNeedDate, stdNeedClock, g]
    omega
  · intro a
    unfold parseStd
    simp only [show stdHour &&& stdMask = stdHour from by decide, hval]
    simp [stdFracSecond0, stdFracSecond9, stdYear, stdLongYear, stdMonth, stdLongMonth,
      stdNumMonth, stdZeroMonth, stdWeekDay, stdLongWeekDay, stdDay, stdUnderDay, stdZeroDay,
      stdHour, stdHour12, stdZeroHour12, stdMinute, stdZeroMinute, stdSecond, stdZeroSecond,
      stdNeedDate, stdNeedClock, g]
    omega
  · intro a
    unfold parseStd
    simp only [show stdHour12 &&& stdMask = stdHour12 from by decide, hval]
    simp [stdFracSecond0, stdFracSecond9, stdYear, stdLongYear, stdMonth, stdLongMonth,
      stdNumMonth, stdZeroMonth, stdWeekDay, stdLongWeekDay, stdDay, stdUnderDay, stdZeroDay,
      stdHour, stdHour12, stdZeroHour12, stdMinute, stdZeroMinute, stdSecond, stdZeroSecond,
      stdNeedDate, stdNeedClock, g]
    omega
  · intro a
    unfold parseStd
    simp only [show stdMinute &&& stdMask = stdMinute from by decide, hval]
    simp [stdFracSecond0, stdFracSecond9, stdYear, stdLongYear, stdMonth, stdLongMonth,
      stdNumMonth, stdZeroMonth, stdWeekDay, stdLongWeekDay, stdDay, stdUnderDay, stdZeroDay,
      stdHour, stdHour12, stdZeroHour12, stdMinute, stdZeroMinute, stdSecond, stdZeroSecond,
      stdNeedDate, stdNeedClock, g]
    omega
  · intro a hdot
    rw [parseStd_second layout stdSecond st (Or.inl rfl)]
    exact parseSecond_plain layout stdSecond st v rest false (by rw [hval, g]) h0 a hdot

theorem parseLoop_err (host : Host) (al av : Str) (dl loc : Location) (fuel : Nat)
    (layout pre suffix value : Str) (std : Nat) (st st' : ParseState)
    (hc : nextStdChunk layout = .ok (pre, std, suffix))
    (hk : skip st.value pre = .ok (value, false)) (hs : std ≠ 0)
    (hp : parseStd suffix std { st with value := value } = .ok (st', true)) :
    ∃ e : ParseError, parseLoop host al av dl loc (fuel + 1) layout st = .ok (.error e) ∧
      e.layout = al ∧ e.value = av ∧ e.valueElem = st'.value := by
  rw [parseLoop, hc]
  simp only [hk, hs, hp, Bool.false_eq_true, if_false, if_true]
  by_cases hr : st'.rangeErrString ≠ []
  · rw [if_pos hr]
    exact ⟨_, rfl, rfl, rfl, rfl⟩
  · rw [if_neg hr]
    exact ⟨_, rfl, rfl, rfl, rfl⟩

set_option maxRecDepth 100000 in
/-- C25 as amended: the zero-padded directives `MM`, `dd`, `hh`, `mm` and `ss`
require two digits, and a single decimal digit followed by a non-digit or by the end
of the input is rejected there, whereas `HH`, which the lexer turns into the same
directive as `H`, and the raw directives `M`, `d`, `H`, `h`, `m` and `s` accept
either one digit or two, taking two whenever two digits are present. -/
theorem Parse_digit_count (layout : Str) (d : Nat) (rest : Str) (hd : d < 10)
    (hr : isDigit rest 0 = false) :
    (∀ (host : Host) (al av : Str) (dl loc : Location) (fuel : Nat) (lay pre : Str)
      (std : Nat) (st : ParseState),
      std = stdZeroMonth ∨ std = stdZeroDay ∨ std = stdZeroHour12 ∨ std = stdZeroMinute ∨
        std = stdZeroSecond →
      nextStdChunk lay = .ok (pre, std, layout) →
      skip st.value pre = .ok (digitByte d :: rest, false) →
      ∃ e : ParseError, parseLoop host al av dl loc (fuel + 1) lay st = .ok (.error e) ∧
        e.layout = al ∧ e.value = av ∧ e.valueElem = digitByte d :: rest) ∧
    (∀ st : ParseState, st.value = digitByte d :: rest →
      (1 ≤ d → parseStd layout stdNumMonth st =
        .ok ({ st with month := (d : Int), value := rest }, false)) ∧
      (parseStd layout stdDay st = .ok ({ st with day := (d : Int), value := rest }, false)) ∧
      (parseStd layout stdHour st = .ok ({ st with hour := (d : Int), value := rest }, false)) ∧
      (parseStd layout stdHour12 st =
        .ok ({ st with hour := (d : Int), value := rest }, false)) ∧
      (parseStd layout stdMinute st =
        .ok ({ st with min := (d : Int), value := rest }, false)) ∧
      (byteAt rest 0 ≠ '.' →
        parseStd layout stdSecond st =
          .ok ({ st with sec := (d : Int), value := rest }, false))) ∧
    (∀ (st : ParseState) (v : Int) (tail : Str), 0 ≤ v → v < 100 →
      st.value = twoDigits v ++ tail →
      (1 ≤ v → v ≤ 12 → parseStd layout stdNumMonth st =
        .ok ({ st with month := v, value := tail }, false)) ∧
      (parseStd layout stdDay st = .ok ({ st with day := v, value := tail }, false)) ∧
      (v < 24 → parseStd layout stdHour st =
        .ok ({ st with hour := v, value := tail }, false)) ∧
      (v ≤ 12 → parseStd layout stdHour12 st =
        .ok ({ st with hour := v, value := tail }, false)) ∧
      (v < 60 → parseStd layout stdMinute st =
        .ok ({ st with min := v, value := tail }, false)) ∧
      (v < 60 → byteAt tail 0 ≠ '.' →
        parseStd layout stdSecond st = .ok ({ st with sec := v, value := tail }, false))) ∧
    (nextStdChunk "MM".toList = .ok ([], stdZeroMonth, []) ∧
      nextStdChunk "dd".toList = .ok ([], stdZeroDay, []) ∧
      nextStdChunk "hh".toList = .ok ([], stdZeroHour12, []) ∧
      nextStdChunk "mm".toList = .ok ([], stdZeroMinute, []) ∧
      nextStdChunk "ss".toList = .ok ([], stdZeroSecond, []) ∧
      nextStdChunk "HH".toList = .ok ([], stdHour, []) ∧
      nextStdChunk "H".toList = .ok ([], stdHour, []) ∧
      nextStdChunk "M".toList = .ok ([], stdNumMonth, []) ∧
      nextStdChunk "d".toList = .ok ([], stdDay, []) ∧
      nextStdChunk "h".toList = .ok ([], stdHour12, []) ∧
      nextStdChunk "m".toList = .ok ([], stdMinute, []) ∧
      nextStdChunk "s".toList = .ok ([], stdSecond, [])) := by
  refine ⟨?_, ?_, ?_, by decide, by decide, by decide, by decide, by decide, by decide,
    by decide, by decide, by decide, by decide, by decide, by decide⟩
  · intro host al av dl loc fuel lay pre std st hstd hc hk
    obtain ⟨st', hp, hv⟩ :=
      (parseStd_oneDigit layout { st with value := digitByte d :: rest } d rest hd hr rfl).2.2.2.2.2.2
        std hstd
    have hs : std ≠ 0 := by
      rcases hstd with rfl | rfl | rfl | rfl | rfl <;> decide
    obtain ⟨e, h1, h2, h3, h4⟩ :=
      parseLoop_err host al av dl loc fuel lay pre layout _ std st st' hc hk hs hp
    exact ⟨e, h1, h2, h3, by rw [h4, hv]⟩
  · intro st hval
    obtain ⟨a1, a2, a3, a4, a5, a6, _⟩ := parseStd_oneDigit layout st d rest hd hr hval
    exact ⟨a1, a2, a3, a4, a5, a6⟩
  · intro st v tail h0 h1 hval
    exact parseStd_twoDigits_raw layout st v tail hval h0 h1

set_option maxRecDepth 100000 in
/-- Witness for the amended C25: the single digit "9" is rejected under `MM`, `dd`,
`hh`, `mm` and `ss` and accepted under `H` and `s`; "9:05" is read by `H:mm`. -/
theorem Parse_digit_count_witness :
    (∃ e : ParseError, Parse bareHost "mm".toList "9".toList = .ok (.error e) ∧
      e.layout = "mm".toList ∧ e.value = "9".toList ∧ e.valueElem = digitByte 9 :: []) ∧
    Parse bareHost "MM".toList "9".toList = .ok (.error
      ⟨"MM".toList, "9".toList, "MM".toList, "9".toList, ": month out of range".toList⟩) ∧
    Parse bareHost "dd".toList "9".toList = .ok (.error
      ⟨"dd".toList, "9".toList, "dd".toList, "9".toList, []⟩) ∧
    Parse bareHost "hh".toList "9".toList = .ok (.error
      ⟨"hh".toList, "9".toList, "hh".toList, "9".toList, []⟩) ∧
    Parse bareHost "ss".toList "9".toList = .ok (.error
      ⟨"ss".toList, "9".toList, "ss".toList, "9".toList, []⟩) ∧
    Parse bareHost "s".toList "9".toList = .ok (.time
      { year := 0, month := 1, day := 1, hour := 0, min := 0, sec := 9, nsec := 0,
        loc := Location.UTC }) ∧
    Parse bareHost "H:mm".toList "9:05".toList = .ok (.time
      { year := 0, month := 1, day := 1, hour := 9, min := 5, sec := 0, nsec := 0,
        loc := Location.UTC }) ∧
    Parse bareHost "H:mm".toList "19:05".toList = .ok (.time
      { year := 0, month := 1, day := 1, hour := 19, min := 5, sec := 0, nsec := 0,
        loc := Location.UTC }) :=
  ⟨(Parse_digit_count [] 9 [] (by decide) (by decide)).1 bareHost "mm".toList "9".toList
      Location.UTC Location.Local 2 "mm".toList [] stdZeroMinute { value := "9".toList }
      (by decide) (by decide) (by decide),
    by decide, by decide, by decide, by decide, by decide, by decide, by decide⟩

set_option maxRecDepth 100000 in
/-- Counterexample to C25 as stated: the pattern `HH` accepts a single digit.  The
lexer turns every run of `H` into `stdHour`, which `parse` reads with
`getnum(value, false)`: "9" under `HH` is the hour 9, and "9:05" under `HH:mm` is
9:05. -/
theorem Parse_HH_single_digit_counterexample :
    Parse bareHost "HH".toList "9".toList = .ok (.time
      { year := 0, month := 1, day := 1, hour := 9, min := 0, sec := 0, nsec := 0,
        loc := Location.UTC }) ∧
    Parse bareHost "HH:mm".toList "9:05".toList = .ok (.time
      { year := 0, month := 1, day := 1, hour := 9, min := 5, sec := 0, nsec := 0,
        loc := Location.UTC }) ∧
    nextStdChunk "HH".toList = .ok ([], stdHour, []) := by
  decide

theorem parseTimeZone_three (a b c : Char) (rest : Str)
    (ha : 65 ≤ a.toNat ∧ a.toNat ≤ 90) (hb : 65 ≤ b.toNat ∧ b.toNat ≤ 90)
    (hc : 65 ≤ c.toNat ∧ c.toNat ≤ 90) (hgmt : [a, b, c] ≠ "GMT".toList)
    (hrest : ∀ x ∈ rest.head?, ¬ (65 ≤ x.toNat ∧ x.toNat ≤ 90)) :
    parseTimeZone (a :: b :: c :: rest) = (3, true) := by
  have hbh : b ≠ 'h' := by intro h; subst h; exact absurd hb.2 (by decide)
  have hbe : b ≠ 'e' := by intro h; subst h; exact absurd hb.2 (by decide)
  have hap : a ≠ '+' := by intro h; subst h; exact absurd ha.1 (by decide)
  have ham : a ≠ '-' := by intro h; subst h; exact absurd ha.1 (by decide)
  have hg : ¬ (a = 'G' ∧ b = 'M' ∧ c = 'T') := by
    rintro ⟨rfl, rfl, rfl⟩
    exact hgmt rfl
  have hn : ((List.take 6 (a :: b :: c :: rest)).takeWhile
      (fun c => decide (65 ≤ c.toNat ∧ c.toNat ≤ 90))).length = 3 := by
    cases rest with
    | nil => simp [List.takeWhile_cons, ha, hb, hc]
    | cons x r =>
      have hx : ¬ (65 ≤ x.toNat ∧ x.toNat ≤ 90) := hrest x (by simp)
      simp [List.takeWhile_cons, ha, hb, hc, hx]
  unfold parseTimeZone
  simp only [hn]
  simp [byteAt, hbh, hbe, hap, ham, hg]

theorem parseStd_zoneName (layout : Str) (st : ParseState) (a b c : Char) (rest : Str)
    (ha : 65 ≤ a.toNat ∧ a.toNat ≤ 90) (hb : 65 ≤ b.toNat ∧ b.toNat ≤ 90)
    (hc : 65 ≤ c.toNat ∧ c.toNat ≤ 90) (hutc : [a, b, c] ≠ "UTC".toList)
    (hgmt : [a, b, c] ≠ "GMT".toList)
    (hrest : ∀ x ∈ rest.head?, ¬ (65 ≤ x.toNat ∧ x.toNat ≤ 90))
    (hval : st.value = a :: b :: c :: rest) :
    parseStd layout stdTZ st = .ok ({ st with zoneName := [a, b, c], value := rest }, false) := by
  have hp := parseTimeZone_three a b c rest ha hb hc hgmt hrest
  have hu : ¬ (a = 'U' ∧ b = 'T' ∧ c = 'C') := by
    rintro ⟨rfl, rfl, rfl⟩
    exact hutc rfl
  unfold parseStd
  simp only [show stdTZ &&& stdMask = stdTZ from by decide, hval, hp]
  simp [stdFracSecond0, stdFracSecond9, stdYear, stdLongYear, stdMonth, stdLongMonth,
    stdNumMonth, stdZeroMonth, stdWeekDay, stdLongWeekDay, stdDay, stdUnderDay, stdZeroDay,
    stdHour, stdHour12, stdZeroHour12, stdMinute, stdZeroMinute, stdSecond, stdZeroSecond,
    stdPM, stdpm, stdISO8601TZ, stdISO8601ColonTZ, stdISO8601SecondsTZ, stdISO8601ShortTZ,
    stdISO8601ColonSecondsTZ, stdNumTZ, stdNumColonTZ, stdNumSecondsTz, stdNumShortTZ,
    stdNumColonSecondsTZ, stdTZ, stdNeedDate, stdNeedClock, hu]

theorem parseFinish_unknownZone (host : Host) (al av : Str) (dl loc : Location)
    (st : ParseState) (name : Str) (hd1 : 1 ≤ st.day)
    (hd2 : st.day ≤ daysIn st.month st.year) (hz : st.z = none) (ho : st.zoneOffset = -1)
    (hn : st.zoneName = name) (hl : name.length = 3) (hs : shortIDs name = none)
    (hh : host.loadLocation name = none) :
    parseFinish host al av dl loc st = .time
      { year := st.year, month := st.month, day := st.day,
        hour := if st.pmSet = true ∧ st.hour < 12 then st.hour + 12
                else if st.amSet = true ∧ st.hour = 12 then 0 else st.hour,
        min := st.min, sec := st.sec, nsec := st.nsec,
        loc := Location.fixed name 0 } := by
  have hd : ¬ (st.day < 1 ∨ st.day > daysIn st.month st.year) := by omega
  have hne : name ≠ [] := by
    intro h; rw [h] at hl; simp at hl
  have hl3 : ¬ (name.length > 3 ∧ name.take 3 = "GMT".toList) := by omega
  unfold parseFinish
  simp only [hd, if_false, hz, ho, hn, ne_eq, not_true_eq_false, hne, not_false_eq_true,
    if_true, hs, hh, hl3]

set_option maxRecDepth 100000 in
/-- C29: an unknown zone abbreviation does not fail the parse.  For three upper-case
ASCII letters other than "UTC" and "GMT", absent from `shortIDs` and unknown to the
host zone database: the zone-name directive (`ZZZ`) consumes the three letters,
without error, when no further upper-case letter follows; a final state that carries
them as its zone name, and no zone or numeric offset from another directive, gives
the parsed fields in the fixed zone named by the abbreviation with offset 0; and
`Parse` of the three letters under `ZZZ` succeeds with that zone. -/
theorem Parse_unknown_zone (host : Host) (a b c : Char)
    (ha : 65 ≤ a.toNat ∧ a.toNat ≤ 90) (hb : 65 ≤ b.toNat ∧ b.toNat ≤ 90)
    (hc : 65 ≤ c.toNat ∧ c.toNat ≤ 90) (hutc : [a, b, c] ≠ "UTC".toList)
    (hgmt : [a, b, c] ≠ "GMT".toList) (hs : shortIDs [a, b, c] = none)
    (hh : host.loadLocation [a, b, c] = none) :
    nextStdChunk "ZZZ".toList = .ok ([], stdTZ, []) ∧
    (∀ (layout : Str) (st : ParseState) (rest : Str),
      (∀ x ∈ rest.head?, ¬ (65 ≤ x.toNat ∧ x.toNat ≤ 90)) →
      st.value = a :: b :: c :: rest →
      parseStd layout stdTZ st =
        .ok ({ st with zoneName := [a, b, c], value := rest }, false)) ∧
    (∀ (al av : Str) (dl loc : Location) (st : ParseState),
      st.z = none → st.zoneOffset = -1 → st.zoneName = [a, b, c] →
      1 ≤ st.day → st.day ≤ daysIn st.month st.year →
      parseFinish host al av dl loc st = .time
        { year := st.year, month := st.month, day := st.day,
          hour := if st.pmSet = true ∧ st.hour < 12 then st.hour + 12
                  else if st.amSet = true ∧ st.hour = 12 then 0 else st.hour,
          min := st.min, sec := st.sec, nsec := st.nsec,
          loc := Location.fixed [a, b, c] 0 }) ∧
    Parse host "ZZZ".toList [a, b, c] = .ok (.time
      { year := 0, month := 1, day := 1, hour := 0, min := 0, sec := 0, nsec := 0,
        loc := Location.fixed [a, b, c] 0 }) := by
  have p1 : ∀ (layout : Str) (st : ParseState) (rest : Str),
      (∀ x ∈ rest.head?, ¬ (65 ≤ x.toNat ∧ x.toNat ≤ 90)) →
      st.value = a :: b :: c :: rest →
      parseStd layout stdTZ st =
        .ok ({ st with zoneName := [a, b, c], value := rest }, false) :=
    fun layout st rest hrest hval =>
      parseStd_zoneName layout st a b c rest ha hb hc hutc hgmt hrest hval
  have p2 : ∀ (al av : Str) (dl loc : Location) (st : ParseState),
      st.z = none → st.zoneOffset = -1 → st.zoneName = [a, b, c] →
      1 ≤ st.day → st.day ≤ daysIn st.month st.year →
      parseFinish host al av dl loc st = .time
        { year := st.year, month := st.month, day := st.day,
          hour := if st.pmSet = true ∧ st.hour < 12 then st.hour + 12
                  else if st.amSet = true ∧ st.hour = 12 then 0 else st.hour,
          min := st.min, sec := st.sec, nsec := st.nsec,
          loc := Location.fixed [a, b, c] 0 } :=
    fun al av dl loc st hz ho hn d1 d2 =>
      parseFinish_unknownZone host al av dl loc st [a, b, c] d1 d2 hz ho hn rfl hs hh
  refine ⟨by decide, p1, p2, ?_⟩
  unfold Parse parse
  rw [show "ZZZ".toList.length + 1 = 2 + 1 + 1 from rfl]
  rw [parseLoop_step host _ _ _ _ _ "ZZZ".toList [] [] _ stdTZ _ _ (by decide)
    (skip_nil _) (by decide) (p1 [] _ [] (by simp) rfl) rfl]
  rw [parseLoop_last host _ _ _ _ _ [] [] [] _ (by decide) (skip_nil _)]
  rw [p2 _ _ _ _ _ rfl rfl rfl (Int.le_refl 1)
    (by show (1 : Int) ≤ daysIn 1 _; rw [daysIn_january]; decide)]
  rfl

set_option maxRecDepth 100000 in
/-- Witness for C29: the abbreviation "XYZ" under `ZZZ`, and at the end of an
RFC1123 input, gives the fixed zone "XYZ" of offset 0. -/
theorem Parse_unknown_zone_witness :
    Parse bareHost "ZZZ".toList ['X', 'Y', 'Z'] = .ok (.time
      { year := 0, month := 1, day := 1, hour := 0, min := 0, sec := 0, nsec := 0,
        loc := Location.fixed ['X', 'Y', 'Z'] 0 }) ∧
    Parse bareHost RFC1123 "Thu, 04 Feb 2010 21:00:57 XYZ".toList = .ok (.time
      { year := 2010, month := 2, day := 4, hour := 21, min := 0, sec := 57, nsec := 0,
        loc := Location.fixed "XYZ".toList 0 }) :=
  ⟨(Parse_unknown_zone bareHost 'X' 'Y' 'Z' (by decide) (by decide) (by decide) (by decide)
      (by decide) (by decide) rfl).2.2.2, by decide⟩

/-! ### Round trip under RFC3339, with the zone offset -/

theorem appendStd_numericField (name : Str) (offset : Int) (abs ns : Nat) (f : FormatFields)
    (b : Str) :
    appendStd name offset abs ns f b stdLongYear = appendInt b f.year 4 ∧
    appendStd name offset abs ns f b stdZeroMonth = appendInt b f.month 2 ∧
    appendStd name offset abs ns f b stdZeroDay = appendInt b f.day 2 ∧
    appendStd name offset abs ns f b stdHour = appendInt b f.hour 2 ∧
    appendStd name offset abs ns f b stdZeroMinute = appendInt b f.min 2 ∧
    appendStd name offset abs ns f b stdZeroSecond = appendInt b f.sec 2 := by
  refine ⟨?_, ?_, ?_, ?_, ?_, ?_⟩
  · unfold appendStd
    simp only [show stdLongYear &&& stdMask = stdLongYear from by decide]
    simp [stdFracSecond0, stdFracSecond9, stdYear, stdLongYear, stdMonth,
      stdLongMonth, stdNumMonth, stdZeroMonth, stdWeekDay, stdLongWeekDay, stdDay, stdUnderDay,
      stdZeroDay, stdHour, stdHour12, stdZeroHour12, stdMinute, stdZeroMinute, stdSecond,
      stdZeroSecond, stdNeedDate, stdNeedClock]
  · unfold appendStd
    simp only [show stdZeroMonth &&& stdMask = stdZeroMonth from by decide]
    simp [stdFracSecond0, stdFracSecond9, stdYear, stdLongYear, stdMonth,
      stdLongMonth, stdNumMonth, stdZeroMonth, stdWeekDay, stdLongWeekDay, stdDay, stdUnderDay,
      stdZeroDay, stdHour, stdHour12, stdZeroHour12, stdMinute, stdZeroMinute, stdSecond,
      stdZeroSecond, stdNeedDate, stdNeedClock]
  · unfold appendStd
    simp only [show stdZeroDay &&& stdMask = stdZeroDay from by decide]
    simp [stdFracSecond0, stdFracSecond9, stdYear, stdLongYear, stdMonth,
      stdLongMonth, stdNumMonth, stdZeroMonth, stdWeekDay, stdLongWeekDay, stdDay, stdUnderDay,
      stdZeroDay, stdHour, stdHour12, stdZeroHour12, stdMinute, stdZeroMinute, stdSecond,
      stdZeroSecond, stdNeedDate, stdNeedClock]
  · unfold appendStd
    simp only [show stdHour &&& stdMask = stdHour from by decide]
    simp [stdFracSecond0, stdFracSecond9, stdYear, stdLongYear, stdMonth,
      stdLongMonth, stdNumMonth, stdZeroMonth, stdWeekDay, stdLongWeekDay, stdDay, stdUnderDay,
      stdZeroDay, stdHour, stdHour12, stdZeroHour12, stdMinute, stdZeroMinute, stdSecond,
      stdZeroSecond, stdNeedDate, stdNeedClock]
  · unfold appendStd
    simp only [show stdZeroMinute &&& stdMask = stdZeroMinute from by decide]
    simp [stdFracSecond0, stdFracSecond9, stdYear, stdLongYear, stdMonth,
      stdLongMonth, stdNumMonth, stdZeroMonth, stdWeekDay, stdLongWeekDay, stdDay, stdUnderDay,
      stdZeroDay, stdHour, stdHour12, stdZeroHour12, stdMinute, stdZeroMinute, stdSecond,
      stdZeroSecond, stdNeedDate, stdNeedClock]
  · unfold appendStd
    simp only [show stdZeroSecond &&& stdMask = stdZeroSecond from by decide]
    simp [stdFracSecond0, stdFracSecond9, stdYear, stdLongYear, stdMonth,
      stdLongMonth, stdNumMonth, stdZeroMonth, stdWeekDay, stdLongWeekDay, stdDay, stdUnderDay,
      stdZeroDay, stdHour, stdHour12, stdZeroHour12, stdMinute, stdZeroMinute, stdSecond,
      stdZeroSecond, stdNeedDate, stdNeedClock]

/-- The text that `Format` produces for the layout `RFC3339`, in terms of `appendInt`
and `appendZone`. -/
theorem Format_RFC3339_appendInt (t : Instant) :
    Format t RFC3339 = .ok
      (appendZone (appendInt (appendInt (appendInt (appendInt (appendInt (appendInt []
        (absDate (locabs t).2.2 true).1 4 ++ ['-'])
        (absDate (locabs t).2.2 true).2.1 2 ++ ['-'])
        (absDate (locabs t).2.2 true).2.2.1 2 ++ ['T'])
        (absClock (locabs t).2.2).1 2 ++ [':'])
        (absClock (locabs t).2.2).2.1 2 ++ [':'])
        (absClock (locabs t).2.2).2.2 2) stdNumColonTZ (locabs t).2.1) := by
  unfold Format AppendFormat
  simp only []
  generalize (locabs t).1 = name
  generalize (locabs t).2.1 = offset
  generalize (locabs t).2.2 = abs
  have e : RFC3339.length + 1 = 21 + 1 := by decide
  rw [e]
  rw [appendFormatLoop_step _ _ _ _ _ _ _ RFC3339 [] "-MM-ddTHH:mm:ssZZ".toList stdLongYear
    (by decide) (by decide) (by decide)]
  rw [computeFields_date abs {} stdLongYear (by decide) (by decide) (Or.inl rfl),
    (appendStd_numericField _ _ _ _ _ _).1]
  rw [appendFormatLoop_step _ _ _ _ _ _ _ "-MM-ddTHH:mm:ssZZ".toList "-".toList
    "-ddTHH:mm:ssZZ".toList stdZeroMonth (by decide) (by decide) (by decide)]
  rw [computeFields_date abs _ stdZeroMonth (by decide) (by decide) (Or.inr ⟨rfl, rfl, rfl⟩),
    (appendStd_numericField _ _ _ _ _ _).2.1]
  rw [appendFormatLoop_step _ _ _ _ _ _ _ "-ddTHH:mm:ssZZ".toList "-".toList
    "THH:mm:ssZZ".toList stdZeroDay (by decide) (by decide) (by decide)]
  rw [computeFields_date abs _ stdZeroDay (by decide) (by decide) (Or.inr ⟨rfl, rfl, rfl⟩),
    (appendStd_numericField _ _ _ _ _ _).2.2.1]
  rw [appendFormatLoop_step _ _ _ _ _ _ _ "THH:mm:ssZZ".toList "T".toList
    ":mm:ssZZ".toList stdHour (by decide) (by decide) (by decide)]
  rw [computeFields_clock abs _ stdHour (by decide) (by decide) (Or.inl rfl),
    (appendStd_numericField _ _ _ _ _ _).2.2.2.1]
  rw [appendFormatLoop_step _ _ _ _ _ _ _ ":mm:ssZZ".toList ":".toList
    ":ssZZ".toList stdZeroMinute (by decide) (by decide) (by decide)]
  rw [computeFields_clock abs _ stdZeroMinute (by decide) (by decide) (Or.inr ⟨rfl, rfl, rfl⟩),
    (appendStd_numericField _ _ _ _ _ _).2.2.2.2.1]
  rw [appendFormatLoop_step _ _ _ _ _ _ _ ":ssZZ".toList ":".toList
    "ZZ".toList stdZeroSecond (by decide) (by decide) (by decide)]
  rw [computeFields_clock abs _ stdZeroSecond (by decide) (by decide) (Or.inr ⟨rfl, rfl, rfl⟩),
    (appendStd_numericField _ _ _ _ _ _).2.2.2.2.2]
  rw [appendFormatLoop_step _ _ _ _ _ _ _ "ZZ".toList [] [] stdNumColonTZ
    (by decide) (by decide) (by decide)]
  rw [computeFields_none abs _ stdNumColonTZ (by decide) (by decide),
    (appendStd_numTZ _ _ _ _ _ _).2, List.append_nil]
  rfl

/-- Parsing the text of the six numeric fields and of a numeric offset with a colon
under `RFC3339` gives the fields and the offset back. -/
theorem Parse_RFC3339_digits (host : Host) (Y M D h mi s : Int) (neg : Bool) (hh mm : Int)
    (hY0 : 0 ≤ Y) (hY1 : Y ≤ 9999) (hM0 : 1 ≤ M) (hM1 : M ≤ 12) (hD0 : 1 ≤ D)
    (hD1 : D ≤ daysIn M Y) (hD2 : D ≤ 31) (hh0 : 0 ≤ h) (hh1 : h < 24) (hm0 : 0 ≤ mi)
    (hm1 : mi < 60) (hs0 : 0 ≤ s) (hs1 : s < 60) (ho0 : 0 ≤ hh) (ho1 : hh < 100)
    (hp0 : 0 ≤ mm) (hp1 : mm < 100) :
    Parse host RFC3339
      (fourDigits Y ++ '-' :: (twoDigits M ++ '-' :: (twoDigits D ++ 'T' ::
        (twoDigits h ++ ':' :: (twoDigits mi ++ ':' :: (twoDigits s ++
          (if neg then '-' else '+') :: (twoDigits hh ++ ':' :: twoDigits mm))))))) =
      .ok (.time { year := Y, month := M, day := D, hour := h, min := mi, sec := s, nsec := 0,
                   loc := Location.fixed []
                     (if neg then -(hh * 3600 + mm * 60) else hh * 3600 + mm * 60) }) := by
  have c1 : nextStdChunk RFC3339 = .ok ([], stdLongYear, "-MM-ddTHH:mm:ssZZ".toList) := by
    decide
  have c2 : nextStdChunk "-MM-ddTHH:mm:ssZZ".toList
      = .ok ("-".toList, stdZeroMonth, "-ddTHH:mm:ssZZ".toList) := by decide
  have c3 : nextStdChunk "-ddTHH:mm:ssZZ".toList
      = .ok ("-".toList, stdZeroDay, "THH:mm:ssZZ".toList) := by decide
  have c4 : nextStdChunk "THH:mm:ssZZ".toList
      = .ok ("T".toList, stdHour, ":mm:ssZZ".toList) := by decide
  have c5 : nextStdChunk ":mm:ssZZ".toList
      = .ok (":".toList, stdZeroMinute, ":ssZZ".toList) := by decide
  have c6 : nextStdChunk ":ssZZ".toList = .ok (":".toList, stdZeroSecond, "ZZ".toList) := by
    decide
  have c7 : nextStdChunk "ZZ".toList = .ok ([], stdNumColonTZ, []) := by decide
  have c8 : nextStdChunk [] = .ok ([], 0, []) := by decide
  have hdot : byteAt ((if neg then '-' else '+') :: (twoDigits hh ++ ':' :: twoDigits mm))
      0 ≠ '.' := by
    cases neg <;> simp [byteAt]
  have hoff : (if neg then -(hh * 3600 + mm * 60) else hh * 3600 + mm * 60) ≠ -1 := by
    split <;> omega
  have hsec : ∀ (layout : Str) (st : ParseState) (tl : Str), byteAt tl 0 ≠ '.' →
      st.value = twoDigits s ++ tl →
      parseStd layout stdZeroSecond st = .ok ({ st with sec := s, value := tl }, false) := by
    intro layout st tl htl hval
    rw [parseStd_second layout stdZeroSecond st (Or.inr rfl)]
    exact parseSecond_plain layout stdZeroSecond st s _ false
      (by rw [hval, getnum_twoDigits s _ _ hs0 (by omega)]) hs0 hs1 htl
  have hzone : ∀ (layout : Str) (st : ParseState) (off : Int),
      off = (if neg then -(hh * 3600 + mm * 60) else hh * 3600 + mm * 60) →
      st.value = (if neg then '-' else '+') :: (twoDigits hh ++ ':' :: twoDigits mm) →
      parseStd layout stdNumColonTZ st
        = .ok ({ st with value := [], zoneOffset := off }, false) := by
    intro layout st off hoffv hval
    rw [(parseStd_numTZ layout st).2, parseNumTZ_colon st neg hh mm []
      (by rw [hval, List.append_nil]) ho0 ho1 hp0 hp1,
      hoffv]
  unfold Parse parse
  have e : RFC3339.length + 1 = 21 + 1 := by decide
  rw [e]
  rw [parseLoop_step host _ _ _ _ _ _ _ _ _ _ _ _ c1 (skip_nil _) (by decide)
    (parseStd_longYear _ _ Y _ rfl hY0 (by omega)) rfl]
  rw [parseLoop_step host _ _ _ _ _ _ _ _ _ _ _ _ c2 (skip_char '-' _ (by decide)) (by decide)
    ((parseStd_twoDigits _ _ stdZeroMonth M _ rfl (by omega) (by omega)).1 rfl hM0 hM1) rfl]
  rw [parseLoop_step host _ _ _ _ _ _ _ _ _ _ _ _ c3 (skip_char '-' _ (by decide)) (by decide)
    ((parseStd_twoDigits _ _ stdZeroDay D _ rfl (by omega) (by omega)).2.1 rfl) rfl]
  rw [parseLoop_step host _ _ _ _ _ _ _ _ _ _ _ _ c4 (skip_char 'T' _ (by decide)) (by decide)
    ((parseStd_twoDigits _ _ stdHour h _ rfl hh0 (by omega)).2.2.1 rfl hh1) rfl]
  rw [parseLoop_step host _ _ _ _ _ _ _ _ _ _ _ _ c5 (skip_char ':' _ (by decide)) (by decide)
    ((parseStd_twoDigits _ _ stdZeroMinute mi _ rfl hm0 (by omega)).2.2.2.1 rfl hm1) rfl]
  rw [parseLoop_step host _ _ _ _ _ _ _ _ _ _ _ _ c6 (skip_char ':' _ (by decide)) (by decide)
    (hsec _ _ _ hdot rfl) rfl]
  rw [parseLoop_step host _ _ _ _ _ _ _ _ _ _ _ _ c7 (skip_nil _) (by decide)
    (hzone _ _ _ rfl rfl) rfl]
  rw [parseLoop_last host _ _ _ _ _ _ _ _ _ c8 (skip_nil _)]
  rw [parseFinish_fixed host _ _ _ _ _ hD0 hD1 rfl hoff]
  rfl

/-- The text that `Format` produces for `RFC3339` when the civil year is in 0..9999 and
the zone offset is less than 100 hours in magnitude, digit by digit. -/
theorem Format_RFC3339_digits (t : Instant)
    (h0 : 0 ≤ (absDate (locabs t).2.2 true).1) (h1 : (absDate (locabs t).2.2 true).1 ≤ 9999)
    (hlo : -360000 < t.zoneOffset) (hhi : t.zoneOffset < 360000) :
    Format t RFC3339 = .ok
      (fourDigits (absDate (locabs t).2.2 true).1 ++ '-' ::
        (twoDigits (absDate (locabs t).2.2 true).2.1 ++ '-' ::
          (twoDigits (absDate (locabs t).2.2 true).2.2.1 ++ 'T' ::
            (twoDigits (absClock (locabs t).2.2).1 ++ ':' ::
              (twoDigits (absClock (locabs t).2.2).2.1 ++ ':' ::
                (twoDigits (absClock (locabs t).2.2).2.2 ++
                  (if decide (t.zoneOffset.tdiv 60 < 0) then '-' else '+') ::
                    (twoDigits (((t.zoneOffset.tdiv 60).natAbs / 60 : Nat) : Int) ++ ':' ::
                      twoDigits (((t.zoneOffset.tdiv 60).natAbs % 60 : Nat) : Int))))))))
      := by
  have hF := Format_RFC3339_appendInt t
  obtain ⟨c1, c2, c3, c4, c5, c6⟩ := absClock_bounds (locabs t).2.2
  obtain ⟨d1, d2, d3, d4, _⟩ := civil_bounds (locabs t).2.2
  have ho : (locabs t).2.1 = t.zoneOffset := rfl
  have hm : (t.zoneOffset.tdiv 60).natAbs < 6000 := by
    have e : (t.zoneOffset.tdiv 60).natAbs = t.zoneOffset.natAbs / 60 := Int.natAbs_tdiv _ _
    omega
  rw [ho] at hF
  generalize (absDate (locabs t).2.2 true).1 = Y at *
  generalize (absDate (locabs t).2.2 true).2.1 = M at *
  generalize (absDate (locabs t).2.2 true).2.2.1 = D at *
  generalize (absClock (locabs t).2.2).1 = h at *
  generalize (absClock (locabs t).2.2).2.1 = mi at *
  generalize (absClock (locabs t).2.2).2.2 = s at *
  rw [hF, appendZone_numColonTZ, appendInt_four _ Y h0 (by omega),
    appendInt_two _ M (by omega) (by omega), appendInt_two _ D (by omega) (by omega),
    appendInt_two _ h c1 (by omega), appendInt_two _ mi c3 (by omega),
    appendInt_two _ s c5 (by omega), appendInt_two _ _ (by omega) (by omega),
    appendInt_two _ _ (by omega) (by omega)]
  simp [fourDigits, twoDigits, List.append_assoc]

/-- C31: round trip including the offset.  For every instant whose civil year is in
0..9999 and whose zone offset `o` is a whole number of minutes with `|o| < 360000`
seconds, `Format` under `RFC3339 = "YYYY-MM-ddTHH:mm:ssZZ"` produces a text and
`Parse` of that text under `RFC3339` succeeds with the same year, month, day, hour,
minute and second and the fixed-offset zone of exactly `o` seconds; for `o = 0` the
text ends in "+00:00". -/
theorem Parse_Format_RFC3339 (host : Host) (t : Instant)
    (h0 : 0 ≤ (absDate (locabs t).2.2 true).1) (h1 : (absDate (locabs t).2.2 true).1 ≤ 9999)
    (hmin : (60 : Int) ∣ t.zoneOffset)
    (hlo : -360000 < t.zoneOffset) (hhi : t.zoneOffset < 360000) :
    ∃ out, Format t RFC3339 = .ok out ∧
      Parse host RFC3339 out = .ok (.time
        { year := (absDate (locabs t).2.2 true).1, month := (absDate (locabs t).2.2 true).2.1,
          day := (absDate (locabs t).2.2 true).2.2.1, hour := (absClock (locabs t).2.2).1,
          min := (absClock (locabs t).2.2).2.1, sec := (absClock (locabs t).2.2).2.2,
          nsec := 0, loc := Location.fixed [] t.zoneOffset }) ∧
      (t.zoneOffset = 0 → "+00:00".toList <:+ out) := by
  obtain ⟨c1, c2, c3, c4, c5, c6⟩ := absClock_bounds (locabs t).2.2
  obtain ⟨d1, d2, d3, d4, d5⟩ := civil_bounds (locabs t).2.2
  refine ⟨_, Format_RFC3339_digits t h0 h1 hlo hhi, ?_, ?_⟩
  swap
  · intro hz
    rw [hz]
    refine ⟨fourDigits (absDate (locabs t).2.2 true).1 ++ '-' ::
      (twoDigits (absDate (locabs t).2.2 true).2.1 ++ '-' ::
        (twoDigits (absDate (locabs t).2.2 true).2.2.1 ++ 'T' ::
          (twoDigits (absClock (locabs t).2.2).1 ++ ':' ::
            (twoDigits (absClock (locabs t).2.2).2.1 ++ ':' ::
              twoDigits (absClock (locabs t).2.2).2.2)))), ?_⟩
    have e : (if decide ((0 : Int).tdiv 60 < 0) then '-' else '+') ::
        (twoDigits ((((0 : Int).tdiv 60).natAbs / 60 : Nat) : Int) ++ ':' ::
          twoDigits ((((0 : Int).tdiv 60).natAbs % 60 : Nat) : Int)) = "+00:00".toList := by
      decide
    rw [e]
    simp [List.append_assoc]
  have hm : (t.zoneOffset.tdiv 60).natAbs < 6000 := by
    have e : (t.zoneOffset.tdiv 60).natAbs = t.zoneOffset.natAbs / 60 := Int.natAbs_tdiv _ _
    omega
  have hoff : (if decide (t.zoneOffset.tdiv 60 < 0) then
        -((((t.zoneOffset.tdiv 60).natAbs / 60 : Nat) : Int) * 3600
          + (((t.zoneOffset.tdiv 60).natAbs % 60 : Nat) : Int) * 60)
      else (((t.zoneOffset.tdiv 60).natAbs / 60 : Nat) : Int) * 3600
          + (((t.zoneOffset.tdiv 60).natAbs % 60 : Nat) : Int) * 60) = t.zoneOffset := by
    obtain ⟨k, hk⟩ := hmin
    have ek : t.zoneOffset.tdiv 60 = k := by
      rw [hk]; exact Int.mul_tdiv_cancel_left k (by decide)
    rw [ek, hk]
    by_cases hneg : k < 0
    · simp only [hneg, decide_True, if_true]
      omega
    · simp only [hneg, decide_False, Bool.false_eq_true, if_false]
      omega
  rw [Parse_RFC3339_digits host _ _ _ _ _ _ (decide (t.zoneOffset.tdiv 60 < 0)) _ _ h0 h1 d1 d2
    d3 d5 d4 c1 c2 c3 c4 c5 c6 (by omega) (by omega) (by omega) (by omega), hoff]

set_option maxRecDepth 100000 in
/-- Witness for C31: the test instant, civil year 2009 and offset -28800 seconds, is
formatted as "2009-02-04T21:00:57-08:00" and parsed back with the fixed zone of -28800
seconds; the same second in UTC, offset 0, is formatted as "2009-02-05T05:00:57+00:00"
and parsed back with the fixed zone of 0 seconds. -/
theorem Parse_Format_RFC3339_witness :
    Format testInstant RFC3339 = .ok "2009-02-04T21:00:57-08:00".toList ∧
    Format (Instant.mk 1233810057 0 true "UTC".toList 0) RFC3339
      = .ok "2009-02-05T05:00:57+00:00".toList ∧
    Parse bareHost RFC3339 "2009-02-05T05:00:57+00:00".toList = .ok (.time
      { year := 2009, month := 2, day := 5, hour := 5, min := 0, sec := 57, nsec := 0,
        loc := Location.fixed [] 0 }) ∧
    ∃ out, Format testInstant RFC3339 = .ok out ∧
      Parse bareHost RFC3339 out = .ok (.time
        { year := (absDate (locabs testInstant).2.2 true).1,
          month := (absDate (locabs testInstant).2.2 true).2.1,
          day := (absDate (locabs testInstant).2.2 true).2.2.1,
          hour := (absClock (locabs testInstant).2.2).1,
          min := (absClock (locabs testInstant).2.2).2.1,
          sec := (absClock (locabs testInstant).2.2).2.2,
          nsec := 0, loc := Location.fixed [] testInstant.zoneOffset }) ∧
      (testInstant.zoneOffset = 0 → "+00:00".toList <:+ out) :=
  ⟨by decide, by decide, by decide,
    Parse_Format_RFC3339 bareHost testInstant (by decide) (by decide) (by decide)
      (by decide) (by decide)⟩

/-! ### The directives Z and ZZ are always numeric -/

set_option linter.unusedTactic false in
set_option linter.unreachableTactic false in
set_option linter.unnecessarySeqFocus false in
theorem stdOfRun_not_ISO8601 (r : Char) (j std : Nat) (h : stdOfRun r j = some std) :
    std ≠ stdISO8601TZ ∧ std ≠ stdISO8601SecondsTZ ∧ std ≠ stdISO8601ShortTZ ∧
    std ≠ stdISO8601ColonTZ ∧ std ≠ stdISO8601ColonSecondsTZ := by
  have hS : ∀ base c : Nat, base < 2 ^ 16 → c &&& stdMask ≠ base →
      base ||| (j <<< stdArgShift) ≠ c := by
    intro base c hb h0 hz
    have := (fracStd_bits base j hb).1
    rw [hz] at this
    exact h0 this
  unfold stdOfRun at h
  by_cases c0 : r = 'h'
  · rw [if_pos c0] at h
    (repeat' split at h) <;> first
      | (simp only [reduceCtorEq] at h; done)
      | (simp only [Option.some.injEq] at h
         subst h
         first
           | decide
           | exact ⟨hS _ _ (by decide) (by decide), hS _ _ (by decide) (by decide),
               hS _ _ (by decide) (by decide), hS _ _ (by decide) (by decide),
               hS _ _ (by decide) (by decide)⟩)
  rw [if_neg c0] at h
  by_cases c1 : r = 'H'
  · rw [if_pos c1] at h
    (repeat' split at h) <;> first
      | (simp only [reduceCtorEq] at h; done)
      | (simp only [Option.some.injEq] at h
         subst h
         first
           | decide
           | exact ⟨hS _ _ (by decide) (by decide), hS _ _ (by decide) (by decide),
               hS _ _ (by decide) (by decide), hS _ _ (by decide) (by decide),
               hS _ _ (by decide) (by decide)⟩)
  rw [if_neg c1] at h
  by_cases c2 : r = 'm'
  · rw [if_pos c2] at h
    (repeat' split at h) <;> first
      | (simp only [reduceCtorEq] at h; done)
      | (simp only [Option.some.injEq] at h
         subst h
         first
           | decide
           | exact ⟨hS _ _ (by decide) (by decide), hS _ _ (by decide) (by decide),
               hS _ _ (by decide) (by decide), hS _ _ (by decide) (by decide),
               hS _ _ (by decide) (by decide)⟩)
  rw [if_neg c2] at h
  by_cases c3 : r = 's'
  · rw [if_pos c3] at h
    (repeat' split at h) <;> first
      | (simp only [reduceCtorEq] at h; done)
      | (simp only [Option.some.injEq] at h
         subst h
         first
           | decide
           | exact ⟨hS _ _ (by decide) (by decide), hS _ _ (by decide) (by decide),
               hS _ _ (by decide) (by decide), hS _ _ (by decide) (by decide),
               hS _ _ (by decide) (by decide)⟩)
  rw [if_neg c3] at h
  by_cases c4 : r = 'd'
  · rw [if_pos c4] at h
    (repeat' split at h) <;> first
      | (simp only [reduceCtorEq] at h; done)
      | (simp only [Option.some.injEq] at h
         subst h
         first
           | decide
           | exact ⟨hS _ _ (by decide) (by decide), hS _ _ (by decide) (by decide),
               hS _ _ (by decide) (by decide), hS _ _ (by decide) (by decide),
               hS _ _ (by decide) (by decide)⟩)
  rw [if_neg c4] at h
  by_cases c5 : r = 'E'
  · rw [if_pos c5] at h
    (repeat' split at h) <;> first
      | (simp only [reduceCtorEq] at h; done)
      | (simp only [Option.some.injEq] at h
         subst h
         first
           | decide
           | exact ⟨hS _ _ (by decide) (by decide), hS _ _ (by decide) (by decide),
               hS _ _ (by decide) (by decide), hS _ _ (by decide) (by decide),
               hS _ _ (by decide) (by decide)⟩)
  rw [if_neg c5] at h
  by_cases c6 : r = 'M'
  · rw [if_pos c6] at h
    (repeat' split at h) <;> first
      | (simp only [reduceCtorEq] at h; done)
      | (simp only [Option.some.injEq] at h
         subst h
         first
           | decide
           | exact ⟨hS _ _ (by decide) (by decide), hS _ _ (by decide) (by decide),
               hS _ _ (by decide) (by decide), hS _ _ (by decide) (by decide),
               hS _ _ (by decide) (by decide)⟩)
  rw [if_neg c6] at h
  by_cases c7 : r = 'Y' ∨ r = 'y' ∨ r = 'x'
  · rw [if_pos c7] at h
    (repeat' split at h) <;> first
      | (simp only [reduceCtorEq] at h; done)
      | (simp only [Option.some.injEq] at h
         subst h
         first
           | decide
           | exact ⟨hS _ _ (by decide) (by decide), hS _ _ (by decide) (by decide),
               hS _ _ (by decide) (by decide), hS _ _ (by decide) (by decide),
               hS _ _ (by decide) (by decide)⟩)
  rw [if_neg c7] at h
  by_cases c8 : r = 'S'
  · rw [if_pos c8] at h
    (repeat' split at h) <;> first
      | (simp only [reduceCtorEq] at h; done)
      | (simp only [Option.some.injEq] at h
         subst h
         first
           | decide
           | exact ⟨hS _ _ (by decide) (by decide), hS _ _ (by decide) (by decide),
               hS _ _ (by decide) (by decide), hS _ _ (by decide) (by decide),
               hS _ _ (by decide) (by decide)⟩)
  rw [if_neg c8] at h
  by_cases c9 : r = 'a'
  · rw [if_pos c9] at h
    (repeat' split at h) <;> first
      | (simp only [reduceCtorEq] at h; done)
      | (simp only [Option.some.injEq] at h
         subst h
         first
           | decide
           | exact ⟨hS _ _ (by decide) (by decide), hS _ _ (by decide) (by decide),
               hS _ _ (by decide) (by decide), hS _ _ (by decide) (by decide),
               hS _ _ (by decide) (by decide)⟩)
  rw [if_neg c9] at h
  by_cases c10 : r = 'Z'
  · rw [if_pos c10] at h
    (repeat' split at h) <;> first
      | (simp only [reduceCtorEq] at h; done)
      | (simp only [Option.some.injEq] at h
         subst h
         first
           | decide
           | exact ⟨hS _ _ (by decide) (by decide), hS _ _ (by decide) (by decide),
               hS _ _ (by decide) (by decide), hS _ _ (by decide) (by decide),
               hS _ _ (by decide) (by decide)⟩)
  rw [if_neg c10] at h
  simp only [reduceCtorEq] at h


theorem nextStdChunkLoop_std (fuel : Nat) (pre rest p suf : Str) (std : Nat)
    (h : nextStdChunkLoop fuel pre rest = .ok (p, std, suf)) :
    std = 0 ∨ ∃ (r : Char) (j : Nat), stdOfRun r j = some std := by
  induction fuel generalizing pre rest with
  | zero => simp [nextStdChunkLoop] at h
  | succ fuel ih =>
    cases rest with
    | nil =>
      simp only [nextStdChunkLoop, Outcome.ok.injEq, Prod.mk.injEq] at h
      exact Or.inl h.2.1.symm
    | cons r tl =>
      simp only [nextStdChunkLoop] at h
      by_cases hl : isStdLetter r = true
      · rw [if_pos hl] at h
        cases hs : stdOfRun r (1 + (tl.takeWhile (fun c => c == r)).length) with
        | some s =>
          simp only [hs, Outcome.ok.injEq, Prod.mk.injEq] at h
          exact Or.inr ⟨r, _, by rw [hs, h.2.1]⟩
        | none =>
          simp only [hs] at h
          exact ih _ _ h
      · rw [if_neg hl] at h
        by_cases hq : r = quote
        · rw [if_pos hq] at h
          cases tl with
          | nil => simp at h
          | cons c tl2 =>
            dsimp only at h
            by_cases hc : c = r
            · rw [if_pos hc] at h
              exact ih _ _ h
            · rw [if_neg hc] at h
              split at h
              · simp at h
              · exact ih _ _ h
        · rw [if_neg hq] at h
          exact ih _ _ h

theorem nextStdChunk_not_ISO8601 (layout pre suffix : Str) (std : Nat)
    (h : nextStdChunk layout = .ok (pre, std, suffix)) :
    std ≠ stdISO8601TZ ∧ std ≠ stdISO8601SecondsTZ ∧ std ≠ stdISO8601ShortTZ ∧
    std ≠ stdISO8601ColonTZ ∧ std ≠ stdISO8601ColonSecondsTZ := by
  rcases nextStdChunkLoop_std _ _ _ _ _ _ h with h0 | ⟨r, j, hs⟩
  · subst h0
    decide
  · exact stdOfRun_not_ISO8601 r j std hs

set_option linter.unusedTactic false in
theorem parseNumTZ_literalZ (std : Nat) (st : ParseState) (rest : Str)
    (hv : st.value = 'Z' :: rest)
    (hs : std ≠ stdISO8601TZ ∧ std ≠ stdISO8601ShortTZ ∧ std ≠ stdISO8601ColonTZ) :
    (parseNumTZ std st).2 = true ∧ (parseNumTZ std st).1.z = st.z ∧
    (st.value.length < 3 → (parseNumTZ std st).1.value = st.value) := by
  unfold parseNumTZ
  have hc : ¬ ((std = stdISO8601TZ ∨ std = stdISO8601ShortTZ ∨ std = stdISO8601ColonTZ) ∧
      st.value.length ≥ 1 ∧ byteAt st.value 0 = 'Z') := by
    intro h
    rcases h.1 with h | h | h
    · exact hs.1 h
    · exact hs.2.1 h
    · exact hs.2.2 h
  simp only []
  rw [if_neg hc]
  have hsign : byteAt (st.value.take 1) 0 = 'Z' := by rw [hv]; rfl
  have h1 : ¬ (byteAt (st.value.take 1) 0 = '+') := by rw [hsign]; decide
  have h2 : ¬ (byteAt (st.value.take 1) 0 = '-') := by rw [hsign]; decide
  split
  · exact ⟨rfl, rfl, fun _ => rfl⟩
  · rename_i sign hour min seconds value heq
    have hlen : ¬ (st.value.length < 3) := by
      intro hlen
      repeat' split at heq
      all_goals first
        | (simp only [reduceCtorEq] at heq; done)
        | omega
    have hsg : sign = st.value.take 1 := by
      repeat' split at heq
      all_goals first
        | (simp only [reduceCtorEq] at heq; done)
        | (simp only [Option.some.injEq, Prod.mk.injEq] at heq
           exact heq.1.symm)
    subst hsg
    rw [if_neg h1, if_neg h2]
    exact ⟨rfl, rfl, fun h => absurd h hlen⟩

theorem parseLoop_err_exact (host : Host) (al av : Str) (dl loc : Location) (fuel : Nat)
    (layout pre suffix value stdstr : Str) (std : Nat) (st st' : ParseState)
    (hc : nextStdChunk layout = .ok (pre, std, suffix))
    (hk : skip st.value pre = .ok (value, false)) (hs : std ≠ 0)
    (hp : parseStd suffix std { st with value := value } = .ok (st', true))
    (hr : st'.rangeErrString = [])
    (hstd : (layout.drop pre.length).take (layout.length - suffix.length - pre.length)
      = stdstr) :
    parseLoop host al av dl loc (fuel + 1) layout st =
      .ok (.error ⟨al, av, stdstr, st'.value, []⟩) := by
  rw [parseLoop, hc]
  simp only [hk, hs, hp, Bool.false_eq_true, if_false, if_true]
  have hr2 : ¬ (st'.rangeErrString ≠ []) := by simp [hr]
  rw [if_neg hr2, hstd]

theorem parseStd_literalZ (layout : Str) (st : ParseState) (rest : Str)
    (hv : st.value = 'Z' :: rest) :
    (∃ st' : ParseState, parseStd layout stdNumTZ st = .ok (st', true) ∧ st'.z = st.z ∧
      st'.rangeErrString = st.rangeErrString ∧ (rest.length < 2 → st'.value = 'Z' :: rest)) ∧
    (∃ st' : ParseState, parseStd layout stdNumColonTZ st = .ok (st', true) ∧ st'.z = st.z ∧
      st'.rangeErrString = st.rangeErrString ∧ (rest.length < 2 → st'.value = 'Z' :: rest)) := by
  have hl : rest.length < 2 → st.value.length < 3 := by
    intro h
    rw [hv, List.length_cons]
    omega
  constructor
  · obtain ⟨a, b, c⟩ := parseNumTZ_literalZ stdNumTZ st rest hv
      ⟨by decide, by decide, by decide⟩
    refine ⟨(parseNumTZ stdNumTZ st).1, ?_, b, (parseNumTZ_frame stdNumTZ st).2.2.2.2.2.2.2,
      fun h => (c (hl h)).trans hv⟩
    rw [(parseStd_numTZ layout st).1, ← a]
  · obtain ⟨a, b, c⟩ := parseNumTZ_literalZ stdNumColonTZ st rest hv
      ⟨by decide, by decide, by decide⟩
    refine ⟨(parseNumTZ stdNumColonTZ st).1, ?_, b,
      (parseNumTZ_frame stdNumColonTZ st).2.2.2.2.2.2.2, fun h => (c (hl h)).trans hv⟩
    rw [(parseStd_numTZ layout st).2, ← a]

theorem parseStd_ISO8601_literalZ (layout : Str) (st : ParseState) (rest : Str)
    (hv : st.value = 'Z' :: rest) :
    parseStd layout stdISO8601TZ st
      = .ok ({ st with value := rest, z := some Location.UTC }, false) ∧
    parseStd layout stdISO8601ShortTZ st
      = .ok ({ st with value := rest, z := some Location.UTC }, false) ∧
    parseStd layout stdISO8601ColonTZ st
      = .ok ({ st with value := rest, z := some Location.UTC }, false) := by
  refine ⟨?_, ?_, ?_⟩
  · unfold parseStd
    simp only [show stdISO8601TZ &&& stdMask = stdISO8601TZ from by decide]
    simp [stdFracSecond0, stdFracSecond9, stdYear, stdLongYear, stdMonth,
      stdLongMonth, stdNumMonth, stdZeroMonth, stdWeekDay, stdLongWeekDay, stdDay, stdUnderDay,
      stdZeroDay, stdHour, stdHour12, stdZeroHour12, stdMinute, stdZeroMinute, stdSecond,
      stdZeroSecond, stdPM, stdpm, stdISO8601TZ, stdNeedDate, stdNeedClock, parseNumTZ, hv,
      byteAt]
  · unfold parseStd
    simp only [show stdISO8601ShortTZ &&& stdMask = stdISO8601ShortTZ from by decide]
    simp [stdFracSecond0, stdFracSecond9, stdYear, stdLongYear, stdMonth,
      stdLongMonth, stdNumMonth, stdZeroMonth, stdWeekDay, stdLongWeekDay, stdDay, stdUnderDay,
      stdZeroDay, stdHour, stdHour12, stdZeroHour12, stdMinute, stdZeroMinute, stdSecond,
      stdZeroSecond, stdPM, stdpm, stdISO8601TZ, stdISO8601ShortTZ, stdISO8601ColonTZ,
      stdISO8601SecondsTZ, stdNeedDate, stdNeedClock, parseNumTZ, hv, byteAt]
  · unfold parseStd
    simp only [show stdISO8601ColonTZ &&& stdMask = stdISO8601ColonTZ from by decide]
    simp [stdFracSecond0, stdFracSecond9, stdYear, stdLongYear, stdMonth,
      stdLongMonth, stdNumMonth, stdZeroMonth, stdWeekDay, stdLongWeekDay, stdDay, stdUnderDay,
      stdZeroDay, stdHour, stdHour12, stdZeroHour12, stdMinute, stdZeroMinute, stdSecond,
      stdZeroSecond, stdPM, stdpm, stdISO8601TZ, stdISO8601ShortTZ, stdISO8601ColonTZ,
      stdISO8601SecondsTZ, stdNeedDate, stdNeedClock, parseNumTZ, hv, byteAt]

/-- C21 (as amended): the directives `Z` and `ZZ` are always numeric.  The lexer
turns `Z` into `stdNumTZ` and `ZZ` into `stdNumColonTZ`, and it never returns one of
the ISO 8601 values `stdISO8601TZ`, `stdISO8601ShortTZ` and `stdISO8601ColonTZ`, the
only ones for which `parse` tests for a literal `Z` (there it consumes the one
character and sets the zone to UTC).  When the input that remains at a `Z` or `ZZ`
directive begins with the literal character `Z`, the directive fails and sets no
zone, and `Parse` returns a `ParseError` whose layout element is the directive (and
whose value element is the remaining input when that is shorter than three
characters): so for the patterns `Z` and `ZZ`, and for `RFC3339` on a date and time of
day followed by `Z`. -/
theorem Parse_literal_Z_numeric (host : Host) (Y M D h mi s : Int) (rest : Str)
    (hY0 : 0 ≤ Y) (hY1 : Y ≤ 9999) (hM0 : 1 ≤ M) (hM1 : M ≤ 12) (hD0 : 0 ≤ D) (hD1 : D ≤ 99)
    (hh0 : 0 ≤ h) (hh1 : h < 24) (hm0 : 0 ≤ mi) (hm1 : mi < 60) (hs0 : 0 ≤ s)
    (hs1 : s < 60) :
    (∀ (layout pre suffix : Str) (std : Nat), nextStdChunk layout = .ok (pre, std, suffix) →
      std ≠ stdISO8601TZ ∧ std ≠ stdISO8601ShortTZ ∧ std ≠ stdISO8601ColonTZ) ∧
    nextStdChunk "Z".toList = .ok ([], stdNumTZ, []) ∧
    nextStdChunk "ZZ".toList = .ok ([], stdNumColonTZ, []) ∧
    (∀ (layout : Str) (st : ParseState), st.value = 'Z' :: rest →
      (∃ st' : ParseState, parseStd layout stdNumTZ st = .ok (st', true) ∧ st'.z = st.z) ∧
      (∃ st' : ParseState, parseStd layout stdNumColonTZ st = .ok (st', true) ∧
        st'.z = st.z)) ∧
    (∃ v : Str, Parse host "Z".toList ('Z' :: rest) = .ok (.error
      ⟨"Z".toList, 'Z' :: rest, "Z".toList, v, []⟩) ∧ (rest.length < 2 → v = 'Z' :: rest)) ∧
    (∃ v : Str, Parse host "ZZ".toList ('Z' :: rest) = .ok (.error
      ⟨"ZZ".toList, 'Z' :: rest, "ZZ".toList, v, []⟩) ∧ (rest.length < 2 → v = 'Z' :: rest)) ∧
    (∃ v : Str, Parse host RFC3339
      (fourDigits Y ++ '-' :: (twoDigits M ++ '-' :: (twoDigits D ++ 'T' ::
        (twoDigits h ++ ':' :: (twoDigits mi ++ ':' :: (twoDigits s ++ 'Z' :: rest)))))) =
      .ok (.error ⟨RFC3339,
        fourDigits Y ++ '-' :: (twoDigits M ++ '-' :: (twoDigits D ++ 'T' ::
          (twoDigits h ++ ':' :: (twoDigits mi ++ ':' :: (twoDigits s ++ 'Z' :: rest))))),
        "ZZ".toList, v, []⟩) ∧ (rest.length < 2 → v = 'Z' :: rest)) ∧
    (∀ (layout : Str) (st : ParseState), st.value = 'Z' :: rest →
      parseStd layout stdISO8601TZ st
        = .ok ({ st with value := rest, z := some Location.UTC }, false) ∧
      parseStd layout stdISO8601ShortTZ st
        = .ok ({ st with value := rest, z := some Location.UTC }, false) ∧
      parseStd layout stdISO8601ColonTZ st
        = .ok ({ st with value := rest, z := some Location.UTC }, false)) := by
  refine ⟨?_, by decide, by decide, ?_, ?_, ?_, ?_,
    fun layout st hv => parseStd_ISO8601_literalZ layout st rest hv⟩
  · intro layout pre suffix std hc
    obtain ⟨a, _, b, c, _⟩ := nextStdChunk_not_ISO8601 layout pre suffix std hc
    exact ⟨a, b, c⟩
  · intro layout st hv
    obtain ⟨⟨s1, a1, b1, _, _⟩, ⟨s2, a2, b2, _, _⟩⟩ := parseStd_literalZ layout st rest hv
    exact ⟨⟨s1, a1, b1⟩, ⟨s2, a2, b2⟩⟩
  · obtain ⟨st', hp, _, hr, hval⟩ := (parseStd_literalZ [] { value := 'Z' :: rest } rest rfl).1
    refine ⟨st'.value, ?_, hval⟩
    unfold Parse parse
    have e : "Z".toList.length + 1 = 1 + 1 := by decide
    rw [e]
    exact parseLoop_err_exact host _ _ _ _ 1 "Z".toList [] [] ('Z' :: rest) "Z".toList
      stdNumTZ { value := 'Z' :: rest } st' (by decide) (skip_nil _) (by decide) hp
      (hr.trans rfl) (by decide)
  · obtain ⟨st', hp, _, hr, hval⟩ := (parseStd_literalZ [] { value := 'Z' :: rest } rest rfl).2
    refine ⟨st'.value, ?_, hval⟩
    unfold Parse parse
    have e : "ZZ".toList.length + 1 = 2 + 1 := by decide
    rw [e]
    exact parseLoop_err_exact host _ _ _ _ 2 "ZZ".toList [] [] ('Z' :: rest) "ZZ".toList
      stdNumColonTZ { value := 'Z' :: rest } st' (by decide) (skip_nil _) (by decide) hp
      (hr.trans rfl) (by decide)
  · have c1 : nextStdChunk RFC3339 = .ok ([], stdLongYear, "-MM-ddTHH:mm:ssZZ".toList) := by
      decide
    have c2 : nextStdChunk "-MM-ddTHH:mm:ssZZ".toList
        = .ok ("-".toList, stdZeroMonth, "-ddTHH:mm:ssZZ".toList) := by decide
    have c3 : nextStdChunk "-ddTHH:mm:ssZZ".toList
        = .ok ("-".toList, stdZeroDay, "THH:mm:ssZZ".toList) := by decide
    have c4 : nextStdChunk "THH:mm:ssZZ".toList
        = .ok ("T".toList, stdHour, ":mm:ssZZ".toList) := by decide
    have c5 : nextStdChunk ":mm:ssZZ".toList
        = .ok (":".toList, stdZeroMinute, ":ssZZ".toList) := by decide
    have c6 : nextStdChunk ":ssZZ".toList = .ok (":".toList, stdZeroSecond, "ZZ".toList) := by
      decide
    have c7 : nextStdChunk "ZZ".toList = .ok ([], stdNumColonTZ, []) := by decide
    have hdot : byteAt ('Z' :: rest) 0 ≠ '.' := by simp [byteAt]
    have hsec : ∀ (layout : Str) (st : ParseState) (tl : Str), byteAt tl 0 ≠ '.' →
        st.value = twoDigits s ++ tl →
        parseStd layout stdZeroSecond st = .ok ({ st with sec := s, value := tl }, false) := by
      intro layout st tl htl hval
      rw [parseStd_second layout stdZeroSecond st (Or.inr rfl)]
      exact parseSecond_plain layout stdZeroSecond st s _ false
        (by rw [hval, getnum_twoDigits s _ _ hs0 (by omega)]) hs0 hs1 htl
    obtain ⟨st', hp, _, hr, hval⟩ := (parseStd_literalZ []
      { value := 'Z' :: rest, year := Y, month := M, day := D, hour := h, min := mi, sec := s }
      rest rfl).2
    refine ⟨st'.value, ?_, hval⟩
    unfold Parse parse
    have e : RFC3339.length + 1 = 21 + 1 := by decide
    rw [e]
    rw [parseLoop_step host _ _ _ _ _ _ _ _ _ _ _ _ c1 (skip_nil _) (by decide)
      (parseStd_longYear _ _ Y _ rfl hY0 (by omega)) rfl]
    rw [parseLoop_step host _ _ _ _ _ _ _ _ _ _ _ _ c2 (skip_char '-' _ (by decide)) (by decide)
      ((parseStd_twoDigits _ _ stdZeroMonth M _ rfl (by omega) (by omega)).1 rfl hM0 hM1) rfl]
    rw [parseLoop_step host _ _ _ _ _ _ _ _ _ _ _ _ c3 (skip_char '-' _ (by decide)) (by decide)
      ((parseStd_twoDigits _ _ stdZeroDay D _ rfl (by omega) (by omega)).2.1 rfl) rfl]
    rw [parseLoop_step host _ _ _ _ _ _ _ _ _ _ _ _ c4 (skip_char 'T' _ (by decide)) (by decide)
      ((parseStd_twoDigits _ _ stdHour h _ rfl hh0 (by omega)).2.2.1 rfl hh1) rfl]
    rw [parseLoop_step host _ _ _ _ _ _ _ _ _ _ _ _ c5 (skip_char ':' _ (by decide)) (by decide)
      ((parseStd_twoDigits _ _ stdZeroMinute mi _ rfl hm0 (by omega)).2.2.2.1 rfl hm1) rfl]
    rw [parseLoop_step host _ _ _ _ _ _ _ _ _ _ _ _ c6 (skip_char ':' _ (by decide)) (by decide)
      (hsec _ _ _ hdot rfl) rfl]
    exact parseLoop_err_exact host _ _ _ _ _ "ZZ".toList [] [] ('Z' :: rest) "ZZ".toList
      stdNumColonTZ _ st' c7 (skip_nil _) (by decide) hp (hr.trans rfl) (by decide)

set_option maxRecDepth 100000 in
/-- Witness for the amended C21: on 2010-02-04T21:00:57 followed by `Z`, and on the
input `Z` alone under the patterns `Z` and `ZZ`. -/
theorem Parse_literal_Z_numeric_witness :
    (∃ v : Str, Parse bareHost "Z".toList ('Z' :: []) = .ok (.error
      ⟨"Z".toList, 'Z' :: [], "Z".toList, v, []⟩) ∧
      (([] : Str).length < 2 → v = 'Z' :: [])) ∧
    (∃ v : Str, Parse bareHost "ZZ".toList ('Z' :: []) = .ok (.error
      ⟨"ZZ".toList, 'Z' :: [], "ZZ".toList, v, []⟩) ∧
      (([] : Str).length < 2 → v = 'Z' :: [])) ∧
    (∃ v : Str, Parse bareHost RFC3339
      (fourDigits 2010 ++ '-' :: (twoDigits 2 ++ '-' :: (twoDigits 4 ++ 'T' ::
        (twoDigits 21 ++ ':' :: (twoDigits 0 ++ ':' :: (twoDigits 57 ++ 'Z' :: [])))))) =
      .ok (.error ⟨RFC3339,
        fourDigits 2010 ++ '-' :: (twoDigits 2 ++ '-' :: (twoDigits 4 ++ 'T' ::
          (twoDigits 21 ++ ':' :: (twoDigits 0 ++ ':' :: (twoDigits 57 ++ 'Z' :: []))))),
        "ZZ".toList, v, []⟩) ∧
      (([] : Str).length < 2 → v = 'Z' :: [])) ∧
    fourDigits 2010 ++ '-' :: (twoDigits 2 ++ '-' :: (twoDigits 4 ++ 'T' ::
      (twoDigits 21 ++ ':' :: (twoDigits 0 ++ ':' :: (twoDigits 57 ++ 'Z' :: [])))))
      = "2010-02-04T21:00:57Z".toList :=
  ⟨(Parse_literal_Z_numeric bareHost 2010 2 4 21 0 57 [] (by decide) (by decide) (by decide)
      (by decide) (by decide) (by decide) (by decide) (by decide) (by decide) (by decide)
      (by decide) (by decide)).2.2.2.2.1,
    (Parse_literal_Z_numeric bareHost 2010 2 4 21 0 57 [] (by decide) (by decide) (by decide)
      (by decide) (by decide) (by decide) (by decide) (by decide) (by decide) (by decide)
      (by decide) (by decide)).2.2.2.2.2.1,
    (Parse_literal_Z_numeric bareHost 2010 2 4 21 0 57 [] (by decide) (by decide) (by decide)
      (by decide) (by decide) (by decide) (by decide) (by decide) (by decide) (by decide)
      (by decide) (by decide)).2.2.2.2.2.2.1,
    by decide⟩

end Jodatime
